import Mathlib

/-!
# Stack and call structure of the Lua core (`ldo.cpp`)

A shallow embedding of the execution-control core: the relocatable value
stack, the chain of recovery points behind protected calls, and the call-frame
chain with its result adjustment.

Conventions of the embedding

* A `lua_State *` is a thread identifier; all threads, the global state and the
  `lua_longjmp` records living on the C stack are held by a `Machine`.
* A `StkId` is an address counted in stack slots (`StackValue` units); the
  offsets of `savestack`/`restorestack` are counted in the same unit.  The
  contents of the stack buffer are indexed by the distance from `stack.p`, so
  that a reallocation which moves the buffer keeps the contents by index.
* A `CallInfo *` reachable from `L->ci` through `previous` is the depth of the
  frame in the chain (`base_ci` has depth 0, `previous` of depth `d + 1` is
  depth `d`); the chain of `previous` links of a live frame never changes.
* A function pointer (C function, hook, continuation) is an identifier; the
  code behind it is looked up in the record `LuaEnv` of external collaborators.
* `lua_assert`, `api_check`, `lua_lock`/`lua_unlock` expand to nothing.
* `int` arithmetic is done on `Int`: the guards of `growstack` keep every
  intermediate value far from the limits of a 32-bit `int`.
-/

/-! ## Constants of `lua.hpp` and `lfunc.hpp` -/

def LUA_MULTRET : Int := -1
def LUA_OK : Int := 0
def LUA_YIELD : Int := 1
def LUA_ERRRUN : Int := 2
def LUA_ERRSYNTAX : Int := 3
def LUA_ERRMEM : Int := 4
def LUA_ERRERR : Int := 5
def LUA_MINSTACK : Int := 20
def LUA_HOOKCALL : Int := 0
def LUA_HOOKRET : Int := 1
def LUA_MASKCALL : Nat := 1
def LUA_MASKRET : Nat := 2
def CLOSEKTOP : Int := -1

/-- Constants and macros that `ldo.cpp` takes from headers outside the sources
at hand (`llimits.hpp`, `luaconf.hpp`, `lstate.hpp`, `lapi.hpp`); they are
parameters of the development. -/
structure LuaConf where
  LUAI_MAXSTACK : Int
  EXTRA_STACK : Int
  CIST_C : Nat
  CIST_HOOKED : Nat
  CIST_TRAN : Nat
  CIST_CLSRET : Nat
  hastocloseCfunc : Int → Bool
  decodeNresults : Int → Int
  CIST_FRESH : Nat
  CIST_YPCALL : Nat
  CIST_TAIL : Nat
  LUAI_MAXCCALLS : Nat
  nyci : Nat

/-- The values of the reference implementation (Lua 5.4), used for concrete runs. -/
def stdConf : LuaConf where
  LUAI_MAXSTACK := 1000000
  EXTRA_STACK := 5
  CIST_C := 2
  CIST_HOOKED := 8
  CIST_TRAN := 256
  CIST_CLSRET := 512
  hastocloseCfunc := fun n => decide (n < LUA_MULTRET)
  decodeNresults := fun n => -n - 3
  CIST_FRESH := 4
  CIST_YPCALL := 16
  CIST_TAIL := 32
  LUAI_MAXCCALLS := 200
  nyci := 65537

/-- `ERRORSTACKSIZE`: some space for error handling. -/
def ERRORSTACKSIZE (K : LuaConf) : Int := K.LUAI_MAXSTACK + 200

/-- `errorstatus(s)`. -/
def errorstatus (s : Int) : Bool := decide (s > LUA_YIELD)

/-! ## Values -/

/-- A string object: its address and its contents. -/
structure TString where
  addr : Nat
  contents : String
deriving DecidableEq, Repr, Inhabited

/-- The part of a function prototype read by the call machinery. -/
structure Proto where
  numparams : Int
  maxstacksize : Int
  is_vararg : Bool
  code : Int
deriving DecidableEq, Repr, Inhabited

/-- Tagged values.  `lcf f` is a light C function, `ccl f` a C closure whose
function is `f`, `lcl p` a Lua closure with prototype `p`; `obj` stands for
every other collectable or scalar value (tables, userdata, numbers...). -/
inductive TValue where
  | nil
  | boolean (b : Bool)
  | integer (n : Int)
  | str (ts : TString)
  | lcf (f : Nat)
  | ccl (f : Nat)
  | lcl (p : Proto)
  | obj (tag : Nat) (ref : Nat)
deriving DecidableEq, Repr, Inhabited

/-! ## Frames, threads, machine -/

/-- One activation record.  The unions `u` (`l`/`c`) and `u2` are flattened:
every member is kept as a field of its own. -/
structure CallInfo where
  func : Int
  top : Int
  nresults : Int
  callstatus : Nat
  savedpc : Int
  trap : Int
  nextraargs : Int
  k : Option Nat
  old_errfunc : Int
  ctx : Int
  funcidx : Int
  nyield : Int
  nres : Int
  ftransfer : Int
  ntransfer : Int
deriving DecidableEq, Repr, Inhabited

/-- A recovery point (`struct lua_longjmp`): the previous one and the status. -/
structure lua_longjmp where
  previous : Option Nat
  status : Int
deriving DecidableEq, Repr, Inhabited

/-- Per-thread state.  `top`, `stack_last`, `stack`, `tbclist` are the `.p`
members of the corresponding `StkIdRel` unions (during a reallocation `top` and
`tbclist` hold the `.offset` member instead); `openupval` lists the levels of
the open upvalues; `cis` holds the frames by depth and `ci` is the depth of the
current frame; `slots` is the stack buffer, indexed from `stack`. -/
structure lua_State where
  status : Int
  allowhook : Int
  top : Int
  stack_last : Int
  stack : Int
  tbclist : Int
  openupval : List Int
  ci : Nat
  cis : Nat → CallInfo
  slots : Int → TValue
  errorJmp : Option Nat
  nCcalls : Nat
  hook : Option Nat
  hookmask : Nat
  errfunc : Int
  oldpc : Int

/-- The part of `global_State` read by `ldo.cpp`. -/
structure global_State where
  memerrmsg : TString
  gcstopem : Int
  mainthread : Nat
  panic : Option Nat
  nstrings : Nat

/-- The whole machine: global state, threads, and the `lua_longjmp` records
that live in the frames of `rawrunprotected` on the C stack (`njmp` of them,
the record of the innermost running `rawrunprotected` last). -/
structure Machine where
  g : global_State
  threads : Nat → lua_State
  ljs : Nat → lua_longjmp
  njmp : Nat

/-- How a piece of code ends: it returns a value, a C++ exception propagates
out of it (`LUAI_THROW`), the process is aborted, or it runs forever. -/
inductive Outcome (α : Type) where
  | ret (v : α) (m : Machine)
  | thrown (m : Machine)
  | aborted (m : Machine)
  | diverged

/-- Sequencing: the rest of the code runs only after a normal return. -/
def Outcome.bind {α β : Type} (o : Outcome α) (k : α → Machine → Outcome β) : Outcome β :=
  match o with
  | .ret v m => k v m
  | .thrown m => .thrown m
  | .aborted m => .aborted m
  | .diverged => .diverged

/-- Argument record of a hook call (`lua_Debug`, the fields set by `luaD::hook`). -/
structure lua_Debug where
  event : Int
  currentline : Int
  i_ci : Nat
deriving DecidableEq, Repr, Inhabited

/-- External collaborators of `ldo.cpp`: code of this virtual machine that lies
outside the sources at hand, and code supplied by the host.

* `realloc`: outcome of `luaM::realloc_` for the stack vector (thread, old
  block, old and new number of slots): the address of the new block, or
  `none` for `NULL`;
* `luaC_checkGC`: a garbage-collection step;
* `luaF_close`: the finalizer-closing primitive `luaF::close(L, level, status, yy)`;
* `luaE_resetthread`: `luaE_resetthread(L, status)`;
* `luaT_gettmbyobj`: the `__call` metafield of a value (nil when absent);
* `cfunction`: the code of a C function; `hookf`: the code of a hook;
  `panicf`: the code of a panic function;
* `luaV_execute`: the instruction dispatcher `luaV_execute(L, ci)`;
  `luaV_finishOp`: finishing an interrupted instruction;
* `luaE_checkcstack`: the check of the depth of C calls;
* `kfunction`: the code of a continuation function, called with the thread, a
  status and the context;
* `adjustresults`: the macro `adjustresults(L, nres)` of `lapi.hpp`;
* `yieldable`, `getCcalls`: the methods `L->yieldable()` (the counter of
  non-yieldable calls is zero) and `L->getCcalls()` of `lstate.hpp`;
* `getcistrecst`, `setcistrecst`, `getoah`: the methods of `CallInfo` that
  read and write the recorded status and read the original `allowhook`. -/
structure LuaEnv where
  realloc : Machine → Nat → Int → Int → Int → Option Int
  luaC_checkGC : Machine → Nat → Outcome Unit
  luaF_close : Machine → Nat → Int → Int → Int → Outcome Int
  luaE_resetthread : Machine → Nat → Int → Outcome Int
  luaT_gettmbyobj : Machine → Nat → TValue → TValue
  cfunction : Nat → Machine → Nat → Outcome Int
  hookf : Nat → Machine → Nat → lua_Debug → Outcome Unit
  panicf : Nat → Machine → Nat → Outcome Int
  luaV_execute : Machine → Nat → Nat → Outcome Unit
  luaV_finishOp : Machine → Nat → Outcome Unit
  luaE_checkcstack : Machine → Nat → Outcome Unit
  kfunction : Nat → Machine → Nat → Int → Int → Outcome Int
  adjustresults : Machine → Nat → Int → Machine
  yieldable : lua_State → Bool
  getCcalls : lua_State → Nat
  getcistrecst : CallInfo → Int
  setcistrecst : CallInfo → Int → CallInfo
  getoah : CallInfo → Int

/-- The thread behind a `lua_State *`. -/
def Machine.th (m : Machine) (L : Nat) : lua_State := m.threads L

/-- Store a new state for thread `L`. -/
def Machine.setTh (m : Machine) (L : Nat) (s : lua_State) : Machine :=
  { m with threads := Function.update m.threads L s }

/-- The value of the stack slot at address `p`. -/
def lua_State.val (s : lua_State) (p : Int) : TValue := s.slots (p - s.stack)

/-- Store `v` in the stack slot at address `p`. -/
def lua_State.setval (s : lua_State) (p : Int) (v : TValue) : lua_State :=
  { s with slots := Function.update s.slots (p - s.stack) v }

/-- Modelled from the spec: `L->stacksize()` is declared in `lstate.hpp`, which
is not among the sources; the spec gives the stack a base, a limit and a size,
and `reallocstack` sets the limit to base plus size. -/
def lua_State.stacksize (s : lua_State) : Int := s.stack_last - s.stack

/-- Modelled from the spec: `ci->isLua()` is declared in `lstate.hpp`, which is
not among the sources; a frame is interpreted unless it is tagged as native. -/
def CallInfo.isLua (K : LuaConf) (ci : CallInfo) : Bool := (ci.callstatus &&& K.CIST_C) == 0

/-- Clearing bits: `x & ~mask`. -/
def clearbits (x mask : Nat) : Nat := x ^^^ (x &&& mask)

namespace luaD

/-- `luaD::savestack`: the offset of `pt` from the stack base. -/
def savestack (s : lua_State) (pt : Int) : Int := pt - s.stack

/-- `luaD::restorestack`: the address at offset `n` from the stack base. -/
def restorestack (s : lua_State) (n : Int) : Int := s.stack + n

end luaD

/-- `relstack`: change all pointers to the stack into offsets. -/
def relstack (s : lua_State) : lua_State :=
  { s with
    top := luaD.savestack s s.top
    tbclist := luaD.savestack s s.tbclist
    openupval := s.openupval.map (luaD.savestack s)
    cis := fun i =>
      if i ≤ s.ci then
        { s.cis i with top := luaD.savestack s (s.cis i).top
                       func := luaD.savestack s (s.cis i).func }
      else s.cis i }

/-- `correctstack`: change back all offsets into pointers. -/
def correctstack (K : LuaConf) (s : lua_State) : lua_State :=
  { s with
    top := luaD.restorestack s s.top
    tbclist := luaD.restorestack s s.tbclist
    openupval := s.openupval.map (luaD.restorestack s)
    cis := fun i =>
      if i ≤ s.ci then
        { s.cis i with top := luaD.restorestack s (s.cis i).top
                       func := luaD.restorestack s (s.cis i).func
                       trap := if (s.cis i).isLua K then 1 else (s.cis i).trap }
      else s.cis i }

namespace luaD

/-- `luaD::lthrow`.  With a recovery point on the thread, its status is set and
the exception is thrown.  Without one the thread is reset and the error is
thrown again in the main thread (that call finds the handler it has just been
checked for, so it is written out in place); with no handler at all the panic
function runs and the process is aborted.  The function does not return
(`l_noret`), so it fits every result type. -/
def lthrow {α : Type} (E : LuaEnv) (m : Machine) (L : Nat) (errcode : Int) : Outcome α :=
  match (m.th L).errorJmp with
  | some j =>
    .thrown { m with ljs := Function.update m.ljs j { m.ljs j with status := errcode } }
  | none =>
    (E.luaE_resetthread m L errcode).bind fun errcode m1 =>
      let mt := m1.g.mainthread
      match (m1.th mt).errorJmp with
      | some j =>
        let v := (m1.th L).val ((m1.th L).top - 1)
        let smt := m1.th mt
        let m2 := m1.setTh mt { smt.setval smt.top v with top := smt.top + 1 }
        .thrown { m2 with ljs := Function.update m2.ljs j { m2.ljs j with status := errcode } }
      | none =>
        match m1.g.panic with
        | some pf =>
          match E.panicf pf m1 L with
          | .ret _ m2 => .aborted m2
          | .thrown m2 => .thrown m2
          | .aborted m2 => .aborted m2
          | .diverged => .diverged
        | none => .aborted m1

/-- The first statements of `luaD::rawrunprotected`: the new recovery point
`lj` (status `LUA_OK`, previous the thread's current one) is chained in. -/
def rawrunprotectedEntry (m : Machine) (L : Nat) : Machine :=
  { m.setTh L { m.th L with errorJmp := some m.njmp } with
    ljs := Function.update m.ljs m.njmp { previous := (m.th L).errorJmp, status := LUA_OK }
    njmp := m.njmp + 1 }

/-- The last statements of `luaD::rawrunprotected`, run in the machine `m2`
left by `LUAI_TRY`: the old recovery point (`lj.previous`) and `nCcalls` are
restored; `lj` goes out of scope. -/
def rawrunprotectedExit (m : Machine) (L : Nat) (m2 : Machine) : Machine :=
  { m2.setTh L { m2.th L with errorJmp := (m2.ljs m.njmp).previous
                              nCcalls := (m.th L).nCcalls } with
    njmp := m.njmp }

/-- `luaD::rawrunprotected`: a new recovery point `lj` is chained in front of
the thread's current one, `f` runs inside `LUAI_TRY`, whose handler catches
every exception and turns a status still 0 into -1; then the old recovery
point and `nCcalls` are restored and the status of `lj` is returned. -/
def rawrunprotected (m : Machine) (L : Nat) (f : Machine → Nat → Outcome Unit) : Outcome Int :=
  let lj := m.njmp
  match f (rawrunprotectedEntry m L) L with
  | .ret _ m2 => .ret (m2.ljs lj).status (rawrunprotectedExit m L m2)
  | .thrown m2 =>
    let m3 : Machine :=
      if (m2.ljs lj).status = 0
      then { m2 with ljs := Function.update m2.ljs lj { m2.ljs lj with status := -1 } }
      else m2
    .ret (m3.ljs lj).status (rawrunprotectedExit m L m3)
  | .aborted m2 => .aborted m2
  | .diverged => .diverged

end luaD

/-! ## Strings and runtime errors (outside the sources at hand) -/

namespace luaS

/-- Modelled from the spec: `luaS::newlstr` lives in `lstring.cpp`, which is
not among the sources; creating a string yields a new string object with the
given contents. -/
def newlstr (m : Machine) (str : String) : TString × Machine :=
  ({ addr := m.g.nstrings, contents := str },
   { m with g := { m.g with nstrings := m.g.nstrings + 1 } })

/-- `luaS::newliteral` (`lstring.hpp`): `newlstr` on the literal. -/
def newliteral (m : Machine) (str : String) : TString × Machine := newlstr m str

end luaS

/-- Modelled from the spec: `luaG_runerror` lives in `ldebug.cpp`, which is not
among the sources; a runtime error raises `ERR_RUN` and its error object is the
value on top of the stack when the error is raised, here the message. -/
def luaG_runerror {α : Type} (E : LuaEnv) (m : Machine) (L : Nat) (msg : String) : Outcome α :=
  let r := luaS.newlstr m msg
  let s := r.2.th L
  luaD.lthrow E (r.2.setTh L { s.setval s.top (.str r.1) with top := s.top + 1 }) L LUA_ERRRUN

/-! ## Stack reallocation -/

namespace luaD

/-- The first steps of `luaD::reallocstack`, up to the call of the allocator:
pointers are changed to offsets and emergency collection is stopped. -/
def reallocstackEntry (m : Machine) (L : Nat) : Machine :=
  let m1 := m.setTh L (relstack (m.th L))
  { m1 with g := { m1.g with gcstopem := 1 } }

/-- `luaD::reallocstack`: reallocate the stack to `newsize` slots (plus
`EXTRA_STACK`), correcting all pointers into it.  On allocation failure raise
a memory error or return 0 according to `raiseerror`. -/
def reallocstack (E : LuaEnv) (K : LuaConf) (m : Machine) (L : Nat) (newsize : Int)
    (raiseerror : Int) : Outcome Int :=
  let oldsize := (m.th L).stacksize
  let oldgcstop := m.g.gcstopem
  let m2 := reallocstackEntry m L
  let newstack := E.realloc m2 L (m2.th L).stack (oldsize + K.EXTRA_STACK) (newsize + K.EXTRA_STACK)
  let m3 : Machine := { m2 with g := { m2.g with gcstopem := oldgcstop } }
  match newstack with
  | none =>
    let m4 := m3.setTh L (correctstack K (m3.th L))
    if raiseerror ≠ 0 then lthrow E m4 L LUA_ERRMEM
    else .ret 0 m4
  | some p =>
    let s4 := correctstack K { m3.th L with stack := p }
    let s5 := { s4 with stack_last := s4.stack + newsize }
    let s6 := { s5 with slots := fun i =>
                  if oldsize + K.EXTRA_STACK ≤ i ∧ i < newsize + K.EXTRA_STACK then TValue.nil
                  else s5.slots i }
    .ret 1 (m3.setTh L s6)

/-- The last statements of `luaD::growstack` ("else stack overflow"): add extra
size to be able to handle the error message, then raise the error or return 0. -/
def growstackOverflow (E : LuaEnv) (K : LuaConf) (m : Machine) (L : Nat) (raiseerror : Int) :
    Outcome Int :=
  (reallocstack E K m L (ERRORSTACKSIZE K) raiseerror).bind fun _ m1 =>
    if raiseerror ≠ 0 then luaG_runerror E m1 L "stack overflow"
    else .ret 0 m1

/-- The size that `luaD::growstack` computes for `n` more slots: twice the
current size, not crossing the limit, but at least what was asked for. -/
def growstackNewsize (K : LuaConf) (s : lua_State) (n : Int) : Int :=
  let newsize := 2 * s.stacksize
  let needed := (s.top - s.stack) + n
  let newsize := if newsize > K.LUAI_MAXSTACK then K.LUAI_MAXSTACK else newsize
  if newsize < needed then needed else newsize

/-- `luaD::growstack`: try to grow the stack by at least `n` elements. -/
def growstack (E : LuaEnv) (K : LuaConf) (m : Machine) (L : Nat) (n : Int)
    (raiseerror : Int) : Outcome Int :=
  let size := (m.th L).stacksize
  if size > K.LUAI_MAXSTACK then
    if raiseerror ≠ 0 then lthrow E m L LUA_ERRERR
    else .ret 0 m
  else if n < K.LUAI_MAXSTACK then
    let newsize := growstackNewsize K (m.th L) n
    if newsize ≤ K.LUAI_MAXSTACK then reallocstack E K m L newsize raiseerror
    else growstackOverflow E K m L raiseerror
  else growstackOverflow E K m L raiseerror

/-- `luaD::checkstack`. -/
def checkstack (E : LuaEnv) (K : LuaConf) (m : Machine) (L : Nat) (n : Int) : Outcome Unit :=
  if (m.th L).stack_last - (m.th L).top ≤ n then
    (growstack E K m L n 1).bind fun _ m1 => .ret () m1
  else .ret () m

/-- `luaD::checkstackp`: check the stack size, preserving `p`. -/
def checkstackp (E : LuaEnv) (K : LuaConf) (m : Machine) (L : Nat) (n : Int) (p : Int) :
    Outcome Int :=
  if (m.th L).stack_last - (m.th L).top ≤ n then
    let pevStack := savestack (m.th L) p
    (growstack E K m L n 1).bind fun _ m1 => .ret ((m1.th L).stack + pevStack) m1
  else .ret p m

/-- `luaD::checkstackGCp`: check the stack size and the collector, preserving `p`. -/
def checkstackGCp (E : LuaEnv) (K : LuaConf) (m : Machine) (L : Nat) (n : Int) (p : Int) :
    Outcome Int :=
  if (m.th L).stack_last - (m.th L).top ≤ n then
    let pevStack := savestack (m.th L) p
    (E.luaC_checkGC m L).bind fun _ m1 =>
      (growstack E K m1 L n 1).bind fun _ m2 => .ret ((m2.th L).stack + pevStack) m2
  else .ret p m

end luaD

/-- The loop of `stackinuse`: the maximum of `lim` and the tops of the frames
of depth below `n`. -/
def stackinuseLim (s : lua_State) : Nat → Int → Int
  | 0, lim => lim
  | n + 1, lim => stackinuseLim s n (if lim < (s.cis n).top then (s.cis n).top else lim)

/-- `stackinuse`: how much of the stack is being used. -/
def stackinuse (s : lua_State) : Int :=
  let lim := stackinuseLim s (s.ci + 1) s.top
  let res := (lim - s.stack) + 1
  if res < LUA_MINSTACK then LUA_MINSTACK else res

/-- Modelled from the spec: `luaE_shrinkCI` lives in `lstate.cpp`, which is not
among the sources; frame pooling releases recycled frames beyond the current
one, which hold no live data. -/
def luaE_shrinkCI (m : Machine) (_L : Nat) : Machine := m

namespace luaD

/-- `luaD::shrinkstack`: if the stack size is more than 3 times the current
use, reduce that size to twice the current use. -/
def shrinkstack (E : LuaEnv) (K : LuaConf) (m : Machine) (L : Nat) : Outcome Unit :=
  let inuse := stackinuse (m.th L)
  let max := if inuse > Int.tdiv K.LUAI_MAXSTACK 3 then K.LUAI_MAXSTACK else inuse * 3
  let r : Outcome Unit :=
    if inuse ≤ K.LUAI_MAXSTACK ∧ (m.th L).stacksize > max then
      let nsize := if inuse > Int.tdiv K.LUAI_MAXSTACK 2 then K.LUAI_MAXSTACK else inuse * 2
      (reallocstack E K m L nsize 0).bind fun _ m1 => .ret () m1
    else .ret () m
  r.bind fun _ m1 => .ret () (luaE_shrinkCI m1 L)

end luaD

/-! ## Error objects and protected calls -/

/-- Apply `f` to the frame at depth `i`. -/
def lua_State.setci (s : lua_State) (i : Nat) (f : CallInfo → CallInfo) : lua_State :=
  { s with cis := Function.update s.cis i (f (s.cis i)) }

namespace luaD

/-- `luaD::seterrorobj`: store the error object for `errcode` at `oldtop` and
set `top` right above it. -/
def seterrorobj (m : Machine) (L : Nat) (errcode : Int) (oldtop : Int) : Machine :=
  let m1 : Machine :=
    if errcode = LUA_ERRMEM then
      m.setTh L ((m.th L).setval oldtop (.str m.g.memerrmsg))
    else if errcode = LUA_ERRERR then
      let r := luaS.newliteral m "error in error handling"
      r.2.setTh L ((r.2.th L).setval oldtop (.str r.1))
    else if errcode = LUA_OK then
      m.setTh L ((m.th L).setval oldtop TValue.nil)
    else
      m.setTh L ((m.th L).setval oldtop ((m.th L).val ((m.th L).top - 1)))
  m1.setTh L { m1.th L with top := oldtop + 1 }

end luaD

/-- `closepaux`: auxiliary function to call `luaF::close` in protected mode
(`level` and `status` are the members of the `CloseP` record). -/
def closepaux (E : LuaEnv) (level status : Int) (m : Machine) (L : Nat) : Outcome Unit :=
  (E.luaF_close m L level status 0).bind fun _ m1 => .ret () m1

/-- The loop of `luaD::closeprotected`: keep closing upvalues until no more
errors.  `fuel` bounds the number of attempts; the loop itself has no bound,
and a run that uses up its fuel is reported as not ending. -/
def closeprotectedLoop (E : LuaEnv) (old_ci : Nat) (old_allowhooks : Int) (L : Nat)
    (level : Int) : Nat → Machine → Int → Outcome Int
  | 0, _, _ => .diverged
  | fuel + 1, m, status =>
    let pcl_level := luaD.restorestack (m.th L) level
    let pcl_status := status
    (luaD.rawrunprotected m L (closepaux E pcl_level pcl_status)).bind fun status m1 =>
      if status = LUA_OK then .ret pcl_status m1
      else
        closeprotectedLoop E old_ci old_allowhooks L level fuel
          (m1.setTh L { m1.th L with ci := old_ci, allowhook := old_allowhooks }) status

namespace luaD

/-- `luaD::closeprotected`: call `luaF::close` in protected mode; return the
original status or, in case of errors, the new status. -/
def closeprotected (E : LuaEnv) (fuel : Nat) (m : Machine) (L : Nat) (level : Int)
    (status : Int) : Outcome Int :=
  closeprotectedLoop E (m.th L).ci (m.th L).allowhook L level fuel m status

/-- `luaD::pcall`: call `func` in protected mode, restoring basic thread
information and in particular its stack level in case of errors. -/
def pcall (E : LuaEnv) (K : LuaConf) (fuel : Nat) (m : Machine) (L : Nat)
    (func : Machine → Nat → Outcome Unit) (old_top ef : Int) : Outcome Int :=
  let old_ci := (m.th L).ci
  let old_allowhooks := (m.th L).allowhook
  let old_errfunc := (m.th L).errfunc
  let m1 := m.setTh L { m.th L with errfunc := ef }
  (rawrunprotected m1 L func).bind fun status m2 =>
    let r : Outcome Int :=
      if status ≠ LUA_OK then
        let m3 := m2.setTh L { m2.th L with ci := old_ci, allowhook := old_allowhooks }
        (closeprotected E fuel m3 L old_top status).bind fun status m4 =>
          let m5 := seterrorobj m4 L status (restorestack (m4.th L) old_top)
          (shrinkstack E K m5 L).bind fun _ m6 => .ret status m6
      else .ret status m2
    r.bind fun status m7 => .ret status (m7.setTh L { m7.th L with errfunc := old_errfunc })

/-! ## Hooks -/

/-- `luaD::hook`: call a hook for the given event, if there is a hook and
hooks are allowed. -/
def hook (E : LuaEnv) (K : LuaConf) (m : Machine) (L : Nat)
    (event line ftransfer ntransfer : Int) : Outcome Unit :=
  match (m.th L).hook with
  | none => .ret () m
  | some hk =>
    if (m.th L).allowhook ≠ 0 then
      let s := m.th L
      let ci := s.ci
      let top := savestack s s.top
      let ci_top := savestack s (s.cis ci).top
      let ar : lua_Debug := { event := event, currentline := line, i_ci := ci }
      let mask := if ntransfer ≠ 0 then K.CIST_HOOKED ||| K.CIST_TRAN else K.CIST_HOOKED
      let s1 := if ntransfer ≠ 0
        then s.setci ci fun c => { c with ftransfer := ftransfer, ntransfer := ntransfer }
        else s
      let s2 := if (s1.cis ci).isLua K ∧ s1.top < (s1.cis ci).top
        then { s1 with top := (s1.cis ci).top } else s1
      (checkstack E K (m.setTh L s2) L LUA_MINSTACK).bind fun _ m3 =>
        let s3 := m3.th L
        let s4 := if (s3.cis ci).top < s3.top + LUA_MINSTACK
          then s3.setci ci fun c => { c with top := s3.top + LUA_MINSTACK } else s3
        let s5 := ({ s4 with allowhook := 0 }).setci ci fun c =>
          { c with callstatus := c.callstatus ||| mask }
        (E.hookf hk (m3.setTh L s5) L ar).bind fun _ m6 =>
          let s6 := { m6.th L with allowhook := 1 }
          let s7 := s6.setci ci fun c => { c with top := restorestack s6 ci_top }
          let s8 := { s7 with top := restorestack s7 top }
          let s9 := s8.setci ci fun c => { c with callstatus := clearbits c.callstatus mask }
          .ret () (m6.setTh L s9)
    else .ret () m

end luaD

/-- Modelled from the spec: `ci_func(ci)->p` is a macro of `lstate.hpp`, which
is not among the sources; the prototype of the interpreted closure that sits
in the function slot of the frame. -/
def ci_func_p (s : lua_State) (c : CallInfo) : Proto :=
  match s.val c.func with
  | .lcl p => p
  | _ => default

/-- `rethook`: execute a return hook and correct `oldpc`.  (`pcRel(pc, p)` is
`pc - p->code - 1`; the frame below depth 0 is taken to be depth 0.) -/
def rethook (E : LuaEnv) (K : LuaConf) (m : Machine) (L : Nat) (ci : Nat) (nres : Int) :
    Outcome Unit :=
  let r : Outcome Unit :=
    if (m.th L).hookmask &&& LUA_MASKRET ≠ 0 then
      let s := m.th L
      let firstres := s.top - nres
      let delta : Int :=
        if (s.cis ci).isLua K then
          let p := ci_func_p s (s.cis ci)
          if p.is_vararg then (s.cis ci).nextraargs + p.numparams + 1 else 0
        else 0
      let s1 := s.setci ci fun c => { c with func := c.func + delta }
      let ftransfer := (firstres - (s1.cis ci).func) % 65536
      (luaD.hook E K (m.setTh L s1) L LUA_HOOKRET (-1) ftransfer nres).bind fun _ m2 =>
        .ret () (m2.setTh L ((m2.th L).setci ci fun c => { c with func := c.func - delta }))
    else .ret () m
  r.bind fun _ m3 =>
    let s := m3.th L
    let prev := ci - 1
    if (s.cis prev).isLua K then
      .ret () (m3.setTh L
        { s with oldpc := (s.cis prev).savedpc - (ci_func_p s (s.cis prev)).code - 1 })
    else .ret () m3

/-! ## Finishing a call -/

/-- The loop `for (i = i0; i < i0 + k; i++) setobjs2s(L, res + i, firstresult + i)`. -/
def copyResults (res firstresult : Int) : Nat → Int → lua_State → lua_State
  | 0, _, s => s
  | k + 1, i, s =>
    copyResults res firstresult k (i + 1) (s.setval (res + i) (s.val (firstresult + i)))

/-- The loop `for (i = i0; i < i0 + k; i++) setnilvalue(s2v(res + i))`. -/
def fillNil (res : Int) : Nat → Int → lua_State → lua_State
  | 0, _, s => s
  | k + 1, i, s => fillNil res k (i + 1) (s.setval (res + i) TValue.nil)

/-- `moveresults`: given `nres` results at the top of the stack, move `wanted`
of them to `res`. -/
def moveresults (E : LuaEnv) (K : LuaConf) (m : Machine) (L : Nat) (res nres wanted : Int) :
    Outcome Unit :=
  let s := m.th L
  if wanted = 0 then
    .ret () (m.setTh L { s with top := res })
  else if wanted = 1 then
    let s1 := if nres = 0 then s.setval res TValue.nil else s.setval res (s.val (s.top - nres))
    .ret () (m.setTh L { s1 with top := res + 1 })
  else
    let pre : Outcome (Int × Int) :=
      if wanted = LUA_MULTRET then .ret (res, nres) m
      else if K.hastocloseCfunc wanted then
        let s1 := (s.setci s.ci fun c =>
          { c with callstatus := c.callstatus ||| K.CIST_CLSRET }).setci s.ci fun c =>
            { c with nres := nres }
        (E.luaF_close (m.setTh L s1) L res CLOSEKTOP 1).bind fun res m2 =>
          let s2 := (m2.th L).setci (m2.th L).ci fun c =>
            { c with callstatus := clearbits c.callstatus K.CIST_CLSRET }
          let m3 := m2.setTh L s2
          let hooked : Outcome Int :=
            if (m3.th L).hookmask ≠ 0 then
              let savedres := luaD.savestack (m3.th L) res
              (rethook E K m3 L (m3.th L).ci nres).bind fun _ m4 =>
                .ret (luaD.restorestack (m4.th L) savedres) m4
            else .ret res m3
          hooked.bind fun res m5 =>
            let wanted := K.decodeNresults wanted
            .ret (res, if wanted = LUA_MULTRET then nres else wanted) m5
      else .ret (res, wanted) m
    pre.bind fun rw m6 =>
      let res := rw.1
      let wanted := rw.2
      let s6 := m6.th L
      let firstresult := s6.top - nres
      let nres := if nres > wanted then wanted else nres
      let s7 := copyResults res firstresult nres.toNat 0 s6
      let s8 := fillNil res (wanted - max nres 0).toNat (max nres 0) s7
      .ret () (m6.setTh L { s8 with top := res + wanted })

namespace luaD

/-- `luaD::poscall`: finish a function call: call the return hook if necessary,
move the results to their place, and go back to the previous frame. -/
def poscall (E : LuaEnv) (K : LuaConf) (m : Machine) (L : Nat) (ci : Nat) (nres : Int) :
    Outcome Unit :=
  let wanted := ((m.th L).cis ci).nresults
  let r : Outcome Unit :=
    if (m.th L).hookmask ≠ 0 ∧ ¬ K.hastocloseCfunc wanted = true then rethook E K m L ci nres
    else .ret () m
  r.bind fun _ m1 =>
    (moveresults E K m1 L ((m1.th L).cis ci).func nres wanted).bind fun _ m2 =>
      .ret () (m2.setTh L { m2.th L with ci := ci - 1 })

end luaD

/-! ## Starting a call -/

/-- Modelled from the spec: `next_ci` takes `L->ci->next` or asks
`luaE_extendCI` (in `lstate.cpp`, not among the sources) for a new frame;
frames form a LIFO chain and are pushed by `precall`, so the next frame is the
one a level deeper than the current one. -/
def next_ci (s : lua_State) : Nat := s.ci + 1

/-- `prepCallInfo`: the next frame becomes the current one (a recycled frame
keeps the fields that are not set here). -/
def prepCallInfo (m : Machine) (L : Nat) (func nret : Int) (mask : Nat) (top : Int) :
    Nat × Machine :=
  let s := m.th L
  let ci := next_ci s
  (ci, m.setTh L (({ s with ci := ci }).setci ci fun c =>
    { c with func := func, nresults := nret, callstatus := mask, top := top }))

/-- `precallC`: precall for C functions; `f` is the function pointer. -/
def precallC (E : LuaEnv) (K : LuaConf) (m : Machine) (L : Nat) (func nresults : Int)
    (f : Nat) : Outcome Int :=
  (luaD.checkstackGCp E K m L LUA_MINSTACK func).bind fun func m1 =>
    let r := prepCallInfo m1 L func nresults K.CIST_C ((m1.th L).top + LUA_MINSTACK)
    let ci := r.1
    let m2 := r.2
    let hooked : Outcome Unit :=
      if (m2.th L).hookmask &&& LUA_MASKCALL ≠ 0 then
        let narg := ((m2.th L).top - func) - 1
        luaD.hook E K m2 L LUA_HOOKCALL (-1) 1 narg
      else .ret () m2
    hooked.bind fun _ m3 =>
      (E.cfunction f m3 L).bind fun n m4 =>
        (luaD.poscall E K m4 L ci n).bind fun _ m5 => .ret n m5

/-- The machine in which `precallC` has pushed the frame of the C function in
slot `func`, `m1` being the machine left by the stack check: the new frame is
the current one, with the function slot, the wanted count, the mark `CIST_C`
and `LUA_MINSTACK` slots above `top`. -/
def precallCFrame (K : LuaConf) (m1 : Machine) (L : Nat) (func nresults : Int) : Machine :=
  (prepCallInfo m1 L func nresults K.CIST_C ((m1.th L).top + LUA_MINSTACK)).2

/-- The call hook of `precallC`, run in the machine `m2` in which the frame has
been pushed: `if (L->hookmask & LUA_MASKCALL) { ... luaD::hook(L, LUA_HOOKCALL,
-1, 1, narg); }`. -/
def precallCHook (E : LuaEnv) (K : LuaConf) (m2 : Machine) (L : Nat) (func : Int) :
    Outcome Unit :=
  if (m2.th L).hookmask &&& LUA_MASKCALL ≠ 0 then
    luaD.hook E K m2 L LUA_HOOKCALL (-1) 1 (((m2.th L).top - func) - 1)
  else .ret () m2

/-- The return hook of `luaD::poscall`, for a wanted count that carries no
to-be-closed mark: `if (L->hookmask) rethook(L, ci, nres);`. -/
def poscallHook (E : LuaEnv) (K : LuaConf) (m : Machine) (L : Nat) (ci : Nat) (nres : Int) :
    Outcome Unit :=
  if (m.th L).hookmask ≠ 0 then rethook E K m L ci nres else .ret () m

/-- Modelled from the spec: `luaG_callerror` lives in `ldebug.cpp`, which is
not among the sources; a value without a "call" capability fails with a
"not callable" error. -/
def luaG_callerror {α : Type} (E : LuaEnv) (m : Machine) (L : Nat) (_o : TValue) : Outcome α :=
  luaG_runerror E m L "not callable"

/-- The loop `for (p = p0; p > p0 - k; p--) setobjs2s(L, p, p-1)`. -/
def openSpace : Nat → Int → lua_State → lua_State
  | 0, _, s => s
  | k + 1, p, s => openSpace k (p - 1) (s.setval p (s.val (p - 1)))

/-- `tryfuncTM`: check whether `func` has a `__call` metafield; if so, put it
in the stack, below the original `func`; raise an error otherwise. -/
def tryfuncTM (E : LuaEnv) (K : LuaConf) (m : Machine) (L : Nat) (func : Int) : Outcome Int :=
  (luaD.checkstackGCp E K m L 1 func).bind fun func m1 =>
    let s := m1.th L
    let tm := E.luaT_gettmbyobj m1 L (s.val func)
    if tm = TValue.nil then luaG_callerror E m1 L (s.val func)
    else
      let s1 := openSpace (s.top - func).toNat s.top s
      let s2 := { s1 with top := s1.top + 1 }
      .ret func (m1.setTh L (s2.setval func tm))

namespace luaD

/-- `luaD::precall`: prepare the call to a function; for C functions, also do
the call.  Returns the frame to be executed for a Lua function and `none`
(`NULL`) for a C function.  Every pass through the label `retry` takes one
unit of `fuel`. -/
def precall (E : LuaEnv) (K : LuaConf) :
    Nat → Machine → Nat → Int → Int → Outcome (Option Nat)
  | 0, _, _, _, _ => .diverged
  | fuel + 1, m, L, func, nresults =>
    match (m.th L).val func with
    | .ccl f => (precallC E K m L func nresults f).bind fun _ m1 => .ret none m1
    | .lcf f => (precallC E K m L func nresults f).bind fun _ m1 => .ret none m1
    | .lcl p =>
      let narg := ((m.th L).top - func) - 1
      let nfixparams := p.numparams
      let fsize := p.maxstacksize
      (checkstackGCp E K m L fsize func).bind fun func m1 =>
        let r := prepCallInfo m1 L func nresults 0 (func + 1 + fsize)
        let ci := r.1
        let s2 := (r.2.th L).setci ci fun c => { c with savedpc := p.code }
        let k := (nfixparams - narg).toNat
        let s3 := { fillNil s2.top k 0 s2 with top := s2.top + k }
        .ret (some ci) (r.2.setTh L s3)
    | _ => (tryfuncTM E K m L func).bind fun func m1 => precall E K fuel m1 L func nresults

end luaD

/-! ## Observing outcomes, and concrete machines for test runs -/

/-- The returned value, if the code returned. -/
def Outcome.value? {α : Type} : Outcome α → Option α
  | .ret v _ => some v
  | _ => none

/-- The machine in which the code ended, if it ended. -/
def Outcome.machine? {α : Type} : Outcome α → Option Machine
  | .ret _ m => some m
  | .thrown m => some m
  | .aborted m => some m
  | .diverged => none

/-- The machine in which the code ended (`d` if it never ended). -/
def Outcome.machineD {α : Type} (o : Outcome α) (d : Machine) : Machine :=
  (o.machine?).getD d

/-- Whether the code ended by an exception. -/
def Outcome.isThrown {α : Type} : Outcome α → Bool
  | .thrown _ => true
  | _ => false

/-- A fresh thread: a stack of 40 slots at address 1000, the base frame at
depth 0 with its function entry in slot 0, no recovery point. -/
def thread0 : lua_State where
  status := LUA_OK
  allowhook := 1
  top := 1001
  stack_last := 1040
  stack := 1000
  tbclist := 1000
  openupval := []
  ci := 0
  cis := fun _ => { (default : CallInfo) with func := 1000, top := 1021, callstatus := 2 }
  slots := fun _ => TValue.nil
  errorJmp := none
  nCcalls := 0
  hook := none
  hookmask := 0
  errfunc := 0
  oldpc := 0

/-- A machine whose threads are all fresh; thread 0 is the main thread. -/
def machine0 : Machine where
  g := { memerrmsg := { addr := 0, contents := "not enough memory" }, gcstopem := 0,
         mainthread := 0, panic := none, nstrings := 1 }
  threads := fun _ => thread0
  ljs := fun _ => default
  njmp := 0

/-- Collaborators that do nothing: the allocator always succeeds and puts the
block at address 5000, closing and collecting change nothing, no value has a
`__call` metafield, every C function and continuation returns no result, the
dispatcher returns at once.  The macros and methods are those of the reference
implementation (Lua 5.4): the upper half of `nCcalls` counts the non-yieldable
calls, the lower half the C calls; bits 10 to 12 of `callstatus` hold the
recorded status and bit 0 the original `allowhook`. -/
def env0 : LuaEnv where
  realloc := fun _ _ _ _ _ => some 5000
  luaC_checkGC := fun m _ => .ret () m
  luaF_close := fun m _ level _ _ => .ret level m
  luaE_resetthread := fun m _ status => .ret status m
  luaT_gettmbyobj := fun _ _ _ => TValue.nil
  cfunction := fun _ m _ => .ret 0 m
  hookf := fun _ m _ _ => .ret () m
  panicf := fun _ m _ => .ret 0 m
  luaV_execute := fun m _ _ => .ret () m
  luaV_finishOp := fun m _ => .ret () m
  luaE_checkcstack := fun m _ => .ret () m
  kfunction := fun _ m _ _ _ => .ret 0 m
  adjustresults := fun m L nres =>
    if nres ≤ LUA_MULTRET ∧ ((m.th L).cis (m.th L).ci).top < (m.th L).top then
      m.setTh L ((m.th L).setci (m.th L).ci fun c => { c with top := (m.th L).top })
    else m
  yieldable := fun s => decide (s.nCcalls / 65536 = 0)
  getCcalls := fun s => s.nCcalls % 65536
  getcistrecst := fun c => ((c.callstatus / 1024) % 8 : Nat)
  setcistrecst := fun c st =>
    { c with callstatus := clearbits c.callstatus 7168 ||| (st.toNat * 1024) }
  getoah := fun c => ((c.callstatus &&& 1 : Nat) : Int)

/-- As `env0`, with an allocator that always fails. -/
def envNoMem : LuaEnv := { env0 with realloc := fun _ _ _ _ _ => none }

/-- The fresh machine with a recovery point installed on thread 0. -/
def machineH : Machine :=
  { machine0.setTh 0 { thread0 with errorJmp := some 0 } with njmp := 1 }

/-- A machine whose thread 0 is using the overshoot region (1000200 slots). -/
def machineOver : Machine :=
  machineH.setTh 0 { machineH.th 0 with stack_last := 1000 + 1000200, top := 1000 + 1000100 }

/-- A protected function that raises `c` at once. -/
def raiser (c : Int) (m : Machine) (L : Nat) : Outcome Unit := luaD.lthrow env0 m L c

/-- A protected function that pushes the integer `v` and returns. -/
def pusher (v : Int) (m : Machine) (L : Nat) : Outcome Unit :=
  .ret () (m.setTh L { (m.th L).setval (m.th L).top (.integer v) with top := (m.th L).top + 1 })

/-- A protected function that runs `g` in protected mode and then runs the
code `k` on the status it got back. -/
def nestedCall (g : Machine → Nat → Outcome Unit) (k : Int → Machine → Nat → Machine)
    (m : Machine) (L : Nat) : Outcome Unit :=
  (luaD.rawrunprotected m L g).bind fun status m1 => .ret () (k status m1 L)

/-- A protected function that runs `g` through `luaD::pcall`, with the stack
level `old_top` and the error handler `ef`, and then runs the code `k` on the
status it got back. -/
def nestedPcall (E : LuaEnv) (K : LuaConf) (fuel : Nat) (g : Machine → Nat → Outcome Unit)
    (old_top ef : Int) (k : Int → Machine → Nat → Machine) (m : Machine) (L : Nat) :
    Outcome Unit :=
  (luaD.pcall E K fuel m L g old_top ef).bind fun status m1 => .ret () (k status m1 L)

/-- The statement `L->errorJmp->status = errcode` of `luaD::lthrow`, for the
recovery point `j`. -/
def Machine.setStatus (m : Machine) (j : Nat) (errcode : Int) : Machine :=
  { m with ljs := Function.update m.ljs j { m.ljs j with status := errcode } }

/-- The machine in which `luaD::pcall`, called in `m` with the error handler
`ef`, starts to close the pending variables after the protected function has
raised, leaving the machine `mf`: the recovery point of the call has been taken
out, and `L->ci` and `L->allowhook` are those of the call. -/
def pcallRecover (m : Machine) (L : Nat) (ef : Int) (mf : Machine) : Machine :=
  (luaD.rawrunprotectedExit (m.setTh L { m.th L with errfunc := ef }) L mf).setTh L
    { (luaD.rawrunprotectedExit (m.setTh L { m.th L with errfunc := ef }) L mf).th L with
      ci := (m.th L).ci, allowhook := (m.th L).allowhook }

/-- Code that pushes the status it is given. -/
def pushStatus (status : Int) (m : Machine) (L : Nat) : Machine :=
  m.setTh L { (m.th L).setval (m.th L).top (.integer status) with top := (m.th L).top + 1 }

/-- As `env0`, but closing the pending variables raises a memory error when it
is asked to close after a runtime error (a finalizer that fails once). -/
def envCloseErr : LuaEnv :=
  { env0 with
    luaF_close := fun m L level status _ =>
      if status = LUA_ERRRUN then luaD.lthrow env0 m L LUA_ERRMEM else .ret level m }

/-- A thread inside a call: the frame at depth 1 has its function in slot 1
and wants two results; the integers 10, 20, 30 are on top of the stack. -/
def threadCall : lua_State :=
  { thread0 with
    ci := 1
    top := 1005
    cis := fun i =>
      if i = 1 then
        { (default : CallInfo) with func := 1001, top := 1025, nresults := 2, callstatus := 2 }
      else { (default : CallInfo) with func := 1000, top := 1021, callstatus := 2 }
    slots := fun i =>
      if i = 1 then TValue.lcf 0
      else if i = 2 then TValue.integer 10
      else if i = 3 then TValue.integer 20
      else if i = 4 then TValue.integer 30
      else TValue.nil }

/-- The fresh machine with thread 0 inside a call. -/
def machineCall : Machine := machine0.setTh 0 threadCall

/-! ## The callee of a call -/

/-- Whether a value is a C closure or a light C function. -/
def TValue.isCFunction : TValue → Bool
  | .ccl _ => true
  | .lcf _ => true
  | _ => false

/-- Whether a value is a Lua closure. -/
def TValue.isLuaClosure : TValue → Bool
  | .lcl _ => true
  | _ => false

/-- The callee after `__call` substitutions, in the words of the spec: a value
that is none of the three kinds of function is replaced by its "call"
capability (`tryfuncTM` puts it in the function slot) and the call is retried
with it as the new callee.  `CalleeAfterTM E K L m func mc funcc`: starting with
the function slot `func` in machine `m`, the substitutions lead to the function
slot `funcc` in machine `mc`. -/
inductive CalleeAfterTM (E : LuaEnv) (K : LuaConf) (L : Nat) :
    Machine → Int → Machine → Int → Prop where
  | direct (m : Machine) (func : Int) : CalleeAfterTM E K L m func m func
  | subst (m : Machine) (func : Int) (m1 : Machine) (func1 : Int) (mc : Machine) (funcc : Int) :
      ((m.th L).val func).isCFunction = false →
      ((m.th L).val func).isLuaClosure = false →
      tryfuncTM E K m L func = .ret func1 m1 →
      CalleeAfterTM E K L m1 func1 mc funcc →
      CalleeAfterTM E K L m func mc funcc

/-- A fresh thread about to call the value in slot 1 with no arguments. -/
def threadPre (v : TValue) : lua_State :=
  { thread0 with
    top := 1002
    slots := fun i => if i = 1 then v else TValue.nil }

/-- The fresh machine with thread 0 about to call `v`. -/
def machinePre (v : TValue) : Machine := machine0.setTh 0 (threadPre v)

/-- As `env0`, but every value of kind `obj` has the light C function 0 as its
`__call` metafield. -/
def envTM : LuaEnv :=
  { env0 with
    luaT_gettmbyobj := fun _ _ v =>
      match v with
      | .obj _ _ => TValue.lcf 0
      | _ => TValue.nil }

/-! ## Tail calls -/

namespace luaD

/-- `luaD::pretailcall`: prepare a function for a tail call, building its call
info on top of the current call info `ci`.  `narg1` is the number of arguments
plus 1.  Returns the number of results for a C function and -1 for a Lua
function.  Every pass through the label `retry` takes one unit of `fuel`.
(The loop that moves the function and its arguments down is the loop
`copyResults`, the loop that completes the missing arguments is `fillNil`.) -/
def pretailcall (E : LuaEnv) (K : LuaConf) :
    Nat → Machine → Nat → Nat → Int → Int → Int → Outcome Int
  | 0, _, _, _, _, _, _ => .diverged
  | fuel + 1, m, L, ci, func, narg1, delta =>
    match (m.th L).val func with
    | .ccl f => precallC E K m L func LUA_MULTRET f
    | .lcf f => precallC E K m L func LUA_MULTRET f
    | .lcl p =>
      let fsize := p.maxstacksize
      let nfixparams := p.numparams
      (checkstackGCp E K m L (fsize - delta) func).bind fun func m1 =>
        let s1 := (m1.th L).setci ci fun c => { c with func := c.func - delta }
        let s2 := copyResults (s1.cis ci).func func narg1.toNat 0 s1
        let func := (s2.cis ci).func
        let s3 := fillNil func (nfixparams + 1 - narg1).toNat narg1 s2
        let narg1 := if narg1 ≤ nfixparams then nfixparams + 1 else narg1
        let s4 := s3.setci ci fun c =>
          { c with top := func + 1 + fsize, savedpc := p.code,
                   callstatus := c.callstatus ||| K.CIST_TAIL }
        .ret (-1) (m1.setTh L { s4 with top := func + narg1 })
    | _ =>
      (tryfuncTM E K m L func).bind fun func m1 =>
        pretailcall E K fuel m1 L ci func (narg1 + 1) delta

end luaD

/-! ## Calls through C, and coroutines -/

/-- `ccall`: call a function (C or Lua) through C; `inc` is added to `nCcalls`
for the duration of the call. -/
def ccall (E : LuaEnv) (K : LuaConf) (fuel : Nat) (m : Machine) (L : Nat) (func nResults : Int)
    (inc : Nat) : Outcome Unit :=
  let m1 := m.setTh L { m.th L with nCcalls := (m.th L).nCcalls + inc }
  let checked : Outcome Int :=
    if E.getCcalls (m1.th L) ≥ K.LUAI_MAXCCALLS then
      (luaD.checkstackp E K m1 L 0 func).bind fun func m2 =>
        (E.luaE_checkcstack m2 L).bind fun _ m3 => .ret func m3
    else .ret func m1
  checked.bind fun func m4 =>
    (luaD.precall E K fuel m4 L func nResults).bind fun r m5 =>
      let run : Outcome Unit :=
        match r with
        | some ci =>
          E.luaV_execute
            (m5.setTh L ((m5.th L).setci ci fun c => { c with callstatus := K.CIST_FRESH })) L ci
        | none => .ret () m5
      run.bind fun _ m6 =>
        .ret () (m6.setTh L { m6.th L with nCcalls := (m6.th L).nCcalls - inc })

namespace luaD

/-- `luaD::call`: external interface for `ccall`. -/
def call (E : LuaEnv) (K : LuaConf) (fuel : Nat) (m : Machine) (L : Nat) (func nResults : Int) :
    Outcome Unit :=
  ccall E K fuel m L func nResults 1

/-- `luaD::callnoyield`: similar to `luaD::call`, but does not allow yields
during the call. -/
def callnoyield (E : LuaEnv) (K : LuaConf) (fuel : Nat) (m : Machine) (L : Nat)
    (func nResults : Int) : Outcome Unit :=
  ccall E K fuel m L func nResults K.nyci

end luaD

/-- The machine in which `luaD::precall` has pushed the frame of the Lua closure
with prototype `p` in slot `func`, when the stack had room for the frame: the
new frame is the current one, with the function slot, the wanted count, no mark,
the frame size above the function slot and the saved pc at the start of the
code; the missing fixed parameters are nil. -/
def precallLuaFrame (m : Machine) (L : Nat) (func nresults : Int) (p : Proto) : Machine :=
  let narg := ((m.th L).top - func) - 1
  let r := prepCallInfo m L func nresults 0 (func + 1 + p.maxstacksize)
  let s2 := (r.2.th L).setci r.1 fun c => { c with savedpc := p.code }
  let k := (p.numparams - narg).toNat
  r.2.setTh L { fillNil s2.top k 0 s2 with top := s2.top + k }

/-- The statement `ci->callstatus = CIST_FRESH` of `ccall`, for the frame `ci`
returned by `luaD::precall`. -/
def ccallFresh (K : LuaConf) (m : Machine) (L : Nat) (ci : Nat) : Machine :=
  m.setTh L ((m.th L).setci ci fun c => { c with callstatus := K.CIST_FRESH })

/-- `finishpcallk`: finish the job of `lua_pcallk` after it was interrupted by
a yield. -/
def finishpcallk (E : LuaEnv) (K : LuaConf) (m : Machine) (L : Nat) (ci : Nat) : Outcome Int :=
  let status := E.getcistrecst ((m.th L).cis ci)
  let r : Outcome Int :=
    if status = LUA_OK then .ret LUA_YIELD m
    else
      let func := luaD.restorestack (m.th L) ((m.th L).cis ci).funcidx
      let m1 := m.setTh L { m.th L with allowhook := E.getoah ((m.th L).cis ci) }
      (E.luaF_close m1 L func status 1).bind fun func m2 =>
        let m3 := luaD.seterrorobj m2 L status func
        (luaD.shrinkstack E K m3 L).bind fun _ m4 =>
          .ret status (m4.setTh L ((m4.th L).setci ci fun c => E.setcistrecst c LUA_OK))
  r.bind fun status m5 =>
    let s6 := (m5.th L).setci ci fun c =>
      { c with callstatus := clearbits c.callstatus K.CIST_YPCALL }
    .ret status (m5.setTh L { s6 with errfunc := (s6.cis ci).old_errfunc })

/-- `finishCcall`: complete the execution of a C function interrupted by a
yield.  (Calling a null continuation ends the process.) -/
def finishCcall (E : LuaEnv) (K : LuaConf) (m : Machine) (L : Nat) (ci : Nat) : Outcome Unit :=
  let r : Outcome Int :=
    if ((m.th L).cis ci).callstatus &&& K.CIST_CLSRET ≠ 0 then
      .ret ((m.th L).cis ci).nres m
    else
      let st : Outcome Int :=
        if ((m.th L).cis ci).callstatus &&& K.CIST_YPCALL ≠ 0 then finishpcallk E K m L ci
        else .ret LUA_YIELD m
      st.bind fun status m1 =>
        let m2 := E.adjustresults m1 L LUA_MULTRET
        match ((m2.th L).cis ci).k with
        | some kf => E.kfunction kf m2 L status ((m2.th L).cis ci).ctx
        | none => .aborted m2
  r.bind fun n m3 => luaD.poscall E K m3 L ci n

/-- `unroll`: execute the full continuation of a previously interrupted
coroutine until the frame chain is back at the base frame.  Every turn of the
loop takes one unit of `fuel`. -/
def unroll (E : LuaEnv) (K : LuaConf) : Nat → Machine → Nat → Outcome Unit
  | 0, m, L => if (m.th L).ci = 0 then .ret () m else .diverged
  | fuel + 1, m, L =>
    let ci := (m.th L).ci
    if ci = 0 then .ret () m
    else
      let step : Outcome Unit :=
        if ¬ ((m.th L).cis ci).isLua K = true then finishCcall E K m L ci
        else (E.luaV_finishOp m L).bind fun _ m1 => E.luaV_execute m1 L ci
      step.bind fun _ m2 => unroll E K fuel m2 L

/-- In the words of the spec: the run of the rest of the suspended frame chain
of thread `L`, from the machine `m` down to the base frame, reached in the
machine `mf` after `d` frames have been run.  At the base frame the run is over.
Otherwise the current frame is run and the run goes on from the machine it
leaves: a native frame is completed by `finishCcall`; an interpreted frame has
its interrupted instruction finished (`luaV_finishOp`) and goes on in the
dispatcher (`luaV_execute`). -/
inductive ChainRun (E : LuaEnv) (K : LuaConf) (L : Nat) : Nat → Machine → Machine → Prop
  | base (m : Machine) : (m.th L).ci = 0 → ChainRun E K L 0 m m
  | native (d : Nat) (m m1 mf : Machine) :
      (m.th L).ci ≠ 0 → ((m.th L).cis (m.th L).ci).isLua K = false →
      finishCcall E K m L (m.th L).ci = .ret () m1 →
      ChainRun E K L d m1 mf → ChainRun E K L (d + 1) m mf
  | interpreted (d : Nat) (m m1 m2 mf : Machine) :
      (m.th L).ci ≠ 0 → ((m.th L).cis (m.th L).ci).isLua K = true →
      E.luaV_finishOp m L = .ret () m1 →
      E.luaV_execute m1 L (m.th L).ci = .ret () m2 →
      ChainRun E K L d m2 mf → ChainRun E K L (d + 1) m mf

/-- The loop of `findpcall`, from depth `d` down to the base frame. -/
def findpcallFrom (K : LuaConf) (s : lua_State) : Nat → Option Nat
  | 0 => if (s.cis 0).callstatus &&& K.CIST_YPCALL ≠ 0 then some 0 else none
  | d + 1 =>
    if (s.cis (d + 1)).callstatus &&& K.CIST_YPCALL ≠ 0 then some (d + 1)
    else findpcallFrom K s d

/-- `findpcall`: try to find a suspended protected call for the thread. -/
def findpcall (K : LuaConf) (s : lua_State) : Option Nat := findpcallFrom K s s.ci

/-- Modelled from the spec: `luaS::news` lives in `lstring.cpp`, which is not
among the sources; it creates a string object with the given contents. -/
def luaS.news (m : Machine) (str : String) : TString × Machine := luaS.newlstr m str

/-- `resume_error`: signal an error in the call to `lua_resume`: the arguments
are removed and the message is pushed. -/
def resume_error (m : Machine) (L : Nat) (msg : String) (narg : Int) : Int × Machine :=
  let s1 := { m.th L with top := (m.th L).top - narg }
  let r := luaS.news m msg
  let s2 := s1.setval s1.top (.str r.1)
  (LUA_ERRRUN, r.2.setTh L { s2 with top := s2.top + 1 })

/-- `resume`: do the work for `lua_resume` in protected mode; `n` is the number
of arguments. -/
def resume (E : LuaEnv) (K : LuaConf) (fuel : Nat) (n : Int) (m : Machine) (L : Nat) :
    Outcome Unit :=
  let firstArg := (m.th L).top - n
  let ci := (m.th L).ci
  if (m.th L).status = LUA_OK then ccall E K fuel m L (firstArg - 1) LUA_MULTRET 0
  else
    let m1 := m.setTh L { m.th L with status := LUA_OK }
    let r : Outcome Unit :=
      if ((m1.th L).cis ci).isLua K = true then
        let s2 := (m1.th L).setci ci fun c => { c with savedpc := c.savedpc - 1 }
        E.luaV_execute (m1.setTh L { s2 with top := firstArg }) L ci
      else
        let called : Outcome Int :=
          match ((m1.th L).cis ci).k with
          | some kf => E.kfunction kf m1 L LUA_YIELD ((m1.th L).cis ci).ctx
          | none => .ret n m1
        called.bind fun n m2 => luaD.poscall E K m2 L ci n
    r.bind fun _ m3 => unroll E K fuel m3 L

/-- `precover`: unroll a coroutine in protected mode while there are
recoverable errors.  The first `fuel` bounds the turns of this loop, `ufuel`
is the fuel of each `unroll`. -/
def precover (E : LuaEnv) (K : LuaConf) (ufuel : Nat) (L : Nat) :
    Nat → Machine → Int → Outcome Int
  | 0, m, status =>
    if errorstatus status = true ∧ (findpcall K (m.th L)).isSome = true then .diverged
    else .ret status m
  | fuel + 1, m, status =>
    if errorstatus status = true then
      match findpcall K (m.th L) with
      | some ci =>
        let s1 := ({ m.th L with ci := ci }).setci ci fun c => E.setcistrecst c status
        (luaD.rawrunprotected (m.setTh L s1) L (unroll E K ufuel)).bind fun status m2 =>
          precover E K ufuel L fuel m2 status
      | none => .ret status m
    else .ret status m

/-- The statement `L->nCcalls = (from) ? from->getCcalls() : 0` of
`lua_resume`. -/
def lua_resumeSetCcalls (E : LuaEnv) (m : Machine) (L : Nat) (frm : Option Nat) : Machine :=
  let n0 : Nat :=
    match frm with
    | some f => E.getCcalls (m.th f)
    | none => 0
  m.setTh L { m.th L with nCcalls := n0 }

/-- The machine in which `lua_resume` starts the protected run of `resume`:
the count of C calls has been taken from the resuming thread and incremented. -/
def lua_resumeEntry (E : LuaEnv) (m : Machine) (L : Nat) (frm : Option Nat) : Machine :=
  (lua_resumeSetCcalls E m L frm).setTh L
    { (lua_resumeSetCcalls E m L frm).th L with
      nCcalls := ((lua_resumeSetCcalls E m L frm).th L).nCcalls + 1 }

/-- The last statements of `lua_resume`, after `precover` has returned
`status`: an unrecoverable error marks the thread as dead (`cast_byte` keeps
the low 8 bits) and pushes the error object; then the number of results is
computed.  The result is the returned status with the value stored in
`*nresults`, and the machine. -/
def lua_resumeFinish (m4 : Machine) (L : Nat) (status : Int) : (Int × Option Int) × Machine :=
  let m5 : Machine :=
    if errorstatus status = true then
      let m41 := m4.setTh L { m4.th L with status := status % 256 }
      let m42 := luaD.seterrorobj m41 L status (m41.th L).top
      m42.setTh L ((m42.th L).setci (m42.th L).ci fun c => { c with top := (m42.th L).top })
    else m4
  let s5 := m5.th L
  let nresults :=
    if status = LUA_YIELD then (s5.cis s5.ci).nyield
    else s5.top - ((s5.cis s5.ci).func + 1)
  ((status, some nresults), m5)

/-- The part of `lua_resume` after the checks that reject a running or dead
coroutine: the count of C calls is taken from the resuming thread, `resume`
runs in protected mode, recoverable errors are recovered, and the last
statements compute the result. -/
def lua_resumeRun (E : LuaEnv) (K : LuaConf) (fuel : Nat) (m : Machine) (L : Nat)
    (frm : Option Nat) (nargs : Int) : Outcome (Int × Option Int) :=
  let m1 := lua_resumeSetCcalls E m L frm
  if E.getCcalls (m1.th L) ≥ K.LUAI_MAXCCALLS then
    .ret ((resume_error m1 L "C stack overflow" nargs).1, none)
      (resume_error m1 L "C stack overflow" nargs).2
  else
    (luaD.rawrunprotected (lua_resumeEntry E m L frm) L (resume E K fuel nargs)).bind
      fun status m3 =>
        (precover E K fuel L fuel m3 status).bind fun status m4 =>
          .ret (lua_resumeFinish m4 L status).1 (lua_resumeFinish m4 L status).2

/-- `lua_resume(L, from, nargs, nresults)`.  The result is the returned status
together with the value stored in `*nresults` (`none` when nothing is
stored). -/
def lua_resume (E : LuaEnv) (K : LuaConf) (fuel : Nat) (m : Machine) (L : Nat)
    (frm : Option Nat) (nargs : Int) : Outcome (Int × Option Int) :=
  let s := m.th L
  if s.status = LUA_OK then
    if s.ci ≠ 0 then
      .ret ((resume_error m L "cannot resume non-suspended coroutine" nargs).1, none)
        (resume_error m L "cannot resume non-suspended coroutine" nargs).2
    else if s.top - ((s.cis s.ci).func + 1) = nargs then
      .ret ((resume_error m L "cannot resume dead coroutine" nargs).1, none)
        (resume_error m L "cannot resume dead coroutine" nargs).2
    else lua_resumeRun E K fuel m L frm nargs
  else if s.status ≠ LUA_YIELD then
    .ret ((resume_error m L "cannot resume dead coroutine" nargs).1, none)
      (resume_error m L "cannot resume dead coroutine" nargs).2
  else lua_resumeRun E K fuel m L frm nargs

/-- `lua_yieldk(L, nresults, ctx, k)`. -/
def lua_yieldk (E : LuaEnv) (K : LuaConf) (m : Machine) (L : Nat) (nresults ctx : Int)
    (k : Option Nat) : Outcome Int :=
  let ci := (m.th L).ci
  if ¬ E.yieldable (m.th L) = true then
    if L ≠ m.g.mainthread then
      luaG_runerror E m L "attempt to yield across a C-call boundary"
    else luaG_runerror E m L "attempt to yield from outside a coroutine"
  else
    let s1 := ({ m.th L with status := LUA_YIELD }).setci ci fun c =>
      { c with nyield := nresults }
    if (s1.cis ci).isLua K = true then .ret 0 (m.setTh L s1)
    else
      let s2 := s1.setci ci fun c => { c with k := k }
      let s3 := if k ≠ none then s2.setci ci fun c => { c with ctx := ctx } else s2
      luaD.lthrow E (m.setTh L s3) L LUA_YIELD

/-! ## Concrete threads for tail calls and coroutines -/

/-- A thread inside an interpreted frame at depth 1 (function slot 1, frame top
at slot 9) about to make a tail call: the callee, a Lua closure with three
fixed parameters and frame size 5, is in slot 5 with its only argument, the
integer 7, in slot 6. -/
def threadTail : lua_State :=
  { thread0 with
    ci := 1
    top := 1007
    cis := fun i =>
      if i = 1 then { (default : CallInfo) with func := 1001, top := 1009, callstatus := 0 }
      else { (default : CallInfo) with func := 1000, top := 1021, callstatus := 2 }
    slots := fun i =>
      if i = 5 then TValue.lcl { numparams := 3, maxstacksize := 5, is_vararg := false, code := 100 }
      else if i = 6 then TValue.integer 7
      else TValue.nil }

/-- The fresh machine with thread 0 about to make a tail call. -/
def machineTail : Machine := machine0.setTh 0 threadTail

/-- A thread with a recovery point about to call the value `v` in slot 1 with
one argument, the integer 7, in slot 2. -/
def threadPreArg (v : TValue) : lua_State :=
  { thread0 with
    top := 1003
    errorJmp := some 0
    slots := fun i => if i = 1 then v else if i = 2 then TValue.integer 7 else TValue.nil }

/-- The machine with thread 0 about to call `v` with one argument. -/
def machinePreArg (v : TValue) : Machine :=
  { machine0.setTh 0 (threadPreArg v) with njmp := 1 }

/-- A thread inside a native frame at depth 1 (function slot 1), with a
recovery point; the integers 10 and 20 are on top of the stack. -/
def threadNative : lua_State :=
  { thread0 with
    ci := 1
    top := 1004
    errorJmp := some 0
    cis := fun i =>
      if i = 1 then
        { (default : CallInfo) with func := 1001, top := 1024, nresults := -1, callstatus := 2 }
      else { (default : CallInfo) with func := 1000, top := 1021, callstatus := 2 }
    slots := fun i =>
      if i = 1 then TValue.lcf 0
      else if i = 2 then TValue.integer 10
      else if i = 3 then TValue.integer 20
      else TValue.nil }

/-- A machine whose thread 1 (a coroutine, thread 0 being the main thread) is
inside a native frame, with a recovery point. -/
def machineNative : Machine :=
  { machine0.setTh 1 threadNative with njmp := 1 }

/-- As `machineNative`, inside a call that does not allow yields (`nCcalls`
was incremented by `nyci`). -/
def machineNoYield : Machine :=
  machineNative.setTh 1 { threadNative with nCcalls := 65537 }

/-- Push the value `v` on the stack of thread `L` (`setobj2s(L, L->top, v)`
followed by `api_incr_top(L)`). -/
def pushValue (v : TValue) (m : Machine) (L : Nat) : Machine :=
  m.setTh L { (m.th L).setval (m.th L).top v with top := (m.th L).top + 1 }

/-- The body `yield(1, 2); return 3` as a C function: it pushes 1 and 2 and
yields them with continuation 0. -/
def coBody (m : Machine) (L : Nat) : Outcome Int :=
  lua_yieldk env0 stdConf (pushValue (.integer 2) (pushValue (.integer 1) m L) L) L 2 0 (some 0)

/-- The continuation of `coBody`: it pushes 3 and returns it. -/
def coCont (m : Machine) (L : Nat) (_status _ctx : Int) : Outcome Int :=
  .ret 1 (pushValue (.integer 3) m L)

/-- As `env0`, with `coBody` as the C function 0 and `coCont` as the
continuation 0. -/
def envCo : LuaEnv :=
  { env0 with
    cfunction := fun f m L => if f = 0 then coBody m L else .ret 0 m
    kfunction := fun kf m L status ctx => if kf = 0 then coCont m L status ctx else .ret 0 m }

/-- A fresh coroutine whose body, the light C function 0, is in slot 1; it is
started with no argument. -/
def threadCo : lua_State :=
  { thread0 with
    top := 1002
    slots := fun i => if i = 1 then TValue.lcf 0 else TValue.nil }

/-- A machine whose thread 1 is the fresh coroutine `threadCo`; thread 0 is the
main thread. -/
def machineCo : Machine := machine0.setTh 1 threadCo

/-- A machine whose thread 1 is suspended in the native frame at depth 1, which
saved the continuation 0; the yielded integers 10 and 20 are on top of the
stack. -/
def machineSusp : Machine :=
  machine0.setTh 1
    { threadNative with
      status := LUA_YIELD
      cis := fun i =>
        if i = 1 then
          { (default : CallInfo) with func := 1001, top := 1024, nresults := -1, callstatus := 2,
                                      k := some 0, nyield := 2 }
        else { (default : CallInfo) with func := 1000, top := 1021, callstatus := 2 } }

/-- As `envCo`, with a second continuation, 1, which pushes 4 and returns the
two values on top of the stack. -/
def envChain : LuaEnv :=
  { envCo with
    kfunction := fun kf m L status ctx =>
      if kf = 0 then coCont m L status ctx else .ret 2 (pushValue (.integer 4) m L) }

/-- A machine whose thread 1 is suspended in the native frame at depth 2
(function slot 3, continuation 0), which was called by the native frame at depth
1 (function slot 1, continuation 1); the yielded integers 10 and 20 are on top
of the stack. -/
def machineSuspDeep : Machine :=
  machine0.setTh 1
    { threadNative with
      status := LUA_YIELD
      ci := 2
      top := 1006
      cis := fun i =>
        if i = 2 then
          { (default : CallInfo) with func := 1003, top := 1026, nresults := -1, callstatus := 2,
                                      k := some 0, nyield := 2 }
        else if i = 1 then
          { (default : CallInfo) with func := 1001, top := 1024, nresults := -1, callstatus := 2,
                                      k := some 1 }
        else { (default : CallInfo) with func := 1000, top := 1021, callstatus := 2 }
      slots := fun i =>
        if i = 1 then TValue.lcf 0
        else if i = 3 then TValue.lcf 0
        else if i = 4 then TValue.integer 10
        else if i = 5 then TValue.integer 20
        else TValue.nil }

/-- The machine left by the continuation 0 of `envChain` called on the thread
of `machineSuspDeep` with the status set back to `LUA_OK`: it has pushed 3. -/
def machineChainK : Machine :=
  pushValue (.integer 3)
    (machineSuspDeep.setTh 1 { machineSuspDeep.th 1 with status := LUA_OK }) 1

/-- The machine in which `luaD::poscall` has finished the frame at depth 2 of
`machineChainK` with one result. -/
def machineChainP : Machine :=
  (luaD.poscall envChain stdConf machineChainK 1 2 1).machineD machine0

/-- The machine in which `finishCcall` has completed the frame at depth 1 of
`machineChainP`. -/
def machineChainEnd : Machine :=
  (finishCcall envChain stdConf machineChainP 1 1).machineD machine0

/-- The C function `yield` of the coroutine library: it yields all its
arguments, without continuation (`lua_yield(L, lua_gettop(L))`). -/
def coYield (m : Machine) (L : Nat) : Outcome Int :=
  lua_yieldk env0 stdConf m L ((m.th L).top - (((m.th L).cis (m.th L).ci).func + 1)) 0 none

/-- As `env0`, with `coYield` as the C function 0. -/
def envYield : LuaEnv :=
  { env0 with cfunction := fun f m L => if f = 0 then coYield m L else .ret 0 m }

/-- The machine in which the body `yield(1, 2); return 3`, running in the frame
`ci`, returns: 3 has been loaded in register 0 and `top` set right above it
(`L->top = ra + 1`). -/
def coLuaResult (m : Machine) (L : Nat) (ci : Nat) : Machine :=
  m.setTh L
    { (m.th L).setval (((m.th L).cis ci).func + 1) (.integer 3) with
      top := ((m.th L).cis ci).func + 1 + 1 }

/-- The end of the body `yield(1, 2); return 3`, from the instruction after the
call on: 3 is loaded in register 0 and returned (`luaD::poscall(L, ci, 1)`; the
frame is marked `CIST_FRESH`, so the dispatcher returns). -/
def coLuaReturn (m : Machine) (L : Nat) (ci : Nat) : Outcome Unit :=
  luaD.poscall envYield stdConf (coLuaResult m L ci) L ci 1

/-- The machine in which the body `yield(1, 2); return 3`, entered in the frame
`ci`, calls `yield`: the function (the C function 0), 1 and 2 have been loaded
in the registers 0 to 2, the pc of the instruction after the call (105) saved,
and `top` set above the arguments (`L->top = ra + 3`). -/
def coLuaCall (m : Machine) (L : Nat) (ci : Nat) : Machine :=
  m.setTh L
    { ((((m.th L).setval (((m.th L).cis ci).func + 1) (.lcf 0)).setval
          (((m.th L).cis ci).func + 1 + 1) (.integer 1)).setval
          (((m.th L).cis ci).func + 1 + 2) (.integer 2)).setci ci
        (fun c => { c with savedpc := 105 }) with
      top := ((m.th L).cis ci).func + 1 + 3 }

/-- The dispatcher running the Lua function `yield(1, 2); return 3`, whose code
starts at address 100.  Entered at the start of the code, it calls register 0,
`yield`, with two arguments and no result wanted (`luaD::precall(L, ra, 0)`);
after the call, and also when it is entered again at the saved pc, it goes on
with the end of the body. -/
def coLuaBody (m : Machine) (L : Nat) (ci : Nat) : Outcome Unit :=
  if ((m.th L).cis ci).savedpc = 100 then
    (luaD.precall envYield stdConf 1 (coLuaCall m L ci) L (((m.th L).cis ci).func + 1) 0).bind
      fun _ m1 => coLuaReturn m1 L ci
  else coLuaReturn m L ci

/-- As `envYield`, with `coLuaBody` as the dispatcher. -/
def envLua : LuaEnv := { envYield with luaV_execute := coLuaBody }

/-- The prototype of the Lua function `yield(1, 2); return 3`: no parameter,
three registers, code at address 100. -/
def protoCo : Proto := { numparams := 0, maxstacksize := 3, is_vararg := false, code := 100 }

/-- A fresh coroutine whose body, the Lua closure `yield(1, 2); return 3`, is in
slot 1; it is started with no argument. -/
def threadCoLua : lua_State :=
  { thread0 with
    top := 1002
    slots := fun i => if i = 1 then TValue.lcl protoCo else TValue.nil }

/-- A machine whose thread 1 is the fresh coroutine `threadCoLua`; thread 0 is
the main thread. -/
def machineCoLua : Machine := machine0.setTh 1 threadCoLua

/-- The machine in which the dispatcher is entered when the coroutine of
`machineCoLua` is started with no argument: `lua_resume` has installed its
recovery point, `luaD::precall` has pushed the frame of the body and `ccall`
has marked it. -/
def machineCoLuaBody : Machine :=
  ccallFresh stdConf
    (precallLuaFrame (luaD.rawrunprotectedEntry (lua_resumeEntry envLua machineCoLua 1 none) 1)
      1 1001 LUA_MULTRET protoCo) 1 1

/-- The machine in which the body of `machineCoLua` calls `yield`: the function
and its arguments 1 and 2 are in the registers 0 to 2, on top of the stack. -/
def machineCoLuaCall : Machine := coLuaCall machineCoLuaBody 1 1

/-- The machine in which `yield` calls `lua_yieldk`: `precallC` has pushed its
native frame at depth 2. -/
def machineCoLuaYield : Machine := precallCFrame stdConf machineCoLuaCall 1 1002 0

/-- The machine left by the first `lua_resume` of the coroutine of
`machineCoLua`: the thread is suspended in the native frame of `yield`. -/
def machineCoLuaSusp : Machine :=
  (lua_resume envLua stdConf 1 machineCoLua 1 none 0).machineD machine0

/-- The machine in which the second `lua_resume` of the coroutine of
`machineCoLua`, called with no argument, has finished the frame of `yield`. -/
def machineCoLuaResumed : Machine :=
  (luaD.poscall envLua stdConf
    ((luaD.rawrunprotectedEntry (lua_resumeEntry envLua machineCoLuaSusp 1 none) 1).setTh 1
      { (luaD.rawrunprotectedEntry (lua_resumeEntry envLua machineCoLuaSusp 1 none) 1).th 1 with
        status := LUA_OK })
    1 2 0).machineD machine0

/-- The machine in which the body of `machineCoLua` returns: 3 is in register 0,
on top of the stack. -/
def machineCoLuaReturn : Machine := coLuaResult machineCoLuaResumed 1 1

/-- The machine in which the body of the coroutine of `machineCo` is entered
when the coroutine is started with no argument: `lua_resume` has installed its
recovery point and `precallC` has pushed the native frame of the body. -/
def machineCoBody : Machine :=
  precallCFrame stdConf (luaD.rawrunprotectedEntry (lua_resumeEntry envCo machineCo 1 none) 1)
    1 1001 LUA_MULTRET

/-- The machine in which the body of the coroutine of `machineCo` yields: it
has pushed 1 and 2. -/
def machineCoYield : Machine :=
  pushValue (.integer 2) (pushValue (.integer 1) machineCoBody 1) 1

/-- The machine left by the first `lua_resume` of the coroutine of `machineCo`:
the thread is suspended in the native frame of its body. -/
def machineCoSusp : Machine :=
  (lua_resume envCo stdConf 1 machineCo 1 none 0).machineD machine0

/-- The machine in which the continuation of the body of `machineCo` returns,
when the coroutine is resumed with no argument: it has pushed 3. -/
def machineCoReturn : Machine :=
  pushValue (.integer 3)
    ((luaD.rawrunprotectedEntry (lua_resumeEntry envCo machineCoSusp 1 none) 1).setTh 1
      { (luaD.rawrunprotectedEntry (lua_resumeEntry envCo machineCoSusp 1 none) 1).th 1 with
        status := LUA_OK }) 1

/-- As `env0`, with two C functions: function 0 returns the light C function 1,
and function 1 returns the two integers 42 and 43. -/
def envReuse : LuaEnv :=
  { env0 with
    cfunction := fun f m L =>
      if f = 0 then .ret 1 (pushValue (.lcf 1) m L)
      else .ret 2 (pushValue (.integer 43) (pushValue (.integer 42) m L) L) }

/-- As `env0`, with a C function that pushes the integer 99 as an error object
and raises a runtime error with it (as `lua_error` does). -/
def envErr : LuaEnv :=
  { env0 with
    cfunction := fun _ m L => luaD.lthrow env0 (pushValue (.integer 99) m L) L LUA_ERRRUN }

/-- The machine in which the exception leaves `resume` when the coroutine of
`machineCo` is started with the erroring body of `envErr`. -/
def machineErrRaise : Machine :=
  (resume envErr stdConf 1 0
    (luaD.rawrunprotectedEntry (lua_resumeEntry envErr machineCo 1 none) 1) 1).machineD machine0

/-- The machine in which `luaD::hook` makes its stack check: the transfer
information has been stored in the current frame and, in an interpreted frame,
`top` has been raised to the top of the frame. -/
def hookEntry (K : LuaConf) (m : Machine) (L : Nat) (ftransfer ntransfer : Int) : Machine :=
  let s := m.th L
  let ci := s.ci
  let s1 := if ntransfer ≠ 0
    then s.setci ci fun c => { c with ftransfer := ftransfer, ntransfer := ntransfer }
    else s
  let s2 := if (s1.cis ci).isLua K ∧ s1.top < (s1.cis ci).top
    then { s1 with top := (s1.cis ci).top } else s1
  m.setTh L s2

/-- As `env0`, with a hook that tries to yield (no value, no continuation). -/
def envHookYield : LuaEnv :=
  { env0 with
    hookf := fun _ m L _ => (lua_yieldk env0 stdConf m L 0 0 none).bind fun _ m1 => .ret () m1 }

/-- A machine whose thread 1 (a coroutine, yieldable) runs the interpreted frame
of `threadTail` under a recovery point, with the hook 0 installed for line
events. -/
def machineHook : Machine :=
  { machine0.setTh 1 { threadTail with hook := some 0, hookmask := 4, errorJmp := some 0 } with
    njmp := 1 }


/-! ## Concrete threads for the stack policies -/

/-- The fresh machine whose thread 0 has a stack of 400 slots, of which 22 are
in use (the base frame has its top at slot 21). -/
def machineBig : Machine := machine0.setTh 0 { thread0 with stack_last := 1400 }

/-- A machine whose thread 0 has the stack of size `ERRORSTACKSIZE` (1000200
slots) left by a stack overflow, after the error has been caught by a
protected call made at a depth of 400000 slots: `top` is at slot 399999. -/
def machineUnwound : Machine :=
  machine0.setTh 0 { thread0 with stack_last := 1000 + 1000200, top := 1000 + 399999 }

/-! ## Concrete functions for the status codes and for cross-thread errors -/

/-- A protected function out of which an exception that is not raised through
`luaD::lthrow` propagates: no status is stored in the recovery point. -/
def foreignRaiser (m : Machine) (_L : Nat) : Outcome Unit := .thrown m

/-- As `env0`, with C functions out of which a foreign exception propagates. -/
def envForeign : LuaEnv :=
  { env0 with cfunction := fun _ m _ => .thrown m }

/-- Whether the code ended by aborting the process. -/
def Outcome.isAborted {α : Type} : Outcome α → Bool
  | .aborted _ => true
  | _ => false

/-- A thread without recovery point that is about to raise an error: the error
object, the integer 99, is on top of its stack. -/
def threadRaising : lua_State :=
  { thread0 with
    top := 1002
    slots := fun i => if i = 1 then TValue.integer 99 else TValue.nil }

/-- Three threads: the main thread 0 with the recovery point 0, the coroutine 1
with the recovery point 1, which has passed control to thread 2 (by a plain
call, so thread 2 has no recovery point); thread 2 is about to raise. -/
def machineThree : Machine :=
  ((({ machine0 with njmp := 2 }).setTh 0 { thread0 with errorJmp := some 0 }).setTh 1
    { thread0 with errorJmp := some 1 }).setTh 2 threadRaising

/-- As `machineThree`, but the main thread has no recovery point (only the
coroutine 1 has one, the record 0), and no panic function is set. -/
def machineOrphan : Machine :=
  (({ machine0 with njmp := 1 }).setTh 1 { thread0 with errorJmp := some 0 }).setTh 2
    threadRaising

/-- A protected function that passes control to thread `L2` by a plain call,
where the code `c` is raised at once. -/
def raiserOn (L2 : Nat) (c : Int) (m : Machine) (_L : Nat) : Outcome Unit :=
  luaD.lthrow env0 m L2 c

/-- A protected function of the main thread that runs the coroutine `L1` under
a protected call of its own (as `lua_resume` does), in which control is passed
to thread `L2` where the code `c` is raised; afterwards it pushes the status
that the protected call of the coroutine returned. -/
def resumerOf (L1 L2 : Nat) (c : Int) (m : Machine) (L : Nat) : Outcome Unit :=
  (luaD.rawrunprotected m L1 (raiserOn L2 c)).bind fun status m1 =>
    .ret () (pushStatus status m1 L)

/-- The fresh machine in which thread 2 is about to raise; no thread has a
recovery point yet. -/
def machineRaising : Machine := machine0.setTh 2 threadRaising

/-! ## The set of status codes -/

/-- The statuses stored in the recovery points are all -1 or one of the six
codes `LUA_OK` (0) to `LUA_ERRERR` (5). -/
def Machine.codesClosed (m : Machine) : Prop :=
  ∀ j, -1 ≤ (m.ljs j).status ∧ (m.ljs j).status ≤ 5

/-- The code ends (if it ends by a return or an exception) in a machine whose
recovery points hold only -1 or the six codes. -/
def Outcome.codesClosed {α : Type} (o : Outcome α) : Prop :=
  match o with
  | .ret _ m => m.codesClosed
  | .thrown m => m.codesClosed
  | .aborted _ => True
  | .diverged => True

/-- As `Outcome.codesClosed`, for code that returns a status: the status
returned is -1 or one of the six codes as well. -/
def Outcome.statusClosed (o : Outcome Int) : Prop :=
  match o with
  | .ret v m => m.codesClosed ∧ -1 ≤ v ∧ v ≤ 5
  | .thrown m => m.codesClosed
  | .aborted _ => True
  | .diverged => True

/-- The collaborators store no status outside -1 and the six codes: when they
raise, it is through `luaD::lthrow` with one of the six codes (or a status
returned by a protected call), or by an exception of their own, which stores
nothing. -/
structure LuaEnv.codesClosed (E : LuaEnv) : Prop where
  luaC_checkGC : ∀ m L, m.codesClosed → (E.luaC_checkGC m L).codesClosed
  luaF_close : ∀ m L level status yy, m.codesClosed →
    (E.luaF_close m L level status yy).codesClosed
  luaE_resetthread : ∀ m L status, m.codesClosed → -1 ≤ status → status ≤ 5 →
    (E.luaE_resetthread m L status).statusClosed
  cfunction : ∀ f m L, m.codesClosed → (E.cfunction f m L).codesClosed
  hookf : ∀ hk m L ar, m.codesClosed → (E.hookf hk m L ar).codesClosed
  panicf : ∀ pf m L, m.codesClosed → (E.panicf pf m L).codesClosed
  luaV_execute : ∀ m L ci, m.codesClosed → (E.luaV_execute m L ci).codesClosed
  luaV_finishOp : ∀ m L, m.codesClosed → (E.luaV_finishOp m L).codesClosed
  luaE_checkcstack : ∀ m L, m.codesClosed → (E.luaE_checkcstack m L).codesClosed
  kfunction : ∀ kf m L status ctx, m.codesClosed →
    (E.kfunction kf m L status ctx).codesClosed
  adjustresults : ∀ m L nres, m.codesClosed → (E.adjustresults m L nres).codesClosed

/-! ## The attempts of `closeprotected` -/

/-- The attempts to close, as the description of `closeProtected` counts them.
`CloseAttempts E L level old_ci old_allowhooks m s ss mfin`: starting in machine
`m` with status `s`, the closing primitive, run under a protected call of its
own at the slot at offset `level` and given the latest status, raises once for
every status of `ss` in turn (each an error status, so not `LUA_OK`), `L->ci` and
`L->allowhook` being reset to `old_ci` and `old_allowhooks` before each retry;
then it completes, leaving the machine `mfin` after the protected call. -/
inductive CloseAttempts (E : LuaEnv) (L : Nat) (level : Int) (old_ci : Nat)
    (old_allowhooks : Int) : Machine → Int → List Int → Machine → Prop where
  | done (m : Machine) (s : Int) (lv : Int) (mc : Machine) :
      E.luaF_close (luaD.rawrunprotectedEntry m L) L (luaD.restorestack (m.th L) level) s 0
        = .ret lv mc →
      (mc.ljs m.njmp).status = LUA_OK →
      CloseAttempts E L level old_ci old_allowhooks m s [] (luaD.rawrunprotectedExit m L mc)
  | retry (m : Machine) (s : Int) (mt : Machine) (s1 : Int) (rest : List Int)
      (mfin : Machine) :
      E.luaF_close (luaD.rawrunprotectedEntry m L) L (luaD.restorestack (m.th L) level) s 0
        = .thrown mt →
      (mt.ljs m.njmp).status = s1 →
      s1 ≠ LUA_OK →
      CloseAttempts E L level old_ci old_allowhooks
        ((luaD.rawrunprotectedExit m L mt).setTh L
          { (luaD.rawrunprotectedExit m L mt).th L with
            ci := old_ci, allowhook := old_allowhooks }) s1 rest mfin →
      CloseAttempts E L level old_ci old_allowhooks m s (s1 :: rest) mfin

/-- A closing primitive that raises `LUA_ERRRUN` on every attempt. -/
def envCloseAlways : LuaEnv :=
  { env0 with luaF_close := fun m L _ _ _ => luaD.lthrow env0 m L LUA_ERRRUN }

/-- A closing primitive whose finalizer fails a given number of times: the
number of failures left is the integer in slot 0 of the thread; while it is
positive the primitive counts it down and raises `LUA_ERRRUN`, afterwards it
completes. -/
def envCloseCountdown : LuaEnv :=
  { env0 with
    luaF_close := fun m L level _ _ =>
      match (m.th L).val (m.th L).stack with
      | .integer n =>
        if 0 < n then
          luaD.lthrow env0
            (m.setTh L ((m.th L).setval (m.th L).stack (.integer (n - 1)))) L LUA_ERRRUN
        else .ret level m
      | _ => .ret level m }

/-- The fresh machine whose thread 0 has the integer `N` in slot 0. -/
def machineCountdown (N : Nat) : Machine :=
  machine0.setTh 0 (thread0.setval 1000 (.integer N))

/-! ## Recovery at a suspended protected call -/

/-- The first two statements of the loop of `precover`, for the frame `ci`
found by `findpcall`: `L->ci = ci; ci->setcistrecst(status)`. -/
def precoverEntry (E : LuaEnv) (m : Machine) (L : Nat) (ci : Nat) (status : Int) : Machine :=
  m.setTh L (({ m.th L with ci := ci }).setci ci fun c => E.setcistrecst c status)

/-- The statements of `finishpcallk` after the status has been settled:
`ci->callstatus &= ~CIST_YPCALL; L->errfunc = ci->u.c.old_errfunc`. -/
def finishpcallkExit (K : LuaConf) (m : Machine) (L : Nat) (ci : Nat) : Machine :=
  m.setTh L
    { (m.th L).setci ci fun c => { c with callstatus := clearbits c.callstatus K.CIST_YPCALL } with
      errfunc := (((m.th L).setci ci fun c =>
        { c with callstatus := clearbits c.callstatus K.CIST_YPCALL }).cis ci).old_errfunc }

/-- A thread with three frames: the base frame, at depth 1 a native frame that
is a suspended protected call (marked `CIST_C | CIST_YPCALL`, function at offset
1, saved error handler 7, original `allowhook` 1 in bit 0), and at depth 2 the
native frame that was running when an error interrupted the thread; the error
object, the integer 99, is on top of the stack. -/
def threadPcall : lua_State :=
  { thread0 with
    ci := 2
    top := 1006
    allowhook := 0
    cis := fun i =>
      if i = 1 then
        { (default : CallInfo) with
          func := 1001, top := 1025, callstatus := 19, funcidx := 1, old_errfunc := 7 }
      else if i = 2 then
        { (default : CallInfo) with func := 1003, top := 1030, callstatus := 2 }
      else { (default : CallInfo) with func := 1000, top := 1021, callstatus := 2 }
    slots := fun i => if i = 5 then TValue.integer 99 else TValue.nil }

/-- The fresh machine with thread 0 interrupted inside a protected call. -/
def machinePcall : Machine := machine0.setTh 0 threadPcall

/-! ## The stages of a hook call -/

/-- `LUA_HOOKLINE` (`lua.hpp`): the event code of a line hook. -/
def LUA_HOOKLINE : Int := 2

/-- The mask of `luaD::hook`: `CIST_HOOKED`, plus `CIST_TRAN` when there is
transfer information. -/
def hookMask (K : LuaConf) (ntransfer : Int) : Nat :=
  if ntransfer ≠ 0 then K.CIST_HOOKED ||| K.CIST_TRAN else K.CIST_HOOKED

/-- The machine in which `luaD::hook` calls the hook function, `m3` being the
machine left by the stack check and `ci` the current frame: the frame top
leaves `LUA_MINSTACK` slots above `top`, `allowhook` is 0 and the mask is set in
the call status of the frame. -/
def hookCall (m3 : Machine) (L : Nat) (ci : Nat) (mask : Nat) : Machine :=
  let s3 := m3.th L
  let s4 := if (s3.cis ci).top < s3.top + LUA_MINSTACK
    then s3.setci ci fun c => { c with top := s3.top + LUA_MINSTACK } else s3
  m3.setTh L (({ s4 with allowhook := 0 }).setci ci fun c =>
    { c with callstatus := c.callstatus ||| mask })

/-- The machine in which `luaD::hook` returns, `m` being the machine at entry
and `m6` the machine left by the hook function: `allowhook` is 1, the top of
the frame and `top` are restored from their saved offsets, and the mask is
cleared in the call status of the frame. -/
def hookExit (m m6 : Machine) (L : Nat) (mask : Nat) : Machine :=
  let s := m.th L
  let ci := s.ci
  let top := luaD.savestack s s.top
  let ci_top := luaD.savestack s (s.cis ci).top
  let s6 := { m6.th L with allowhook := 1 }
  let s7 := s6.setci ci fun c => { c with top := luaD.restorestack s6 ci_top }
  let s8 := { s7 with top := luaD.restorestack s7 top }
  m6.setTh L (s8.setci ci fun c => { c with callstatus := clearbits c.callstatus mask })

/-- A machine whose thread 0 is inside the interpreted frame of `threadTail`,
with the hook 0 installed. -/
def machineHooked : Machine :=
  machine0.setTh 0 { threadTail with hook := some 0, hookmask := 4 }

/-! ## Buffered streams (`lzio.hpp`, `lzio.cpp`) -/

/-- `EOZ`: end of stream. -/
def EOZ : Int := -1

/-- A buffered stream (`struct Zio`).  `n` is the number of bytes still unread
in the current buffer; the pointer `p` is kept as the buffer it points into and
its position in it.  The reader function with its data is kept as the list of
the chunks it returns, call after call (`none` for a null pointer, `some bytes`
for a buffer of `bytes.length` bytes); once the list is used up it returns a
null pointer. -/
structure Zio where
  n : Nat
  buf : List Nat
  pos : Nat
  chunks : List (Option (List Nat))
deriving DecidableEq, Repr, Inhabited

/-- `Zio::init`. -/
def Zio.init (chunks : List (Option (List Nat))) : Zio :=
  { n := 0, buf := [], pos := 0, chunks := chunks }

/-- One call of the reader function: the chunk returned and the stream whose
reader has advanced. -/
def Zio.callReader (z : Zio) : Option (List Nat) × Zio :=
  match z.chunks with
  | [] => (none, z)
  | c :: rest => (c, { z with chunks := rest })

/-- `Zio::fill`: ask the reader for a new buffer; return `EOZ` when there is
none, and the first byte of the buffer otherwise, which is consumed. -/
def Zio.fill (z : Zio) : Int × Zio :=
  let r := z.callReader
  match r.1 with
  | none => (EOZ, r.2)
  | some buff =>
    if buff.length = 0 then (EOZ, r.2)
    else
      let z1 : Zio := { r.2 with n := buff.length - 1, buf := buff, pos := 0 }
      (((z1.buf.getD z1.pos 0 % 256 : Nat) : Int), { z1 with pos := z1.pos + 1 })

/-- The first statement of the loop body of `Zio::read`,
`if (this->n == 0) { ... }`: the stream with which the loop body goes on, or
`none` when `fill` returned `EOZ` and the function returns at once; the second
component is the stream left in that case. -/
def Zio.refill (z : Zio) : Option Zio × Zio :=
  if z.n = 0 then
    let r := z.fill
    if r.1 = EOZ then (none, r.2)
    else (some { r.2 with n := r.2.n + 1, pos := r.2.pos - 1 }, r.2)
  else (some z, z)

/-- The loop of `Zio::read`: `b` holds the bytes written so far to the
destination, `n` is the number of bytes still wanted.  Every turn of the loop
takes one unit of `fuel`.  The result is the returned number of missing bytes,
the bytes written and the stream. -/
def Zio.readLoop : Nat → Zio → List Nat → Nat → Option (Nat × List Nat × Zio)
  | _, z, b, 0 => some (0, b, z)
  | 0, _, _, _ + 1 => none
  | fuel + 1, z, b, n + 1 =>
    match z.refill with
    | (none, ze) => some (n + 1, b, ze)
    | (some z1, _) =>
      let m := if n + 1 ≤ z1.n then n + 1 else z1.n
      let b1 := b ++ (z1.buf.drop z1.pos).take m
      let z2 : Zio := { z1 with n := z1.n - m, pos := z1.pos + m }
      Zio.readLoop fuel z2 b1 (n + 1 - m)

/-- `Zio::read`: read the next `n` bytes; the loop takes at most `n` turns. -/
def Zio.read (z : Zio) (n : Nat) : Option (Nat × List Nat × Zio) := Zio.readLoop n z [] n

/-- The bytes of a sequence of chunks up to its end: the first null or empty
chunk. -/
def streamBytes : List (Option (List Nat)) → List Nat
  | [] => []
  | none :: _ => []
  | some [] :: _ => []
  | some (c :: cs) :: rest => (c :: cs) ++ streamBytes rest

/-- The unread bytes of a stream: those left in the current buffer, then those
of the chunks that the reader still has to return. -/
def Zio.unread (z : Zio) : List Nat := (z.buf.drop z.pos).take z.n ++ streamBytes z.chunks

/-- The count `n` agrees with the buffer: exactly `n` bytes lie from the
position on (as after `Zio::init`, `Zio::fill` and `Zio::read`). -/
def Zio.wf (z : Zio) : Prop := z.pos + z.n = z.buf.length

/-- A stream of two chunks, `1 2 3` and `4 5`, ended by a null chunk. -/
def zioTwo : Zio := Zio.init [some [1, 2, 3], some [4, 5], none]

/-! ## Saving precompiled chunks (`dump/ldump.cpp`, `dump/lundump.hpp`) -/

/-- What `ldump.cpp` takes from the platform and from headers outside the
sources at hand: the sizes of a `const char*`, of an `Instruction`, of a
`lua_Integer` and of a `lua_Number`, the object representation (the bytes in
memory, in order) of a `lua_Integer` and of the `lua_Number` `LUAC_NUM` (370.5),
the status that the writer function returns for a block, and the bytes that lie
in memory behind the terminating zero of the literals `LUA_SIGNATURE` and
`LUAC_DATA`. -/
structure DumpConf where
  sizeofPtr : Nat
  sizeofInstruction : Nat
  sizeofInteger : Nat
  sizeofNumber : Nat
  integerBytes : Int → List Nat
  luacNumBytes : List Nat
  writer : List Nat → Int
  behindSignature : Nat → Nat
  behindData : Nat → Nat

/-- The state of a dump (`struct DumpState`): the status, and the bytes passed
to the writer so far. -/
structure DumpState where
  status : Int
  out : List Nat
deriving DecidableEq, Repr, Inhabited

/-- `LUA_SIGNATURE` (`lua.hpp`): the characters of the literal `"\x1bLua"`. -/
def LUA_SIGNATURE : List Nat := [0x1b, 76, 117, 97]

/-- `LUAC_DATA`: the characters of the literal `"\x19\x93\r\n\x1a\n"`. -/
def LUAC_DATA : List Nat := [0x19, 0x93, 13, 10, 0x1a, 10]

/-- `LUAC_INT`. -/
def LUAC_INT : Int := 0x5678

/-- `LUA_VERSION_NUM` (`lua.hpp`). -/
def LUA_VERSION_NUM : Int := 504

/-- `LUAC_VERSION`: major and minor version in one byte. -/
def LUAC_VERSION : Int := ((LUA_VERSION_NUM / 100) * 16) + LUA_VERSION_NUM % 100

/-- `LUAC_FORMAT`. -/
def LUAC_FORMAT : Int := 0

/-- The memory at a string literal: its characters, the terminating zero, and
then whatever lies behind it. -/
def literalMemory (chars : List Nat) (behind : Nat → Nat) (i : Nat) : Nat :=
  if i < chars.length then chars.getD i 0
  else if i = chars.length then 0
  else behind (i - chars.length - 1)

/-- The memory at an object with the given object representation. -/
def objectMemory (bytes : List Nat) (i : Nat) : Nat := bytes.getD i 0

namespace DumpState

/-- `DumpState::dumpBlock`: pass the `size` bytes at `b` to the writer, unless
an earlier call of the writer failed or `size` is 0. -/
def dumpBlock (C : DumpConf) (D : DumpState) (b : Nat → Nat) (size : Nat) : DumpState :=
  if D.status = 0 ∧ size > 0 then
    { status := C.writer ((List.range size).map b), out := D.out ++ (List.range size).map b }
  else D

/-- `DumpState::dumpVector`: `dumpBlock(v, n * sizeof(v[0]))`. -/
def dumpVector (C : DumpConf) (D : DumpState) (v : Nat → Nat) (n elemSize : Nat) : DumpState :=
  dumpBlock C D v (n * elemSize)

/-- `DumpState::dumpVar`: `dumpBlock(v, 1)`. -/
def dumpVar (C : DumpConf) (D : DumpState) (v : Nat → Nat) : DumpState :=
  dumpBlock C D v 1

/-- `DumpState::dumpLiteral`: `dumpBlock(s, sizeof(s) - sizeof(char))`, where
`s` is a `const char*`. -/
def dumpLiteral (C : DumpConf) (D : DumpState) (s : Nat → Nat) : DumpState :=
  dumpBlock C D s (C.sizeofPtr - 1)

/-- `DumpState::dumpByte`: the argument is cast to `lu_byte` and dumped with
`dumpVar`. -/
def dumpByte (C : DumpConf) (D : DumpState) (y : Int) : DumpState :=
  dumpVar C D (objectMemory [(y % 256).toNat])

/-- `DumpState::dumpNumber`, for a number given by its object representation. -/
def dumpNumber (C : DumpConf) (D : DumpState) (x : List Nat) : DumpState :=
  dumpVar C D (objectMemory x)

/-- `DumpState::dumpInteger`. -/
def dumpInteger (C : DumpConf) (D : DumpState) (x : Int) : DumpState :=
  dumpVar C D (objectMemory (C.integerBytes x))

/-- `DumpState::dumpHeader`. -/
def dumpHeader (C : DumpConf) (D : DumpState) : DumpState :=
  let D1 := dumpLiteral C D (literalMemory LUA_SIGNATURE C.behindSignature)
  let D2 := dumpByte C D1 LUAC_VERSION
  let D3 := dumpByte C D2 LUAC_FORMAT
  let D4 := dumpLiteral C D3 (literalMemory LUAC_DATA C.behindData)
  let D5 := dumpByte C D4 C.sizeofInstruction
  let D6 := dumpByte C D5 C.sizeofInteger
  let D7 := dumpByte C D6 C.sizeofNumber
  let D8 := dumpInteger C D7 LUAC_INT
  dumpNumber C D8 C.luacNumBytes

end DumpState

/-- The state in which `luaU::dump` starts: `status = 0`, nothing written; its
first statement is `D.dumpHeader()`. -/
def dumpStart : DumpState := { status := 0, out := [] }

/-- The header as the format describes it: the 4 signature bytes, the version
byte, the format byte, the 6 bytes of `LUAC_DATA`, the three size bytes, all the
bytes of `LUAC_INT` and all the bytes of `LUAC_NUM`. -/
def headerOfFormat (C : DumpConf) : List Nat :=
  LUA_SIGNATURE ++ [(LUAC_VERSION % 256).toNat, (LUAC_FORMAT % 256).toNat] ++ LUAC_DATA
    ++ [C.sizeofInstruction % 256, C.sizeofInteger % 256, C.sizeofNumber % 256]
    ++ C.integerBytes LUAC_INT ++ C.luacNumBytes

/-- The little-endian bytes of a value, lowest first. -/
def littleEndian : Nat → Nat → List Nat
  | 0, _ => []
  | k + 1, v => (v % 256) :: littleEndian k (v / 256)

/-- A 64-bit little-endian platform with the reference configuration
(`Instruction` of 4 bytes, `lua_Integer` and `lua_Number` of 8 bytes, IEEE
doubles: 370.5 is `0x4077280000000000`), a writer that always succeeds, and the
bytes `0xAA`, `0xBB`, ... behind the literals. -/
def dumpConf64 : DumpConf where
  sizeofPtr := 8
  sizeofInstruction := 4
  sizeofInteger := 8
  sizeofNumber := 8
  integerBytes := fun x => littleEndian 8 (x % 18446744073709551616).toNat
  luacNumBytes := littleEndian 8 0x4077280000000000
  writer := fun _ => 0
  behindSignature := fun i => 0xAA + i
  behindData := fun i => 0xAA + i

/-! ## Inflate (`image/zlib.cpp`, `image/zlib.hpp`) -/

/-- How a piece of the decoder ends: normally, by `throw Zlib::Err(reason)`,
with undefined behaviour (a pointer that was never set is dereferenced), or not
at all (also: the fuel of a loop of the model ran out). -/
inductive ZResult (α : Type) where
  | ok (a : α)
  | err (reason : String)
  | undefined
  | diverged
deriving DecidableEq, Repr

/-- Sequencing: the rest of the code runs only after a normal end. -/
def ZResult.bind {α β : Type} (r : ZResult α) (k : α → ZResult β) : ZResult β :=
  match r with
  | .ok a => k a
  | .err reason => .err reason
  | .undefined => .undefined
  | .diverged => .diverged

/-- `ZFAST_BITS`. -/
def ZFAST_BITS : Nat := 9

/-- `ZFAST_MASK`. -/
def ZFAST_MASK : Nat := 2 ^ ZFAST_BITS - 1

/-- `ZNSYMS`: number of symbols in the literal/length alphabet. -/
def ZNSYMS : Nat := 288

/-- `DEFAULT_LENGTH`: 144 times 8, 112 times 9, 24 times 7, 8 times 8. -/
def DEFAULT_LENGTH (i : Nat) : Nat :=
  (List.replicate 144 8 ++ List.replicate 112 9 ++ List.replicate 24 7
    ++ List.replicate 8 8).getD i 0

/-- `DEFAULT_DISTANCE`: 32 times 5. -/
def DEFAULT_DISTANCE (i : Nat) : Nat := (List.replicate 32 5).getD i 0

/-- `LENGTH_DE_ZIGZAG`. -/
def LENGTH_DE_ZIGZAG (i : Nat) : Nat :=
  [16, 17, 18, 0, 8, 7, 9, 6, 10, 5, 11, 4, 12, 3, 13, 2, 14, 1, 15].getD i 0

/-- `ZLENGTH_BASE`. -/
def ZLENGTH_BASE (i : Int) : Int :=
  (([3, 4, 5, 6, 7, 8, 9, 10, 11, 13] : List Int)
    ++ [15, 17, 19, 23, 27, 31, 35, 43, 51, 59]
    ++ [67, 83, 99, 115, 131, 163, 195, 227, 258, 0, 0]).getD i.toNat 0

/-- `ZLENGTH_EXTRA`. -/
def ZLENGTH_EXTRA (i : Int) : Nat :=
  ([0, 0, 0, 0, 0, 0, 0, 0]
    ++ [1, 1, 1, 1, 2, 2, 2, 2]
    ++ [3, 3, 3, 3, 4, 4, 4, 4]
    ++ [5, 5, 5, 5, 0, 0, 0]).getD i.toNat 0

/-- `ZDIST_BASE`. -/
def ZDIST_BASE (i : Int) : Int :=
  (([1, 2, 3, 4, 5, 7, 9, 13, 17, 25, 33, 49, 65, 97, 129, 193] : List Int)
    ++ [257, 385, 513, 769, 1025, 1537, 2049, 3073, 4097, 6145, 8193, 12289, 16385, 24577,
        0, 0]).getD i.toNat 0

/-- `ZDIST_EXTRA`. -/
def ZDIST_EXTRA (i : Int) : Nat :=
  ([0, 0, 0, 0, 1, 1, 2]
    ++ [2, 3, 3, 4, 4, 5, 5]
    ++ [6, 6, 7, 7, 8, 8, 9]
    ++ [9, 10, 10, 11, 11, 12, 12, 13, 13]).getD i.toNat 0

/-- `bitreverse16`. -/
def bitreverse16 (n : Nat) : Nat :=
  let n := ((n &&& 0xAAAA) >>> 1) ||| ((n &&& 0x5555) <<< 1)
  let n := ((n &&& 0xCCCC) >>> 2) ||| ((n &&& 0x3333) <<< 2)
  let n := ((n &&& 0xF0F0) >>> 4) ||| ((n &&& 0x0F0F) <<< 4)
  ((n &&& 0xFF00) >>> 8) ||| ((n &&& 0x00FF) <<< 8)

/-- `bit_reverse`: reverse 16 bits and shift away `16 - bits`. -/
def bit_reverse (v : Nat) (bits : Nat) : Nat := bitreverse16 v >>> (16 - bits)

/-- A decoding table (`struct ZHuffman`).  The arrays are kept as functions of
the index; an entry never written reads as 0. -/
structure ZHuffman where
  fast : Nat → Nat
  firstcode : Nat → Nat
  maxcode : Nat → Int
  firstsymbol : Nat → Nat
  size : Int → Nat
  value : Int → Nat

instance : Inhabited ZHuffman :=
  ⟨{ fast := fun _ => 0, firstcode := fun _ => 0, maxcode := fun _ => 0,
     firstsymbol := fun _ => 0, size := fun _ => 0, value := fun _ => 0 }⟩

/-- The counts of `zbuild_huffman`: `sizes[s]` is the number of symbols below
`num` with code length `s`, and `sizes[0] = 0`. -/
def zsizes (sizelist : Nat → Nat) (num : Nat) (s : Nat) : Nat :=
  if s = 0 then 0 else ((List.range num).filter fun i => sizelist i = s).length

/-- The second loop of `zbuild_huffman`, over the code lengths `i` of the list:
`code` and `k` are the running code and symbol count; the tables `next_code`,
`firstcode`, `firstsymbol`, `maxcode` are filled. -/
def zbuildCodes (sizes : Nat → Nat) :
    List Nat → Int → Nat → (Nat → Int) → ZHuffman → ZResult ((Nat → Int) × ZHuffman)
  | [], _, _, next_code, h => .ok (next_code, h)
  | i :: rest, code, k, next_code, h =>
    let next_code := Function.update next_code i code
    let h := { h with firstcode := Function.update h.firstcode i (code % 65536).toNat
                      firstsymbol := Function.update h.firstsymbol i (k % 65536) }
    let code := code + sizes i
    if sizes i ≠ 0 ∧ code - 1 ≥ 2 ^ i then .err "bad codelengths"
    else
      let h := { h with maxcode := Function.update h.maxcode i (code * 2 ^ (16 - i)) }
      zbuildCodes sizes rest (code * 2) (k + sizes i) next_code h

/-- The loop `while (j < (1 << ZFAST_BITS)) { fast[j] = fastv; j += (1 << s); }`. -/
def zfillFast (fastv s : Nat) : Nat → Nat → (Nat → Nat) → (Nat → Nat)
  | 0, _, fast => fast
  | fuel + 1, j, fast =>
    if j < 2 ^ ZFAST_BITS then zfillFast fastv s fuel (j + 2 ^ s) (Function.update fast j fastv)
    else fast

/-- The third loop of `zbuild_huffman`, over the symbols of the list. -/
def zbuildSymbols (sizelist : Nat → Nat) : List Nat → (Nat → Int) → ZHuffman → ZHuffman
  | [], _, h => h
  | i :: rest, next_code, h =>
    let s := sizelist i
    if s = 0 then zbuildSymbols sizelist rest next_code h
    else
      let c : Int := next_code s - h.firstcode s + h.firstsymbol s
      let fastv := ((s <<< 9) ||| i) % 65536
      let h := { h with size := Function.update h.size c (s % 256)
                        value := Function.update h.value c (i % 65536) }
      let h :=
        if s ≤ ZFAST_BITS then
          { h with fast := zfillFast fastv s (2 ^ ZFAST_BITS)
                     (bit_reverse (next_code s).toNat s) h.fast }
        else h
      zbuildSymbols sizelist rest (Function.update next_code s (next_code s + 1)) h

/-- `ZHuffman::zbuild_huffman`: build the decoding table of the code lengths
`sizelist[0 .. num-1]` in the table `h`. -/
def ZHuffman.zbuild_huffman (h : ZHuffman) (sizelist : Nat → Nat) (num : Nat) :
    ZResult ZHuffman :=
  let sizes := zsizes sizelist num
  let h := { h with fast := fun _ => 0 }
  if (List.range' 1 15).any (fun i => decide (sizes i > 2 ^ i)) then .err "bad sizes"
  else
    (zbuildCodes sizes (List.range' 1 15) 0 0 (fun _ => 0) h).bind fun r =>
      let h := { r.2 with maxcode := Function.update r.2.maxcode 16 0x10000 }
      .ok (zbuildSymbols sizelist (List.range num) r.1 h)

/-- The inputs of the decoder (`struct Zlib::Context`): the input buffer and its
length, the size of the first output buffer, the header flag, and the two
allocation callbacks, kept as what they answer: whether `malloc` gives a block
for a size, and whether `realloc` gives one for an old and a new size. -/
structure ZContext where
  buffer : List Nat
  len : Nat
  initial_size : Nat
  parse_header : Nat
  malloc : Nat → Bool
  realloc : Nat → Nat → Bool

/-- The decoder state (`struct ZBuffer`).  The input is kept as the bytes of
the buffer with the positions `zbuffer` and `zbuffer_end` in it; the output
buffer as its bytes `mem`, indexed from `zout_start`, with `zout` and `zout_end`
as offsets from `zout_start`.  The pointer `context` is kept as the context it
points to, or `none` as long as nothing has been stored in it. -/
structure ZBuffer where
  inp : List Nat
  zbuffer : Nat
  zbuffer_end : Nat
  num_bits : Nat
  hit_zeof_once : Nat
  code_buffer : Nat
  zout : Int
  zout_end : Int
  mem : Int → Nat
  z_expandable : Bool
  z_length : ZHuffman
  z_distance : ZHuffman
  context : Option ZContext

namespace ZBuffer

/-- `ZBuffer::eof`. -/
def eof (a : ZBuffer) : Bool := decide (a.zbuffer ≥ a.zbuffer_end)

/-- `ZBuffer::read_u8`. -/
def read_u8 (a : ZBuffer) : Nat × ZBuffer :=
  if a.eof then (0, a) else (a.inp.getD a.zbuffer 0, { a with zbuffer := a.zbuffer + 1 })

/-- The loop of `ZBuffer::zfill_bits`; `1U << num_bits` is taken with the
shift count modulo 32.  (The loop takes at most 5 turns.) -/
def zfill_bitsLoop : Nat → ZBuffer → ZBuffer
  | 0, a => a
  | fuel + 1, a =>
    if a.code_buffer ≥ 2 ^ (a.num_bits % 32) then { a with zbuffer := a.zbuffer_end }
    else
      let r := a.read_u8
      let a1 : ZBuffer :=
        { r.2 with code_buffer := (r.2.code_buffer ||| (r.1 <<< (a.num_bits % 32))) % 2 ^ 32
                   num_bits := (a.num_bits + 8) % 2 ^ 64 }
      if a1.num_bits ≤ 24 then zfill_bitsLoop fuel a1 else a1

/-- `ZBuffer::zfill_bits`. -/
def zfill_bits (a : ZBuffer) : ZBuffer := zfill_bitsLoop 5 a

/-- `ZBuffer::read_bits_t<N, OFS>`. -/
def read_bits_t (N OFS : Nat) (a : ZBuffer) : Nat × ZBuffer :=
  let a1 := if a.num_bits < N then a.zfill_bits else a
  let k := a1.code_buffer &&& (2 ^ N - 1)
  (k + OFS, { a1 with code_buffer := a1.code_buffer >>> N
                      num_bits := (a1.num_bits + 2 ^ 64 - N) % 2 ^ 64 })

/-- `ZBuffer::read_bits`. -/
def read_bits (n : Nat) (a : ZBuffer) : Nat × ZBuffer :=
  let a1 := if a.num_bits < n then a.zfill_bits else a
  let k := a1.code_buffer &&& (2 ^ n - 1)
  (k, { a1 with code_buffer := a1.code_buffer >>> n
                num_bits := (a1.num_bits + 2 ^ 64 - n) % 2 ^ 64 })

/-- The loop `while (cur + n > limit) { ...; limit *= 2; }` of `zexpand`. -/
def zexpandLimit (need : Int) : Nat → Nat → ZResult Nat
  | 0, _ => .diverged
  | fuel + 1, limit =>
    if need > limit then
      if limit > 4294967295 / 2 then .err "outofmem"
      else zexpandLimit need fuel ((limit * 2) % 2 ^ 32)
    else .ok limit

/-- `ZBuffer::zexpand`: make room for `n` bytes.  The new block is asked from
`this->context->realloc_t`, which gives a block whose contents are those of the
old one when the callback `realloc` of the context gives one for the old and the
new size; when nothing has been stored in `context`, the call through it has
no defined behaviour. -/
def zexpand (fuel : Nat) (a : ZBuffer) (zout : Int) (n : Int) : ZResult ZBuffer :=
  let a := { a with zout := zout }
  if ¬ a.z_expandable then .err "output buffer limit"
  else
    let cur := a.zout
    let old_limit := (a.zout_end % 2 ^ 32).toNat
    if 4294967295 - cur < n then .err "outofmem"
    else
      (zexpandLimit (cur + n) fuel old_limit).bind fun limit =>
        match a.context with
        | none => .undefined
        | some c =>
          if c.realloc old_limit limit then .ok { a with zout := cur, zout_end := limit }
          else .err "outofmem"

/-- The search `for (s2 = ZFAST_BITS + 1; ; ++s2) if (k2 < z.maxcode[s2]) break;`
of `zhuffman_decode`; it ends at the sentinel `maxcode[16]`. -/
def zslowSize (z : ZHuffman) (k2 : Nat) : Nat → Nat → Nat
  | 0, s2 => s2
  | fuel + 1, s2 => if (k2 : Int) < z.maxcode s2 then s2 else zslowSize z k2 fuel (s2 + 1)

/-- `ZBuffer::zhuffman_decode`: the next symbol, or -1. -/
def zhuffman_decode (a : ZBuffer) (z : ZHuffman) : Int × ZBuffer :=
  let pre : Option ZBuffer :=
    if a.num_bits < 16 then
      if a.eof then
        if a.hit_zeof_once = 0 then
          some { a with hit_zeof_once := 1, num_bits := (a.num_bits + 16) % 2 ^ 64 }
        else none
      else some a.zfill_bits
    else some a
  match pre with
  | none => (-1, a)
  | some a =>
    let b := z.fast (a.code_buffer &&& ZFAST_MASK)
    if b ≠ 0 then
      let s := b >>> 9
      ((b &&& 511 : Nat),
        { a with code_buffer := a.code_buffer >>> s
                 num_bits := (a.num_bits + 2 ^ 64 - s) % 2 ^ 64 })
    else
      let k2 := bit_reverse a.code_buffer 16
      let s2 := zslowSize z k2 7 (ZFAST_BITS + 1)
      if s2 ≥ 16 then (-1, a)
      else
        let b2 : Int := ((k2 >>> (16 - s2) : Nat) : Int) - z.firstcode s2 + z.firstsymbol s2
        if b2 ≥ ZNSYMS then (-1, a)
        else if z.size b2 ≠ s2 then (-1, a)
        else
          ((z.value b2 : Nat),
            { a with code_buffer := a.code_buffer >>> s2
                     num_bits := (a.num_bits + 2 ^ 64 - s2) % 2 ^ 64 })

end ZBuffer

/-- The loop `do *zout++ = v; while (--len);` (a run of one byte). -/
def zcopyRun (v : Nat) : Nat → Int → (Int → Nat) → (Int → Nat)
  | 0, _, mem => mem
  | len + 1, zout, mem => zcopyRun v len (zout + 1) (Function.update mem zout v)

/-- The loop `do *zout++ = *p2++; while (--len);`. -/
def zcopyBack : Nat → Int → Int → (Int → Nat) → (Int → Nat)
  | 0, _, _, mem => mem
  | len + 1, zout, p2, mem => zcopyBack len (zout + 1) (p2 + 1) (Function.update mem zout (mem p2))

/-- One turn of the loop `for (;;)` that decodes the symbols of a compressed
block (`zparse_huffman_block`, inlined in the decoder): a symbol is decoded and
handled; `zout` is the local output pointer.  The result is the state and the
local output pointer at the end of the loop body, where the loop goes on. -/
def zblockTurn (a : ZBuffer) (zout : Int) : ZResult (ZBuffer × Int) :=
  let r := a.zhuffman_decode a.z_length
  let z := r.1
  let a := r.2
  if z < 256 then
    if z < 0 then .err "bad huffman code"
    else
      let expanded : ZResult (ZBuffer × Int) :=
        if zout ≥ a.zout_end then
          (a.zexpand 64 zout 1).bind fun a1 => .ok (a1, a1.zout)
        else .ok (a, zout)
      expanded.bind fun e =>
        .ok ({ e.1 with mem := Function.update e.1.mem e.2 (z % 256).toNat }, e.2 + 1)
  else if z = 256 then
    let a := { a with zout := zout }
    if a.hit_zeof_once ≠ 0 ∧ a.num_bits < 16 then .err "unexpected end"
    else .ok (a, zout)
  else if z ≥ 286 then .err "bad huffman code"
  else
    let z := z - 257
    let len := ZLENGTH_BASE z
    let rl : Int × ZBuffer :=
      if ZLENGTH_EXTRA z ≠ 0 then
        let rb := a.read_bits (ZLENGTH_EXTRA z)
        (len + rb.1, rb.2)
      else (len, a)
    let len := rl.1
    let a := rl.2
    let rd := a.zhuffman_decode a.z_distance
    let z := rd.1
    let a := rd.2
    if z < 0 ∨ z ≥ 30 then .err "bad huffman code"
    else
      let dist := ZDIST_BASE z
      let rdist : Int × ZBuffer :=
        if ZDIST_EXTRA z ≠ 0 then
          let rb := a.read_bits (ZDIST_EXTRA z)
          (dist + rb.1, rb.2)
        else (dist, a)
      let dist := rdist.1
      let a := rdist.2
      if zout < dist then .err "bad dist"
      else
        let expanded : ZResult (ZBuffer × Int) :=
          if len > a.zout_end - zout then
            (a.zexpand 64 zout len).bind fun a1 => .ok (a1, a1.zout)
          else .ok (a, zout)
        expanded.bind fun e =>
          let a := e.1
          let zout := e.2
          let p2 := zout - dist
          let mem :=
            if dist = 1 then zcopyRun (a.mem p2) len.toNat zout a.mem
            else zcopyBack len.toNat zout p2 a.mem
          .ok ({ a with mem := mem }, zout + len)

/-- The loop `for (;;)` over the symbols of a compressed block: turn after
turn, with no exit of its own.  Every turn takes one unit of `fuel`. -/
def zparseHuffmanBlock : Nat → ZBuffer → Int → ZResult ZBuffer
  | 0, _, _ => .diverged
  | fuel + 1, a, zout =>
    (zblockTurn a zout).bind fun e => zparseHuffmanBlock fuel e.1 e.2

/-- The loop that drains the bit buffer into `header` at the start of a stored
block; the result is the bytes taken, in order, or the error. -/
def zdrainHeader (pev_bits : Nat) : Nat → ZBuffer → List Nat → ZResult (ZBuffer × List Nat)
  | 0, _, _ => .diverged
  | fuel + 1, a, header =>
    if a.num_bits > 0 then
      let header := header ++ [a.code_buffer &&& 255]
      let a := { a with code_buffer := a.code_buffer >>> 8
                        num_bits := (a.num_bits + 2 ^ 64 - 8) % 2 ^ 64 }
      if a.num_bits > pev_bits then .err "zlib corrupt"
      else zdrainHeader pev_bits fuel a header
    else .ok (a, header)

/-- The loop `while (k < 4) header[k++] = a.read_u8();`. -/
def zfillHeader : Nat → ZBuffer → List Nat → ZBuffer × List Nat
  | 0, a, header => (a, header)
  | fuel + 1, a, header =>
    if header.length < 4 then
      let r := a.read_u8
      zfillHeader fuel r.2 (header ++ [r.1])
    else (a, header)

/-- The loop `memcpy(a.zout, a.zbuffer, len)`. -/
def zcopyIn (inp : List Nat) : Nat → Nat → Int → (Int → Nat) → (Int → Nat)
  | 0, _, _, mem => mem
  | len + 1, src, dst, mem =>
    zcopyIn inp len (src + 1) (dst + 1) (Function.update mem dst (inp.getD src 0))

/-- The branch `type == 0` of the decoder: a stored block. -/
def zstoredBlock (a : ZBuffer) : ZResult ZBuffer :=
  let a := if a.num_bits &&& 7 ≠ 0 then (a.read_bits (a.num_bits &&& 7)).2 else a
  (zdrainHeader a.num_bits 9 a []).bind fun r =>
    let r := zfillHeader 4 r.1 r.2
    let a := r.1
    let header := r.2
    let len : Nat := header.getD 1 0 * 256 + header.getD 0 0
    let nlen : Nat := header.getD 3 0 * 256 + header.getD 2 0
    if nlen ≠ len ^^^ 0xffff then .err "zlib corrupt"
    else if a.zbuffer + len > a.zbuffer_end then .err "read past buffer"
    else
      let expanded : ZResult ZBuffer :=
        if a.zout + len > a.zout_end then a.zexpand 64 a.zout len else .ok a
      expanded.bind fun a =>
        .ok { a with mem := zcopyIn a.inp len a.zbuffer a.zout a.mem
                     zbuffer := a.zbuffer + len
                     zout := a.zout + len }

/-- The loop `while (n < ntot)` that reads the code lengths of a dynamic
block into `lencodes`. -/
def zreadLengths (z_codelength : ZHuffman) (ntot : Int) :
    Nat → ZBuffer → Int → (Int → Nat) → ZResult (ZBuffer × Int × (Int → Nat))
  | 0, _, _, _ => .diverged
  | fuel + 1, a, n, lencodes =>
    if n < ntot then
      let r := a.zhuffman_decode z_codelength
      let c := r.1
      let a := r.2
      if c < 0 ∨ c ≥ 19 then .err "bad codelengths"
      else if c < 16 then
        zreadLengths z_codelength ntot fuel a (n + 1) (Function.update lencodes n (c % 256).toNat)
      else
        let rep : ZResult (Nat × Nat × ZBuffer) :=
          if c = 16 then
            let rb := a.read_bits_t 2 3
            if n = 0 then .err "bad codelengths"
            else .ok (lencodes (n - 1), rb.1, rb.2)
          else if c = 17 then
            let rb := a.read_bits_t 3 3
            .ok (0, rb.1, rb.2)
          else if c = 18 then
            let rb := a.read_bits_t 7 11
            .ok (0, rb.1, rb.2)
          else .err "bad codelengths"
        rep.bind fun t =>
          let fill := t.1
          let c : Int := t.2.1
          let a := t.2.2
          if ntot - n < c then .err "bad codelengths"
          else
            zreadLengths z_codelength ntot fuel a (n + c)
              (fun i => if n ≤ i ∧ i < n + c then fill else lencodes i)
    else .ok (a, n, lencodes)

/-- The loop that reads the lengths of the code length code. -/
def zreadCodelengthSizes : List Nat → ZBuffer → (Nat → Nat) → ZBuffer × (Nat → Nat)
  | [], a, sizes => (a, sizes)
  | i :: rest, a, sizes =>
    let r := a.read_bits 3
    zreadCodelengthSizes rest r.2 (Function.update sizes (LENGTH_DE_ZIGZAG i) (r.1 % 256))

/-- The branch `type == 2` up to the tables (`zcompute_huffman_codes`, inlined
in the decoder). -/
def zcomputeHuffmanCodes (a : ZBuffer) : ZResult ZBuffer :=
  let r1 := a.read_bits_t 5 257
  let hlit := r1.1
  let r2 := r1.2.read_bits_t 5 1
  let hdist := r2.1
  let r3 := r2.2.read_bits_t 4 4
  let hclen := r3.1
  let ntot : Int := hlit + hdist
  let r4 := zreadCodelengthSizes (List.range hclen) r3.2 (fun _ => 0)
  ((default : ZHuffman).zbuild_huffman r4.2 19).bind fun z_codelength =>
    (zreadLengths z_codelength ntot 400 r4.1 0 (fun _ => 0)).bind fun t =>
      let a := t.1
      let n := t.2.1
      let lencodes := t.2.2
      if n ≠ ntot then .err "bad codelengths"
      else
        (a.z_length.zbuild_huffman (fun i => lencodes i) hlit).bind fun zl =>
          (a.z_distance.zbuild_huffman (fun i => lencodes (hlit + i)) hdist).bind fun zd =>
            .ok { a with z_length := zl, z_distance := zd }

/-- The loop `do { ... } while (!final);` over the blocks.  Every block takes
one unit of `fuel`, and a compressed block has `fuel` turns for its symbols. -/
def zblocks (fuel : Nat) : Nat → ZBuffer → ZResult ZBuffer
  | 0, _ => .diverged
  | bfuel + 1, a =>
    let rf := a.read_bits_t 1 0
    let final := rf.1 % 256
    let rt := rf.2.read_bits_t 2 0
    let type := rt.1
    let a := rt.2
    let block : ZResult ZBuffer :=
      if type = 0 then zstoredBlock a
      else if type = 3 then .err "zdo_zlib: type == 3"
      else
        let tables : ZResult ZBuffer :=
          if type = 1 then
            (a.z_length.zbuild_huffman DEFAULT_LENGTH ZNSYMS).bind fun zl =>
              (a.z_distance.zbuild_huffman DEFAULT_DISTANCE 32).bind fun zd =>
                .ok { a with z_length := zl, z_distance := zd }
          else zcomputeHuffmanCodes a
        tables.bind fun a => zparseHuffmanBlock fuel a a.zout
    block.bind fun a => if final = 0 then zblocks fuel bfuel a else .ok a

/-- The header check of the decoder (`if (parse_header) { ... }`). -/
def zparseHeader (a : ZBuffer) : ZResult ZBuffer :=
  let r1 := a.read_u8
  let cmf := r1.1
  let cm := cmf &&& 15
  let r2 := r1.2.read_u8
  let flg := r2.1
  let a := r2.2
  if a.eof then .err "bad zlib header"
  else if (cmf * 256 + flg) % 31 ≠ 0 then .err "bad zlib header"
  else if flg &&& 32 ≠ 0 then .err "no preset dict"
  else if cm ≠ 8 then .err "bad compression"
  else .ok a

/-- The decoder state set up at the start of
`Zlib::Context::decode_malloc_guesssize_headerflag`, after the first output
buffer has been allocated: the local `ZBuffer a` gets its input and output
pointers and `z_expandable`; nothing is stored in `a.context`. -/
def ZContext.start (C : ZContext) : ZBuffer :=
  { inp := C.buffer, zbuffer := 0, zbuffer_end := C.len, num_bits := 0,
    hit_zeof_once := 0, code_buffer := 0, zout := 0, zout_end := C.initial_size,
    mem := fun _ => 0, z_expandable := decide (C.parse_header ≠ 0),
    z_length := default, z_distance := default, context := none }

/-- The decoder state in which the loop over the blocks starts: the header has
been checked, if asked for, and the bit buffer is empty. -/
def ZContext.headed (C : ZContext) : ZResult ZBuffer :=
  (if C.parse_header ≠ 0 then zparseHeader C.start else .ok C.start).bind fun a =>
    .ok { a with num_bits := 0, code_buffer := 0, hit_zeof_once := 0 }

/-- `Zlib::Context::decode_malloc_guesssize_headerflag`: the result is the
output buffer (its first `out_len` bytes) and `out_len`. -/
def ZContext.decode (C : ZContext) (fuel : Nat) : ZResult (List Nat × Nat) :=
  if ¬ C.malloc C.initial_size then .err "Out of memory"
  else
    C.headed.bind fun a =>
      (zblocks fuel fuel a).bind fun a =>
        .ok ((List.range a.zout.toNat).map (fun (i : Nat) => a.mem (i : Int)), a.zout.toNat)

/-- The allocation callbacks always give a block. -/
def zcontextOf (bytes : List Nat) (initial_size : Nat) (parse_header : Nat) : ZContext :=
  { buffer := bytes, len := bytes.length, initial_size := initial_size,
    parse_header := parse_header, malloc := fun _ => true, realloc := fun _ _ => true }

/-- The zlib stream of the one-byte text `a`, as a compressor writes it: the
header `78 9C`, one final block with the fixed code (`4B 04 00`: the bits of
the header of the block, the literal 97 and the end-of-block symbol 256), and
the Adler-32 checksum `00 62 00 62`. -/
def zstreamFixed : List Nat := [0x78, 0x9C, 0x4B, 0x04, 0x00, 0x00, 0x62, 0x00, 0x62]

/-- The zlib stream of the one-byte text `a` with a stored final block: the
header `78 01`, the block `01 01 00 FE FF 61`, and the checksum. -/
def zstreamStored : List Nat :=
  [0x78, 0x01, 0x01, 0x01, 0x00, 0xFE, 0xFF, 0x61, 0x00, 0x62, 0x00, 0x62]

/-- The tables of the fixed code, as the decoder builds them for a block of
type 1. -/
def zfixedLength : ZHuffman :=
  match (default : ZHuffman).zbuild_huffman DEFAULT_LENGTH ZNSYMS with
  | .ok h => h
  | _ => default

/-- The distance table of the fixed code. -/
def zfixedDistance : ZHuffman :=
  match (default : ZHuffman).zbuild_huffman DEFAULT_DISTANCE 32 with
  | .ok h => h
  | _ => default

/-- A decoder inside a block with the fixed code whose next bits are the seven
zero bits of the end-of-block symbol, with 25 more bits in the bit buffer, the
input not used up, and one byte written. -/
def zbufferAtEnd : ZBuffer :=
  { inp := [0x62, 0x00, 0x62], zbuffer := 0, zbuffer_end := 3, num_bits := 32,
    hit_zeof_once := 0, code_buffer := 0, zout := 0, zout_end := 16,
    mem := fun i => if i = 0 then 97 else 0, z_expandable := true,
    z_length := zfixedLength, z_distance := zfixedDistance, context := none }

/-! ## The block list of the image decoder (`image/stb_image.cpp`) -/

/-- `MAX_ALLOCATIONS`. -/
def MAX_ALLOCATIONS : Nat := 128

/-- The header in front of a block (`struct Allocation`), with the address of
the block as its identity; `next` is the order of the list. -/
structure Allocation where
  addr : Nat
  magic : Nat
  freed : Bool
  size : Nat
deriving DecidableEq, Repr, Inhabited

/-- What the allocator callback returns: the address of a block of raw memory,
and the value that this memory holds where the field `magic` will lie (the
callback gives raw memory; `allocate` does not write the field). -/
structure RawBlock where
  addr : Nat
  magic : Nat
deriving DecidableEq, Repr, Inhabited

/-- The part of `struct DecodeContext` that manages memory: the number of
blocks obtained, and the list of the block headers from `head.next` on. -/
structure DecodeContext where
  allocate_index : Nat
  blocks : List Allocation
deriving DecidableEq, Repr, Inhabited

/-- The walk of `DecodeContext::allocate` through the list, from `head.next`
on: the first node that is freed and whose size is at most `size` is marked as
not freed; the result is its address and the list, or `none` when the walk
comes back to `head`. -/
def reuseFreed (size : Nat) : List Allocation → Option (Nat × List Allocation)
  | [] => none
  | node :: rest =>
    if node.freed = true ∧ node.size ≤ size then
      some (node.addr, { node with freed := false } :: rest)
    else (reuseFreed size rest).map fun r => (r.1, node :: r.2)

namespace DecodeContext

/-- `DecodeContext::allocate`: the pointer returned (`none` for null) and the
context.  `allocator` is the callback, asked here for the `k`-th block and a
size; `sizeofAllocation` is the size of the header. -/
def allocate (allocator : Nat → Nat → Option RawBlock) (sizeofAllocation : Nat)
    (s : DecodeContext) (size : Nat) : Option Nat × DecodeContext :=
  if s.allocate_index ≥ MAX_ALLOCATIONS then (none, s)
  else
    match reuseFreed size s.blocks with
    | some r => (some r.1, { s with blocks := r.2 })
    | none =>
      match allocator s.allocate_index (size + sizeofAllocation) with
      | none => (none, s)
      | some outs =>
        let entry : Allocation :=
          { addr := outs.addr, magic := outs.magic, freed := false, size := size }
        (some outs.addr,
          { allocate_index := s.allocate_index + 1, blocks := entry :: s.blocks })

/-- `DecodeContext::free`; a pointer that is not the address of a block of the
list is taken to fail the magic check. -/
def free (s : DecodeContext) (thing : Nat) : Except String DecodeContext :=
  match s.blocks.findIdx? (fun node => node.addr == thing) with
  | none => .error "tried freeing a bogus block!"
  | some i =>
    let entry := s.blocks.getD i default
    if entry.magic ≠ 292202 then .error "tried freeing a bogus block!"
    else if entry.freed then
      .error "tried freeing an already freed block! this is a mistake!"
    else .ok { s with blocks := s.blocks.set i { entry with freed := true } }

/-- `DecodeContext::reallocate`. -/
def reallocate (allocator : Nat → Nat → Option RawBlock) (sizeofAllocation : Nat)
    (s : DecodeContext) (thing : Nat) (news : Nat) : Except String (Option Nat × DecodeContext) :=
  if news = 0 then (s.free thing).bind fun s1 => .ok (none, s1)
  else
    let a := (s.blocks.find? (fun node => node.addr == thing)).getD default
    if a.size ≥ news then .ok (some thing, s)
    else .ok (allocate allocator sizeofAllocation s news)

/-- The context of a new decoder: no block yet (`head.next = &head`). -/
def empty : DecodeContext := { allocate_index := 0, blocks := [] }

end DecodeContext

/-- An allocator callback that always gives a block, at the address
`1000 * (k + 1)`, in memory that holds the value 292202 where the field `magic`
will lie. -/
def allocatorMagic (k : Nat) (_size : Nat) : Option RawBlock :=
  some { addr := 1000 * (k + 1), magic := 292202 }
/-! ## Basic facts -/

@[simp] theorem Machine.th_setTh_same (m : Machine) (L : Nat) (s : lua_State) :
    (m.setTh L s).th L = s := by
  simp [Machine.th, Machine.setTh]

theorem Machine.th_setTh_ne (m : Machine) (L L' : Nat) (s : lua_State) (h : L' ≠ L) :
    (m.setTh L s).th L' = m.th L' := by
  simp [Machine.th, Machine.setTh, Function.update_noteq h]

/-- Code whose returned value is known has returned, in the machine in which
it ended. -/
theorem Outcome.ret_of_value {α : Type} (o : Outcome α) (v : α) (d : Machine)
    (h : o.value? = some v) : o = .ret v (o.machineD d) := by
  cases o with
  | ret v1 m1 =>
    simp only [Outcome.value?, Option.some.injEq] at h
    rw [h]
    rfl
  | thrown m1 => simp [Outcome.value?] at h
  | aborted m1 => simp [Outcome.value?] at h
  | diverged => simp [Outcome.value?] at h

/-- Code that ended by an exception threw it in the machine in which it
ended. -/
theorem Outcome.thrown_of_isThrown {α : Type} (o : Outcome α) (d : Machine)
    (h : o.isThrown = true) : o = .thrown (o.machineD d) := by
  cases o with
  | ret v1 m1 => simp [Outcome.isThrown] at h
  | thrown m1 => rfl
  | aborted m1 => simp [Outcome.isThrown] at h
  | diverged => simp [Outcome.isThrown] at h

/-- `lthrow` does not return. -/
theorem luaD.lthrow_ne_ret {α : Type} (E : LuaEnv) (m : Machine) (L : Nat) (c : Int) (v : α)
    (m' : Machine) : luaD.lthrow E m L c ≠ .ret v m' := by
  unfold luaD.lthrow
  cases (m.th L).errorJmp with
  | some j => simp
  | none =>
    simp only
    cases E.luaE_resetthread m L c with
    | ret c1 m1 =>
      simp only [Outcome.bind]
      cases (m1.th m1.g.mainthread).errorJmp with
      | some j => simp
      | none =>
        simp only
        cases m1.g.panic with
        | none => simp
        | some pf =>
          simp only
          cases E.panicf pf m1 L <;> simp
    | thrown m1 => simp [Outcome.bind]
    | aborted m1 => simp [Outcome.bind]
    | diverged => simp [Outcome.bind]

/-- With a recovery point on the thread, `lthrow` stores the code in it and throws. -/
theorem luaD.lthrow_handler {α : Type} (E : LuaEnv) (m : Machine) (L : Nat) (c : Int) (j : Nat)
    (h : (m.th L).errorJmp = some j) :
    (luaD.lthrow E m L c : Outcome α)
      = .thrown { m with ljs := Function.update m.ljs j { m.ljs j with status := c } } := by
  unfold luaD.lthrow
  rw [h]

/-- `luaG_runerror` does not return. -/
theorem luaG_runerror_ne_ret {α : Type} (E : LuaEnv) (m : Machine) (L : Nat) (msg : String)
    (v : α) (m' : Machine) : luaG_runerror E m L msg ≠ .ret v m' := by
  unfold luaG_runerror
  exact luaD.lthrow_ne_ret _ _ _ _ _ _

/-- Turning the pointers into offsets and back, with the base unchanged,
restores them. -/
theorem relstack_correctstack_fields (K : LuaConf) (s : lua_State) :
    (correctstack K (relstack s)).top = s.top ∧
    (correctstack K (relstack s)).stack = s.stack ∧
    (correctstack K (relstack s)).stack_last = s.stack_last ∧
    (correctstack K (relstack s)).tbclist = s.tbclist := by
  simp [correctstack, relstack, luaD.savestack, luaD.restorestack]

/-- What a successful `reallocstack` leaves behind. -/
theorem luaD.reallocstack_some (E : LuaEnv) (K : LuaConf) (m : Machine) (L : Nat)
    (newsize r p : Int)
    (h : E.realloc (luaD.reallocstackEntry m L) L (m.th L).stack
          ((m.th L).stacksize + K.EXTRA_STACK) (newsize + K.EXTRA_STACK) = some p) :
    ∃ m', luaD.reallocstack E K m L newsize r = .ret 1 m' ∧
      (m'.th L).stack = p ∧
      (m'.th L).stack_last = p + newsize ∧
      (m'.th L).top = p + ((m.th L).top - (m.th L).stack) ∧
      (m'.th L).stacksize = newsize ∧
      (m'.th L).errorJmp = (m.th L).errorJmp ∧
      m'.g = m.g ∧ m'.ljs = m.ljs ∧ m'.njmp = m.njmp ∧ (m'.th L).ci = (m.th L).ci := by
  have hs : ((luaD.reallocstackEntry m L).th L).stack = (m.th L).stack := by
    simp [luaD.reallocstackEntry, Machine.th, Machine.setTh, relstack]
  unfold luaD.reallocstack
  simp only [hs, h]
  refine ⟨_, rfl, ?_⟩
  simp [luaD.reallocstackEntry, Machine.th, Machine.setTh, relstack, correctstack,
    luaD.savestack, luaD.restorestack, lua_State.stacksize]

/-- What `reallocstack` does when the allocator refuses. -/
theorem luaD.reallocstack_none (E : LuaEnv) (K : LuaConf) (m : Machine) (L : Nat)
    (newsize r : Int)
    (h : E.realloc (luaD.reallocstackEntry m L) L (m.th L).stack
          ((m.th L).stacksize + K.EXTRA_STACK) (newsize + K.EXTRA_STACK) = none) :
    ∃ m', (luaD.reallocstack E K m L newsize r
            = if r ≠ 0 then luaD.lthrow E m' L LUA_ERRMEM else .ret 0 m') ∧
      (m'.th L).stack = (m.th L).stack ∧
      (m'.th L).stack_last = (m.th L).stack_last ∧
      (m'.th L).top = (m.th L).top ∧
      (m'.th L).stacksize = (m.th L).stacksize ∧
      (m'.th L).errorJmp = (m.th L).errorJmp ∧
      m'.g = m.g ∧ m'.ljs = m.ljs ∧ m'.njmp = m.njmp ∧ (m'.th L).ci = (m.th L).ci := by
  have hs : ((luaD.reallocstackEntry m L).th L).stack = (m.th L).stack := by
    simp [luaD.reallocstackEntry, Machine.th, Machine.setTh, relstack]
  unfold luaD.reallocstack
  simp only [hs, h]
  refine ⟨_, rfl, ?_⟩
  simp [luaD.reallocstackEntry, Machine.th, Machine.setTh, relstack, correctstack,
    luaD.savestack, luaD.restorestack, lua_State.stacksize]

/-- When `reallocstack` returns 1 the stack has the requested size and `top`
keeps its offset from the base. -/
theorem luaD.reallocstack_ret_one (E : LuaEnv) (K : LuaConf) (m : Machine) (L : Nat)
    (newsize r : Int) (v : Int) (m' : Machine)
    (h : luaD.reallocstack E K m L newsize r = .ret v m') (hv : v ≠ 0) :
    (m'.th L).stack_last - (m'.th L).stack = newsize ∧
    (m'.th L).top - (m'.th L).stack = (m.th L).top - (m.th L).stack := by
  cases ha : E.realloc (luaD.reallocstackEntry m L) L (m.th L).stack
          ((m.th L).stacksize + K.EXTRA_STACK) (newsize + K.EXTRA_STACK) with
  | none =>
    obtain ⟨m1, h1, -⟩ := luaD.reallocstack_none E K m L newsize r ha
    rw [h1] at h
    by_cases hr : r ≠ 0
    · rw [if_pos hr] at h
      exact absurd h (luaD.lthrow_ne_ret _ _ _ _ _ _)
    · rw [if_neg hr] at h
      injection h with h2 h3
      exact absurd h2.symm hv
  | some p =>
    obtain ⟨m1, h1, h2, h3, h4, -⟩ := luaD.reallocstack_some E K m L newsize r p ha
    rw [h1] at h
    injection h with h5 h6
    subst h6
    rw [h2, h3, h4]
    constructor <;> ring

/-! ## Growing the stack (C1 to C4) -/

/-- The overflow path of `growstack` returns 0 when it returns. -/
theorem luaD.growstackOverflow_ret (E : LuaEnv) (K : LuaConf) (m : Machine) (L : Nat)
    (r v : Int) (m' : Machine) (h : luaD.growstackOverflow E K m L r = .ret v m') : v = 0 := by
  unfold luaD.growstackOverflow at h
  cases h2 : luaD.reallocstack E K m L (ERRORSTACKSIZE K) r with
  | ret v2 m2 =>
    rw [h2] at h
    simp only [Outcome.bind] at h
    by_cases hr : r ≠ 0
    · rw [if_pos hr] at h
      exact absurd h (luaG_runerror_ne_ret _ _ _ _ _ _)
    · rw [if_neg hr] at h
      injection h with h3 _
      exact h3.symm
  | thrown m2 => rw [h2] at h; simp [Outcome.bind] at h
  | aborted m2 => rw [h2] at h; simp [Outcome.bind] at h
  | diverged => rw [h2] at h; simp [Outcome.bind] at h

/-- The size computed by `growstack` covers what was asked for. -/
theorem luaD.growstackNewsize_ge (K : LuaConf) (s : lua_State) (n : Int) :
    (s.top - s.stack) + n ≤ luaD.growstackNewsize K s n := by
  unfold luaD.growstackNewsize
  simp only
  split_ifs <;> omega

/-- When `growstack` returns a non-zero value the stack has room for `n` more
slots and `top` keeps its offset. -/
theorem luaD.growstack_ret_nonzero (E : LuaEnv) (K : LuaConf) (m : Machine) (L : Nat)
    (n r v : Int) (m' : Machine) (h : luaD.growstack E K m L n r = .ret v m') (hv : v ≠ 0) :
    n ≤ (m'.th L).stack_last - (m'.th L).top ∧
    (m'.th L).top - (m'.th L).stack = (m.th L).top - (m.th L).stack := by
  unfold luaD.growstack at h
  simp only at h
  by_cases h1 : (m.th L).stacksize > K.LUAI_MAXSTACK
  · rw [if_pos h1] at h
    by_cases hr : r ≠ 0
    · rw [if_pos hr] at h
      exact absurd h (luaD.lthrow_ne_ret _ _ _ _ _ _)
    · rw [if_neg hr] at h
      injection h with h5 _
      exact absurd h5.symm hv
  · rw [if_neg h1] at h
    by_cases h2 : n < K.LUAI_MAXSTACK
    · rw [if_pos h2] at h
      by_cases h3 : luaD.growstackNewsize K (m.th L) n ≤ K.LUAI_MAXSTACK
      · rw [if_pos h3] at h
        obtain ⟨hsz, htop⟩ := luaD.reallocstack_ret_one E K m L _ r v m' h hv
        refine ⟨?_, htop⟩
        have := luaD.growstackNewsize_ge K (m.th L) n
        omega
      · rw [if_neg h3] at h
        exact absurd (luaD.growstackOverflow_ret E K m L r v m' h) hv
    · rw [if_neg h2] at h
      exact absurd (luaD.growstackOverflow_ret E K m L r v m' h) hv

/-- With `raiseerror` set, `growstack` returns only after a successful growth. -/
theorem luaD.growstack_raise_ret (E : LuaEnv) (K : LuaConf) (m : Machine) (L : Nat)
    (n r v : Int) (m' : Machine) (hr : r ≠ 0) (h : luaD.growstack E K m L n r = .ret v m') :
    v ≠ 0 := by
  unfold luaD.growstack at h
  simp only at h
  have hover : ∀ v m', luaD.growstackOverflow E K m L r ≠ .ret v m' := by
    intro v m' h
    unfold luaD.growstackOverflow at h
    cases h2 : luaD.reallocstack E K m L (ERRORSTACKSIZE K) r with
    | ret v2 m2 =>
      rw [h2] at h
      simp only [Outcome.bind, if_pos hr] at h
      exact absurd h (luaG_runerror_ne_ret _ _ _ _ _ _)
    | thrown m2 => rw [h2] at h; simp [Outcome.bind] at h
    | aborted m2 => rw [h2] at h; simp [Outcome.bind] at h
    | diverged => rw [h2] at h; simp [Outcome.bind] at h
  by_cases h1 : (m.th L).stacksize > K.LUAI_MAXSTACK
  · rw [if_pos h1, if_pos hr] at h
    exact absurd h (luaD.lthrow_ne_ret _ _ _ _ _ _)
  · rw [if_neg h1] at h
    by_cases h2 : n < K.LUAI_MAXSTACK
    · rw [if_pos h2] at h
      by_cases h3 : luaD.growstackNewsize K (m.th L) n ≤ K.LUAI_MAXSTACK
      · rw [if_pos h3] at h
        cases ha : E.realloc (luaD.reallocstackEntry m L) L (m.th L).stack
            ((m.th L).stacksize + K.EXTRA_STACK)
            (luaD.growstackNewsize K (m.th L) n + K.EXTRA_STACK) with
        | none =>
          obtain ⟨m1, h4, -⟩ := luaD.reallocstack_none E K m L _ r ha
          rw [h4, if_pos hr] at h
          exact absurd h (luaD.lthrow_ne_ret _ _ _ _ _ _)
        | some p =>
          obtain ⟨m1, h4, -⟩ := luaD.reallocstack_some E K m L _ r p ha
          rw [h4] at h
          injection h with h5 _
          rw [← h5]
          decide
      · rw [if_neg h3] at h
        exact absurd h (hover _ _)
    · rw [if_neg h2] at h
      exact absurd h (hover _ _)

/-- C1: if `luaD::growstack(L, n, raiseerror)` returns 1, or `luaD::checkstack(L, n)`
returns, then afterwards `stack_last - top >= n`, and `top` is at the same
offset from the stack base as before. -/
theorem growstack_ensures_capacity (E : LuaEnv) (K : LuaConf) (m : Machine) (L : Nat)
    (n r : Int) (m' : Machine)
    (h : luaD.growstack E K m L n r = .ret 1 m' ∨ luaD.checkstack E K m L n = .ret () m') :
    n ≤ (m'.th L).stack_last - (m'.th L).top ∧
    (m'.th L).top - (m'.th L).stack = (m.th L).top - (m.th L).stack := by
  rcases h with h | h
  · exact luaD.growstack_ret_nonzero E K m L n r 1 m' h (by decide)
  · unfold luaD.checkstack at h
    by_cases h1 : (m.th L).stack_last - (m.th L).top ≤ n
    · rw [if_pos h1] at h
      cases h2 : luaD.growstack E K m L n 1 with
      | ret v m2 =>
        rw [h2] at h
        simp only [Outcome.bind] at h
        injection h with _ h3
        subst h3
        exact luaD.growstack_ret_nonzero E K m L n 1 v m2 h2
          (luaD.growstack_raise_ret E K m L n 1 v m2 (by decide) h2)
      | thrown m2 => rw [h2] at h; simp [Outcome.bind] at h
      | aborted m2 => rw [h2] at h; simp [Outcome.bind] at h
      | diverged => rw [h2] at h; simp [Outcome.bind] at h
    · rw [if_neg h1] at h
      injection h with _ h3
      subst h3
      exact ⟨by omega, rfl⟩

/-- Witness for C1: a fresh thread (40 slots, one in use) asked for 100 more
slots is reallocated and has them. -/
theorem growstack_ensures_capacity_witness :
    (luaD.growstack env0 stdConf machine0 0 100 0).value? = some 1 ∧
    (100 : Int) ≤
      (((luaD.growstack env0 stdConf machine0 0 100 0).machineD machine0).th 0).stack_last
        - (((luaD.growstack env0 stdConf machine0 0 100 0).machineD machine0).th 0).top ∧
    (((luaD.growstack env0 stdConf machine0 0 100 0).machineD machine0).th 0).top
        - (((luaD.growstack env0 stdConf machine0 0 100 0).machineD machine0).th 0).stack
      = (machine0.th 0).top - (machine0.th 0).stack :=
  ⟨rfl, growstack_ensures_capacity env0 stdConf machine0 0 100 0 _ (Or.inl rfl)⟩

/-- The size computed by `growstack`, when what is asked for fits below the
limit, is `min (max (2 * size) needed) LUAI_MAXSTACK`. -/
theorem luaD.growstackNewsize_eq (K : LuaConf) (s : lua_State) (n : Int)
    (hneeded : (s.top - s.stack) + n ≤ K.LUAI_MAXSTACK) :
    luaD.growstackNewsize K s n
      = min (max (2 * s.stacksize) ((s.top - s.stack) + n)) K.LUAI_MAXSTACK := by
  unfold luaD.growstackNewsize
  simp only
  split_ifs <;> omega

/-- C2: for every thread state with stack size at most `LUAI_MAXSTACK` (`top`
lying above the stack base, as it does in every thread: the first slot holds the
function entry of the base frame) and every `n` with
`needed = (top - base) + n <= LUAI_MAXSTACK`, `luaD::growstack` asks
`luaD::reallocstack` for exactly `min (max (2 * size) needed) LUAI_MAXSTACK`, and
on successful allocation it returns 1 and the stack size afterwards is that
value. -/
theorem growstack_requests_newsize (E : LuaEnv) (K : LuaConf) (m : Machine) (L : Nat)
    (n r : Int)
    (hsize : (m.th L).stacksize ≤ K.LUAI_MAXSTACK)
    (hneeded : ((m.th L).top - (m.th L).stack) + n ≤ K.LUAI_MAXSTACK)
    (htop : (m.th L).stack < (m.th L).top) :
    luaD.growstack E K m L n r
      = luaD.reallocstack E K m L
          (min (max (2 * (m.th L).stacksize) (((m.th L).top - (m.th L).stack) + n))
            K.LUAI_MAXSTACK) r ∧
    ∀ p : Int,
      E.realloc (luaD.reallocstackEntry m L) L (m.th L).stack
          ((m.th L).stacksize + K.EXTRA_STACK)
          (min (max (2 * (m.th L).stacksize) (((m.th L).top - (m.th L).stack) + n))
            K.LUAI_MAXSTACK + K.EXTRA_STACK) = some p →
      ∃ m', luaD.growstack E K m L n r = .ret 1 m' ∧
        (m'.th L).stacksize
          = min (max (2 * (m.th L).stacksize) (((m.th L).top - (m.th L).stack) + n))
              K.LUAI_MAXSTACK := by
  have hn' : n < K.LUAI_MAXSTACK := by omega
  have hns := luaD.growstackNewsize_eq K (m.th L) n hneeded
  have hle : luaD.growstackNewsize K (m.th L) n ≤ K.LUAI_MAXSTACK := by
    rw [hns]; exact min_le_right _ _
  have hg : luaD.growstack E K m L n r
      = luaD.reallocstack E K m L (luaD.growstackNewsize K (m.th L) n) r := by
    unfold luaD.growstack
    simp only
    rw [if_neg (not_lt.mpr hsize), if_pos hn', if_pos hle]
  rw [hns] at hg
  refine ⟨hg, ?_⟩
  intro p hp
  obtain ⟨m', h1, -, -, -, h2, -⟩ := luaD.reallocstack_some E K m L _ r p hp
  exact ⟨m', hg.trans h1, h2⟩

/-- Witness for C2: a fresh thread (40 slots, one in use) asked for 100 more
slots asks for 101 slots, and has 101 slots afterwards. -/
theorem growstack_requests_newsize_witness :
    luaD.growstack env0 stdConf machine0 0 100 0
      = luaD.reallocstack env0 stdConf machine0 0 101 0 ∧
    ∃ m', luaD.growstack env0 stdConf machine0 0 100 0 = .ret 1 m' ∧
      (m'.th 0).stacksize = 101 :=
  ⟨(growstack_requests_newsize env0 stdConf machine0 0 100 0
      (by decide) (by decide) (by decide)).1,
   (growstack_requests_newsize env0 stdConf machine0 0 100 0
      (by decide) (by decide) (by decide)).2 5000 rfl⟩

/-- In the overflow cases `growstack` runs its last statements. -/
theorem luaD.growstack_overflow_eq (E : LuaEnv) (K : LuaConf) (m : Machine) (L : Nat)
    (n r : Int)
    (hsize : (m.th L).stacksize ≤ K.LUAI_MAXSTACK)
    (hover : K.LUAI_MAXSTACK < ((m.th L).top - (m.th L).stack) + n ∨ K.LUAI_MAXSTACK ≤ n) :
    luaD.growstack E K m L n r = luaD.growstackOverflow E K m L r := by
  unfold luaD.growstack
  simp only
  rw [if_neg (not_lt.mpr hsize)]
  by_cases h2 : n < K.LUAI_MAXSTACK
  · rw [if_pos h2]
    have h3 : ¬ luaD.growstackNewsize K (m.th L) n ≤ K.LUAI_MAXSTACK := by
      have := luaD.growstackNewsize_ge K (m.th L) n
      omega
    rw [if_neg h3]
  · rw [if_neg h2]

/-- C3 (amended): for every thread state with stack size at most `LUAI_MAXSTACK`
and every `n` for which `(top - base) + n` exceeds `LUAI_MAXSTACK` (or
`n >= LUAI_MAXSTACK`), `luaD::growstack` asks for a reallocation to exactly
`ERRORSTACKSIZE = LUAI_MAXSTACK + 200`.  When that allocation succeeds the
stack has that size and then, with `raiseerror` set, the runtime error
"stack overflow" is raised with status `LUA_ERRRUN` (the message is the value
below the new `top`; a recovery point of the thread receives `LUA_ERRRUN`),
and with `raiseerror` 0 the function returns 0.  When the allocation fails the
stack keeps its size and `growstack` raises `LUA_ERRMEM` (`raiseerror` set)
or returns 0. -/
theorem growstack_overflow (E : LuaEnv) (K : LuaConf) (m : Machine) (L : Nat) (n r : Int)
    (hsize : (m.th L).stacksize ≤ K.LUAI_MAXSTACK)
    (hover : K.LUAI_MAXSTACK < ((m.th L).top - (m.th L).stack) + n ∨ K.LUAI_MAXSTACK ≤ n) :
    (∀ p : Int,
      E.realloc (luaD.reallocstackEntry m L) L (m.th L).stack
          ((m.th L).stacksize + K.EXTRA_STACK) (ERRORSTACKSIZE K + K.EXTRA_STACK) = some p →
      ∃ m1, luaD.reallocstack E K m L (ERRORSTACKSIZE K) r = .ret 1 m1 ∧
        (m1.th L).stacksize = K.LUAI_MAXSTACK + 200 ∧
        (r = 0 → luaD.growstack E K m L n r = .ret 0 m1) ∧
        (r ≠ 0 → ∃ m2, luaD.growstack E K m L n r = luaD.lthrow E m2 L LUA_ERRRUN ∧
            (m2.th L).stacksize = K.LUAI_MAXSTACK + 200 ∧
            (m2.th L).val ((m2.th L).top - 1)
              = .str { addr := m.g.nstrings, contents := "stack overflow" } ∧
            ∀ j, (m.th L).errorJmp = some j →
              ∃ m3, luaD.growstack E K m L n r = .thrown m3 ∧
                (m3.ljs j).status = LUA_ERRRUN ∧
                (m3.th L).stacksize = K.LUAI_MAXSTACK + 200)) ∧
    (E.realloc (luaD.reallocstackEntry m L) L (m.th L).stack
          ((m.th L).stacksize + K.EXTRA_STACK) (ERRORSTACKSIZE K + K.EXTRA_STACK) = none →
      ∃ m1, (m1.th L).stacksize = (m.th L).stacksize ∧
        (r = 0 → luaD.growstack E K m L n r = .ret 0 m1) ∧
        (r ≠ 0 → luaD.growstack E K m L n r = luaD.lthrow E m1 L LUA_ERRMEM)) := by
  rw [luaD.growstack_overflow_eq E K m L n r hsize hover]
  constructor
  · intro p hp
    obtain ⟨m1, h1, -, -, -, h2, h3, h4, -⟩ :=
      luaD.reallocstack_some E K m L (ERRORSTACKSIZE K) r p hp
    refine ⟨m1, h1, h2, ?_, ?_⟩
    · intro hr
      unfold luaD.growstackOverflow
      rw [h1]
      simp [Outcome.bind, hr]
    · intro hr
      have hgo : luaD.growstackOverflow E K m L r = luaG_runerror E m1 L "stack overflow" := by
        unfold luaD.growstackOverflow
        rw [h1]
        simp only [Outcome.bind, if_pos hr]
      refine ⟨_, hgo.trans rfl, ?_, ?_, ?_⟩
      · simpa [luaS.newlstr, Machine.th, Machine.setTh, lua_State.setval,
          lua_State.stacksize] using h2
      · simp [luaS.newlstr, Machine.th, Machine.setTh, lua_State.setval, lua_State.val, h4]
      · intro j hj
        rw [hgo]
        unfold luaG_runerror
        rw [luaD.lthrow_handler _ _ _ _ j
          (by simpa [luaS.newlstr, Machine.th, Machine.setTh, lua_State.setval] using
            h3.trans hj)]
        refine ⟨_, rfl, ?_, ?_⟩
        · simp
        · simpa [luaS.newlstr, Machine.th, Machine.setTh, lua_State.setval,
            lua_State.stacksize] using h2
  · intro hp
    obtain ⟨m1, h1, -, -, -, h2, -⟩ := luaD.reallocstack_none E K m L (ERRORSTACKSIZE K) r hp
    refine ⟨m1, h2, ?_, ?_⟩
    · intro hr
      unfold luaD.growstackOverflow
      rw [h1]
      simp [Outcome.bind, hr]
    · intro hr
      unfold luaD.growstackOverflow
      rw [h1, if_pos hr]
      unfold luaD.lthrow
      cases (m1.th L).errorJmp with
      | some j => rfl
      | none =>
        simp only
        cases E.luaE_resetthread m1 L LUA_ERRMEM with
        | ret c1 m2 =>
          simp only [Outcome.bind]
          cases (m2.th m2.g.mainthread).errorJmp with
          | some j => rfl
          | none =>
            simp only
            cases m2.g.panic with
            | none => rfl
            | some pf =>
              simp only
              cases E.panicf pf m2 L <;> rfl
        | thrown m2 => rfl
        | aborted m2 => rfl
        | diverged => rfl

/-- Witness for C3 (amended): a fresh thread with a recovery point, asked for
`LUAI_MAXSTACK` more slots with `raiseerror` set. -/
theorem growstack_overflow_witness :
    ∃ m3, luaD.growstack env0 stdConf machineH 0 1000000 1 = .thrown m3 ∧
      (m3.ljs 0).status = LUA_ERRRUN ∧ (m3.th 0).stacksize = 1000200 := by
  obtain ⟨m1, -, -, -, h⟩ :=
    (growstack_overflow env0 stdConf machineH 0 1000000 1 (by decide) (Or.inr (by decide))).1
      5000 rfl
  obtain ⟨m2, -, -, -, h3⟩ := h (by decide)
  exact h3 0 rfl

/-- Counterexample to C3 as stated: when the allocator refuses the overshoot
block, the stack is not reallocated to `ERRORSTACKSIZE` (it keeps its 40
slots); with `raiseerror` 0 `growstack` returns 0, and with `raiseerror` set the
error raised has status `LUA_ERRMEM`, not `LUA_ERRRUN`. -/
theorem growstack_overflow_counterexample :
    (machineH.th 0).stacksize ≤ stdConf.LUAI_MAXSTACK ∧
    stdConf.LUAI_MAXSTACK ≤ (1000000 : Int) ∧
    (luaD.growstack envNoMem stdConf machineH 0 1000000 0).value? = some 0 ∧
    (((luaD.growstack envNoMem stdConf machineH 0 1000000 0).machineD machineH).th 0).stacksize
      = 40 ∧
    (luaD.growstack envNoMem stdConf machineH 0 1000000 1).isThrown = true ∧
    (((luaD.growstack envNoMem stdConf machineH 0 1000000 1).machineD machineH).th 0).stacksize
      = 40 ∧
    (((luaD.growstack envNoMem stdConf machineH 0 1000000 1).machineD machineH).ljs 0).status
      = LUA_ERRMEM ∧
    LUA_ERRMEM ≠ LUA_ERRRUN ∧ (40 : Int) ≠ ERRORSTACKSIZE stdConf := by
  refine ⟨by decide, by decide, rfl, rfl, rfl, rfl, rfl, by decide, by decide⟩

/-- C4: for every thread state whose stack size already exceeds `LUAI_MAXSTACK`
and every `n`, `luaD::growstack` does not resize the stack: with `raiseerror`
set it raises `LUA_ERRERR` on the unchanged thread (a recovery point of the
thread receives `LUA_ERRERR`, nothing else changes), and with `raiseerror` 0
it returns 0 leaving the whole state unchanged. -/
theorem growstack_overshoot_refused (E : LuaEnv) (K : LuaConf) (m : Machine) (L : Nat)
    (n r : Int) (hsize : K.LUAI_MAXSTACK < (m.th L).stacksize) :
    (r ≠ 0 →
      luaD.growstack E K m L n r = luaD.lthrow E m L LUA_ERRERR ∧
      ∀ j, (m.th L).errorJmp = some j →
        luaD.growstack E K m L n r
          = .thrown { m with ljs := Function.update m.ljs j { m.ljs j with status := LUA_ERRERR } }) ∧
    (r = 0 → luaD.growstack E K m L n r = .ret 0 m) := by
  have hg : luaD.growstack E K m L n r
      = if r ≠ 0 then luaD.lthrow E m L LUA_ERRERR else .ret 0 m := by
    unfold luaD.growstack
    simp only
    rw [if_pos hsize]
  constructor
  · intro hr
    rw [hg, if_pos hr]
    refine ⟨rfl, ?_⟩
    intro j hj
    exact luaD.lthrow_handler E m L LUA_ERRERR j hj
  · intro hr
    rw [hg, if_neg (not_not.mpr hr)]

/-- Witness for C4: a thread in the overshoot region asked for 10 more slots. -/
theorem growstack_overshoot_refused_witness :
    luaD.growstack env0 stdConf machineOver 0 10 0 = .ret 0 machineOver ∧
    (luaD.growstack env0 stdConf machineOver 0 10 1).isThrown = true ∧
    (((luaD.growstack env0 stdConf machineOver 0 10 1).machineD machineOver).ljs 0).status
      = LUA_ERRERR ∧
    (((luaD.growstack env0 stdConf machineOver 0 10 1).machineD machineOver).th 0).stacksize
      = 1000200 :=
  ⟨(growstack_overshoot_refused env0 stdConf machineOver 0 10 0 (by decide)).2 rfl,
   by rw [((growstack_overshoot_refused env0 stdConf machineOver 0 10 1 (by decide)).1
            (by decide)).2 0 rfl]; exact ⟨rfl, rfl, rfl⟩⟩

/-! ## Protected calls (C5) -/

theorem Machine.th_rawrunprotectedEntry (m : Machine) (L : Nat) :
    ((luaD.rawrunprotectedEntry m L).th L).errorJmp = some m.njmp := by
  simp [luaD.rawrunprotectedEntry, Machine.th, Machine.setTh]

/-- What `rawrunprotected` returns when the protected function throws. -/
theorem luaD.rawrunprotected_thrown (m : Machine) (L : Nat)
    (f : Machine → Nat → Outcome Unit) (m2 : Machine)
    (h : f (luaD.rawrunprotectedEntry m L) L = .thrown m2) :
    ∃ m', luaD.rawrunprotected m L f
      = .ret (if (m2.ljs m.njmp).status = 0 then -1 else (m2.ljs m.njmp).status) m' ∧
      m'.njmp = m.njmp ∧ (m'.th L).nCcalls = (m.th L).nCcalls ∧
      (m'.th L).errorJmp = (m2.ljs m.njmp).previous ∧
      (m'.th L).slots = (m2.th L).slots ∧ (m'.th L).top = (m2.th L).top ∧
      (m'.th L).stack = (m2.th L).stack := by
  unfold luaD.rawrunprotected
  simp only [h]
  by_cases h0 : (m2.ljs m.njmp).status = 0
  · simp only [if_pos h0]
    simp only [Function.update_same]
    refine ⟨_, rfl, ?_⟩
    simp [luaD.rawrunprotectedExit, Machine.th, Machine.setTh]
  · simp only [if_neg h0]
    refine ⟨_, rfl, ?_⟩
    simp [luaD.rawrunprotectedExit, Machine.th, Machine.setTh]

/-- What `rawrunprotected` returns when the protected function throws after a
non-zero status was stored in the recovery point. -/
theorem luaD.rawrunprotected_thrown_ne (m : Machine) (L : Nat)
    (f : Machine → Nat → Outcome Unit) (m2 : Machine)
    (h : f (luaD.rawrunprotectedEntry m L) L = .thrown m2)
    (h0 : (m2.ljs m.njmp).status ≠ 0) :
    luaD.rawrunprotected m L f
      = .ret (m2.ljs m.njmp).status (luaD.rawrunprotectedExit m L m2) := by
  unfold luaD.rawrunprotected
  simp only [h, if_neg h0]

/-- What `rawrunprotected` returns when the protected function returns. -/
theorem luaD.rawrunprotected_ret (m : Machine) (L : Nat)
    (f : Machine → Nat → Outcome Unit) (m2 : Machine)
    (h : f (luaD.rawrunprotectedEntry m L) L = .ret () m2) :
    luaD.rawrunprotected m L f
      = .ret (m2.ljs m.njmp).status (luaD.rawrunprotectedExit m L m2) := by
  unfold luaD.rawrunprotected
  simp only [h]

/-- C5 (amended): `luaD::rawrunprotected(L, f, ud)` returns `LUA_OK` when `f`
completes without raising (the status of the recovery point is still
`LUA_OK`); it returns `c` when `f` raises through `luaD::lthrow(L, c)` with
`c != LUA_OK` while the recovery point installed by this call is the current
one, and -1 when `c = LUA_OK`; in no case does the exception escape. -/
theorem rawrunprotected_status (E : LuaEnv) (m : Machine) (L : Nat)
    (f : Machine → Nat → Outcome Unit) :
    (∀ m2, f (luaD.rawrunprotectedEntry m L) L = .ret () m2 →
        (m2.ljs m.njmp).status = LUA_OK →
        luaD.rawrunprotected m L f = .ret LUA_OK (luaD.rawrunprotectedExit m L m2)) ∧
    (∀ m2 c, (m2.th L).errorJmp = some m.njmp →
        f (luaD.rawrunprotectedEntry m L) L = luaD.lthrow E m2 L c →
        ∃ m', luaD.rawrunprotected m L f = .ret (if c = LUA_OK then -1 else c) m') ∧
    (∀ m', luaD.rawrunprotected m L f ≠ .thrown m') := by
  refine ⟨?_, ?_, ?_⟩
  · intro m2 hf hs
    rw [luaD.rawrunprotected_ret m L f m2 hf, hs]
  · intro m2 c hj hf
    rw [luaD.lthrow_handler E m2 L c m.njmp hj] at hf
    obtain ⟨m', h1, -⟩ := luaD.rawrunprotected_thrown m L f _ hf
    refine ⟨m', ?_⟩
    rw [h1]
    simp [LUA_OK]
  · intro m' h
    unfold luaD.rawrunprotected at h
    cases hf : f (luaD.rawrunprotectedEntry m L) L with
    | ret v m2 => rw [hf] at h; simp at h
    | thrown m2 => rw [hf] at h; simp at h
    | aborted m2 => rw [hf] at h; simp at h
    | diverged => rw [hf] at h; simp at h

/-- Witness for C5 (amended): a function that pushes a value returns `LUA_OK`,
a function that raises `LUA_ERRRUN` returns `LUA_ERRRUN`. -/
theorem rawrunprotected_status_witness :
    (luaD.rawrunprotected machine0 0 (pusher 7)).value? = some LUA_OK ∧
    ∃ m', luaD.rawrunprotected machine0 0 (raiser LUA_ERRRUN) = .ret LUA_ERRRUN m' :=
  ⟨by rw [(rawrunprotected_status env0 machine0 0 (pusher 7)).1 _ rfl rfl]; rfl,
   (rawrunprotected_status env0 machine0 0 (raiser LUA_ERRRUN)).2.1
      (luaD.rawrunprotectedEntry machine0 0) LUA_ERRRUN rfl rfl⟩

/-- Counterexample to C5 as stated: a function that raises through
`luaD::lthrow(L, LUA_OK)` makes `rawrunprotected` return -1, not the code 0. -/
theorem rawrunprotected_status_counterexample :
    raiser LUA_OK (luaD.rawrunprotectedEntry machine0 0) 0
      = luaD.lthrow env0 (luaD.rawrunprotectedEntry machine0 0) 0 LUA_OK ∧
    (luaD.rawrunprotected machine0 0 (raiser LUA_OK)).value? = some (-1) ∧
    (luaD.rawrunprotected machine0 0 (raiser LUA_OK)).value? ≠ some LUA_OK := by
  refine ⟨rfl, rfl, by decide⟩

/-! ## The error object (C8) -/

/-- The fields of the thread after `seterrorobj`. -/
theorem luaD.seterrorobj_fields (m : Machine) (L : Nat) (errcode oldtop : Int) :
    ((luaD.seterrorobj m L errcode oldtop).th L).top = oldtop + 1 ∧
    ((luaD.seterrorobj m L errcode oldtop).th L).stack = (m.th L).stack ∧
    (∀ p, p ≠ oldtop →
      ((luaD.seterrorobj m L errcode oldtop).th L).val p = (m.th L).val p) ∧
    (errcode = LUA_ERRMEM →
      ((luaD.seterrorobj m L errcode oldtop).th L).val oldtop = .str m.g.memerrmsg ∧
      (luaD.seterrorobj m L errcode oldtop).g = m.g) ∧
    (errcode = LUA_ERRERR →
      ((luaD.seterrorobj m L errcode oldtop).th L).val oldtop
        = .str { addr := m.g.nstrings, contents := "error in error handling" }) ∧
    (errcode = LUA_OK →
      ((luaD.seterrorobj m L errcode oldtop).th L).val oldtop = TValue.nil) ∧
    (errcode ≠ LUA_ERRMEM → errcode ≠ LUA_ERRERR → errcode ≠ LUA_OK →
      ((luaD.seterrorobj m L errcode oldtop).th L).val oldtop
        = (m.th L).val ((m.th L).top - 1)) := by
  have hne : ∀ p : Int, p ≠ oldtop →
      p - (m.threads L).stack ≠ oldtop - (m.threads L).stack := by
    intro p hp h
    exact hp (by omega)
  refine ⟨?_, ?_, ?_, ?_, ?_, ?_, ?_⟩
  · simp [luaD.seterrorobj]
  · unfold luaD.seterrorobj
    simp only
    split_ifs <;>
      simp [luaS.newliteral, luaS.newlstr, Machine.th, Machine.setTh, lua_State.setval]
  · intro p hp
    unfold luaD.seterrorobj
    simp only
    split_ifs <;>
      simp [luaS.newliteral, luaS.newlstr, Machine.th, Machine.setTh, lua_State.setval,
        lua_State.val, Function.update_noteq (hne p hp)]
  · intro h
    subst h
    simp [luaD.seterrorobj, Machine.th, Machine.setTh, lua_State.setval, lua_State.val]
  · intro h
    subst h
    simp [luaD.seterrorobj, LUA_ERRERR, LUA_ERRMEM, luaS.newliteral, luaS.newlstr, Machine.th,
      Machine.setTh, lua_State.setval, lua_State.val]
  · intro h
    subst h
    simp [luaD.seterrorobj, LUA_ERRERR, LUA_ERRMEM, LUA_OK, Machine.th,
      Machine.setTh, lua_State.setval, lua_State.val]
  · intro h1 h2 h3
    simp [luaD.seterrorobj, h1, h2, h3, Machine.th,
      Machine.setTh, lua_State.setval, lua_State.val]


/-- C8: for every error code and every slot `oldtop`, `luaD::seterrorobj(L,
errcode, oldtop)` stores exactly one value, at `oldtop`, and sets
`L->top = oldtop + 1`; the value is the preallocated `G(L)->memerrmsg` string
for `LUA_ERRMEM` (the global state, with its count of created strings, is
unchanged), the string "error in error handling" for `LUA_ERRERR`, nil for
`LUA_OK`, and for every other code the value that was at `L->top - 1`. -/
theorem seterrorobj_contract (m : Machine) (L : Nat) (errcode oldtop : Int) :
    ((luaD.seterrorobj m L errcode oldtop).th L).top = oldtop + 1 ∧
    ((luaD.seterrorobj m L errcode oldtop).th L).stack = (m.th L).stack ∧
    (∀ p, p ≠ oldtop →
      ((luaD.seterrorobj m L errcode oldtop).th L).val p = (m.th L).val p) ∧
    (errcode = LUA_ERRMEM →
      ((luaD.seterrorobj m L errcode oldtop).th L).val oldtop = .str m.g.memerrmsg ∧
      (luaD.seterrorobj m L errcode oldtop).g = m.g) ∧
    (errcode = LUA_ERRERR →
      ((luaD.seterrorobj m L errcode oldtop).th L).val oldtop
        = .str { addr := m.g.nstrings, contents := "error in error handling" }) ∧
    (errcode = LUA_OK →
      ((luaD.seterrorobj m L errcode oldtop).th L).val oldtop = TValue.nil) ∧
    (errcode ≠ LUA_ERRMEM → errcode ≠ LUA_ERRERR → errcode ≠ LUA_OK →
      ((luaD.seterrorobj m L errcode oldtop).th L).val oldtop
        = (m.th L).val ((m.th L).top - 1)) := by
  have hne : ∀ p : Int, p ≠ oldtop →
      p - (m.threads L).stack ≠ oldtop - (m.threads L).stack := by
    intro p hp h
    exact hp (by omega)
  refine ⟨?_, ?_, ?_, ?_, ?_, ?_, ?_⟩
  · simp [luaD.seterrorobj]
  · unfold luaD.seterrorobj
    simp only
    split_ifs <;>
      simp [luaS.newliteral, luaS.newlstr, Machine.th, Machine.setTh, lua_State.setval]
  · intro p hp
    unfold luaD.seterrorobj
    simp only
    split_ifs <;>
      simp [luaS.newliteral, luaS.newlstr, Machine.th, Machine.setTh, lua_State.setval,
        lua_State.val, Function.update_noteq (hne p hp)]
  · intro h
    subst h
    simp [luaD.seterrorobj, Machine.th, Machine.setTh, lua_State.setval, lua_State.val]
  · intro h
    subst h
    simp [luaD.seterrorobj, LUA_ERRERR, LUA_ERRMEM, luaS.newliteral, luaS.newlstr, Machine.th,
      Machine.setTh, lua_State.setval, lua_State.val]
  · intro h
    subst h
    simp [luaD.seterrorobj, LUA_ERRERR, LUA_ERRMEM, LUA_OK, Machine.th,
      Machine.setTh, lua_State.setval, lua_State.val]
  · intro h1 h2 h3
    simp [luaD.seterrorobj, h1, h2, h3, Machine.th,
      Machine.setTh, lua_State.setval, lua_State.val]

/-- Witness for C8: a memory error stores the preallocated message at the slot
and changes nothing in the global state; a runtime error stores the value that
was below `top`. -/
theorem seterrorobj_contract_witness :
    ((luaD.seterrorobj machineCall 0 LUA_ERRMEM 1002).th 0).val 1002
      = .str machineCall.g.memerrmsg ∧
    (luaD.seterrorobj machineCall 0 LUA_ERRMEM 1002).g = machineCall.g ∧
    ((luaD.seterrorobj machineCall 0 LUA_ERRRUN 1002).th 0).val 1002 = TValue.integer 30 ∧
    ((luaD.seterrorobj machineCall 0 LUA_ERRRUN 1002).th 0).top = 1003 :=
  ⟨((seterrorobj_contract machineCall 0 LUA_ERRMEM 1002).2.2.2.1 rfl).1,
   ((seterrorobj_contract machineCall 0 LUA_ERRMEM 1002).2.2.2.1 rfl).2,
   (seterrorobj_contract machineCall 0 LUA_ERRRUN 1002).2.2.2.2.2.2
     (by decide) (by decide) (by decide),
   (seterrorobj_contract machineCall 0 LUA_ERRRUN 1002).1⟩

/-! ## Shrinking the stack -/

/-- A reallocation that does not raise always returns; it keeps the offset of
`top`, the fields outside the stack, and, when the stack does not grow, the
contents of every slot. -/
theorem luaD.reallocstack_noraise (E : LuaEnv) (K : LuaConf) (m : Machine) (L : Nat)
    (newsize : Int) :
    ∃ v m', luaD.reallocstack E K m L newsize 0 = .ret v m' ∧
      (m'.th L).top - (m'.th L).stack = (m.th L).top - (m.th L).stack ∧
      (newsize ≤ (m.th L).stacksize → (m'.th L).slots = (m.th L).slots) ∧
      (m'.th L).errfunc = (m.th L).errfunc ∧
      (m'.th L).errorJmp = (m.th L).errorJmp ∧
      (m'.th L).nCcalls = (m.th L).nCcalls ∧
      (m'.th L).ci = (m.th L).ci ∧
      (m'.th L).status = (m.th L).status ∧
      m'.g = m.g ∧ m'.ljs = m.ljs ∧ m'.njmp = m.njmp := by
  have hs : ((luaD.reallocstackEntry m L).th L).stack = (m.th L).stack := by
    simp [luaD.reallocstackEntry, Machine.th, Machine.setTh, relstack]
  unfold luaD.reallocstack
  simp only [hs]
  cases E.realloc (luaD.reallocstackEntry m L) L (m.th L).stack
      ((m.th L).stacksize + K.EXTRA_STACK) (newsize + K.EXTRA_STACK) with
  | none =>
    refine ⟨_, _, rfl, ?_⟩
    simp [luaD.reallocstackEntry, Machine.th, Machine.setTh, relstack, correctstack,
      luaD.savestack, luaD.restorestack, lua_State.stacksize]
  | some p =>
    refine ⟨_, _, rfl, ?_, ?_, ?_⟩
    · simp [luaD.reallocstackEntry, Machine.th, Machine.setTh, relstack, correctstack,
        luaD.savestack, luaD.restorestack, lua_State.stacksize]
    · intro hle
      simp only [luaD.reallocstackEntry, Machine.th, Machine.setTh, relstack, correctstack,
        luaD.savestack, luaD.restorestack, lua_State.stacksize, Function.update_same] at hle ⊢
      funext i
      have : ¬ ((m.threads L).stack_last - (m.threads L).stack + K.EXTRA_STACK ≤ i ∧
          i < newsize + K.EXTRA_STACK) := by
        intro h
        omega
      simp [this]
    · simp [luaD.reallocstackEntry, Machine.th, Machine.setTh, relstack, correctstack,
        luaD.savestack, luaD.restorestack, lua_State.stacksize]

/-- `stackinuse` is at least the minimum stack size. -/
theorem stackinuse_ge (s : lua_State) : LUA_MINSTACK ≤ stackinuse s := by
  unfold stackinuse
  simp only
  split_ifs <;> omega

/-- `top` lies below what `stackinuse` counts. -/
theorem stackinuseLim_ge (s : lua_State) (n : Nat) (lim : Int) :
    lim ≤ stackinuseLim s n lim := by
  induction n generalizing lim with
  | zero => simp [stackinuseLim]
  | succ n ih =>
    simp only [stackinuseLim]
    split_ifs with h
    · exact le_trans (le_of_lt h) (ih _)
    · exact ih _

/-- The size chosen by `shrinkstack` is below the current size. -/
theorem shrink_size_le (inuse MAX size : Int) (h20 : 20 ≤ inuse) (hle : inuse ≤ MAX)
    (hsz : size > (if inuse > Int.tdiv MAX 3 then MAX else inuse * 3)) :
    (if inuse > Int.tdiv MAX 2 then MAX else inuse * 2) ≤ size := by
  have h0 : (0 : Int) ≤ MAX := by omega
  rw [Int.tdiv_eq_ediv h0 (by decide)] at hsz ⊢
  split_ifs at hsz ⊢ <;> omega

/-- `shrinkstack` always returns; it keeps the offset of `top`, the contents of
the stack and the fields outside the stack. -/
theorem luaD.shrinkstack_ret (E : LuaEnv) (K : LuaConf) (m : Machine) (L : Nat) :
    ∃ m', luaD.shrinkstack E K m L = .ret () m' ∧
      (m'.th L).top - (m'.th L).stack = (m.th L).top - (m.th L).stack ∧
      (m'.th L).slots = (m.th L).slots ∧
      (m'.th L).errfunc = (m.th L).errfunc ∧
      (m'.th L).errorJmp = (m.th L).errorJmp ∧
      (m'.th L).nCcalls = (m.th L).nCcalls ∧
      (m'.th L).ci = (m.th L).ci ∧
      (m'.th L).status = (m.th L).status ∧
      m'.g = m.g ∧ m'.ljs = m.ljs ∧ m'.njmp = m.njmp := by
  unfold luaD.shrinkstack
  simp only
  by_cases h : stackinuse (m.th L) ≤ K.LUAI_MAXSTACK ∧ (m.th L).stacksize >
      (if stackinuse (m.th L) > Int.tdiv K.LUAI_MAXSTACK 3 then K.LUAI_MAXSTACK
        else stackinuse (m.th L) * 3)
  · rw [if_pos h]
    obtain ⟨v, m', h1, h2, h3, h4⟩ := luaD.reallocstack_noraise E K m L
      (if stackinuse (m.th L) > Int.tdiv K.LUAI_MAXSTACK 2 then K.LUAI_MAXSTACK
        else stackinuse (m.th L) * 2)
    rw [h1]
    refine ⟨_, rfl, ?_⟩
    simp only [luaE_shrinkCI]
    refine ⟨h2, h3 ?_, h4⟩
    exact shrink_size_le _ _ _ (stackinuse_ge _) h.1 h.2
  · rw [if_neg h]
    exact ⟨_, rfl, by simp [luaE_shrinkCI]⟩

/-! ## Protected calls with stack restoration (C6) -/

/-- When the first attempt of `closeprotected` to close completes without
raising, `closeprotected` returns the status it was given. -/
theorem luaD.closeprotected_first (E : LuaEnv) (fuel : Nat) (m : Machine) (L : Nat)
    (level s lv : Int) (mc : Machine)
    (hc : E.luaF_close (luaD.rawrunprotectedEntry m L) L ((m.th L).stack + level) s 0
            = .ret lv mc)
    (hs : (mc.ljs m.njmp).status = LUA_OK) :
    luaD.closeprotected E (fuel + 1) m L level s
      = .ret s (luaD.rawrunprotectedExit m L mc) := by
  unfold luaD.closeprotected closeprotectedLoop
  have hp : closepaux E (luaD.restorestack (m.th L) level) s (luaD.rawrunprotectedEntry m L) L
      = .ret () mc := by
    unfold closepaux luaD.restorestack
    rw [hc]
    rfl
  have h1 := luaD.rawrunprotected_ret m L
    (closepaux E (luaD.restorestack (m.th L) level) s) mc hp
  rw [hs] at h1
  simp only [h1, Outcome.bind, if_true]

/-- C6 (amended): for every function `f` run by `luaD::pcall(L, f, u, old_top,
ef)`: if `f` completes normally `pcall` returns `LUA_OK` and leaves the stack
as `f` left it; if `f` raises status `s` (not `LUA_OK`) `pcall` returns the
status `s'` that `luaD::closeprotected(L, old_top, s)` returns, and afterwards
exactly one error object (the one `seterrorobj` chooses for `s'`) sits at the
slot at offset `old_top`, with `L->top` = that slot + 1; `s' = s` when closing
the pending variables completes at the first attempt without raising.  In both
cases `L->errfunc` is restored. -/
theorem pcall_contract (E : LuaEnv) (K : LuaConf) (fuel : Nat) (m : Machine) (L : Nat)
    (f : Machine → Nat → Outcome Unit) (old_top ef : Int) :
    (∀ mf,
      f (luaD.rawrunprotectedEntry (m.setTh L { m.th L with errfunc := ef }) L) L
          = .ret () mf →
      (mf.ljs m.njmp).status = LUA_OK →
      ∃ m', luaD.pcall E K fuel m L f old_top ef = .ret LUA_OK m' ∧
        (m'.th L).slots = (mf.th L).slots ∧ (m'.th L).top = (mf.th L).top ∧
        (m'.th L).stack = (mf.th L).stack ∧ (m'.th L).stack_last = (mf.th L).stack_last ∧
        (m'.th L).errfunc = (m.th L).errfunc) ∧
    (∀ mf s s' m4,
      f (luaD.rawrunprotectedEntry (m.setTh L { m.th L with errfunc := ef }) L) L
          = .thrown mf →
      (mf.ljs m.njmp).status = s → s ≠ LUA_OK →
      luaD.closeprotected E fuel
          ((luaD.rawrunprotectedExit (m.setTh L { m.th L with errfunc := ef }) L mf).setTh L
            { (luaD.rawrunprotectedExit (m.setTh L { m.th L with errfunc := ef }) L mf).th L with
              ci := (m.th L).ci, allowhook := (m.th L).allowhook })
          L old_top s = .ret s' m4 →
      ∃ m', luaD.pcall E K fuel m L f old_top ef = .ret s' m' ∧
        (m'.th L).top = (m'.th L).stack + old_top + 1 ∧
        (m'.th L).val ((m'.th L).stack + old_top)
          = (if s' = LUA_ERRMEM then TValue.str m4.g.memerrmsg
             else if s' = LUA_ERRERR then
               TValue.str { addr := m4.g.nstrings, contents := "error in error handling" }
             else if s' = LUA_OK then TValue.nil
             else (m4.th L).val ((m4.th L).top - 1)) ∧
        (∀ i, i ≠ old_top → (m'.th L).slots i = (m4.th L).slots i) ∧
        (m'.th L).errfunc = (m.th L).errfunc) ∧
    (∀ fuel' m3 s lv mc,
      E.luaF_close (luaD.rawrunprotectedEntry m3 L) L ((m3.th L).stack + old_top) s 0
          = .ret lv mc →
      (mc.ljs m3.njmp).status = LUA_OK →
      luaD.closeprotected E (fuel' + 1) m3 L old_top s
        = .ret s (luaD.rawrunprotectedExit m3 L mc)) := by
  refine ⟨?_, ?_, ?_⟩
  · intro mf hf hs
    have h1 := luaD.rawrunprotected_ret (m.setTh L { m.th L with errfunc := ef }) L f mf hf
    have hs' : (mf.ljs (m.setTh L { m.th L with errfunc := ef }).njmp).status = LUA_OK := hs
    rw [hs'] at h1
    have hno : ¬ (LUA_OK ≠ LUA_OK) := fun h => h rfl
    have hpc : luaD.pcall E K fuel m L f old_top ef
        = .ret LUA_OK
            ((luaD.rawrunprotectedExit (m.setTh L { m.th L with errfunc := ef }) L mf).setTh L
              { (luaD.rawrunprotectedExit (m.setTh L { m.th L with errfunc := ef }) L mf).th L
                with errfunc := (m.th L).errfunc }) := by
      unfold luaD.pcall
      simp only [h1, Outcome.bind, if_neg hno]
    refine ⟨_, hpc, ?_⟩
    simp [luaD.rawrunprotectedExit, Machine.th, Machine.setTh]
  · intro mf s s' m4 hf hs hne hclose
    have hs0 : (mf.ljs (m.setTh L { m.th L with errfunc := ef }).njmp).status ≠ 0 := by
      show (mf.ljs m.njmp).status ≠ 0
      rw [hs]
      exact hne
    have h1 := luaD.rawrunprotected_thrown_ne (m.setTh L { m.th L with errfunc := ef }) L f
      mf hf hs0
    have hs1 : (mf.ljs (m.setTh L { m.th L with errfunc := ef }).njmp).status = s := hs
    rw [hs1] at h1
    obtain ⟨m6, h6, h6top, h6slots, h6rest⟩ := luaD.shrinkstack_ret E K
      (luaD.seterrorobj m4 L s' (luaD.restorestack (m4.th L) old_top)) L
    obtain ⟨c1, c2, c3, c4, c5, c6, c7⟩ :=
      luaD.seterrorobj_fields m4 L s' (luaD.restorestack (m4.th L) old_top)
    have hpc : luaD.pcall E K fuel m L f old_top ef
        = .ret s' (m6.setTh L { m6.th L with errfunc := (m.th L).errfunc }) := by
      unfold luaD.pcall
      simp only [h1, Outcome.bind, if_pos hne, Machine.th_setTh_same, hclose, h6]
    refine ⟨_, hpc, ?_, ?_, ?_, ?_⟩
    · simp only [Machine.th_setTh_same]
      rw [c1, c2] at h6top
      simp only [luaD.restorestack] at h6top
      omega
    · simp only [Machine.th_setTh_same, lua_State.val]
      rw [h6slots]
      have hidx : (m6.th L).stack + old_top - (m6.th L).stack
          = luaD.restorestack (m4.th L) old_top
            - ((luaD.seterrorobj m4 L s' (luaD.restorestack (m4.th L) old_top)).th L).stack := by
        rw [c2]
        simp only [luaD.restorestack]
        ring
      rw [hidx]
      show ((luaD.seterrorobj m4 L s' (luaD.restorestack (m4.th L) old_top)).th L).val
        (luaD.restorestack (m4.th L) old_top) = _
      by_cases e1 : s' = LUA_ERRMEM
      · rw [if_pos e1]
        exact (c4 e1).1
      · rw [if_neg e1]
        by_cases e2 : s' = LUA_ERRERR
        · rw [if_pos e2]
          exact c5 e2
        · rw [if_neg e2]
          by_cases e3 : s' = LUA_OK
          · rw [if_pos e3]
            exact c6 e3
          · rw [if_neg e3]
            exact c7 e1 e2 e3
    · intro i hi
      simp only [Machine.th_setTh_same]
      rw [h6slots]
      have := c3 (i + (m4.th L).stack) (by simp only [luaD.restorestack]; omega)
      simp only [lua_State.val, c2] at this
      simpa using this
    · simp
  · intro fuel' m3 s lv mc hc hs
    exact luaD.closeprotected_first E fuel' m3 L old_top s lv mc hc hs

/-- Witness for C6 (amended): on a fresh thread, a function that pushes a value
gives `LUA_OK` and the value stays on the stack; a function that raises
`LUA_ERRRUN` gives `LUA_ERRRUN` with `top` one above the slot at offset 1. -/
theorem pcall_contract_witness :
    (luaD.pcall env0 stdConf 1 machine0 0 (pusher 7) 1 0).value? = some LUA_OK ∧
    (((luaD.pcall env0 stdConf 1 machine0 0 (pusher 7) 1 0).machineD machine0).th 0).val 1001
      = TValue.integer 7 ∧
    (luaD.pcall env0 stdConf 1 machine0 0 (raiser LUA_ERRRUN) 1 0).value? = some LUA_ERRRUN ∧
    (((luaD.pcall env0 stdConf 1 machine0 0 (raiser LUA_ERRRUN) 1 0).machineD machine0).th 0).top
      = (((luaD.pcall env0 stdConf 1 machine0 0 (raiser LUA_ERRRUN) 1 0).machineD machine0).th
          0).stack + 1 + 1 := by
  obtain ⟨m1, h1, -⟩ := (pcall_contract env0 stdConf 1 machine0 0 (pusher 7) 1 0).1 _ rfl rfl
  obtain ⟨m2, h2, h3, -⟩ := (pcall_contract env0 stdConf 1 machine0 0 (raiser LUA_ERRRUN) 1 0).2.1
    _ LUA_ERRRUN LUA_ERRRUN _ rfl rfl (by decide) rfl
  refine ⟨?_, rfl, ?_, ?_⟩
  · rw [h1]; rfl
  · rw [h2]; rfl
  · rw [h2]; exact h3

set_option maxHeartbeats 1000000 in
/-- Counterexample to C6 as stated: the function raises `LUA_ERRRUN` (2), the
closing of the pending variables raises `LUA_ERRMEM` once, and `pcall` returns
`LUA_ERRMEM` (4), not the status raised by the function. -/
theorem pcall_contract_counterexample :
    (luaD.rawrunprotected (machine0.setTh 0 { machine0.th 0 with errfunc := 0 }) 0
        (raiser LUA_ERRRUN)).value? = some LUA_ERRRUN ∧
    (luaD.pcall envCloseErr stdConf 5 machine0 0 (raiser LUA_ERRRUN) 1 0).value?
      = some LUA_ERRMEM ∧
    LUA_ERRMEM ≠ LUA_ERRRUN := by
  refine ⟨by decide, by decide, by decide⟩

/-! ## Nested protected calls (C7) -/

/-- `seterrorobj` leaves the recovery points alone. -/
theorem luaD.seterrorobj_ljs (m : Machine) (L : Nat) (errcode oldtop : Int) :
    (luaD.seterrorobj m L errcode oldtop).ljs = m.ljs ∧
    (luaD.seterrorobj m L errcode oldtop).njmp = m.njmp := by
  unfold luaD.seterrorobj
  simp only
  split_ifs <;> simp [luaS.newliteral, luaS.newlstr, Machine.setTh]

/-- When the protected function raises a status other than `LUA_OK` and the
first attempt to close the pending variables completes, `pcall` returns the
status raised, and the recovery points are as the closing left them. -/
theorem luaD.pcall_raised (E : LuaEnv) (K : LuaConf) (fuel : Nat) (m : Machine) (L : Nat)
    (g : Machine → Nat → Outcome Unit) (old_top ef : Int) (mt : Machine) (c lv : Int)
    (mc : Machine)
    (hg : g (luaD.rawrunprotectedEntry (m.setTh L { m.th L with errfunc := ef }) L) L
            = .thrown mt)
    (hst : (mt.ljs m.njmp).status = c) (hc : c ≠ LUA_OK)
    (hclose : E.luaF_close (luaD.rawrunprotectedEntry (pcallRecover m L ef mt) L) L
        (((pcallRecover m L ef mt).th L).stack + old_top) c 0 = .ret lv mc)
    (hcs : (mc.ljs m.njmp).status = LUA_OK) :
    ∃ mi, luaD.pcall E K (fuel + 1) m L g old_top ef = .ret c mi ∧ mi.ljs = mc.ljs := by
  have hs0 : (mt.ljs (m.setTh L { m.th L with errfunc := ef }).njmp).status ≠ 0 := by
    show (mt.ljs m.njmp).status ≠ 0
    rw [hst]
    exact hc
  have h1 := luaD.rawrunprotected_thrown_ne (m.setTh L { m.th L with errfunc := ef }) L g
    mt hg hs0
  have hs1 : (mt.ljs (m.setTh L { m.th L with errfunc := ef }).njmp).status = c := hst
  rw [hs1] at h1
  have hnj : (pcallRecover m L ef mt).njmp = m.njmp := rfl
  have h2 := luaD.closeprotected_first E fuel (pcallRecover m L ef mt) L old_top c lv mc hclose
    (by rw [hnj]; exact hcs)
  obtain ⟨m6, h6, -, -, -, -, -, -, -, -, h6l, -⟩ := luaD.shrinkstack_ret E K
    (luaD.seterrorobj (luaD.rawrunprotectedExit (pcallRecover m L ef mt) L mc) L c
      (luaD.restorestack ((luaD.rawrunprotectedExit (pcallRecover m L ef mt) L mc).th L)
        old_top)) L
  have hpc : luaD.pcall E K (fuel + 1) m L g old_top ef
      = .ret c (m6.setTh L { m6.th L with errfunc := (m.th L).errfunc }) := by
    unfold luaD.pcall
    simp only [h1, Outcome.bind, if_pos hc]
    have h2' : luaD.closeprotected E (fuel + 1)
        ((luaD.rawrunprotectedExit (m.setTh L { m.th L with errfunc := ef }) L mt).setTh L
          { (luaD.rawrunprotectedExit (m.setTh L { m.th L with errfunc := ef }) L mt).th L with
            ci := (m.th L).ci, allowhook := (m.th L).allowhook }) L old_top c
        = .ret c (luaD.rawrunprotectedExit (pcallRecover m L ef mt) L mc) := h2
    simp only [h2', h6]
  refine ⟨_, hpc, ?_⟩
  show m6.ljs = mc.ljs
  rw [h6l, (luaD.seterrorobj_ljs _ _ _ _).1]
  rfl

/-- C7 (amended): nested protected calls.  The outer protected function calls
`luaD::rawrunprotected`, or `luaD::pcall`, on `g` and then runs the code `k`,
which raises nothing; `g` raises status `c` with `c != LUA_OK` at the recovery
point of the inner call, and nothing has been raised at the outer one.

* Inner call through `rawrunprotected`: the inner protected call returns `c`,
  the outer protected call returns `LUA_OK`, and the code `k` after the inner
  call has been executed on the status `c`.
* Inner call through `pcall`, when closing the pending variables completes at
  the first attempt without raising: the inner `pcall` returns `c`, the outer
  protected call returns `LUA_OK`, and the code `k` after the inner call has
  been executed on the status `c`. -/
theorem nested_protected_call (E : LuaEnv) (K : LuaConf) (m : Machine) (L : Nat)
    (g : Machine → Nat → Outcome Unit) (k : Int → Machine → Nat → Machine) (c : Int)
    (hc : c ≠ LUA_OK)
    (hk : ∀ st mi, ((k st mi L).ljs m.njmp).status = (mi.ljs m.njmp).status) :
    (∀ mg : Machine,
      g (luaD.rawrunprotectedEntry (luaD.rawrunprotectedEntry m L) L) L = luaD.lthrow E mg L c →
      (mg.th L).errorJmp = some (m.njmp + 1) →
      (mg.ljs m.njmp).status = LUA_OK →
      ∃ mi, luaD.rawrunprotected (luaD.rawrunprotectedEntry m L) L g = .ret c mi ∧
        luaD.rawrunprotected m L (nestedCall g k)
          = .ret LUA_OK (luaD.rawrunprotectedExit m L (k c mi L))) ∧
    (∀ (fuel : Nat) (old_top ef : Int) (mg : Machine) (lv : Int) (mc : Machine),
      g (luaD.rawrunprotectedEntry
          ((luaD.rawrunprotectedEntry m L).setTh L
            { (luaD.rawrunprotectedEntry m L).th L with errfunc := ef }) L) L
        = luaD.lthrow E mg L c →
      (mg.th L).errorJmp = some (m.njmp + 1) →
      E.luaF_close
          (luaD.rawrunprotectedEntry
            (pcallRecover (luaD.rawrunprotectedEntry m L) L ef (mg.setStatus (m.njmp + 1) c)) L)
          L (((pcallRecover (luaD.rawrunprotectedEntry m L) L ef
                (mg.setStatus (m.njmp + 1) c)).th L).stack + old_top) c 0
        = .ret lv mc →
      (mc.ljs (m.njmp + 1)).status = LUA_OK →
      (mc.ljs m.njmp).status = LUA_OK →
      ∃ mi, luaD.pcall E K (fuel + 1) (luaD.rawrunprotectedEntry m L) L g old_top ef
          = .ret c mi ∧
        luaD.rawrunprotected m L (nestedPcall E K (fuel + 1) g old_top ef k)
          = .ret LUA_OK (luaD.rawrunprotectedExit m L (k c mi L))) := by
  have hn : (luaD.rawrunprotectedEntry m L).njmp = m.njmp + 1 := rfl
  have hne : m.njmp ≠ m.njmp + 1 := by omega
  constructor
  · intro mg hg hgj hmg
    rw [luaD.lthrow_handler E mg L c (m.njmp + 1) hgj] at hg
    have hin : luaD.rawrunprotected (luaD.rawrunprotectedEntry m L) L g
        = .ret c (luaD.rawrunprotectedExit (luaD.rawrunprotectedEntry m L) L
            { mg with ljs := Function.update mg.ljs (m.njmp + 1)
                              { mg.ljs (m.njmp + 1) with status := c } }) := by
      have h := luaD.rawrunprotected_thrown_ne (luaD.rawrunprotectedEntry m L) L g _ hg
        (by rw [hn]; simpa using hc)
      rw [h, hn]
      simp
    refine ⟨_, hin, ?_⟩
    have hf : nestedCall g k (luaD.rawrunprotectedEntry m L) L
        = .ret () (k c (luaD.rawrunprotectedExit (luaD.rawrunprotectedEntry m L) L
            { mg with ljs := Function.update mg.ljs (m.njmp + 1)
                              { mg.ljs (m.njmp + 1) with status := c } }) L) := by
      unfold nestedCall
      rw [hin]
      rfl
    rw [luaD.rawrunprotected_ret m L (nestedCall g k) _ hf, hk]
    have hst : ((luaD.rawrunprotectedExit (luaD.rawrunprotectedEntry m L) L
        { mg with ljs := Function.update mg.ljs (m.njmp + 1)
                          { mg.ljs (m.njmp + 1) with status := c } }).ljs m.njmp).status
        = LUA_OK := by
      simpa [luaD.rawrunprotectedExit, Machine.setTh, Function.update_noteq hne] using hmg
    rw [hst]
  · intro fuel old_top ef mg lv mc hg hgj hclose hcs1 hcs0
    rw [luaD.lthrow_handler E mg L c (m.njmp + 1) hgj] at hg
    have hg' : g (luaD.rawrunprotectedEntry
          ((luaD.rawrunprotectedEntry m L).setTh L
            { (luaD.rawrunprotectedEntry m L).th L with errfunc := ef }) L) L
        = .thrown (mg.setStatus (m.njmp + 1) c) := hg
    have hst : ((mg.setStatus (m.njmp + 1) c).ljs (luaD.rawrunprotectedEntry m L).njmp).status
        = c := by
      rw [hn]
      simp [Machine.setStatus]
    obtain ⟨mi, hp, hl⟩ := luaD.pcall_raised E K fuel (luaD.rawrunprotectedEntry m L) L g old_top
      ef (mg.setStatus (m.njmp + 1) c) c lv mc hg' hst hc hclose (by rw [hn]; exact hcs1)
    refine ⟨mi, hp, ?_⟩
    have hf : nestedPcall E K (fuel + 1) g old_top ef k (luaD.rawrunprotectedEntry m L) L
        = .ret () (k c mi L) := by
      unfold nestedPcall
      rw [hp]
      rfl
    rw [luaD.rawrunprotected_ret m L _ _ hf, hk, hl, hcs0]

/-- Witness for C7 (amended): the inner function raises `LUA_ERRRUN`; the code
after the inner call pushes the status it received.  With the inner call made
through `rawrunprotected` the integer 2 is on top of the stack when the outer
call has returned `LUA_OK`; with the inner call made through `pcall` (stack
level 1) the error object is in slot 1 and the integer 2 above it. -/
theorem nested_protected_call_witness :
    (luaD.rawrunprotected machine0 0 (nestedCall (raiser LUA_ERRRUN) pushStatus)).value?
      = some LUA_OK ∧
    (((luaD.rawrunprotected machine0 0 (nestedCall (raiser LUA_ERRRUN) pushStatus)).machineD
        machine0).th 0).val 1001 = TValue.integer 2 ∧
    (luaD.rawrunprotected machine0 0
        (nestedPcall env0 stdConf 1 (raiser LUA_ERRRUN) 1 0 pushStatus)).value? = some LUA_OK ∧
    (((luaD.rawrunprotected machine0 0
        (nestedPcall env0 stdConf 1 (raiser LUA_ERRRUN) 1 0 pushStatus)).machineD
        machine0).th 0).val 1002 = TValue.integer 2 := by
  obtain ⟨hA, hB⟩ := nested_protected_call env0 stdConf machine0 0 (raiser LUA_ERRRUN)
    pushStatus LUA_ERRRUN (by decide) (fun _ _ => rfl)
  obtain ⟨mi, -, h2⟩ := hA
    (luaD.rawrunprotectedEntry (luaD.rawrunprotectedEntry machine0 0) 0) rfl rfl rfl
  obtain ⟨mj, h3, h4⟩ := hB 0 1 0
    (luaD.rawrunprotectedEntry
      ((luaD.rawrunprotectedEntry machine0 0).setTh 0
        { (luaD.rawrunprotectedEntry machine0 0).th 0 with errfunc := 0 }) 0)
    _ _ rfl rfl rfl rfl rfl
  refine ⟨?_, rfl, ?_, by decide!⟩
  · rw [h2]
    rfl
  · rw [h4]
    rfl

set_option maxHeartbeats 1000000 in
/-- Counterexample to C7 as stated: when the inner function raises status
`LUA_OK` (0) the inner protected call returns -1, not 0: the code after the
inner call receives -1 and pushes it.  And when the inner call is made through
`pcall`, the inner function raises `LUA_ERRRUN` (2) and the closing of the
pending variables raises `LUA_ERRMEM` once, the inner `pcall` returns
`LUA_ERRMEM` (4): the code after the inner call receives 4. -/
theorem nested_protected_call_counterexample :
    (luaD.rawrunprotected (luaD.rawrunprotectedEntry machine0 0) 0 (raiser LUA_OK)).value?
      = some (-1) ∧
    (luaD.rawrunprotected machine0 0 (nestedCall (raiser LUA_OK) pushStatus)).value?
      = some LUA_OK ∧
    (((luaD.rawrunprotected machine0 0 (nestedCall (raiser LUA_OK) pushStatus)).machineD
        machine0).th 0).val 1001 = TValue.integer (-1) ∧
    (-1 : Int) ≠ LUA_OK ∧
    (luaD.pcall envCloseErr stdConf 5 (luaD.rawrunprotectedEntry machine0 0) 0
        (raiser LUA_ERRRUN) 1 0).value? = some LUA_ERRMEM ∧
    (luaD.rawrunprotected machine0 0
        (nestedPcall envCloseErr stdConf 5 (raiser LUA_ERRRUN) 1 0 pushStatus)).value?
      = some LUA_OK ∧
    (((luaD.rawrunprotected machine0 0
        (nestedPcall envCloseErr stdConf 5 (raiser LUA_ERRRUN) 1 0 pushStatus)).machineD
        machine0).th 0).val 1002 = TValue.integer 4 ∧
    LUA_ERRMEM ≠ LUA_ERRRUN := by
  refine ⟨rfl, rfl, rfl, by decide, by decide!, by decide!, by decide!, by decide⟩

/-! ## Result adjustment (C9) -/

theorem lua_State.val_setval (s : lua_State) (q p : Int) (v : TValue) :
    (s.setval q v).val p = if p = q then v else s.val p := by
  unfold lua_State.setval lua_State.val
  by_cases h : p = q
  · subst h
    simp
  · have : p - s.stack ≠ q - s.stack := fun h' => h (by omega)
    simp [h, Function.update_noteq this]

/-- The copy loop of `moveresults` only writes slots: when the destination is
not above the source, the slots `res + i0 .. res + i0 + k - 1` receive the
values that the source slots held before the loop. -/
theorem copyResults_spec (res first : Int) (hle : res ≤ first) (k : Nat) :
    ∀ (i0 : Int) (s : lua_State),
      (copyResults res first k i0 s).stack = s.stack ∧
      (copyResults res first k i0 s).top = s.top ∧
      (copyResults res first k i0 s).ci = s.ci ∧
      (copyResults res first k i0 s).cis = s.cis ∧
      ∀ p, (copyResults res first k i0 s).val p
        = if res + i0 ≤ p ∧ p < res + i0 + k then s.val (p - res + first) else s.val p := by
  induction k with
  | zero =>
    intro i0 s
    refine ⟨rfl, rfl, rfl, rfl, ?_⟩
    intro p
    have : ¬ (res + i0 ≤ p ∧ p < res + i0 + ((0 : Nat) : Int)) := by
      intro h
      have := h.1
      have := h.2
      omega
    rw [if_neg this]
    rfl
  | succ k ih =>
    intro i0 s
    obtain ⟨h1, h2, h3, h4, h5⟩ := ih (i0 + 1) (s.setval (res + i0) (s.val (first + i0)))
    refine ⟨?_, ?_, ?_, ?_, ?_⟩
    · simpa [copyResults, lua_State.setval] using h1
    · simpa [copyResults, lua_State.setval] using h2
    · simpa [copyResults, lua_State.setval] using h3
    · simpa [copyResults, lua_State.setval] using h4
    · intro p
      simp only [copyResults]
      rw [h5 p]
      simp only [lua_State.val_setval]
      by_cases hp : res + i0 ≤ p ∧ p < res + i0 + ((k + 1 : Nat) : Int)
      · rw [if_pos hp]
        by_cases hp2 : res + (i0 + 1) ≤ p ∧ p < res + (i0 + 1) + (k : Int)
        · rw [if_pos hp2]
          have : ¬ (p - res + first = res + i0) := by
            have := hp2.1
            omega
          rw [if_neg this]
        · rw [if_neg hp2]
          have hpe : p = res + i0 := by
            have := hp.1
            have := hp.2
            push_cast at *
            by_contra hne
            exact hp2 ⟨by omega, by omega⟩
          rw [if_pos hpe, hpe]
          congr 1
          ring
      · rw [if_neg hp]
        have hp2 : ¬ (res + (i0 + 1) ≤ p ∧ p < res + (i0 + 1) + (k : Int)) := by
          intro h
          apply hp
          have := h.1
          have := h.2
          push_cast
          constructor <;> omega
        rw [if_neg hp2]
        have : ¬ p = res + i0 := by
          intro h
          apply hp
          push_cast
          constructor <;> omega
        rw [if_neg this]

/-- The padding loop of `moveresults` only writes slots: the slots
`res + i0 .. res + i0 + k - 1` become nil. -/
theorem fillNil_spec (res : Int) (k : Nat) :
    ∀ (i0 : Int) (s : lua_State),
      (fillNil res k i0 s).stack = s.stack ∧
      (fillNil res k i0 s).top = s.top ∧
      (fillNil res k i0 s).ci = s.ci ∧
      (fillNil res k i0 s).cis = s.cis ∧
      ∀ p, (fillNil res k i0 s).val p
        = if res + i0 ≤ p ∧ p < res + i0 + k then TValue.nil else s.val p := by
  induction k with
  | zero =>
    intro i0 s
    refine ⟨rfl, rfl, rfl, rfl, ?_⟩
    intro p
    have : ¬ (res + i0 ≤ p ∧ p < res + i0 + ((0 : Nat) : Int)) := by
      intro h
      have := h.1
      have := h.2
      omega
    rw [if_neg this]
    rfl
  | succ k ih =>
    intro i0 s
    obtain ⟨h1, h2, h3, h4, h5⟩ := ih (i0 + 1) (s.setval (res + i0) TValue.nil)
    refine ⟨?_, ?_, ?_, ?_, ?_⟩
    · simpa [fillNil, lua_State.setval] using h1
    · simpa [fillNil, lua_State.setval] using h2
    · simpa [fillNil, lua_State.setval] using h3
    · simpa [fillNil, lua_State.setval] using h4
    · intro p
      simp only [fillNil]
      rw [h5 p]
      simp only [lua_State.val_setval]
      by_cases hp : res + i0 ≤ p ∧ p < res + i0 + ((k + 1 : Nat) : Int)
      · rw [if_pos hp]
        by_cases hp2 : res + (i0 + 1) ≤ p ∧ p < res + (i0 + 1) + (k : Int)
        · rw [if_pos hp2]
        · rw [if_neg hp2]
          have hpe : p = res + i0 := by
            have := hp.1
            have := hp.2
            push_cast at *
            by_contra hne
            exact hp2 ⟨by omega, by omega⟩
          rw [if_pos hpe]
      · rw [if_neg hp]
        have hp2 : ¬ (res + (i0 + 1) ≤ p ∧ p < res + (i0 + 1) + (k : Int)) := by
          intro h
          apply hp
          have := h.1
          have := h.2
          push_cast
          constructor <;> omega
        rw [if_neg hp2]
        have : ¬ p = res + i0 := by
          intro h
          apply hp
          push_cast
          constructor <;> omega
        rw [if_neg this]

/-- The generic case of `moveresults`: `wanted` slots from `res` on receive the
first results, padded with nil. -/
theorem moveresults_generic (s : lua_State) (res nres wanted : Int) (hnres : 0 ≤ nres)
    (hres : res ≤ s.top - nres) :
    (fillNil res (wanted - max (if nres > wanted then wanted else nres) 0).toNat
        (max (if nres > wanted then wanted else nres) 0)
        (copyResults res (s.top - nres) (if nres > wanted then wanted else nres).toNat 0
          s)).stack = s.stack ∧
    (fillNil res (wanted - max (if nres > wanted then wanted else nres) 0).toNat
        (max (if nres > wanted then wanted else nres) 0)
        (copyResults res (s.top - nres) (if nres > wanted then wanted else nres).toNat 0
          s)).ci = s.ci ∧
    (fillNil res (wanted - max (if nres > wanted then wanted else nres) 0).toNat
        (max (if nres > wanted then wanted else nres) 0)
        (copyResults res (s.top - nres) (if nres > wanted then wanted else nres).toNat 0
          s)).cis = s.cis ∧
    ∀ i : Int, 0 ≤ i → i < wanted →
      (fillNil res (wanted - max (if nres > wanted then wanted else nres) 0).toNat
        (max (if nres > wanted then wanted else nres) 0)
        (copyResults res (s.top - nres) (if nres > wanted then wanted else nres).toNat 0
          s)).val (res + i)
        = if i < nres then s.val (s.top - nres + i) else TValue.nil := by
  obtain ⟨c1, c2, c3, c4, c5⟩ := copyResults_spec res (s.top - nres) hres
    (if nres > wanted then wanted else nres).toNat 0 s
  obtain ⟨f1, f2, f3, f4, f5⟩ := fillNil_spec res
    (wanted - max (if nres > wanted then wanted else nres) 0).toNat
    (max (if nres > wanted then wanted else nres) 0)
    (copyResults res (s.top - nres) (if nres > wanted then wanted else nres).toNat 0 s)
  refine ⟨f1.trans c1, f3.trans c3, f4.trans c4, ?_⟩
  intro i hi0 hiw
  rw [f5, c5]
  by_cases hin : i < nres
  · rw [if_pos hin]
    have h1 : ¬ (res + max (if nres > wanted then wanted else nres) 0 ≤ res + i ∧
        res + i < res + max (if nres > wanted then wanted else nres) 0 +
          ((wanted - max (if nres > wanted then wanted else nres) 0).toNat : Int)) := by
      intro h
      have := h.1
      split_ifs at this <;> omega
    rw [if_neg h1]
    have h2 : res + 0 ≤ res + i ∧
        res + i < res + 0 + (((if nres > wanted then wanted else nres).toNat : Nat) : Int) := by
      split_ifs <;> omega
    rw [if_pos h2]
    congr 1
    ring
  · rw [if_neg hin]
    have h1 : res + max (if nres > wanted then wanted else nres) 0 ≤ res + i ∧
        res + i < res + max (if nres > wanted then wanted else nres) 0 +
          ((wanted - max (if nres > wanted then wanted else nres) 0).toNat : Int) := by
      split_ifs <;> omega
    rw [if_pos h1]

/-- What `moveresults` does for a wanted count that carries no to-be-closed
mark. -/
theorem moveresults_spec (E : LuaEnv) (K : LuaConf) (m : Machine) (L : Nat)
    (res nres w : Int) (hnres : 0 ≤ nres) (htbc : K.hastocloseCfunc w = false)
    (hres : res ≤ (m.th L).top - nres) :
    ∃ m2, moveresults E K m L res nres w = .ret () m2 ∧
      (m2.th L).stack = (m.th L).stack ∧ (m2.th L).ci = (m.th L).ci ∧
      (m2.th L).cis = (m.th L).cis ∧
      (m2.th L).top = res + (if w = LUA_MULTRET then nres else w) ∧
      ∀ i : Int, 0 ≤ i → i < (if w = LUA_MULTRET then nres else w) →
        (m2.th L).val (res + i)
          = if i < nres then (m.th L).val ((m.th L).top - nres + i) else TValue.nil := by
  unfold moveresults
  simp only
  by_cases h0 : w = 0
  · subst h0
    rw [if_pos rfl]
    refine ⟨_, rfl, ?_⟩
    simp only [Machine.th_setTh_same]
    refine ⟨by trivial, by trivial, by trivial, by simp [LUA_MULTRET], ?_⟩
    intro i hi0 hi
    simp [LUA_MULTRET] at hi
    omega
  · rw [if_neg h0]
    by_cases h1 : w = 1
    · subst h1
      rw [if_pos rfl]
      refine ⟨_, rfl, ?_⟩
      simp only [Machine.th_setTh_same]
      refine ⟨?_, ?_, ?_, by simp [LUA_MULTRET], ?_⟩
      · split_ifs <;> rfl
      · split_ifs <;> rfl
      · split_ifs <;> rfl
      · intro i hi0 hi
        simp [LUA_MULTRET] at hi
        have hi' : i = 0 := by omega
        subst hi'
        by_cases hn : nres = 0
        · subst hn
          simp [lua_State.val, lua_State.setval]
        · have : (0 : Int) < nres := by omega
          simp [hn, this, lua_State.val, lua_State.setval]
    · rw [if_neg h1]
      by_cases hm : w = LUA_MULTRET
      · subst hm
        rw [if_pos rfl]
        simp only [Outcome.bind, if_pos rfl]
        obtain ⟨g1, g2, g3, g4⟩ := moveresults_generic (m.th L) res nres nres hnres hres
        refine ⟨_, rfl, ?_⟩
        simp only [Machine.th_setTh_same]
        exact ⟨g1, g2, g3, by trivial, g4⟩
      · rw [if_neg hm, htbc]
        simp only [Outcome.bind, if_neg hm]
        obtain ⟨g1, g2, g3, g4⟩ := moveresults_generic (m.th L) res nres w hnres hres
        refine ⟨_, rfl, ?_⟩
        simp only [Machine.th_setTh_same]
        exact ⟨g1, g2, g3, by trivial, g4⟩

/-- C9: for every frame `ci` whose wanted count `w = ci->nresults` carries no
to-be-closed mark and every `nres >= 0` results on top of the stack, above the
function slot of the frame, when the results are moved (after the return hook,
if one is active, has returned): after `luaD::poscall(L, ci, nres)`, with
`t = nres` if `w` is `LUA_MULTRET` and `t = w` otherwise, `L->top = ci->func + t`
and for each `i < t` the slot `ci->func + i` holds the `i`-th result when
`i < nres` and nil otherwise; the current frame is the previous one. -/
theorem poscall_adjusts_results (E : LuaEnv) (K : LuaConf) (m : Machine) (L : Nat)
    (ci : Nat) (nres : Int) (m1 : Machine)
    (hnres : 0 ≤ nres)
    (htbc : K.hastocloseCfunc ((m.th L).cis ci).nresults = false)
    (hhook : (if (m.th L).hookmask ≠ 0 then rethook E K m L ci nres else .ret () m)
              = .ret () m1)
    (hres : ((m1.th L).cis ci).func ≤ (m1.th L).top - nres) :
    ∃ m2, luaD.poscall E K m L ci nres = .ret () m2 ∧
      (m2.th L).ci = ci - 1 ∧
      (m2.th L).stack = (m1.th L).stack ∧
      (m2.th L).top = ((m1.th L).cis ci).func
        + (if ((m.th L).cis ci).nresults = LUA_MULTRET then nres
           else ((m.th L).cis ci).nresults) ∧
      ∀ i : Int, 0 ≤ i →
        i < (if ((m.th L).cis ci).nresults = LUA_MULTRET then nres
             else ((m.th L).cis ci).nresults) →
        (m2.th L).val (((m1.th L).cis ci).func + i)
          = if i < nres then (m1.th L).val ((m1.th L).top - nres + i) else TValue.nil := by
  obtain ⟨m2, h1, h2, h3, h4, h5, h6⟩ := moveresults_spec E K m1 L ((m1.th L).cis ci).func nres
    ((m.th L).cis ci).nresults hnres htbc hres
  have hp : luaD.poscall E K m L ci nres
      = .ret () (m2.setTh L { m2.th L with ci := ci - 1 }) := by
    unfold luaD.poscall
    simp only [htbc]
    have hc : ((m.th L).hookmask ≠ 0 ∧ ¬ false = true) ↔ (m.th L).hookmask ≠ 0 := by simp
    simp only [hc, hhook, Outcome.bind, h1]
  refine ⟨_, hp, ?_⟩
  simp only [Machine.th_setTh_same]
  refine ⟨by trivial, h2, h5, ?_⟩
  intro i hi0 hi
  have := h6 i hi0 hi
  simpa [lua_State.val] using this

/-- Witness for C9: three results 10, 20, 30 returned to a frame that wants
two: the function slot receives 10, the next slot 20, and `top` is two above
the function slot. -/
theorem poscall_adjusts_results_witness :
    ∃ m2, luaD.poscall env0 stdConf machineCall 0 1 3 = .ret () m2 ∧
      (m2.th 0).ci = 0 ∧ (m2.th 0).top = 1003 ∧
      (m2.th 0).val 1001 = TValue.integer 10 ∧ (m2.th 0).val 1002 = TValue.integer 20 := by
  obtain ⟨m2, h1, h2, -, h4, h5⟩ := poscall_adjusts_results env0 stdConf machineCall 0 1 3
    machineCall (by decide) rfl rfl (by decide)
  refine ⟨m2, h1, h2, h4, ?_, ?_⟩
  · exact h5 0 (by decide) (by decide)
  · exact h5 1 (by decide) (by decide)

/-! ## Starting a call (C10) -/

/-- A reallocation that returns leaves the current frame where it was. -/
theorem luaD.reallocstack_ret_ci (E : LuaEnv) (K : LuaConf) (m : Machine) (L : Nat)
    (newsize r v : Int) (m' : Machine) (h : luaD.reallocstack E K m L newsize r = .ret v m') :
    (m'.th L).ci = (m.th L).ci := by
  cases ha : E.realloc (luaD.reallocstackEntry m L) L (m.th L).stack
          ((m.th L).stacksize + K.EXTRA_STACK) (newsize + K.EXTRA_STACK) with
  | none =>
    obtain ⟨m1, h1, -, -, -, -, -, -, -, -, h2⟩ := luaD.reallocstack_none E K m L newsize r ha
    rw [h1] at h
    by_cases hr : r ≠ 0
    · rw [if_pos hr] at h
      exact absurd h (luaD.lthrow_ne_ret _ _ _ _ _ _)
    · rw [if_neg hr] at h
      injection h with _ h3
      rw [← h3]
      exact h2
  | some p =>
    obtain ⟨m1, h1, -, -, -, -, -, -, -, -, h2⟩ := luaD.reallocstack_some E K m L newsize r p ha
    rw [h1] at h
    injection h with _ h3
    rw [← h3]
    exact h2

/-- A call of `growstack` that returns leaves the current frame where it was. -/
theorem luaD.growstack_ret_ci (E : LuaEnv) (K : LuaConf) (m : Machine) (L : Nat)
    (n r v : Int) (m' : Machine) (h : luaD.growstack E K m L n r = .ret v m') :
    (m'.th L).ci = (m.th L).ci := by
  have hover : luaD.growstackOverflow E K m L r = .ret v m' → (m'.th L).ci = (m.th L).ci := by
    intro h
    unfold luaD.growstackOverflow at h
    cases h2 : luaD.reallocstack E K m L (ERRORSTACKSIZE K) r with
    | ret v2 m2 =>
      rw [h2] at h
      simp only [Outcome.bind] at h
      by_cases hr : r ≠ 0
      · rw [if_pos hr] at h
        exact absurd h (luaG_runerror_ne_ret _ _ _ _ _ _)
      · rw [if_neg hr] at h
        injection h with _ h3
        rw [← h3]
        exact luaD.reallocstack_ret_ci E K m L _ r v2 m2 h2
    | thrown m2 => rw [h2] at h; simp [Outcome.bind] at h
    | aborted m2 => rw [h2] at h; simp [Outcome.bind] at h
    | diverged => rw [h2] at h; simp [Outcome.bind] at h
  unfold luaD.growstack at h
  simp only at h
  by_cases h1 : (m.th L).stacksize > K.LUAI_MAXSTACK
  · rw [if_pos h1] at h
    by_cases hr : r ≠ 0
    · rw [if_pos hr] at h
      exact absurd h (luaD.lthrow_ne_ret _ _ _ _ _ _)
    · rw [if_neg hr] at h
      injection h with _ h5
      rw [h5]
  · rw [if_neg h1] at h
    by_cases h2 : n < K.LUAI_MAXSTACK
    · rw [if_pos h2] at h
      by_cases h3 : luaD.growstackNewsize K (m.th L) n ≤ K.LUAI_MAXSTACK
      · rw [if_pos h3] at h
        exact luaD.reallocstack_ret_ci E K m L _ r v m' h
      · rw [if_neg h3] at h
        exact hover h
    · rw [if_neg h2] at h
      exact hover h

/-- `checkstackGCp` keeps the offset of the preserved pointer, and the current
frame when the collector keeps it. -/
theorem luaD.checkstackGCp_ret (E : LuaEnv) (K : LuaConf) (m : Machine) (L : Nat)
    (n p p1 : Int) (m1 : Machine) (h : luaD.checkstackGCp E K m L n p = .ret p1 m1) :
    p1 - (m1.th L).stack = p - (m.th L).stack ∧
    ((∀ mg, E.luaC_checkGC m L = .ret () mg → (mg.th L).ci = (m.th L).ci) →
      (m1.th L).ci = (m.th L).ci) := by
  unfold luaD.checkstackGCp at h
  by_cases hc : (m.th L).stack_last - (m.th L).top ≤ n
  · rw [if_pos hc] at h
    cases hg : E.luaC_checkGC m L with
    | ret u mg =>
      rw [hg] at h
      simp only [Outcome.bind] at h
      cases hgr : luaD.growstack E K mg L n 1 with
      | ret v m2 =>
        rw [hgr] at h
        simp only at h
        injection h with h1 h2
        subst h2
        refine ⟨?_, ?_⟩
        · rw [← h1]
          simp [luaD.savestack]
        · intro hgc
          rw [luaD.growstack_ret_ci E K mg L n 1 v m2 hgr]
          exact hgc mg rfl
      | thrown m2 => rw [hgr] at h; simp at h
      | aborted m2 => rw [hgr] at h; simp at h
      | diverged => rw [hgr] at h; simp at h
    | thrown m2 => rw [hg] at h; simp [Outcome.bind] at h
    | aborted m2 => rw [hg] at h; simp [Outcome.bind] at h
    | diverged => rw [hg] at h; simp [Outcome.bind] at h
  · rw [if_neg hc] at h
    injection h with h1 h2
    subst h1 h2
    exact ⟨rfl, fun _ => rfl⟩

/-- `poscall` makes the frame below `ci` the current one. -/
theorem luaD.poscall_ret_ci (E : LuaEnv) (K : LuaConf) (m : Machine) (L : Nat)
    (ci : Nat) (nres : Int) (m' : Machine) (h : luaD.poscall E K m L ci nres = .ret () m') :
    (m'.th L).ci = ci - 1 := by
  unfold luaD.poscall at h
  simp only at h
  generalize (if (m.th L).hookmask ≠ 0 ∧ ¬ K.hastocloseCfunc ((m.th L).cis ci).nresults = true
    then rethook E K m L ci nres else Outcome.ret () m) = r at h
  cases r with
  | ret u m1 =>
    simp only [Outcome.bind] at h
    cases hm : moveresults E K m1 L ((m1.th L).cis ci).func nres ((m.th L).cis ci).nresults with
    | ret u2 m2 =>
      rw [hm] at h
      simp only at h
      injection h with _ h2
      rw [← h2]
      simp
    | thrown m2 => rw [hm] at h; simp at h
    | aborted m2 => rw [hm] at h; simp at h
    | diverged => rw [hm] at h; simp at h
  | thrown m2 => simp [Outcome.bind] at h
  | aborted m2 => simp [Outcome.bind] at h
  | diverged => simp [Outcome.bind] at h

theorem Outcome.bind_eq_ret {α β : Type} (o : Outcome α) (k : α → Machine → Outcome β)
    (v : β) (m' : Machine) (h : o.bind k = .ret v m') :
    ∃ a m1, o = .ret a m1 ∧ k a m1 = .ret v m' := by
  cases o with
  | ret a m1 => exact ⟨a, m1, rfl, h⟩
  | thrown m1 => simp [Outcome.bind] at h
  | aborted m1 => simp [Outcome.bind] at h
  | diverged => simp [Outcome.bind] at h

/-- When `precallC` returns, the C function has been run and `poscall` has
finished the call. -/
theorem precallC_ret (E : LuaEnv) (K : LuaConf) (m : Machine) (L : Nat) (func nresults : Int)
    (f : Nat) (n : Int) (m' : Machine) (h : precallC E K m L func nresults f = .ret n m') :
    ∃ func1 m1 m3 m4,
      luaD.checkstackGCp E K m L LUA_MINSTACK func = .ret func1 m1 ∧
      E.cfunction f m3 L = .ret n m4 ∧
      luaD.poscall E K m4 L ((m1.th L).ci + 1) n = .ret () m' := by
  unfold precallC at h
  obtain ⟨func1, m1, h1, h2⟩ := Outcome.bind_eq_ret _ _ _ _ h
  simp only at h2
  obtain ⟨u, m3, -, h4⟩ := Outcome.bind_eq_ret _ _ _ _ h2
  obtain ⟨n', m4, h5, h6⟩ := Outcome.bind_eq_ret _ _ _ _ h4
  obtain ⟨u', m5, h7, h8⟩ := Outcome.bind_eq_ret _ _ _ _ h6
  injection h8 with h9 h10
  subst h9 h10
  exact ⟨func1, m1, m3, m4, h1, h5, h7⟩

/-- When `precallC` returns, each of its stages has returned: the stack check,
the call hook, the C function and `poscall` for the frame pushed. -/
theorem precallC_stages (E : LuaEnv) (K : LuaConf) (m : Machine) (L : Nat) (func nresults : Int)
    (f : Nat) (n : Int) (m' : Machine) (h : precallC E K m L func nresults f = .ret n m') :
    ∃ func1 m1 m3 m4,
      luaD.checkstackGCp E K m L LUA_MINSTACK func = .ret func1 m1 ∧
      precallCHook E K (precallCFrame K m1 L func1 nresults) L func1 = .ret () m3 ∧
      E.cfunction f m3 L = .ret n m4 ∧
      luaD.poscall E K m4 L ((m1.th L).ci + 1) n = .ret () m' := by
  unfold precallC at h
  obtain ⟨func1, m1, h1, h2⟩ := Outcome.bind_eq_ret _ _ _ _ h
  simp only at h2
  obtain ⟨u, m3, h3, h4⟩ := Outcome.bind_eq_ret _ _ _ _ h2
  obtain ⟨n', m4, h5, h6⟩ := Outcome.bind_eq_ret _ _ _ _ h4
  obtain ⟨u', m5, h7, h8⟩ := Outcome.bind_eq_ret _ _ _ _ h6
  injection h8 with h9 h10
  subst h9 h10
  exact ⟨func1, m1, m3, m4, h1, h3, h5, h7⟩

/-- When the stages of `precallC` return, `precallC` returns the count of the C
function in the machine left by `poscall`. -/
theorem precallC_of_stages (E : LuaEnv) (K : LuaConf) (m : Machine) (L : Nat)
    (func nresults : Int) (f : Nat) (func1 : Int) (m1 m3 : Machine) (n : Int) (m4 m5 : Machine)
    (hchk : luaD.checkstackGCp E K m L LUA_MINSTACK func = .ret func1 m1)
    (hhook : precallCHook E K (precallCFrame K m1 L func1 nresults) L func1 = .ret () m3)
    (hf : E.cfunction f m3 L = .ret n m4)
    (hpos : luaD.poscall E K m4 L ((m1.th L).ci + 1) n = .ret () m5) :
    precallC E K m L func nresults f = .ret n m5 := by
  have hci1 : (prepCallInfo m1 L func1 nresults K.CIST_C
      ((m1.th L).top + LUA_MINSTACK)).1 = (m1.th L).ci + 1 := rfl
  unfold precallCHook precallCFrame at hhook
  unfold precallC
  rw [hchk]
  simp only [Outcome.bind, hhook, hf, hci1, hpos]

/-- For a wanted count without to-be-closed mark, when the return hook (if one
is active) returns, `poscall` returns: the results are at the function slot of
the frame, adjusted to the wanted count, and the frame below is current. -/
theorem luaD.poscall_results (E : LuaEnv) (K : LuaConf) (m : Machine) (L : Nat)
    (ci : Nat) (nres : Int) (m1 : Machine)
    (hnres : 0 ≤ nres)
    (htbc : K.hastocloseCfunc ((m.th L).cis ci).nresults = false)
    (hhook : poscallHook E K m L ci nres = .ret () m1)
    (hres : ((m1.th L).cis ci).func ≤ (m1.th L).top - nres) :
    ∃ m2, luaD.poscall E K m L ci nres = .ret () m2 ∧
      (m2.th L).ci = ci - 1 ∧
      (m2.th L).stack = (m1.th L).stack ∧
      (m2.th L).top = ((m1.th L).cis ci).func
        + (if ((m.th L).cis ci).nresults = LUA_MULTRET then nres
           else ((m.th L).cis ci).nresults) ∧
      ∀ i : Int, 0 ≤ i →
        i < (if ((m.th L).cis ci).nresults = LUA_MULTRET then nres
             else ((m.th L).cis ci).nresults) →
        (m2.th L).val (((m1.th L).cis ci).func + i)
          = if i < nres then (m1.th L).val ((m1.th L).top - nres + i) else TValue.nil := by
  obtain ⟨m2, h1, h2, h3, h4, h5, h6⟩ := moveresults_spec E K m1 L ((m1.th L).cis ci).func nres
    ((m.th L).cis ci).nresults hnres htbc hres
  unfold poscallHook at hhook
  have hp : luaD.poscall E K m L ci nres
      = .ret () (m2.setTh L { m2.th L with ci := ci - 1 }) := by
    unfold luaD.poscall
    simp only [htbc]
    have hc : ((m.th L).hookmask ≠ 0 ∧ ¬ false = true) ↔ (m.th L).hookmask ≠ 0 := by simp
    simp only [hc, hhook, Outcome.bind, h1]
  refine ⟨_, hp, ?_⟩
  simp only [Machine.th_setTh_same]
  refine ⟨by trivial, h2, h5, ?_⟩
  intro i hi0 hi
  have := h6 i hi0 hi
  simpa [lua_State.val] using this

/-- What a return of `precall` means when the value in the function slot is a
function: `NULL` exactly for a C function, whose stages have then all returned,
and a frame, which is current, exactly for a Lua closure. -/
theorem luaD.precall_direct_ret (E : LuaEnv) (K : LuaConf) (L : Nat) (nresults : Int)
    (fuel : Nat) (m : Machine) (func : Int) (r : Option Nat) (m' : Machine)
    (hk : ((m.th L).val func).isCFunction = true ∨ ((m.th L).val func).isLuaClosure = true)
    (h : luaD.precall E K (fuel + 1) m L func nresults = .ret r m') :
    (r = none ↔ ((m.th L).val func).isCFunction = true) ∧
    (r ≠ none ↔ ((m.th L).val func).isLuaClosure = true) ∧
    (∀ ci, r = some ci → (m'.th L).ci = ci) ∧
    (r = none → ∃ f func1 m1 m3 n m4,
      ((m.th L).val func = .ccl f ∨ (m.th L).val func = .lcf f) ∧
      luaD.checkstackGCp E K m L LUA_MINSTACK func = .ret func1 m1 ∧
      precallCHook E K (precallCFrame K m1 L func1 nresults) L func1 = .ret () m3 ∧
      E.cfunction f m3 L = .ret n m4 ∧
      luaD.poscall E K m4 L ((m1.th L).ci + 1) n = .ret () m') := by
  have hC : ∀ f, ((m.th L).val func = .ccl f ∨ (m.th L).val func = .lcf f) →
      (precallC E K m L func nresults f).bind (fun _ m1 => Outcome.ret none m1) = .ret r m' →
      (r = none ↔ ((m.th L).val func).isCFunction = true) ∧
      (r ≠ none ↔ ((m.th L).val func).isLuaClosure = true) ∧
      (∀ ci, r = some ci → (m'.th L).ci = ci) ∧
      (r = none → ∃ f func1 m1 m3 n m4,
        ((m.th L).val func = .ccl f ∨ (m.th L).val func = .lcf f) ∧
        luaD.checkstackGCp E K m L LUA_MINSTACK func = .ret func1 m1 ∧
        precallCHook E K (precallCFrame K m1 L func1 nresults) L func1 = .ret () m3 ∧
        E.cfunction f m3 L = .ret n m4 ∧
        luaD.poscall E K m4 L ((m1.th L).ci + 1) n = .ret () m') := by
    intro f hv h
    obtain ⟨n, m5, h1, h2⟩ := Outcome.bind_eq_ret _ _ _ _ h
    injection h2 with h3 h4
    subst h3 h4
    obtain ⟨func1, m1, m3, m4, h5, h6, h7, h8⟩ := precallC_stages E K m L func nresults f n m5 h1
    refine ⟨?_, ?_, ?_, ?_⟩
    · rcases hv with hv | hv <;> simp [hv, TValue.isCFunction]
    · rcases hv with hv | hv <;> simp [hv, TValue.isLuaClosure]
    · intro ci hci
      exact absurd hci (by simp)
    · intro _
      exact ⟨f, func1, m1, m3, n, m4, hv, h5, h6, h7, h8⟩
  cases hv : (m.th L).val func with
  | ccl f =>
    simp only [luaD.precall, hv] at h
    rw [← hv]
    exact hC f (Or.inl hv) h
  | lcf f =>
    simp only [luaD.precall, hv] at h
    rw [← hv]
    exact hC f (Or.inr hv) h
  | lcl p =>
    simp only [luaD.precall, hv] at h
    obtain ⟨func1, m1, h1, h2⟩ := Outcome.bind_eq_ret _ _ _ _ h
    injection h2 with h3 h4
    subst h3 h4
    refine ⟨?_, ?_, ?_, ?_⟩
    · simp [TValue.isCFunction]
    · simp [TValue.isLuaClosure]
    · intro ci hci
      injection hci with hci
      subst hci
      simp [prepCallInfo, next_ci, lua_State.setci, fillNil_spec]
    · intro hn
      exact absurd hn (by simp)
  | nil => rw [hv] at hk; simp [TValue.isCFunction, TValue.isLuaClosure] at hk
  | boolean b => rw [hv] at hk; simp [TValue.isCFunction, TValue.isLuaClosure] at hk
  | integer n => rw [hv] at hk; simp [TValue.isCFunction, TValue.isLuaClosure] at hk
  | str ts => rw [hv] at hk; simp [TValue.isCFunction, TValue.isLuaClosure] at hk
  | obj tag ref => rw [hv] at hk; simp [TValue.isCFunction, TValue.isLuaClosure] at hk

/-- Every return of `precall` is the return of `precall` at the callee that the
`__call` substitutions lead to, which is a C function or a Lua closure. -/
theorem luaD.precall_callee (E : LuaEnv) (K : LuaConf) (L : Nat) (nresults : Int) (fuel : Nat) :
    ∀ (m : Machine) (func : Int) (r : Option Nat) (m' : Machine),
      luaD.precall E K fuel m L func nresults = .ret r m' →
      ∃ mc funcc fuelc, CalleeAfterTM E K L m func mc funcc ∧
        (((mc.th L).val funcc).isCFunction = true ∨
          ((mc.th L).val funcc).isLuaClosure = true) ∧
        luaD.precall E K (fuelc + 1) mc L funcc nresults = .ret r m' := by
  induction fuel with
  | zero =>
    intro m func r m' h
    simp [luaD.precall] at h
  | succ fuel ih =>
    intro m func r m' h
    have hO : ((m.th L).val func).isCFunction = false →
        ((m.th L).val func).isLuaClosure = false →
        (tryfuncTM E K m L func).bind
            (fun func m1 => luaD.precall E K fuel m1 L func nresults) = .ret r m' →
        ∃ mc funcc fuelc, CalleeAfterTM E K L m func mc funcc ∧
          (((mc.th L).val funcc).isCFunction = true ∨
            ((mc.th L).val funcc).isLuaClosure = true) ∧
          luaD.precall E K (fuelc + 1) mc L funcc nresults = .ret r m' := by
      intro hc hl h
      obtain ⟨func1, m1, h1, h2⟩ := Outcome.bind_eq_ret _ _ _ _ h
      obtain ⟨mc, funcc, fuelc, hr, rest⟩ := ih m1 func1 r m' h2
      exact ⟨mc, funcc, fuelc, CalleeAfterTM.subst m func m1 func1 mc funcc hc hl h1 hr, rest⟩
    cases hv : (m.th L).val func with
    | ccl f =>
      exact ⟨m, func, fuel, CalleeAfterTM.direct m func,
        Or.inl (by simp [hv, TValue.isCFunction]), h⟩
    | lcf f =>
      exact ⟨m, func, fuel, CalleeAfterTM.direct m func,
        Or.inl (by simp [hv, TValue.isCFunction]), h⟩
    | lcl p =>
      exact ⟨m, func, fuel, CalleeAfterTM.direct m func,
        Or.inr (by simp [hv, TValue.isLuaClosure]), h⟩
    | nil =>
      simp only [luaD.precall, hv] at h
      exact hO (by simp [hv, TValue.isCFunction]) (by simp [hv, TValue.isLuaClosure]) h
    | boolean b =>
      simp only [luaD.precall, hv] at h
      exact hO (by simp [hv, TValue.isCFunction]) (by simp [hv, TValue.isLuaClosure]) h
    | integer n =>
      simp only [luaD.precall, hv] at h
      exact hO (by simp [hv, TValue.isCFunction]) (by simp [hv, TValue.isLuaClosure]) h
    | str ts =>
      simp only [luaD.precall, hv] at h
      exact hO (by simp [hv, TValue.isCFunction]) (by simp [hv, TValue.isLuaClosure]) h
    | obj tag ref =>
      simp only [luaD.precall, hv] at h
      exact hO (by simp [hv, TValue.isCFunction]) (by simp [hv, TValue.isLuaClosure]) h

/-- C10: `luaD::precall` and the kind of the callee.

* When the value in the function slot is a C closure or a light C function,
  the stack check returns, the call hook (if active) returns, the C function
  returns `n` and `luaD::poscall` returns: `precall` returns `NULL`; the
  function has been run in a frame one level above the caller whose function
  slot is the original one (same offset from the stack base) and whose wanted
  count is `nresults`; and `L->ci` is again the frame that was current when the
  frame was pushed, which is the caller's frame when the collector keeps it.
* In that case, when `nresults` carries no to-be-closed mark, the C function has
  left `n >= 0` results above the function slot of its frame, which is still the
  original function slot and still wants `nresults`, and the return hook (if
  active) returns: `precall` returns `NULL`, `L->ci` is the caller's frame, and
  the results have been moved to start at the original function slot, adjusted
  to `nresults`: with `t = n` for `LUA_MULTRET` and `t = nresults` otherwise,
  `L->top` is `t` slots above the original function slot, and the slot `i < t`
  from there holds the `i`-th result for `i < n` and nil otherwise.
* When the value is a Lua closure and the stack check returns: `precall`
  returns the new frame, which is `L->ci`, one level above the caller, with
  `func` the function slot, `top = func + 1 + framesize`, wanted count
  `nresults`, call status 0 and saved pc at the start of the code of the
  function (nothing of it has been executed).
* Whenever `precall` returns, with `callee` the value that the `__call`
  substitutions lead to: `callee` is a C function or a Lua closure, and the
  return is that of `precall` at `callee`; it is `NULL` exactly when `callee` is
  a C closure or a light C function, whose frame has then been pushed, run and
  finished by `poscall` as in the first two cases, and a frame, which is then
  `L->ci`, exactly when `callee` is a Lua closure. -/
theorem precall_contract (E : LuaEnv) (K : LuaConf) (L : Nat) (nresults : Int) :
    (∀ (fuel : Nat) (m : Machine) (func : Int) (f : Nat) (func1 : Int) (m1 m3 : Machine)
        (n : Int) (m4 m5 : Machine),
      ((m.th L).val func = .ccl f ∨ (m.th L).val func = .lcf f) →
      luaD.checkstackGCp E K m L LUA_MINSTACK func = .ret func1 m1 →
      precallCHook E K (precallCFrame K m1 L func1 nresults) L func1 = .ret () m3 →
      E.cfunction f m3 L = .ret n m4 →
      luaD.poscall E K m4 L ((m1.th L).ci + 1) n = .ret () m5 →
      luaD.precall E K (fuel + 1) m L func nresults = .ret none m5 ∧
      func1 - (m1.th L).stack = func - (m.th L).stack ∧
      (((precallCFrame K m1 L func1 nresults).th L).cis ((m1.th L).ci + 1)).func = func1 ∧
      (((precallCFrame K m1 L func1 nresults).th L).cis ((m1.th L).ci + 1)).nresults
        = nresults ∧
      ((precallCFrame K m1 L func1 nresults).th L).ci = (m1.th L).ci + 1 ∧
      (m5.th L).ci = (m1.th L).ci ∧
      ((∀ mg, E.luaC_checkGC m L = .ret () mg → (mg.th L).ci = (m.th L).ci) →
        (m5.th L).ci = (m.th L).ci)) ∧
    (∀ (fuel : Nat) (m : Machine) (func : Int) (f : Nat) (func1 : Int) (m1 m3 : Machine)
        (n : Int) (m4 m4h : Machine),
      ((m.th L).val func = .ccl f ∨ (m.th L).val func = .lcf f) →
      luaD.checkstackGCp E K m L LUA_MINSTACK func = .ret func1 m1 →
      precallCHook E K (precallCFrame K m1 L func1 nresults) L func1 = .ret () m3 →
      E.cfunction f m3 L = .ret n m4 →
      0 ≤ n → K.hastocloseCfunc nresults = false →
      ((m4.th L).cis ((m1.th L).ci + 1)).nresults = nresults →
      poscallHook E K m4 L ((m1.th L).ci + 1) n = .ret () m4h →
      ((m4h.th L).cis ((m1.th L).ci + 1)).func - (m4h.th L).stack = func - (m.th L).stack →
      ((m4h.th L).cis ((m1.th L).ci + 1)).func ≤ (m4h.th L).top - n →
      ∃ m5, luaD.precall E K (fuel + 1) m L func nresults = .ret none m5 ∧
        (m5.th L).ci = (m1.th L).ci ∧
        ((∀ mg, E.luaC_checkGC m L = .ret () mg → (mg.th L).ci = (m.th L).ci) →
          (m5.th L).ci = (m.th L).ci) ∧
        (m5.th L).top - (m5.th L).stack
          = (func - (m.th L).stack) + (if nresults = LUA_MULTRET then n else nresults) ∧
        ∀ i : Int, 0 ≤ i → i < (if nresults = LUA_MULTRET then n else nresults) →
          (m5.th L).slots ((func - (m.th L).stack) + i)
            = if i < n then (m4h.th L).val ((m4h.th L).top - n + i) else TValue.nil) ∧
    (∀ (fuel : Nat) (m : Machine) (func : Int) (p : Proto) (func1 : Int) (m1 : Machine),
      (m.th L).val func = .lcl p →
      luaD.checkstackGCp E K m L p.maxstacksize func = .ret func1 m1 →
      ∃ m', luaD.precall E K (fuel + 1) m L func nresults
          = .ret (some ((m1.th L).ci + 1)) m' ∧
        (m'.th L).ci = (m1.th L).ci + 1 ∧
        ((∀ mg, E.luaC_checkGC m L = .ret () mg → (mg.th L).ci = (m.th L).ci) →
          (m'.th L).ci = (m.th L).ci + 1) ∧
        func1 - (m1.th L).stack = func - (m.th L).stack ∧
        ((m'.th L).cis ((m1.th L).ci + 1)).func = func1 ∧
        ((m'.th L).cis ((m1.th L).ci + 1)).top = func1 + 1 + p.maxstacksize ∧
        ((m'.th L).cis ((m1.th L).ci + 1)).nresults = nresults ∧
        ((m'.th L).cis ((m1.th L).ci + 1)).callstatus = 0 ∧
        ((m'.th L).cis ((m1.th L).ci + 1)).savedpc = p.code) ∧
    (∀ (fuel : Nat) (m : Machine) (func : Int) (r : Option Nat) (m' : Machine),
      luaD.precall E K fuel m L func nresults = .ret r m' →
      ∃ mc funcc fuelc, CalleeAfterTM E K L m func mc funcc ∧
        (((mc.th L).val funcc).isCFunction = true ∨
          ((mc.th L).val funcc).isLuaClosure = true) ∧
        luaD.precall E K (fuelc + 1) mc L funcc nresults = .ret r m' ∧
        (r = none ↔ ((mc.th L).val funcc).isCFunction = true) ∧
        (r ≠ none ↔ ((mc.th L).val funcc).isLuaClosure = true) ∧
        (∀ ci, r = some ci → (m'.th L).ci = ci) ∧
        (r = none → ∃ f func1 m1 m3 n m4,
          ((mc.th L).val funcc = .ccl f ∨ (mc.th L).val funcc = .lcf f) ∧
          luaD.checkstackGCp E K mc L LUA_MINSTACK funcc = .ret func1 m1 ∧
          precallCHook E K (precallCFrame K m1 L func1 nresults) L func1 = .ret () m3 ∧
          E.cfunction f m3 L = .ret n m4 ∧
          luaD.poscall E K m4 L ((m1.th L).ci + 1) n = .ret () m')) := by
  refine ⟨?_, ?_, ?_, ?_⟩
  · intro fuel m func f func1 m1 m3 n m4 m5 hv hchk hhook hf hpos
    have hpc := precallC_of_stages E K m L func nresults f func1 m1 m3 n m4 m5 hchk hhook hf hpos
    obtain ⟨hoff, hci⟩ := luaD.checkstackGCp_ret E K m L _ func func1 m1 hchk
    have h5 := luaD.poscall_ret_ci E K m4 L _ n m5 hpos
    refine ⟨?_, hoff, ?_, ?_, ?_, ?_, ?_⟩
    · rcases hv with hv | hv <;> simp only [luaD.precall, hv, hpc, Outcome.bind]
    · simp [precallCFrame, prepCallInfo, next_ci, lua_State.setci]
    · simp [precallCFrame, prepCallInfo, next_ci, lua_State.setci]
    · simp [precallCFrame, prepCallInfo, next_ci, lua_State.setci]
    · rw [h5]; omega
    · intro hgc
      rw [h5, ← hci hgc]; omega
  · intro fuel m func f func1 m1 m3 n m4 m4h hv hchk hhook hf hn htbc hfr hrh hfo hres
    obtain ⟨m5, p1, p2, p3, p4, p5⟩ := luaD.poscall_results E K m4 L ((m1.th L).ci + 1) n m4h hn
      (by rw [hfr]; exact htbc) hrh hres
    have hpc := precallC_of_stages E K m L func nresults f func1 m1 m3 n m4 m5 hchk hhook hf p1
    obtain ⟨-, hci⟩ := luaD.checkstackGCp_ret E K m L _ func func1 m1 hchk
    rw [hfr] at p4 p5
    refine ⟨m5, ?_, ?_, ?_, ?_, ?_⟩
    · rcases hv with hv | hv <;> simp only [luaD.precall, hv, hpc, Outcome.bind]
    · rw [p2]; omega
    · intro hgc
      rw [p2, ← hci hgc]; omega
    · rw [p4, p3]
      omega
    · intro i hi0 hi
      have h := p5 i hi0 hi
      rw [← h]
      simp only [lua_State.val]
      congr 1
      rw [p3]
      omega
  · intro fuel m func p func1 m1 hv hchk
    obtain ⟨hoff, hci⟩ := luaD.checkstackGCp_ret E K m L _ func func1 m1 hchk
    simp only [luaD.precall, hv, hchk, Outcome.bind]
    refine ⟨_, rfl, ?_, ?_, hoff, ?_⟩
    · simp [prepCallInfo, next_ci, lua_State.setci, fillNil_spec]
    · intro hgc
      simp [prepCallInfo, next_ci, lua_State.setci, fillNil_spec, hci hgc]
    · simp [prepCallInfo, next_ci, lua_State.setci, fillNil_spec]
  · intro fuel m func r m' h
    obtain ⟨mc, funcc, fuelc, h1, h2, h3⟩ := luaD.precall_callee E K L nresults fuel m func r m' h
    exact ⟨mc, funcc, fuelc, h1, h2, h3,
      luaD.precall_direct_ret E K L nresults fuelc mc funcc r m' h2 h3⟩

/-- Witness for C10: on a fresh thread, calling a light C function returns
`NULL` with the caller's frame current again; calling, for all results, the light
C function that returns 42 and 43 returns `NULL` with 42 in the function slot, 43
above it and `top` two above the function slot; calling a Lua closure returns
the new frame, which is current, with its saved pc at the start of the code;
calling a value whose `__call` metafield is a light C function returns `NULL`,
the callee reached being a C function. -/
theorem precall_contract_witness :
    (luaD.precall env0 stdConf 1 (machinePre (.lcf 0)) 0 1001 0).value? = some none ∧
    (((luaD.precall env0 stdConf 1 (machinePre (.lcf 0)) 0 1001 0).machineD machine0).th 0).ci
      = 0 ∧
    (∃ m5, luaD.precall envReuse stdConf 1 (machinePre (.lcf 1)) 0 1001 LUA_MULTRET
        = .ret none m5 ∧
      (m5.th 0).ci = 0 ∧ (m5.th 0).top - (m5.th 0).stack = 3 ∧
      (m5.th 0).slots 1 = TValue.integer 42 ∧ (m5.th 0).slots 2 = TValue.integer 43) ∧
    (∃ m', luaD.precall env0 stdConf 1
        (machinePre (.lcl { numparams := 2, maxstacksize := 5, is_vararg := false, code := 100 }))
        0 1001 0 = .ret (some 1) m' ∧
      (m'.th 0).ci = 1 ∧ ((m'.th 0).cis 1).savedpc = 100 ∧ ((m'.th 0).cis 1).func = 1001) ∧
    (luaD.precall envTM stdConf 2 (machinePre (.obj 5 0)) 0 1001 0).value? = some none ∧
    (∃ mc funcc, CalleeAfterTM envTM stdConf 0 (machinePre (.obj 5 0)) 1001 mc funcc ∧
      ((mc.th 0).val funcc).isCFunction = true) := by
  have hA := (precall_contract env0 stdConf 0 0).1 0 (machinePre (.lcf 0)) 1001 0 1001
    (machinePre (.lcf 0))
    (precallCFrame stdConf (machinePre (.lcf 0)) 0 1001 0) 0
    (precallCFrame stdConf (machinePre (.lcf 0)) 0 1001 0)
    ((luaD.poscall env0 stdConf
      (precallCFrame stdConf (machinePre (.lcf 0)) 0 1001 0) 0 1 0).machineD machine0)
    (Or.inr rfl) rfl rfl rfl rfl
  obtain ⟨m5, hR, hR1, -, hR2, hR3⟩ := (precall_contract envReuse stdConf 0 LUA_MULTRET).2.1 0
    (machinePre (.lcf 1)) 1001 1 1001 (machinePre (.lcf 1))
    (precallCFrame stdConf (machinePre (.lcf 1)) 0 1001 LUA_MULTRET) 2
    (pushValue (.integer 43) (pushValue (.integer 42)
      (precallCFrame stdConf (machinePre (.lcf 1)) 0 1001 LUA_MULTRET) 0) 0)
    (pushValue (.integer 43) (pushValue (.integer 42)
      (precallCFrame stdConf (machinePre (.lcf 1)) 0 1001 LUA_MULTRET) 0) 0)
    (Or.inr rfl) rfl rfl rfl (by decide) rfl rfl rfl (by decide!) (by decide!)
  obtain ⟨m', hB, hB1, -, -, hB2, -, -, -, hB3⟩ := (precall_contract env0 stdConf 0 0).2.2.1 0
    (machinePre (.lcl { numparams := 2, maxstacksize := 5, is_vararg := false, code := 100 }))
    1001 { numparams := 2, maxstacksize := 5, is_vararg := false, code := 100 } 1001
    (machinePre (.lcl { numparams := 2, maxstacksize := 5, is_vararg := false, code := 100 }))
    rfl rfl
  obtain ⟨mc, funcc, fuelc, hT1, -, -, hT2, -⟩ := (precall_contract envTM stdConf 0 0).2.2.2 2
    (machinePre (.obj 5 0)) 1001 none
    ((luaD.precall envTM stdConf 2 (machinePre (.obj 5 0)) 0 1001 0).machineD machine0) rfl
  have e0 : (machinePre (.lcf 1)).th 0 = threadPre (.lcf 1) := rfl
  have e1 : (1001 : Int) - (threadPre (.lcf 1)).stack = 1 := by decide
  rw [e0, e1] at hR2 hR3
  refine ⟨?_, ?_, ⟨m5, hR, hR1, ?_, ?_, ?_⟩, ⟨m', hB, hB1, hB3, hB2⟩, by decide,
    ⟨mc, funcc, hT1, hT2.mp rfl⟩⟩
  · rw [hA.1]; rfl
  · rw [hA.1]; exact hA.2.2.2.2.2.1
  · rw [hR2]; decide
  · have h := hR3 0 (by decide) (by decide)
    rw [if_pos (by decide)] at h
    simpa using h.trans (by decide!)
  · have h := hR3 1 (by decide) (by decide)
    rw [if_pos (by decide)] at h
    simpa using h.trans (by decide!)

/-! ## Tail calls (C11) -/

/-- C11: a tail call to a Lua closure with `P` fixed parameters and frame size
`F`, made from frame `ci` with `narg1` (number of arguments plus 1) and vararg
correction `delta`, when the stack check returns (it may move the stack: `func1`
is the function slot and `m1` the machine after it) and the destination
`ci->func - delta` is not above the function slot: `luaD::pretailcall` returns
-1; no frame is pushed (`L->ci` is the one after the stack check, which is the
original one when the collector keeps it); `ci->func` is its old value minus
`delta`; the function and its `narg1 - 1` arguments are copied in order to
`ci->func`, `ci->func + 1`, ...; every parameter slot from `ci->func + narg1` to
`ci->func + P` is nil; `ci->top = ci->func + 1 + F`; `CIST_TAIL` is set in
`ci->callstatus`; and `L->top = ci->func + max(narg1, P + 1)`. -/
theorem pretailcall_lua_closure (E : LuaEnv) (K : LuaConf) (fuel : Nat) (m : Machine) (L : Nat)
    (ci : Nat) (func narg1 delta : Int) (p : Proto) (func1 : Int) (m1 : Machine)
    (hv : (m.th L).val func = .lcl p)
    (hchk : luaD.checkstackGCp E K m L (p.maxstacksize - delta) func = .ret func1 m1)
    (hle : ((m1.th L).cis ci).func - delta ≤ func1) :
    ∃ m2, luaD.pretailcall E K (fuel + 1) m L ci func narg1 delta = .ret (-1) m2 ∧
      (m2.th L).ci = (m1.th L).ci ∧
      ((∀ mg, E.luaC_checkGC m L = .ret () mg → (mg.th L).ci = (m.th L).ci) →
        (m2.th L).ci = (m.th L).ci) ∧
      ((m2.th L).cis ci).func = ((m1.th L).cis ci).func - delta ∧
      (∀ i : Int, 0 ≤ i → i < narg1 →
        (m2.th L).val (((m1.th L).cis ci).func - delta + i) = (m1.th L).val (func1 + i)) ∧
      (∀ j : Int, narg1 ≤ j → j ≤ p.numparams →
        (m2.th L).val (((m1.th L).cis ci).func - delta + j) = TValue.nil) ∧
      ((m2.th L).cis ci).top = ((m1.th L).cis ci).func - delta + 1 + p.maxstacksize ∧
      ((m2.th L).cis ci).callstatus = ((m1.th L).cis ci).callstatus ||| K.CIST_TAIL ∧
      (m2.th L).top = ((m1.th L).cis ci).func - delta + max narg1 (p.numparams + 1) := by
  obtain ⟨-, hci1⟩ := luaD.checkstackGCp_ret E K m L _ func func1 m1 hchk
  simp only [luaD.pretailcall, hv, hchk, Outcome.bind]
  refine ⟨_, rfl, ?_⟩
  simp only [Machine.th_setTh_same]
  have a1 : (((m1.th L).setci ci fun c => { c with func := c.func - delta }).cis ci).func
      = ((m1.th L).cis ci).func - delta := by simp [lua_State.setci]
  have a2 : ∀ q, ((m1.th L).setci ci fun c => { c with func := c.func - delta }).val q
      = (m1.th L).val q := fun q => rfl
  have a3 : ((m1.th L).setci ci fun c => { c with func := c.func - delta }).ci
      = (m1.th L).ci := rfl
  have a4 : (((m1.th L).setci ci fun c => { c with func := c.func - delta }).cis ci).callstatus
      = ((m1.th L).cis ci).callstatus := by simp [lua_State.setci]
  generalize ((m1.th L).setci ci fun c => { c with func := c.func - delta }) = s1 at a1 a2 a3 a4 ⊢
  obtain ⟨-, -, c3, c4, c5⟩ := copyResults_spec (s1.cis ci).func func1
    (by rw [a1]; exact hle) narg1.toNat 0 s1
  generalize copyResults (s1.cis ci).func func1 narg1.toNat 0 s1 = s2 at c3 c4 c5 ⊢
  obtain ⟨-, -, f3, f4, f5⟩ := fillNil_spec (s2.cis ci).func
    (p.numparams + 1 - narg1).toNat narg1 s2
  generalize fillNil (s2.cis ci).func (p.numparams + 1 - narg1).toNat narg1 s2 = s3 at f3 f4 f5 ⊢
  have hval : ∀ (s : lua_State) (t : Int) (g : CallInfo → CallInfo) (q : Int),
      ({ s.setci ci g with top := t } : lua_State).val q = s.val q := fun _ _ _ _ => rfl
  have hfunc : (s2.cis ci).func = ((m1.th L).cis ci).func - delta := by rw [c4, a1]
  refine ⟨?_, ?_, ?_, ?_, ?_, ?_, ?_, ?_⟩
  · simp only [lua_State.setci, f3, c3, a3]
  · intro hgc
    simp only [lua_State.setci, f3, c3, a3]
    exact hci1 hgc
  · simp only [lua_State.setci, f4, Function.update_same, hfunc]
  · intro i hi0 hin
    rw [hval, f5, hfunc, c5, a1, a2]
    have h1 : ¬ (((m1.th L).cis ci).func - delta + narg1 ≤ ((m1.th L).cis ci).func - delta + i ∧
        ((m1.th L).cis ci).func - delta + i
          < ((m1.th L).cis ci).func - delta + narg1 + ((p.numparams + 1 - narg1).toNat : Int)) := by
      intro h
      have := h.1
      omega
    have h2 : ((m1.th L).cis ci).func - delta + 0 ≤ ((m1.th L).cis ci).func - delta + i ∧
        ((m1.th L).cis ci).func - delta + i
          < ((m1.th L).cis ci).func - delta + 0 + (narg1.toNat : Int) := by
      constructor <;> omega
    rw [if_neg h1, if_pos h2]
    congr 1
    ring
  · intro j hj0 hjp
    rw [hval, f5, hfunc]
    have h1 : ((m1.th L).cis ci).func - delta + narg1 ≤ ((m1.th L).cis ci).func - delta + j ∧
        ((m1.th L).cis ci).func - delta + j
          < ((m1.th L).cis ci).func - delta + narg1 + ((p.numparams + 1 - narg1).toNat : Int) := by
      constructor <;> omega
    rw [if_pos h1]
  · simp only [lua_State.setci, f4, Function.update_same, hfunc]
  · simp only [lua_State.setci, f4, c4, Function.update_same, a4]
  · simp only [lua_State.setci, hfunc]
    by_cases hn : narg1 ≤ p.numparams
    · rw [if_pos hn, max_eq_right (by omega)]
    · rw [if_neg hn, max_eq_left (by omega)]

/-- Witness for C11: a tail call from the frame at depth 1 (function slot
1001) to a closure with 3 fixed parameters and frame size 5, with one argument:
the closure and the argument 7 move down to slots 1001 and 1002, the
parameters 2 and 3 are nil, and `top` is 4 above the function slot. -/
theorem pretailcall_lua_closure_witness :
    ∃ m2, luaD.pretailcall env0 stdConf 1 machineTail 0 1 1005 2 0 = .ret (-1) m2 ∧
      (m2.th 0).ci = 1 ∧ ((m2.th 0).cis 1).func = 1001 ∧
      (m2.th 0).val 1002 = TValue.integer 7 ∧
      (m2.th 0).val 1003 = TValue.nil ∧ (m2.th 0).val 1004 = TValue.nil ∧
      ((m2.th 0).cis 1).top = 1007 ∧ (m2.th 0).top = 1005 := by
  obtain ⟨m2, h1, h2, -, h3, h4, h5, h6, -, h7⟩ := pretailcall_lua_closure env0 stdConf 0
    machineTail 0 1 1005 2 0
    { numparams := 3, maxstacksize := 5, is_vararg := false, code := 100 } 1005 machineTail
    rfl rfl (by decide)
  refine ⟨m2, h1, h2, h3, ?_, ?_, ?_, h6, h7⟩
  · exact h4 1 (by decide) (by decide)
  · exact h5 2 (by decide) (by decide)
  · exact h5 3 (by decide) (by decide)

/-! ## The `__call` metamethod (C12) -/

/-- The code after a call of `lthrow` never runs. -/
theorem luaD.lthrow_bind {α β : Type} (E : LuaEnv) (m : Machine) (L : Nat) (c : Int)
    (k : α → Machine → Outcome β) :
    (luaD.lthrow E m L c : Outcome α).bind k = luaD.lthrow E m L c := by
  unfold luaD.lthrow
  cases (m.th L).errorJmp with
  | some j => rfl
  | none =>
    simp only
    cases E.luaE_resetthread m L c with
    | ret c1 m1 =>
      simp only [Outcome.bind]
      cases (m1.th m1.g.mainthread).errorJmp with
      | some j => rfl
      | none =>
        simp only
        cases m1.g.panic with
        | none => rfl
        | some pf =>
          simp only
          cases E.panicf pf m1 L <;> rfl
    | thrown m1 => rfl
    | aborted m1 => rfl
    | diverged => rfl

/-- The code after a call of `luaG_runerror` never runs. -/
theorem luaG_runerror_bind {α β : Type} (E : LuaEnv) (m : Machine) (L : Nat) (msg : String)
    (k : α → Machine → Outcome β) :
    (luaG_runerror E m L msg : Outcome α).bind k = luaG_runerror E m L msg := by
  unfold luaG_runerror
  exact luaD.lthrow_bind _ _ _ _ _

/-- With a recovery point on the thread, `luaG_runerror` pushes the message,
stores `LUA_ERRRUN` in the recovery point and throws; nothing else changes. -/
theorem luaG_runerror_handler {α : Type} (E : LuaEnv) (m : Machine) (L : Nat) (msg : String)
    (j : Nat) (h : (m.th L).errorJmp = some j) :
    ∃ me, (luaG_runerror E m L msg : Outcome α) = .thrown me ∧
      (me.ljs j).status = LUA_ERRRUN ∧
      (∀ i, i ≠ j → me.ljs i = m.ljs i) ∧
      me.njmp = m.njmp ∧
      (me.th L).ci = (m.th L).ci ∧
      (me.th L).cis = (m.th L).cis ∧
      (me.th L).status = (m.th L).status ∧
      (me.th L).errorJmp = (m.th L).errorJmp ∧
      (me.th L).top = (m.th L).top + 1 ∧
      (me.th L).val (m.th L).top = .str { addr := m.g.nstrings, contents := msg } := by
  unfold luaG_runerror
  simp only
  rw [luaD.lthrow_handler E _ L LUA_ERRRUN j (by simpa [luaS.newlstr, Machine.th, Machine.setTh] using h)]
  refine ⟨_, rfl, ?_, ?_, ?_, ?_, ?_, ?_, ?_, ?_, ?_⟩
  · simp
  · intro i hi
    simp [Function.update_noteq hi, luaS.newlstr, Machine.setTh]
  · simp [luaS.newlstr, Machine.setTh]
  · simp [luaS.newlstr, Machine.setTh, Machine.th, lua_State.setval]
  · simp [luaS.newlstr, Machine.setTh, Machine.th, lua_State.setval]
  · simp [luaS.newlstr, Machine.setTh, Machine.th, lua_State.setval]
  · simp [luaS.newlstr, Machine.setTh, Machine.th, lua_State.setval]
  · simp [luaS.newlstr, Machine.setTh, Machine.th, lua_State.setval]
  · simp [luaS.newlstr, Machine.setTh, Machine.th, lua_State.setval, lua_State.val]

/-- The loop that opens space for the metamethod moves the slots below `p` up
by one and changes nothing else. -/
theorem openSpace_spec (k : Nat) :
    ∀ (p : Int) (s : lua_State),
      (openSpace k p s).stack = s.stack ∧
      (openSpace k p s).top = s.top ∧
      (openSpace k p s).ci = s.ci ∧
      (openSpace k p s).cis = s.cis ∧
      ∀ q, (openSpace k p s).val q
        = if p - k < q ∧ q ≤ p then s.val (q - 1) else s.val q := by
  induction k with
  | zero =>
    intro p s
    refine ⟨rfl, rfl, rfl, rfl, ?_⟩
    intro q
    have : ¬ (p - ((0 : Nat) : Int) < q ∧ q ≤ p) := by
      intro h
      have := h.1
      have := h.2
      omega
    rw [if_neg this]
    rfl
  | succ k ih =>
    intro p s
    obtain ⟨h1, h2, h3, h4, h5⟩ := ih (p - 1) (s.setval p (s.val (p - 1)))
    refine ⟨?_, ?_, ?_, ?_, ?_⟩
    · simpa [openSpace, lua_State.setval] using h1
    · simpa [openSpace, lua_State.setval] using h2
    · simpa [openSpace, lua_State.setval] using h3
    · simpa [openSpace, lua_State.setval] using h4
    · intro q
      simp only [openSpace]
      rw [h5 q]
      simp only [lua_State.val_setval]
      by_cases hq : p - ((k + 1 : Nat) : Int) < q ∧ q ≤ p
      · rw [if_pos hq]
        by_cases hq2 : p - 1 - (k : Int) < q ∧ q ≤ p - 1
        · rw [if_pos hq2]
          have : ¬ (q - 1 = p) := by
            have := hq2.2
            omega
          rw [if_neg this]
        · rw [if_neg hq2]
          have hqe : q = p := by
            have := hq.1
            have := hq.2
            push_cast at *
            by_contra hne
            exact hq2 ⟨by omega, by omega⟩
          rw [if_pos hqe, hqe]
      · rw [if_neg hq]
        have hq2 : ¬ (p - 1 - (k : Int) < q ∧ q ≤ p - 1) := by
          intro h
          apply hq
          have := h.1
          have := h.2
          push_cast
          constructor <;> omega
        rw [if_neg hq2]
        have : ¬ q = p := by
          intro h
          apply hq
          push_cast
          constructor <;> omega
        rw [if_neg this]

/-- C12: a call of a value `v` in the function slot that is neither a C
closure, a light C function nor a Lua closure, when the stack check for the
one extra slot returns (`func1` is the function slot and `m1` the machine
after it), with `tm` the `__call` metafield of `v`.

* If `tm` is not nil: `tryfuncTM` returns the function slot; `L->top` has grown
  by exactly one, the function slot holds `tm`, and every slot from the
  function slot up to the old top has moved up by one (so the stack reads
  `tm, v, a_1, ..., a_n`); the current frame is unchanged; `luaD::precall` and
  `luaD::pretailcall` (with `narg1 + 1`) go on as a call of that stack, that is,
  they call `tm`.
* If `tm` is nil: `tryfuncTM`, `luaD::precall` and `luaD::pretailcall` end by
  raising the runtime error "not callable" in the machine left by the stack
  check; they do not return, and, with a recovery point on the thread, the
  error is thrown with status `LUA_ERRRUN` and the current frame and the frame
  chain are those before the call: no frame is pushed. -/
theorem tryfuncTM_call_metamethod (E : LuaEnv) (K : LuaConf) (L : Nat) (m : Machine)
    (func func1 : Int) (m1 : Machine)
    (hc : ((m.th L).val func).isCFunction = false)
    (hl : ((m.th L).val func).isLuaClosure = false)
    (hchk : luaD.checkstackGCp E K m L 1 func = .ret func1 m1) :
    (E.luaT_gettmbyobj m1 L ((m1.th L).val func1) ≠ TValue.nil →
      ∃ m2, tryfuncTM E K m L func = .ret func1 m2 ∧
        (m2.th L).top = (m1.th L).top + 1 ∧
        (m2.th L).val func1 = E.luaT_gettmbyobj m1 L ((m1.th L).val func1) ∧
        (∀ q : Int, func1 ≤ q → q < (m1.th L).top →
          (m2.th L).val (q + 1) = (m1.th L).val q) ∧
        (m2.th L).ci = (m1.th L).ci ∧ (m2.th L).cis = (m1.th L).cis ∧
        (∀ (fuel : Nat) (nresults : Int),
          luaD.precall E K (fuel + 1) m L func nresults
            = luaD.precall E K fuel m2 L func1 nresults) ∧
        (∀ (fuel ci : Nat) (narg1 delta : Int),
          luaD.pretailcall E K (fuel + 1) m L ci func narg1 delta
            = luaD.pretailcall E K fuel m2 L ci func1 (narg1 + 1) delta)) ∧
    (E.luaT_gettmbyobj m1 L ((m1.th L).val func1) = TValue.nil →
      tryfuncTM E K m L func = luaG_runerror E m1 L "not callable" ∧
      (∀ (fuel : Nat) (nresults : Int),
        luaD.precall E K (fuel + 1) m L func nresults = luaG_runerror E m1 L "not callable" ∧
        ∀ r m', luaD.precall E K (fuel + 1) m L func nresults ≠ .ret r m') ∧
      (∀ (fuel ci : Nat) (narg1 delta : Int),
        luaD.pretailcall E K (fuel + 1) m L ci func narg1 delta
          = luaG_runerror E m1 L "not callable" ∧
        ∀ r m', luaD.pretailcall E K (fuel + 1) m L ci func narg1 delta ≠ .ret r m') ∧
      (∀ j, (m1.th L).errorJmp = some j →
        ∃ me, tryfuncTM E K m L func = .thrown me ∧
          (me.ljs j).status = LUA_ERRRUN ∧
          (me.th L).ci = (m1.th L).ci ∧ (me.th L).cis = (m1.th L).cis ∧
          (me.th L).val ((me.th L).top - 1)
            = .str { addr := m1.g.nstrings, contents := "not callable" })) := by
  have hpre : ∀ (fuel : Nat) (nresults : Int),
      luaD.precall E K (fuel + 1) m L func nresults
        = (tryfuncTM E K m L func).bind fun func m1 => luaD.precall E K fuel m1 L func nresults := by
    intro fuel nresults
    cases hv : (m.th L).val func <;> simp [hv, TValue.isCFunction, TValue.isLuaClosure] at hc hl <;>
      simp only [luaD.precall, hv]
  have hptc : ∀ (fuel ci : Nat) (narg1 delta : Int),
      luaD.pretailcall E K (fuel + 1) m L ci func narg1 delta
        = (tryfuncTM E K m L func).bind fun func m1 =>
            luaD.pretailcall E K fuel m1 L ci func (narg1 + 1) delta := by
    intro fuel ci narg1 delta
    cases hv : (m.th L).val func <;> simp [hv, TValue.isCFunction, TValue.isLuaClosure] at hc hl <;>
      simp only [luaD.pretailcall, hv]
  constructor
  · intro htm
    have ht : tryfuncTM E K m L func = .ret func1 (m1.setTh L
        (({ openSpace ((m1.th L).top - func1).toNat (m1.th L).top (m1.th L) with
            top := (openSpace ((m1.th L).top - func1).toNat (m1.th L).top (m1.th L)).top + 1 }
          : lua_State).setval func1 (E.luaT_gettmbyobj m1 L ((m1.th L).val func1)))) := by
      unfold tryfuncTM
      rw [hchk]
      simp only [Outcome.bind, if_neg htm]
    obtain ⟨o1, o2, o3, o4, o5⟩ := openSpace_spec ((m1.th L).top - func1).toNat (m1.th L).top
      (m1.th L)
    refine ⟨_, ht, ?_, ?_, ?_, ?_, ?_, ?_, ?_⟩
    · simp [lua_State.setval, o2]
    · simp [lua_State.val, lua_State.setval]
    · intro q hq1 hq2
      have hv : ∀ (s : lua_State) (t : Int) (x : Int),
          ({ s with top := t } : lua_State).val x = s.val x := fun _ _ _ => rfl
      rw [Machine.th_setTh_same, lua_State.val_setval, if_neg (by omega), hv, o5]
      have : (m1.th L).top - (((m1.th L).top - func1).toNat : Int) < q + 1 ∧ q + 1 ≤ (m1.th L).top := by
        constructor <;> omega
      rw [if_pos this]
      congr 1
      ring
    · simp [lua_State.setval, o3]
    · simp [lua_State.setval, o4]
    · intro fuel nresults
      rw [hpre, ht]
      rfl
    · intro fuel ci narg1 delta
      rw [hptc, ht]
      rfl
  · intro htm
    have ht : tryfuncTM E K m L func = luaG_runerror E m1 L "not callable" := by
      unfold tryfuncTM
      rw [hchk]
      simp only [Outcome.bind, if_pos htm, luaG_callerror]
    refine ⟨ht, ?_, ?_, ?_⟩
    · intro fuel nresults
      have h1 : luaD.precall E K (fuel + 1) m L func nresults
          = luaG_runerror E m1 L "not callable" := by
        rw [hpre, ht, luaG_runerror_bind]
      refine ⟨h1, ?_⟩
      intro r m'
      rw [h1]
      exact luaG_runerror_ne_ret _ _ _ _ _ _
    · intro fuel ci narg1 delta
      have h1 : luaD.pretailcall E K (fuel + 1) m L ci func narg1 delta
          = luaG_runerror E m1 L "not callable" := by
        rw [hptc, ht, luaG_runerror_bind]
      refine ⟨h1, ?_⟩
      intro r m'
      rw [h1]
      exact luaG_runerror_ne_ret _ _ _ _ _ _
    · intro j hj
      obtain ⟨me, e1, e2, -, -, e5, e6, -, -, e9, e10⟩ :=
        luaG_runerror_handler (α := Int) E m1 L "not callable" j hj
      refine ⟨me, by rw [ht, e1], e2, e5, e6, ?_⟩
      rw [e9]
      simpa using e10

/-- Witness for C12: calling a value of kind `obj` with the argument 7.  When
its `__call` metafield is the light C function 0, the stack reads function 0,
the value, 7 and `top` has grown by one; when it has none, the error
`LUA_ERRRUN` is thrown and the current frame is still the base frame. -/
theorem tryfuncTM_call_metamethod_witness :
    (∃ m2, tryfuncTM envTM stdConf (machinePreArg (.obj 5 0)) 0 1001 = .ret 1001 m2 ∧
      (m2.th 0).top = 1004 ∧ (m2.th 0).val 1001 = TValue.lcf 0 ∧
      (m2.th 0).val 1002 = TValue.obj 5 0 ∧ (m2.th 0).val 1003 = TValue.integer 7) ∧
    (∃ me, tryfuncTM env0 stdConf (machinePreArg (.obj 5 0)) 0 1001 = .thrown me ∧
      (me.ljs 0).status = LUA_ERRRUN ∧ (me.th 0).ci = 0) := by
  obtain ⟨m2, h1, h2, h3, h4, -⟩ := (tryfuncTM_call_metamethod envTM stdConf 0
    (machinePreArg (.obj 5 0)) 1001 1001 (machinePreArg (.obj 5 0)) rfl rfl rfl).1 (by decide)
  obtain ⟨me, e1, e2, e3, -⟩ := (tryfuncTM_call_metamethod env0 stdConf 0
    (machinePreArg (.obj 5 0)) 1001 1001 (machinePreArg (.obj 5 0)) rfl rfl rfl).2 rfl
    |>.2.2.2 0 rfl
  refine ⟨⟨m2, h1, h2, h3, ?_, ?_⟩, ⟨me, e1, e2, e3⟩⟩
  · exact h4 1001 (by decide) (by decide)
  · exact h4 1002 (by decide) (by decide)

/-! ## Rejected resumes (C14) -/

/-- What `resume_error` changes: the arguments are removed, the message is
pushed, one string is created; everything else is as before. -/
theorem resume_error_fields (m : Machine) (L : Nat) (msg : String) (narg : Int) :
    (resume_error m L msg narg).1 = LUA_ERRRUN ∧
    ((resume_error m L msg narg).2.th L).status = (m.th L).status ∧
    ((resume_error m L msg narg).2.th L).ci = (m.th L).ci ∧
    ((resume_error m L msg narg).2.th L).cis = (m.th L).cis ∧
    ((resume_error m L msg narg).2.th L).errorJmp = (m.th L).errorJmp ∧
    ((resume_error m L msg narg).2.th L).nCcalls = (m.th L).nCcalls ∧
    (resume_error m L msg narg).2.ljs = m.ljs ∧
    (resume_error m L msg narg).2.njmp = m.njmp ∧
    ((resume_error m L msg narg).2.th L).top = (m.th L).top - narg + 1 ∧
    ((resume_error m L msg narg).2.th L).val ((m.th L).top - narg)
      = .str { addr := m.g.nstrings, contents := msg } ∧
    (∀ L', L' ≠ L → (resume_error m L msg narg).2.th L' = m.th L') := by
  refine ⟨rfl, ?_, ?_, ?_, ?_, ?_, ?_, ?_, ?_, ?_, ?_⟩
  · simp [resume_error, luaS.news, luaS.newlstr, lua_State.setval, Machine.th, Machine.setTh]
  · simp [resume_error, luaS.news, luaS.newlstr, lua_State.setval, Machine.th, Machine.setTh]
  · simp [resume_error, luaS.news, luaS.newlstr, lua_State.setval, Machine.th, Machine.setTh]
  · simp [resume_error, luaS.news, luaS.newlstr, lua_State.setval, Machine.th, Machine.setTh]
  · simp [resume_error, luaS.news, luaS.newlstr, lua_State.setval, Machine.th, Machine.setTh]
  · simp [resume_error, luaS.news, luaS.newlstr, Machine.setTh]
  · simp [resume_error, luaS.news, luaS.newlstr, Machine.setTh]
  · simp [resume_error, luaS.news, luaS.newlstr, lua_State.setval, Machine.th, Machine.setTh]
  · simp [resume_error, luaS.news, luaS.newlstr, lua_State.setval, lua_State.val, Machine.th,
      Machine.setTh]
  · intro L' h
    simp [resume_error, luaS.news, luaS.newlstr, Machine.th, Machine.setTh,
      Function.update_noteq h]

/-- C14: for every thread that is already running (status `LUA_OK` with the
current frame not the base frame) or dead (status neither `LUA_OK` nor
`LUA_YIELD`, or status `LUA_OK` at the base frame with no function below the
`nargs` arguments): `lua_resume` returns `LUA_ERRRUN` and stores nothing in
`*nresults`; the machine it leaves is the one left by `resume_error` alone, so
no code of the thread and no collaborator has run; the thread's status, current
frame, frame chain, recovery point and count of C calls, and the recovery
records, are the same as before the call; the arguments have been replaced by
the error message. -/
theorem lua_resume_rejected (E : LuaEnv) (K : LuaConf) (fuel : Nat) (m : Machine) (L : Nat)
    (frm : Option Nat) (nargs : Int)
    (h : ((m.th L).status = LUA_OK ∧ (m.th L).ci ≠ 0) ∨
         ((m.th L).status ≠ LUA_OK ∧ (m.th L).status ≠ LUA_YIELD) ∨
         ((m.th L).status = LUA_OK ∧ (m.th L).ci = 0 ∧
            (m.th L).top - (((m.th L).cis 0).func + 1) = nargs)) :
    ∃ msg, lua_resume E K fuel m L frm nargs
        = .ret (LUA_ERRRUN, none) (resume_error m L msg nargs).2 ∧
      ((resume_error m L msg nargs).2.th L).status = (m.th L).status ∧
      ((resume_error m L msg nargs).2.th L).ci = (m.th L).ci ∧
      ((resume_error m L msg nargs).2.th L).cis = (m.th L).cis ∧
      ((resume_error m L msg nargs).2.th L).errorJmp = (m.th L).errorJmp ∧
      ((resume_error m L msg nargs).2.th L).nCcalls = (m.th L).nCcalls ∧
      (resume_error m L msg nargs).2.ljs = m.ljs ∧
      (resume_error m L msg nargs).2.njmp = m.njmp ∧
      ((resume_error m L msg nargs).2.th L).top = (m.th L).top - nargs + 1 ∧
      ((resume_error m L msg nargs).2.th L).val ((m.th L).top - nargs)
        = .str { addr := m.g.nstrings, contents := msg } := by
  have hall : ∀ msg, lua_resume E K fuel m L frm nargs
        = .ret ((resume_error m L msg nargs).1, none) (resume_error m L msg nargs).2 →
      ∃ msg, lua_resume E K fuel m L frm nargs
        = .ret (LUA_ERRRUN, none) (resume_error m L msg nargs).2 ∧
      ((resume_error m L msg nargs).2.th L).status = (m.th L).status ∧
      ((resume_error m L msg nargs).2.th L).ci = (m.th L).ci ∧
      ((resume_error m L msg nargs).2.th L).cis = (m.th L).cis ∧
      ((resume_error m L msg nargs).2.th L).errorJmp = (m.th L).errorJmp ∧
      ((resume_error m L msg nargs).2.th L).nCcalls = (m.th L).nCcalls ∧
      (resume_error m L msg nargs).2.ljs = m.ljs ∧
      (resume_error m L msg nargs).2.njmp = m.njmp ∧
      ((resume_error m L msg nargs).2.th L).top = (m.th L).top - nargs + 1 ∧
      ((resume_error m L msg nargs).2.th L).val ((m.th L).top - nargs)
        = .str { addr := m.g.nstrings, contents := msg } := by
    intro msg hm
    obtain ⟨-, r2, r3, r4, r5, r6, r7, r8, r9, r10, -⟩ := resume_error_fields m L msg nargs
    exact ⟨msg, hm, r2, r3, r4, r5, r6, r7, r8, r9, r10⟩
  rcases h with ⟨h1, h2⟩ | ⟨h1, h2⟩ | ⟨h1, h2, h3⟩
  · apply hall "cannot resume non-suspended coroutine"
    unfold lua_resume
    simp only [if_pos h1, if_pos h2]
  · apply hall "cannot resume dead coroutine"
    unfold lua_resume
    simp only [if_neg h1, if_pos h2]
  · apply hall "cannot resume dead coroutine"
    unfold lua_resume
    have h2' : ¬ (m.th L).ci ≠ 0 := by simp [h2]
    rw [h2] at h2'
    simp only [if_pos h1, h2, if_neg h2', if_pos h3]

/-- Witness for C14: resuming a thread that is inside a call (running), and a
fresh thread whose stack holds no function, is rejected with `LUA_ERRRUN`. -/
theorem lua_resume_rejected_witness :
    (∃ msg, lua_resume env0 stdConf 1 machineNative 1 none 2
        = .ret (LUA_ERRRUN, none) (resume_error machineNative 1 msg 2).2 ∧
      ((resume_error machineNative 1 msg 2).2.th 1).ci = 1) ∧
    (∃ msg, lua_resume env0 stdConf 1 machine0 1 none 0
        = .ret (LUA_ERRRUN, none) (resume_error machine0 1 msg 0).2 ∧
      ((resume_error machine0 1 msg 0).2.th 1).status = LUA_OK) := by
  obtain ⟨msg, h1, -, h3, -⟩ := lua_resume_rejected env0 stdConf 1 machineNative 1 none 2
    (Or.inl ⟨rfl, by decide⟩)
  obtain ⟨msg2, g1, g2, -⟩ := lua_resume_rejected env0 stdConf 1 machine0 1 none 0
    (Or.inr (Or.inr ⟨rfl, rfl, by decide⟩))
  exact ⟨⟨msg, h1, h3⟩, ⟨msg2, g1, g2⟩⟩

/-! ## Yields (C17, C19) -/

/-- On a thread that is not yieldable, `lua_yieldk` is the raise of the yield
error in the machine as it is. -/
theorem lua_yieldk_error_eq (E : LuaEnv) (K : LuaConf) (m : Machine) (L : Nat)
    (nresults ctx : Int) (k : Option Nat)
    (hny : E.yieldable (m.th L) = false) :
    lua_yieldk E K m L nresults ctx k
      = luaG_runerror E m L
          (if L ≠ m.g.mainthread then "attempt to yield across a C-call boundary"
           else "attempt to yield from outside a coroutine") := by
  unfold lua_yieldk
  simp only [hny]
  by_cases hL : L ≠ m.g.mainthread
  · simp [hL]
  · simp [hL]

/-- C17: for every thread state in which `L->yieldable()` is false, at any
call nesting depth: `lua_yieldk` raises the runtime error "attempt to yield
across a C-call boundary" (on a coroutine) or "attempt to yield from outside a
coroutine" (on the main thread) in the machine as it was at the call (nothing
has been modified before the error is raised), and does not return; with a
recovery point on the thread, the error is thrown with status `LUA_ERRRUN`, the
message on top of the stack, and the thread's status, current frame and frame
chain (with the saved yield count and continuation of every frame) are those
before the call: the thread is not suspended. -/
theorem lua_yieldk_not_yieldable (E : LuaEnv) (K : LuaConf) (m : Machine) (L : Nat)
    (nresults ctx : Int) (k : Option Nat)
    (hny : E.yieldable (m.th L) = false) :
    lua_yieldk E K m L nresults ctx k
      = luaG_runerror E m L
          (if L ≠ m.g.mainthread then "attempt to yield across a C-call boundary"
           else "attempt to yield from outside a coroutine") ∧
    (∀ r m', lua_yieldk E K m L nresults ctx k ≠ .ret r m') ∧
    (∀ j, (m.th L).errorJmp = some j →
      ∃ me, lua_yieldk E K m L nresults ctx k = .thrown me ∧
        (me.ljs j).status = LUA_ERRRUN ∧
        (me.th L).status = (m.th L).status ∧
        (me.th L).ci = (m.th L).ci ∧
        (me.th L).cis = (m.th L).cis ∧
        (me.th L).val ((me.th L).top - 1)
          = .str { addr := m.g.nstrings,
                   contents := if L ≠ m.g.mainthread
                     then "attempt to yield across a C-call boundary"
                     else "attempt to yield from outside a coroutine" }) := by
  have h1 := lua_yieldk_error_eq E K m L nresults ctx k hny
  refine ⟨h1, ?_, ?_⟩
  · intro r m'
    rw [h1]
    exact luaG_runerror_ne_ret _ _ _ _ _ _
  · intro j hj
    obtain ⟨me, e1, e2, -, -, e5, e6, e7, -, e9, e10⟩ :=
      luaG_runerror_handler (α := Int) E m L
        (if L ≠ m.g.mainthread then "attempt to yield across a C-call boundary"
         else "attempt to yield from outside a coroutine") j hj
    refine ⟨me, by rw [h1, e1], e2, e7, e5, e6, ?_⟩
    rw [e9]
    simpa using e10

/-- Witness for C17: a coroutine inside a call that does not allow yields: the
yield throws `LUA_ERRRUN` and the status of the thread stays `LUA_OK`. -/
theorem lua_yieldk_not_yieldable_witness :
    ∃ me, lua_yieldk env0 stdConf machineNoYield 1 2 0 none = .thrown me ∧
      (me.ljs 0).status = LUA_ERRRUN ∧ (me.th 1).status = LUA_OK ∧
      (me.th 1).val ((me.th 1).top - 1)
        = .str { addr := 1, contents := "attempt to yield across a C-call boundary" } := by
  obtain ⟨me, h1, h2, h3, -, -, h6⟩ :=
    (lua_yieldk_not_yieldable env0 stdConf machineNoYield 1 2 0 none (by decide)).2.2 0 rfl
  exact ⟨me, h1, h2, h3, h6⟩

/-- What `lua_yieldk` does on a yieldable thread whose current frame is native. -/
theorem yield_native_spec (E : LuaEnv) (K : LuaConf) (m : Machine) (L : Nat)
    (nresults ctx : Int) (k : Option Nat)
    (hy : E.yieldable (m.th L) = true)
    (hC : ((m.th L).cis (m.th L).ci).isLua K = false) :
    ∃ my, lua_yieldk E K m L nresults ctx k = luaD.lthrow E my L LUA_YIELD ∧
      (my.th L).status = LUA_YIELD ∧
      ((my.th L).cis (m.th L).ci).nyield = nresults ∧
      ((my.th L).cis (m.th L).ci).k = k ∧
      ((my.th L).cis (m.th L).ci).ctx
        = (if k ≠ none then ctx else ((m.th L).cis (m.th L).ci).ctx) ∧
      ((my.th L).cis (m.th L).ci).func = ((m.th L).cis (m.th L).ci).func ∧
      ((my.th L).cis (m.th L).ci).nresults = ((m.th L).cis (m.th L).ci).nresults ∧
      ((my.th L).cis (m.th L).ci).callstatus = ((m.th L).cis (m.th L).ci).callstatus ∧
      (∀ i, i ≠ (m.th L).ci → (my.th L).cis i = (m.th L).cis i) ∧
      (my.th L).ci = (m.th L).ci ∧ (my.th L).top = (m.th L).top ∧
      (my.th L).stack = (m.th L).stack ∧ (my.th L).slots = (m.th L).slots ∧
      (my.th L).errorJmp = (m.th L).errorJmp ∧ (my.th L).nCcalls = (m.th L).nCcalls ∧
      my.ljs = m.ljs ∧ my.njmp = m.njmp ∧ my.g = m.g ∧
      (∀ r m', lua_yieldk E K m L nresults ctx k ≠ .ret r m') ∧
      (∀ j, (m.th L).errorJmp = some j →
        lua_yieldk E K m L nresults ctx k
          = .thrown { my with ljs := Function.update my.ljs j
                                { my.ljs j with status := LUA_YIELD } }) := by
  have hC' : CallInfo.isLua K ((({ m.th L with status := LUA_YIELD } : lua_State).setci
      (m.th L).ci fun c => { c with nyield := nresults }).cis (m.th L).ci) = false := by
    simpa [lua_State.setci, CallInfo.isLua] using hC
  have h1 : lua_yieldk E K m L nresults ctx k
      = luaD.lthrow E (m.setTh L
          (if k ≠ none then
            (((({ m.th L with status := LUA_YIELD } : lua_State).setci (m.th L).ci fun c =>
              { c with nyield := nresults }).setci (m.th L).ci fun c =>
              { c with k := k }).setci (m.th L).ci fun c => { c with ctx := ctx })
           else
            ((({ m.th L with status := LUA_YIELD } : lua_State).setci (m.th L).ci fun c =>
              { c with nyield := nresults }).setci (m.th L).ci fun c =>
              { c with k := k }))) L LUA_YIELD := by
    unfold lua_yieldk
    simp only [hy, hC']
    simp
  refine ⟨_, h1, ?_⟩
  have hk : k ≠ none ∨ k = none := by
    cases k <;> simp
  refine ⟨?_, ?_, ?_, ?_, ?_, ?_, ?_, ?_, ?_, ?_, ?_, ?_, ?_, ?_, ?_, ?_, ?_, ?_, ?_⟩
  · rcases hk with hk | hk <;> simp [hk, lua_State.setci]
  · rcases hk with hk | hk <;> simp [hk, lua_State.setci]
  · rcases hk with hk | hk <;> simp [hk, lua_State.setci]
  · rcases hk with hk | hk <;> simp [hk, lua_State.setci]
  · rcases hk with hk | hk <;> simp [hk, lua_State.setci]
  · rcases hk with hk | hk <;> simp [hk, lua_State.setci]
  · rcases hk with hk | hk <;> simp [hk, lua_State.setci]
  · intro i hi
    rcases hk with hk | hk <;> simp [hk, lua_State.setci, Function.update_noteq hi]
  · rcases hk with hk | hk <;> simp [hk, lua_State.setci]
  · rcases hk with hk | hk <;> simp [hk, lua_State.setci]
  · rcases hk with hk | hk <;> simp [hk, lua_State.setci]
  · rcases hk with hk | hk <;> simp [hk, lua_State.setci]
  · rcases hk with hk | hk <;> simp [hk, lua_State.setci]
  · rcases hk with hk | hk <;> simp [hk, lua_State.setci]
  · simp [Machine.setTh]
  · simp [Machine.setTh]
  · simp [Machine.setTh]
  · intro r m'
    rw [h1]
    exact luaD.lthrow_ne_ret _ _ _ _ _ _
  · intro j hj
    rw [h1]
    apply luaD.lthrow_handler
    rcases hk with hk | hk <;> simp [hk, lua_State.setci, hj]

/-- C19: for every yieldable thread whose current frame is a native frame and
every `nresults`, continuation `k` and context `ctx`: `lua_yieldk` sets the
thread status to `LUA_YIELD`, stores `nresults` in the frame's saved yield
count, stores `k` as the frame's continuation (and `ctx` as its context when `k`
is not null, the context being left alone otherwise), changes nothing else, and
then raises `LUA_YIELD`; it never returns to its caller; with a recovery point
on the thread, the exception is thrown with `LUA_YIELD` stored in that recovery
point. -/
theorem lua_yieldk_native (E : LuaEnv) (K : LuaConf) (m : Machine) (L : Nat)
    (nresults ctx : Int) (k : Option Nat)
    (hy : E.yieldable (m.th L) = true)
    (hC : ((m.th L).cis (m.th L).ci).isLua K = false) :
    ∃ my, lua_yieldk E K m L nresults ctx k = luaD.lthrow E my L LUA_YIELD ∧
      (my.th L).status = LUA_YIELD ∧
      ((my.th L).cis (m.th L).ci).nyield = nresults ∧
      ((my.th L).cis (m.th L).ci).k = k ∧
      ((my.th L).cis (m.th L).ci).ctx
        = (if k ≠ none then ctx else ((m.th L).cis (m.th L).ci).ctx) ∧
      ((my.th L).cis (m.th L).ci).func = ((m.th L).cis (m.th L).ci).func ∧
      ((my.th L).cis (m.th L).ci).nresults = ((m.th L).cis (m.th L).ci).nresults ∧
      ((my.th L).cis (m.th L).ci).callstatus = ((m.th L).cis (m.th L).ci).callstatus ∧
      (∀ i, i ≠ (m.th L).ci → (my.th L).cis i = (m.th L).cis i) ∧
      (my.th L).ci = (m.th L).ci ∧ (my.th L).top = (m.th L).top ∧
      (my.th L).stack = (m.th L).stack ∧ (my.th L).slots = (m.th L).slots ∧
      (my.th L).errorJmp = (m.th L).errorJmp ∧ (my.th L).nCcalls = (m.th L).nCcalls ∧
      my.ljs = m.ljs ∧ my.njmp = m.njmp ∧ my.g = m.g ∧
      (∀ r m', lua_yieldk E K m L nresults ctx k ≠ .ret r m') ∧
      (∀ j, (m.th L).errorJmp = some j →
        lua_yieldk E K m L nresults ctx k
          = .thrown { my with ljs := Function.update my.ljs j
                                { my.ljs j with status := LUA_YIELD } }) :=
  yield_native_spec E K m L nresults ctx k hy hC

/-- Witness for C19: a coroutine inside a native frame yields two values with
continuation 7 and context 9: the status is `LUA_YIELD`, the frame has saved the
count 2, the continuation and the context, and `LUA_YIELD` is thrown to the
recovery point 0. -/
theorem lua_yieldk_native_witness :
    ∃ my : Machine, lua_yieldk env0 stdConf machineNative 1 2 9 (some 7)
        = .thrown { my with ljs := Function.update my.ljs 0
                                { my.ljs 0 with status := LUA_YIELD } } ∧
      (my.th 1).status = LUA_YIELD ∧ ((my.th 1).cis 1).nyield = 2 ∧
      ((my.th 1).cis 1).k = some 7 ∧ ((my.th 1).cis 1).ctx = 9 := by
  obtain ⟨my, -, h2, h3, h4, h5, -, -, -, -, -, -, -, -, -, -, -, -, -, -, h20⟩ :=
    lua_yieldk_native env0 stdConf machineNative 1 2 9 (some 7) (by decide) (by decide)
  exact ⟨my, h20 0 rfl, h2, h3, h4, h5⟩

/-! ## Resuming a suspended native frame (C20) -/

/-- At the base frame `unroll` returns at once. -/
theorem unroll_base (E : LuaEnv) (K : LuaConf) (fuel : Nat) (m : Machine) (L : Nat)
    (h : (m.th L).ci = 0) : unroll E K fuel m L = .ret () m := by
  cases fuel with
  | zero => simp [unroll, h]
  | succ fuel => simp [unroll, h]

/-- Whenever `unroll` returns, the current frame is the base frame. -/
theorem unroll_ret_base (E : LuaEnv) (K : LuaConf) (L : Nat) (fuel : Nat) :
    ∀ (m mr : Machine), unroll E K fuel m L = .ret () mr → (mr.th L).ci = 0 := by
  induction fuel with
  | zero =>
    intro m mr h
    unfold unroll at h
    by_cases hc : (m.th L).ci = 0
    · rw [if_pos hc] at h
      injection h with _ h2
      rw [← h2]
      exact hc
    · rw [if_neg hc] at h
      exact absurd h (by simp)
  | succ fuel ih =>
    intro m mr h
    unfold unroll at h
    simp only at h
    by_cases hc : (m.th L).ci = 0
    · rw [if_pos hc] at h
      injection h with _ h2
      rw [← h2]
      exact hc
    · rw [if_neg hc] at h
      obtain ⟨u, m2, -, h2⟩ := Outcome.bind_eq_ret _ _ _ _ h
      exact ih m2 mr h2

/-- How `resume` goes on for a thread suspended in a native frame: the status
is set back, the continuation (if any) is called, `poscall` finishes the
frame and `unroll` runs the rest. -/
theorem resume_suspended_eq (E : LuaEnv) (K : LuaConf) (fuel : Nat) (n : Int) (m : Machine)
    (L : Nat)
    (hs : (m.th L).status = LUA_YIELD)
    (hC : ((m.th L).cis (m.th L).ci).isLua K = false) :
    (∀ kf, ((m.th L).cis (m.th L).ci).k = some kf →
      resume E K fuel n m L
        = (E.kfunction kf (m.setTh L { m.th L with status := LUA_OK }) L LUA_YIELD
            ((m.th L).cis (m.th L).ci).ctx).bind fun n1 m2 =>
            (luaD.poscall E K m2 L (m.th L).ci n1).bind fun _ m3 => unroll E K fuel m3 L) ∧
    (((m.th L).cis (m.th L).ci).k = none →
      resume E K fuel n m L
        = (luaD.poscall E K (m.setTh L { m.th L with status := LUA_OK }) L (m.th L).ci n).bind
            fun _ m3 => unroll E K fuel m3 L) := by
  have hne : ¬ (m.th L).status = LUA_OK := by
    rw [hs]
    decide
  have hC1 : CallInfo.isLua K (((m.setTh L { m.th L with status := LUA_OK }).th L).cis
      (m.th L).ci) = false := by
    simpa using hC
  constructor
  · intro kf hkf
    unfold resume
    simp only [if_neg hne, hC1]
    simp only [Machine.th_setTh_same, hkf]
    cases E.kfunction kf (m.setTh L { m.th L with status := LUA_OK }) L LUA_YIELD
      ((m.th L).cis (m.th L).ci).ctx <;> simp [Outcome.bind]
  · intro hkn
    unfold resume
    simp only [if_neg hne, hC1]
    simp only [Machine.th_setTh_same, hkn]
    simp [Outcome.bind]

/-- The run of the frame chain is what `unroll` does: with at least as much
fuel as frames to run, `unroll` returns the machine in which the run ends. -/
theorem unroll_of_chain (E : LuaEnv) (K : LuaConf) (L : Nat) (d : Nat) (m mf : Machine)
    (h : ChainRun E K L d m mf) :
    ∀ fuel, d ≤ fuel → unroll E K fuel m L = .ret () mf := by
  induction h with
  | base m hc =>
    intro fuel _
    exact unroll_base E K fuel m L hc
  | native d m m1 mf hc hn hf _ ih =>
    intro fuel hfuel
    obtain ⟨fuel1, rfl⟩ : ∃ fuel1, fuel = fuel1 + 1 := ⟨fuel - 1, by omega⟩
    unfold unroll
    simp only [if_neg hc, hn, hf, Outcome.bind]
    simpa using ih fuel1 (by omega)
  | interpreted d m m1 m2 mf hc hl h1 h2 _ ih =>
    intro fuel hfuel
    obtain ⟨fuel1, rfl⟩ : ∃ fuel1, fuel = fuel1 + 1 := ⟨fuel - 1, by omega⟩
    unfold unroll
    simp only [if_neg hc, hl, h1, h2, Outcome.bind]
    simpa using ih fuel1 (by omega)

/-- Whenever `unroll` returns, it has run the frame chain down to the base
frame. -/
theorem chain_of_unroll (E : LuaEnv) (K : LuaConf) (L : Nat) (fuel : Nat) :
    ∀ (m mf : Machine), unroll E K fuel m L = .ret () mf →
      ∃ d, d ≤ fuel ∧ ChainRun E K L d m mf := by
  induction fuel with
  | zero =>
    intro m mf h
    unfold unroll at h
    by_cases hc : (m.th L).ci = 0
    · rw [if_pos hc] at h
      injection h with _ h2
      rw [← h2]
      exact ⟨0, le_refl _, ChainRun.base m hc⟩
    · rw [if_neg hc] at h
      exact absurd h (by simp)
  | succ fuel ih =>
    intro m mf h
    unfold unroll at h
    simp only at h
    by_cases hc : (m.th L).ci = 0
    · rw [if_pos hc] at h
      injection h with _ h2
      rw [← h2]
      exact ⟨0, Nat.zero_le _, ChainRun.base m hc⟩
    · rw [if_neg hc] at h
      obtain ⟨u, m2, h1, h2⟩ := Outcome.bind_eq_ret _ _ _ _ h
      obtain ⟨d, hd, hrun⟩ := ih m2 mf h2
      cases hl : ((m.th L).cis (m.th L).ci).isLua K with
      | false =>
        rw [hl] at h1
        simp only [Bool.false_eq_true, not_false_eq_true, if_true] at h1
        exact ⟨d + 1, by omega, ChainRun.native d m m2 mf hc hl h1 hrun⟩
      | true =>
        rw [hl] at h1
        simp only [not_true_eq_false, if_false] at h1
        obtain ⟨u1, m1, h3, h4⟩ := Outcome.bind_eq_ret _ _ _ _ h1
        exact ⟨d + 1, by omega, ChainRun.interpreted d m m1 m2 mf hc hl h3 h4 hrun⟩

/-- The run of the frame chain ends at the base frame. -/
theorem ChainRun.ends_at_base (E : LuaEnv) (K : LuaConf) (L : Nat) (d : Nat) (m mf : Machine)
    (h : ChainRun E K L d m mf) : (mf.th L).ci = 0 := by
  induction h with
  | base m hc => exact hc
  | native d m m1 mf _ _ _ _ ih => exact ih
  | interpreted d m m1 m2 mf _ _ _ _ _ ih => exact ih

/-- C20: for every thread suspended (status `LUA_YIELD`) in a native frame
`ci`, resumed with `n` arguments; `m1` below is the machine with the status set
back to `LUA_OK`, and the run of the frame chain (`ChainRun`) is the one of the
spec: frame after frame, a native frame completed by `finishCcall`, an
interpreted one by `luaV_finishOp` and `luaV_execute`, down to the base frame.

* When `ci` has a saved continuation `k` with context `ctx`: `resume` calls `k`
  once, in `m1`, with `(L, LUA_YIELD, ctx)`, then finishes the frame with
  `luaD::poscall` using the count returned by `k`, then runs `unroll`.
* When `ci` has no continuation: `resume` finishes the frame with
  `luaD::poscall` using the `n` resume arguments, then runs `unroll`.
* In both cases, when the continuation (if any) and `poscall` return, leaving
  the machine `mp`, the current frame in `mp` is the one below `ci`; and when
  the run of the rest of the frame chain from `mp` reaches the base frame in
  the machine `mf` after `d` frames, `resume` returns `mf`, with the base frame
  current, for every fuel of at least `d`.
* Whenever `resume` returns, it is so: the continuation (if any) and `poscall`
  have returned, and the machine returned is the one in which the run of the
  rest of the frame chain reaches the base frame. -/
theorem resume_suspended_native (E : LuaEnv) (K : LuaConf) (n : Int) (m : Machine)
    (L : Nat)
    (hs : (m.th L).status = LUA_YIELD)
    (hC : ((m.th L).cis (m.th L).ci).isLua K = false) :
    ((m.setTh L { m.th L with status := LUA_OK }).th L).status = LUA_OK ∧
    (∀ kf fuel, ((m.th L).cis (m.th L).ci).k = some kf →
      resume E K fuel n m L
        = (E.kfunction kf (m.setTh L { m.th L with status := LUA_OK }) L LUA_YIELD
            ((m.th L).cis (m.th L).ci).ctx).bind fun n1 m2 =>
            (luaD.poscall E K m2 L (m.th L).ci n1).bind fun _ m3 => unroll E K fuel m3 L) ∧
    (∀ fuel, ((m.th L).cis (m.th L).ci).k = none →
      resume E K fuel n m L
        = (luaD.poscall E K (m.setTh L { m.th L with status := LUA_OK }) L (m.th L).ci n).bind
            fun _ m3 => unroll E K fuel m3 L) ∧
    (∀ kf n1 mk mp d mf, ((m.th L).cis (m.th L).ci).k = some kf →
      E.kfunction kf (m.setTh L { m.th L with status := LUA_OK }) L LUA_YIELD
        ((m.th L).cis (m.th L).ci).ctx = .ret n1 mk →
      luaD.poscall E K mk L (m.th L).ci n1 = .ret () mp →
      ChainRun E K L d mp mf →
      (mp.th L).ci = (m.th L).ci - 1 ∧ (mf.th L).ci = 0 ∧
      ∀ fuel, d ≤ fuel → resume E K fuel n m L = .ret () mf) ∧
    (∀ mp d mf, ((m.th L).cis (m.th L).ci).k = none →
      luaD.poscall E K (m.setTh L { m.th L with status := LUA_OK }) L (m.th L).ci n
        = .ret () mp →
      ChainRun E K L d mp mf →
      (mp.th L).ci = (m.th L).ci - 1 ∧ (mf.th L).ci = 0 ∧
      ∀ fuel, d ≤ fuel → resume E K fuel n m L = .ret () mf) ∧
    (∀ fuel mf, resume E K fuel n m L = .ret () mf →
      ∃ n1 mk mp d,
        ((∃ kf, ((m.th L).cis (m.th L).ci).k = some kf ∧
            E.kfunction kf (m.setTh L { m.th L with status := LUA_OK }) L LUA_YIELD
              ((m.th L).cis (m.th L).ci).ctx = .ret n1 mk) ∨
          (((m.th L).cis (m.th L).ci).k = none ∧ n1 = n ∧
            mk = m.setTh L { m.th L with status := LUA_OK })) ∧
        luaD.poscall E K mk L (m.th L).ci n1 = .ret () mp ∧
        (mp.th L).ci = (m.th L).ci - 1 ∧
        d ≤ fuel ∧ ChainRun E K L d mp mf ∧ (mf.th L).ci = 0) := by
  have hk := fun fuel => (resume_suspended_eq E K fuel n m L hs hC).1
  have hn := fun fuel => (resume_suspended_eq E K fuel n m L hs hC).2
  refine ⟨by simp, fun kf fuel h => hk fuel kf h, fun fuel h => hn fuel h, ?_, ?_, ?_⟩
  · intro kf n1 mk mp d mf hkf hcont hpos hrun
    refine ⟨luaD.poscall_ret_ci E K mk L _ n1 mp hpos,
      ChainRun.ends_at_base E K L d mp mf hrun, ?_⟩
    intro fuel hfuel
    rw [hk fuel kf hkf, hcont]
    simp only [Outcome.bind, hpos]
    exact unroll_of_chain E K L d mp mf hrun fuel hfuel
  · intro mp d mf hkn hpos hrun
    refine ⟨luaD.poscall_ret_ci E K _ L _ n mp hpos,
      ChainRun.ends_at_base E K L d mp mf hrun, ?_⟩
    intro fuel hfuel
    rw [hn fuel hkn]
    simp only [Outcome.bind, hpos]
    exact unroll_of_chain E K L d mp mf hrun fuel hfuel
  · intro fuel mf h
    cases hkc : ((m.th L).cis (m.th L).ci).k with
    | some kf =>
      rw [hk fuel kf hkc] at h
      obtain ⟨n1, mk, h1, h2⟩ := Outcome.bind_eq_ret _ _ _ _ h
      obtain ⟨u, mp, h3, h4⟩ := Outcome.bind_eq_ret _ _ _ _ h2
      obtain ⟨d, hd, hrun⟩ := chain_of_unroll E K L fuel mp mf h4
      exact ⟨n1, mk, mp, d, Or.inl ⟨kf, rfl, h1⟩, h3,
        luaD.poscall_ret_ci E K mk L _ n1 mp h3, hd, hrun,
        ChainRun.ends_at_base E K L d mp mf hrun⟩
    | none =>
      rw [hn fuel hkc] at h
      obtain ⟨u, mp, h3, h4⟩ := Outcome.bind_eq_ret _ _ _ _ h
      obtain ⟨d, hd, hrun⟩ := chain_of_unroll E K L fuel mp mf h4
      exact ⟨n, _, mp, d, Or.inr ⟨rfl, rfl, rfl⟩, h3,
        luaD.poscall_ret_ci E K _ L _ n mp h3, hd, hrun,
        ChainRun.ends_at_base E K L d mp mf hrun⟩

/-- Witness for C20: a thread suspended in the native frame at depth 2 with the
continuation 0, which pushes 3 and returns one value, called from the native
frame at depth 1 with the continuation 1, which pushes 4 and returns two values.
With any fuel of at least 1, `resume` returns with the base frame current: the
value 3 has been moved to the function slot of the frame at depth 2, the frame
at depth 1 has been run by `unroll`, and its two results 3 and 4 have been moved
to its function slot. -/
theorem resume_suspended_native_witness :
    ∃ mf, (∀ fuel, 1 ≤ fuel → resume envChain stdConf fuel 0 machineSuspDeep 1 = .ret () mf) ∧
      (mf.th 1).ci = 0 ∧ (mf.th 1).status = LUA_OK ∧ (mf.th 1).top = 1003 ∧
      (mf.th 1).val 1001 = .integer 3 ∧ (mf.th 1).val 1002 = .integer 4 := by
  have hp : luaD.poscall envChain stdConf machineChainK 1 2 1 = .ret () machineChainP :=
    Outcome.ret_of_value _ () machine0 (by decide!)
  have hf : finishCcall envChain stdConf machineChainP 1 1 = .ret () machineChainEnd :=
    Outcome.ret_of_value _ () machine0 (by decide!)
  have hci : (machineChainP.th 1).ci = 1 := by decide!
  have hrun : ChainRun envChain stdConf 1 1 machineChainP machineChainEnd :=
    ChainRun.native 0 _ _ _ (by rw [hci]; decide) (by rw [hci]; decide!) (by rw [hci]; exact hf)
      (ChainRun.base _ (by decide!))
  obtain ⟨-, h2, h3⟩ := (resume_suspended_native envChain stdConf 0 machineSuspDeep 1 rfl
    (by decide)).2.2.2.1 0 1 machineChainK machineChainP 1 machineChainEnd rfl rfl hp hrun
  exact ⟨_, h3, h2, by decide!, by decide!, by decide!, by decide!⟩

/-! ## The run of `lua_resume` -/

/-- Without a to-be-closed mark, `moveresults` returns and changes only the
thread itself. -/
theorem moveresults_machine (E : LuaEnv) (K : LuaConf) (m : Machine) (L : Nat)
    (res nres w : Int) (htbc : K.hastocloseCfunc w = false) :
    ∃ s1, moveresults E K m L res nres w = .ret () (m.setTh L s1) := by
  unfold moveresults
  simp only
  by_cases h0 : w = 0
  · rw [if_pos h0]
    exact ⟨_, rfl⟩
  · rw [if_neg h0]
    by_cases h1 : w = 1
    · rw [if_pos h1]
      exact ⟨_, rfl⟩
    · rw [if_neg h1]
      by_cases hm : w = LUA_MULTRET
      · rw [if_pos hm]
        exact ⟨_, rfl⟩
      · rw [if_neg hm, htbc]
        exact ⟨_, rfl⟩

/-- With no hook and no to-be-closed mark, `poscall` moves the results to the
function slot of the frame and makes the frame below the current one; it
changes only the thread itself. -/
theorem luaD.poscall_nohook (E : LuaEnv) (K : LuaConf) (m : Machine) (L : Nat)
    (ci : Nat) (nres : Int) (hnres : 0 ≤ nres) (hmask : (m.th L).hookmask = 0)
    (htbc : K.hastocloseCfunc ((m.th L).cis ci).nresults = false)
    (hres : ((m.th L).cis ci).func ≤ (m.th L).top - nres) :
    ∃ mp, luaD.poscall E K m L ci nres = .ret () mp ∧
      mp.ljs = m.ljs ∧ mp.njmp = m.njmp ∧ mp.g = m.g ∧
      (mp.th L).ci = ci - 1 ∧ (mp.th L).cis = (m.th L).cis ∧
      (mp.th L).stack = (m.th L).stack ∧
      (mp.th L).top = ((m.th L).cis ci).func
        + (if ((m.th L).cis ci).nresults = LUA_MULTRET then nres
           else ((m.th L).cis ci).nresults) ∧
      ∀ i : Int, 0 ≤ i →
        i < (if ((m.th L).cis ci).nresults = LUA_MULTRET then nres
             else ((m.th L).cis ci).nresults) →
        (mp.th L).val (((m.th L).cis ci).func + i)
          = if i < nres then (m.th L).val ((m.th L).top - nres + i) else TValue.nil := by
  obtain ⟨s1, hs1⟩ := moveresults_machine E K m L ((m.th L).cis ci).func nres
    ((m.th L).cis ci).nresults htbc
  obtain ⟨m2, h1, h2, h3, h4, h5, h6⟩ := moveresults_spec E K m L ((m.th L).cis ci).func nres
    ((m.th L).cis ci).nresults hnres htbc hres
  have hm2 : m2 = m.setTh L s1 := by
    rw [hs1] at h1
    injection h1 with _ h
    exact h.symm
  have hp : luaD.poscall E K m L ci nres
      = .ret () (m2.setTh L { m2.th L with ci := ci - 1 }) := by
    unfold luaD.poscall
    have hc : ¬ ((m.th L).hookmask ≠ 0 ∧
        ¬ K.hastocloseCfunc ((m.th L).cis ci).nresults = true) := by
      simp [hmask]
    simp only [if_neg hc, Outcome.bind, h1]
  refine ⟨_, hp, ?_, ?_, ?_, ?_, ?_, ?_, ?_, ?_⟩
  · rw [hm2]; simp [Machine.setTh]
  · rw [hm2]; simp [Machine.setTh]
  · rw [hm2]; simp [Machine.setTh]
  · simp
  · simpa using h4
  · simpa using h2
  · simpa using h5
  · intro i hi0 hi
    have := h6 i hi0 hi
    simpa [lua_State.val] using this

/-- Without an error status `precover` returns at once. -/
theorem precover_noerror (E : LuaEnv) (K : LuaConf) (ufuel : Nat) (L : Nat) (fuel : Nat)
    (m : Machine) (status : Int) (h : errorstatus status = false) :
    precover E K ufuel L fuel m status = .ret status m := by
  cases fuel with
  | zero => simp [precover, h]
  | succ fuel => simp [precover, h]

/-- Without a suspended protected call `precover` returns at once. -/
theorem precover_nopcall (E : LuaEnv) (K : LuaConf) (ufuel : Nat) (L : Nat) (fuel : Nat)
    (m : Machine) (status : Int) (h : findpcall K (m.th L) = none) :
    precover E K ufuel L fuel m status = .ret status m := by
  cases fuel with
  | zero => simp [precover, h]
  | succ fuel =>
    unfold precover
    by_cases he : errorstatus status = true
    · simp only [if_pos he, h]
    · simp only [if_neg he]

/-- The checks of `lua_resume` let a thread at its base frame with a function
below the arguments through. -/
theorem lua_resume_started (E : LuaEnv) (K : LuaConf) (fuel : Nat) (m : Machine) (L : Nat)
    (frm : Option Nat) (nargs : Int)
    (hs : (m.th L).status = LUA_OK) (hci : (m.th L).ci = 0)
    (hfn : (m.th L).top - (((m.th L).cis 0).func + 1) ≠ nargs) :
    lua_resume E K fuel m L frm nargs = lua_resumeRun E K fuel m L frm nargs := by
  unfold lua_resume
  have h2 : ¬ (0 : Nat) ≠ 0 := by simp
  simp only [if_pos hs, hci, if_neg h2, if_neg hfn]

/-- The checks of `lua_resume` let a suspended thread through. -/
theorem lua_resume_suspended (E : LuaEnv) (K : LuaConf) (fuel : Nat) (m : Machine) (L : Nat)
    (frm : Option Nat) (nargs : Int) (hs : (m.th L).status = LUA_YIELD) :
    lua_resume E K fuel m L frm nargs = lua_resumeRun E K fuel m L frm nargs := by
  unfold lua_resume
  have h1 : ¬ (m.th L).status = LUA_OK := by rw [hs]; decide
  have h2 : ¬ (m.th L).status ≠ LUA_YIELD := by simp [hs]
  simp only [if_neg h1, if_neg h2]

/-- The run of `lua_resume` when the protected `resume` ends by an exception
with a non-zero status that is not an error, or that no suspended protected
call recovers. -/
theorem lua_resumeRun_thrown (E : LuaEnv) (K : LuaConf) (fuel : Nat) (m : Machine) (L : Nat)
    (frm : Option Nat) (nargs : Int) (mt : Machine)
    (hcc : E.getCcalls ((lua_resumeSetCcalls E m L frm).th L) < K.LUAI_MAXCCALLS)
    (hthrow : resume E K fuel nargs (luaD.rawrunprotectedEntry (lua_resumeEntry E m L frm) L) L
      = .thrown mt)
    (hst : (mt.ljs m.njmp).status ≠ 0)
    (hrec : errorstatus (mt.ljs m.njmp).status = false ∨
      findpcall K ((luaD.rawrunprotectedExit (lua_resumeEntry E m L frm) L mt).th L) = none) :
    lua_resumeRun E K fuel m L frm nargs
      = .ret (lua_resumeFinish (luaD.rawrunprotectedExit (lua_resumeEntry E m L frm) L mt) L
                (mt.ljs m.njmp).status).1
             (lua_resumeFinish (luaD.rawrunprotectedExit (lua_resumeEntry E m L frm) L mt) L
                (mt.ljs m.njmp).status).2 := by
  have hnj : (lua_resumeEntry E m L frm).njmp = m.njmp := rfl
  have hraw := luaD.rawrunprotected_thrown_ne (lua_resumeEntry E m L frm) L
    (resume E K fuel nargs) mt hthrow (by rw [hnj]; exact hst)
  rw [hnj] at hraw
  have hpre : precover E K fuel L fuel
      (luaD.rawrunprotectedExit (lua_resumeEntry E m L frm) L mt) (mt.ljs m.njmp).status
      = .ret (mt.ljs m.njmp).status
          (luaD.rawrunprotectedExit (lua_resumeEntry E m L frm) L mt) := by
    rcases hrec with h | h
    · exact precover_noerror _ _ _ _ _ _ _ h
    · exact precover_nopcall _ _ _ _ _ _ _ h
  unfold lua_resumeRun
  simp only [if_neg (not_le.mpr hcc), hraw, Outcome.bind, hpre]

/-- The run of `lua_resume` when the protected `resume` returns with no error
recorded. -/
theorem lua_resumeRun_ret (E : LuaEnv) (K : LuaConf) (fuel : Nat) (m : Machine) (L : Nat)
    (frm : Option Nat) (nargs : Int) (mp : Machine)
    (hcc : E.getCcalls ((lua_resumeSetCcalls E m L frm).th L) < K.LUAI_MAXCCALLS)
    (hret : resume E K fuel nargs (luaD.rawrunprotectedEntry (lua_resumeEntry E m L frm) L) L
      = .ret () mp)
    (hst : (mp.ljs m.njmp).status = LUA_OK) :
    lua_resumeRun E K fuel m L frm nargs
      = .ret (lua_resumeFinish (luaD.rawrunprotectedExit (lua_resumeEntry E m L frm) L mp) L
                LUA_OK).1
             (lua_resumeFinish (luaD.rawrunprotectedExit (lua_resumeEntry E m L frm) L mp) L
                LUA_OK).2 := by
  have hnj : (lua_resumeEntry E m L frm).njmp = m.njmp := rfl
  have hraw := luaD.rawrunprotected_ret (lua_resumeEntry E m L frm) L
    (resume E K fuel nargs) mp hret
  rw [hnj, hst] at hraw
  unfold lua_resumeRun
  simp only [if_neg (not_le.mpr hcc), hraw, Outcome.bind,
    precover_noerror E K fuel L fuel _ LUA_OK (by decide)]

/-! ## The coroutine round trip (C13) -/

/-- The increment by 0 that `resume` asks of `ccall` leaves the machine as it
is. -/
theorem Machine.setTh_nCcalls_zero (m : Machine) (L : Nat) :
    m.setTh L { m.th L with nCcalls := (m.th L).nCcalls + 0 } = m := by
  show ({ m with threads := Function.update m.threads L (m.threads L) } : Machine) = m
  rw [Function.update_eq_self]

/-- With room in the stack, `checkstackGCp` returns at once. -/
theorem luaD.checkstackGCp_room (E : LuaEnv) (K : LuaConf) (m : Machine) (L : Nat)
    (n p : Int) (hroom : n < (m.th L).stack_last - (m.th L).top) :
    luaD.checkstackGCp E K m L n p = .ret p m := by
  unfold luaD.checkstackGCp
  rw [if_neg (not_le.mpr hroom)]

/-- A call of a C function with room in the stack and no call hook: an
exception raised by the function, called in its fresh native frame, goes out of
`precall`. -/
theorem luaD.precall_C_thrown (E : LuaEnv) (K : LuaConf) (fuel : Nat) (m : Machine)
    (L : Nat) (func nresults : Int) (f : Nat) (mt : Machine)
    (hv : (m.th L).val func = .lcf f ∨ (m.th L).val func = .ccl f)
    (hroom : LUA_MINSTACK < (m.th L).stack_last - (m.th L).top)
    (hmask : (m.th L).hookmask &&& LUA_MASKCALL = 0)
    (hf : E.cfunction f (precallCFrame K m L func nresults) L = .thrown mt) :
    luaD.precall E K (fuel + 1) m L func nresults = .thrown mt := by
  have hm2 : ((prepCallInfo m L func nresults K.CIST_C
      ((m.th L).top + LUA_MINSTACK)).2.th L).hookmask = (m.th L).hookmask := by
    simp [prepCallInfo, lua_State.setci]
  have hpre : precallC E K m L func nresults f = .thrown mt := by
    unfold precallC
    rw [luaD.checkstackGCp_room E K m L _ _ hroom]
    unfold precallCFrame at hf
    simp only [Outcome.bind, hm2, hmask, ne_eq, not_true_eq_false, if_false, hf]
  unfold luaD.precall
  rcases hv with hv | hv
  · simp only [hv, hpre, Outcome.bind]
  · simp only [hv, hpre, Outcome.bind]

/-- A thread started on a C function, with room in the stack and no call hook:
an exception raised by the function, called in its fresh native frame, goes out
of `resume`. -/
theorem resume_start_C_thrown (E : LuaEnv) (K : LuaConf) (fuel : Nat) (n : Int) (m : Machine)
    (L : Nat) (f : Nat) (mt : Machine)
    (hs : (m.th L).status = LUA_OK)
    (hcc : E.getCcalls (m.th L) < K.LUAI_MAXCCALLS)
    (hv : (m.th L).val ((m.th L).top - n - 1) = .lcf f ∨
      (m.th L).val ((m.th L).top - n - 1) = .ccl f)
    (hroom : LUA_MINSTACK < (m.th L).stack_last - (m.th L).top)
    (hmask : (m.th L).hookmask &&& LUA_MASKCALL = 0)
    (hf : E.cfunction f (precallCFrame K m L ((m.th L).top - n - 1) LUA_MULTRET) L
      = .thrown mt) :
    resume E K (fuel + 1) n m L = .thrown mt := by
  unfold resume
  simp only [if_pos hs]
  unfold ccall
  simp only [Machine.setTh_nCcalls_zero, if_neg (not_le.mpr hcc), Outcome.bind,
    luaD.precall_C_thrown E K fuel m L _ LUA_MULTRET f mt hv hroom hmask hf]

/-- A thread started on a Lua closure, with room in the stack for its frame: an
exception raised in the dispatcher, entered on the fresh frame of the closure,
goes out of `resume`. -/
theorem resume_start_Lua_thrown (E : LuaEnv) (K : LuaConf) (fuel : Nat) (n : Int) (m : Machine)
    (L : Nat) (p : Proto) (mt : Machine)
    (hs : (m.th L).status = LUA_OK)
    (hcc : E.getCcalls (m.th L) < K.LUAI_MAXCCALLS)
    (hv : (m.th L).val ((m.th L).top - n - 1) = .lcl p)
    (hroom : p.maxstacksize < (m.th L).stack_last - (m.th L).top)
    (hx : E.luaV_execute
        (ccallFresh K (precallLuaFrame m L ((m.th L).top - n - 1) LUA_MULTRET p) L
          ((m.th L).ci + 1)) L ((m.th L).ci + 1) = .thrown mt) :
    resume E K (fuel + 1) n m L = .thrown mt := by
  have hpre : luaD.precall E K (fuel + 1) m L ((m.th L).top - n - 1) LUA_MULTRET
      = .ret (some ((m.th L).ci + 1))
          (precallLuaFrame m L ((m.th L).top - n - 1) LUA_MULTRET p) := by
    unfold luaD.precall
    simp only [hv]
    rw [luaD.checkstackGCp_room E K m L _ _ hroom]
    rfl
  unfold resume
  simp only [if_pos hs]
  unfold ccall
  simp only [Machine.setTh_nCcalls_zero, if_neg (not_le.mpr hcc), Outcome.bind, hpre]
  unfold ccallFresh at hx
  rw [hx]

/-- On a yieldable thread with a recovery point whose current frame is native,
`lua_yieldk` does not depend on the collaborators. -/
theorem lua_yieldk_env (E E1 : LuaEnv) (K : LuaConf) (m : Machine) (L : Nat)
    (nresults ctx : Int) (k : Option Nat) (j : Nat)
    (hy : E.yieldable (m.th L) = true) (hy1 : E1.yieldable (m.th L) = true)
    (hC : ((m.th L).cis (m.th L).ci).isLua K = false)
    (hj : (m.th L).errorJmp = some j) :
    lua_yieldk E K m L nresults ctx k = lua_yieldk E1 K m L nresults ctx k := by
  have hC1 : CallInfo.isLua K ((({ m.th L with status := LUA_YIELD } : lua_State).setci
      (m.th L).ci fun c => { c with nyield := nresults }).cis (m.th L).ci) = false := by
    simpa [lua_State.setci, CallInfo.isLua] using hC
  unfold lua_yieldk
  simp only [hy, hy1, hC1]
  simp only [not_true_eq_false, if_false, Bool.false_eq_true]
  rw [luaD.lthrow_handler E _ L LUA_YIELD j, luaD.lthrow_handler E1 _ L LUA_YIELD j]
  · split_ifs <;> simpa [lua_State.setci] using hj
  · split_ifs <;> simpa [lua_State.setci] using hj

/-- Without hook and without to-be-closed mark, `poscall` does not depend on the
collaborators. -/
theorem luaD.poscall_env (E E1 : LuaEnv) (K : LuaConf) (m : Machine) (L : Nat) (ci : Nat)
    (nres : Int) (hmask : (m.th L).hookmask = 0)
    (htbc : K.hastocloseCfunc ((m.th L).cis ci).nresults = false) :
    luaD.poscall E K m L ci nres = luaD.poscall E1 K m L ci nres := by
  have hc : ¬ ((m.th L).hookmask ≠ 0 ∧
      ¬ K.hastocloseCfunc ((m.th L).cis ci).nresults = true) := by
    simp [hmask]
  have hmv : moveresults E K m L ((m.th L).cis ci).func nres ((m.th L).cis ci).nresults
      = moveresults E1 K m L ((m.th L).cis ci).func nres ((m.th L).cis ci).nresults := by
    unfold moveresults
    simp only [htbc]
    rfl
  unfold luaD.poscall
  simp only [if_neg hc, Outcome.bind, hmv]

/-- Entered at the start of its code, the body `yield(1, 2); return 3` calls
`yield`. -/
theorem coLuaBody_start (m : Machine) (L : Nat) (ci : Nat)
    (h : ((m.th L).cis ci).savedpc = 100) :
    coLuaBody m L ci
      = (luaD.precall envYield stdConf 1 (coLuaCall m L ci) L (((m.th L).cis ci).func + 1)
          0).bind fun _ m1 => coLuaReturn m1 L ci := by
  unfold coLuaBody
  rw [if_pos h]

/-- Entered again after the call, the body `yield(1, 2); return 3` returns. -/
theorem coLuaBody_resumed (m : Machine) (L : Nat) (ci : Nat)
    (h : ((m.th L).cis ci).savedpc ≠ 100) :
    coLuaBody m L ci = luaD.poscall envYield stdConf (coLuaResult m L ci) L ci 1 := by
  unfold coLuaBody
  rw [if_neg h]
  rfl

/-- The fields of the thread that the first statements of `lua_resume` and of
`rawrunprotected` leave alone. -/
theorem lua_resume_entry_fields (E : LuaEnv) (m : Machine) (L : Nat) (frm : Option Nat) :
    ((luaD.rawrunprotectedEntry (lua_resumeEntry E m L frm) L).th L).status = (m.th L).status ∧
    ((luaD.rawrunprotectedEntry (lua_resumeEntry E m L frm) L).th L).ci = (m.th L).ci ∧
    ((luaD.rawrunprotectedEntry (lua_resumeEntry E m L frm) L).th L).cis = (m.th L).cis ∧
    ((luaD.rawrunprotectedEntry (lua_resumeEntry E m L frm) L).th L).top = (m.th L).top ∧
    ((luaD.rawrunprotectedEntry (lua_resumeEntry E m L frm) L).th L).stack = (m.th L).stack ∧
    ((luaD.rawrunprotectedEntry (lua_resumeEntry E m L frm) L).th L).stack_last
      = (m.th L).stack_last ∧
    ((luaD.rawrunprotectedEntry (lua_resumeEntry E m L frm) L).th L).slots = (m.th L).slots ∧
    ((luaD.rawrunprotectedEntry (lua_resumeEntry E m L frm) L).th L).hookmask
      = (m.th L).hookmask := by
  simp [luaD.rawrunprotectedEntry, lua_resumeEntry, lua_resumeSetCcalls, Machine.th,
    Machine.setTh]

/-- The first `lua_resume` of a thread whose run ends in a call of `lua_yieldk`
from a native frame. -/
theorem lua_resume_of_yield (E : LuaEnv) (K : LuaConf) (fuel : Nat) (L : Nat)
    (frm : Option Nat) (m : Machine) (nargs : Int) (my : Machine) (k ctx : Int)
    (kont : Option Nat)
    (hs : (m.th L).status = LUA_OK) (hci : (m.th L).ci = 0)
    (hfn : (m.th L).top - (((m.th L).cis 0).func + 1) ≠ nargs)
    (hcc : E.getCcalls ((lua_resumeSetCcalls E m L frm).th L) < K.LUAI_MAXCCALLS)
    (hbody : ∀ mt, lua_yieldk E K my L k ctx kont = .thrown mt →
      resume E K fuel nargs (luaD.rawrunprotectedEntry (lua_resumeEntry E m L frm) L) L
        = .thrown mt)
    (hy : E.yieldable (my.th L) = true)
    (hC : ((my.th L).cis (my.th L).ci).isLua K = false)
    (hj : (my.th L).errorJmp = some m.njmp) :
    ∃ ma, lua_resume E K fuel m L frm nargs = .ret (LUA_YIELD, some k) ma ∧
      (ma.th L).status = LUA_YIELD ∧
      (ma.th L).top = (my.th L).top ∧
      (∀ q, (ma.th L).val q = (my.th L).val q) ∧
      (ma.th L).ci = (my.th L).ci ∧
      ((ma.th L).cis (my.th L).ci).k = kont ∧
      ((ma.th L).cis (my.th L).ci).nyield = k := by
  obtain ⟨myy, -, y2, y3, y4, -, -, -, -, -, y10, y11, y12, y13, -, -, -, -, -, -, y20⟩ :=
    yield_native_spec E K my L k ctx kont hy hC
  obtain ⟨mt, hmt, hst, hthrown⟩ : ∃ mt : Machine, mt.th L = myy.th L ∧
      (mt.ljs m.njmp).status = LUA_YIELD ∧
      lua_yieldk E K my L k ctx kont = .thrown mt := by
    refine ⟨_, ?_, ?_, y20 m.njmp hj⟩
    · rfl
    · simp
  have hthrow := hbody mt hthrown
  have hrun := lua_resumeRun_thrown E K fuel m L frm nargs mt hcc hthrow
    (by rw [hst]; decide) (Or.inl (by rw [hst]; decide))
  rw [hst] at hrun
  rw [lua_resume_started E K fuel m L frm nargs hs hci hfn, hrun]
  have hth : ((luaD.rawrunprotectedExit (lua_resumeEntry E m L frm) L mt).th L)
      = { myy.th L with
          errorJmp := (mt.ljs (lua_resumeEntry E m L frm).njmp).previous
          nCcalls := ((lua_resumeEntry E m L frm).th L).nCcalls } := by
    rw [← hmt]
    simp [luaD.rawrunprotectedExit, Machine.th, Machine.setTh]
  have hfin : lua_resumeFinish (luaD.rawrunprotectedExit (lua_resumeEntry E m L frm) L mt)
      L LUA_YIELD
      = ((LUA_YIELD, some k), luaD.rawrunprotectedExit (lua_resumeEntry E m L frm) L mt) := by
    unfold lua_resumeFinish
    have he : ¬ errorstatus LUA_YIELD = true := by decide
    simp only [if_neg he, if_pos rfl, hth]
    rw [y10, y3]
    simp
  rw [hfin]
  refine ⟨_, rfl, ?_, ?_, ?_, ?_, ?_, ?_⟩
  · rw [hth]; exact y2
  · rw [hth]; exact y11
  · intro q
    rw [hth]
    simp only [lua_State.val]
    rw [y12, y13]
  · rw [hth]; exact y10
  · rw [hth]; exact y4
  · rw [hth]; exact y3

/-- The `lua_resume` of a thread suspended in a native frame, when the frame is
finished and the run of the rest of the frame chain reaches the base frame with
no error recorded: it returns `LUA_OK`, the number of values above the base
function slot, and the stack that the run has left. -/
theorem lua_resume_of_chain (E : LuaEnv) (K : LuaConf) (fuel : Nat) (L : Nat)
    (frm : Option Nat) (mb : Machine) (nargs : Int) (n1 : Int) (mk mp : Machine) (d : Nat)
    (mf : Machine)
    (hs : (mb.th L).status = LUA_YIELD)
    (hC : ((mb.th L).cis (mb.th L).ci).isLua K = false)
    (hcc : E.getCcalls ((lua_resumeSetCcalls E mb L frm).th L) < K.LUAI_MAXCCALLS)
    (hk : (∃ kf, ((mb.th L).cis (mb.th L).ci).k = some kf ∧
        E.kfunction kf
          ((luaD.rawrunprotectedEntry (lua_resumeEntry E mb L frm) L).setTh L
            { (luaD.rawrunprotectedEntry (lua_resumeEntry E mb L frm) L).th L with
              status := LUA_OK })
          L LUA_YIELD ((mb.th L).cis (mb.th L).ci).ctx = .ret n1 mk) ∨
      (((mb.th L).cis (mb.th L).ci).k = none ∧ n1 = nargs ∧
        mk = (luaD.rawrunprotectedEntry (lua_resumeEntry E mb L frm) L).setTh L
          { (luaD.rawrunprotectedEntry (lua_resumeEntry E mb L frm) L).th L with
            status := LUA_OK }))
    (hpos : luaD.poscall E K mk L (mb.th L).ci n1 = .ret () mp)
    (hrun : ChainRun E K L d mp mf) (hd : d ≤ fuel)
    (hst : (mf.ljs mb.njmp).status = LUA_OK) :
    ∃ mz, lua_resume E K fuel mb L frm nargs
        = .ret (LUA_OK, some ((mf.th L).top - (((mf.th L).cis 0).func + 1))) mz ∧
      (mz.th L).ci = 0 ∧ (mz.th L).status = (mf.th L).status ∧
      (mz.th L).top = (mf.th L).top ∧
      ∀ q, (mz.th L).val q = (mf.th L).val q := by
  obtain ⟨e1, e2, e3, -⟩ := lua_resume_entry_fields E mb L frm
  obtain ⟨hrk, hrn⟩ := resume_suspended_eq E K fuel nargs
    (luaD.rawrunprotectedEntry (lua_resumeEntry E mb L frm) L) L (by rw [e1]; exact hs)
    (by rw [e2, e3]; exact hC)
  have hci0 : (mf.th L).ci = 0 := ChainRun.ends_at_base E K L d mp mf hrun
  have hret : resume E K fuel nargs
      (luaD.rawrunprotectedEntry (lua_resumeEntry E mb L frm) L) L = .ret () mf := by
    rcases hk with ⟨kf, hkf, hcont⟩ | ⟨hkn, hn1, hmk⟩
    · have := hrk kf (by rw [e2, e3]; exact hkf)
      rw [e2, e3, hcont] at this
      rw [this]
      simp only [Outcome.bind, hpos]
      exact unroll_of_chain E K L d mp mf hrun fuel hd
    · have := hrn (by rw [e2, e3]; exact hkn)
      rw [e2] at this
      rw [this]
      subst hn1 hmk
      simp only [Outcome.bind, hpos]
      exact unroll_of_chain E K L d mp mf hrun fuel hd
  have hrun2 := lua_resumeRun_ret E K fuel mb L frm nargs mf hcc hret hst
  rw [lua_resume_suspended E K fuel mb L frm nargs hs, hrun2]
  have hth : ((luaD.rawrunprotectedExit (lua_resumeEntry E mb L frm) L mf).th L)
      = { mf.th L with
          errorJmp := (mf.ljs (lua_resumeEntry E mb L frm).njmp).previous
          nCcalls := ((lua_resumeEntry E mb L frm).th L).nCcalls } := by
    simp [luaD.rawrunprotectedExit, Machine.th, Machine.setTh]
  have hfin : lua_resumeFinish (luaD.rawrunprotectedExit (lua_resumeEntry E mb L frm) L mf) L
      LUA_OK
      = ((LUA_OK, some ((mf.th L).top - (((mf.th L).cis 0).func + 1))),
          luaD.rawrunprotectedExit (lua_resumeEntry E mb L frm) L mf) := by
    unfold lua_resumeFinish
    have he : ¬ errorstatus LUA_OK = true := by decide
    have hy : ¬ LUA_OK = LUA_YIELD := by decide
    simp only [if_neg he, if_neg hy, hth]
    rw [hci0]
  rw [hfin]
  refine ⟨_, rfl, ?_, ?_, ?_, ?_⟩
  · rw [hth]; exact hci0
  · rw [hth]
  · rw [hth]
  · intro q
    rw [hth]
    rfl

/-- The `lua_resume` of a suspended thread whose run ends with the frame of the
body, at depth 1 right above the base function slot and called for all results,
finished by `luaD::poscall` with `n` results in the machine `mr` (no hook, no
error recorded): it returns `LUA_OK` and `n`, and the `n` results are the top
`n` slots of the stack, in order. -/
theorem lua_resume_of_return (E : LuaEnv) (K : LuaConf) (L : Nat) (mr mq mz : Machine)
    (n nres : Int)
    (hn : 0 ≤ n) (hmask : (mr.th L).hookmask = 0)
    (htbc : K.hastocloseCfunc LUA_MULTRET = false)
    (hnres : ((mr.th L).cis 1).nresults = LUA_MULTRET)
    (hfunc : ((mr.th L).cis 1).func = ((mr.th L).cis 0).func + 1)
    (hle : ((mr.th L).cis 1).func ≤ (mr.th L).top - n)
    (hpos : luaD.poscall E K mr L 1 n = .ret () mq)
    (hnr : nres = (mq.th L).top - (((mq.th L).cis 0).func + 1))
    (htop : (mz.th L).top = (mq.th L).top)
    (hval : ∀ q, (mz.th L).val q = (mq.th L).val q) :
    nres = n ∧ mq.ljs = mr.ljs ∧ (mq.th L).ci = 0 ∧
    (mz.th L).top = ((mr.th L).cis 1).func + n ∧
    ∀ i : Int, 0 ≤ i → i < n →
      (mz.th L).val ((mz.th L).top - n + i) = (mr.th L).val ((mr.th L).top - n + i) := by
  obtain ⟨mp, p1, p2, -, -, p5, p6, -, p8, p9⟩ := luaD.poscall_nohook E K mr L 1 n hn hmask
    (by rw [hnres]; exact htbc) hle
  rw [hpos] at p1
  injection p1 with _ p1
  subst p1
  have ptop : (mq.th L).top = ((mr.th L).cis 1).func + n := by
    rw [p8, hnres, if_pos rfl]
  refine ⟨?_, p2, p5, ?_, ?_⟩
  · rw [hnr, ptop, p6, hfunc]
    omega
  · rw [htop, ptop]
  · intro i hi0 hin
    have h9 := p9 i hi0 (by rw [hnres, if_pos rfl]; exact hin)
    rw [if_pos hin] at h9
    rw [hval, htop, ← h9, ptop]
    congr 1
    omega

/-- C13: a fresh thread whose body yields `k` values and, when resumed, returns
`n` values.  Below, `me` is the machine in which `lua_resume` runs `resume`: the
count of C calls has been set and the recovery point of `lua_resume` installed.

First `lua_resume`: the thread is at its base frame with status `LUA_OK` and
its body below the `nargs` arguments; the counts of C calls are below the
limit and the stack has room for the frame of the body.

* The body is a C function `f` (no call hook): its code, called in its fresh
  native frame, is a call `lua_yieldk(L, k, ctx, kont)` made in a machine `my`
  where the thread is yieldable, the current frame is native and the recovery
  point is the one of this `lua_resume`.
* The body is a Lua closure: the dispatcher, entered on the fresh frame of the
  closure (marked `CIST_FRESH`), ends in such a call of `lua_yieldk` (made by a
  C function that the body calls).

Then `lua_resume` returns `LUA_YIELD` with `*nresults = k`; the thread has
status `LUA_YIELD` and its stack is as it was at the yield (same `top`, same
slots: the `k` yielded values are on top, in order); the frame of the yield is
current and has saved `kont` and `k`.

Second `lua_resume`: the thread is suspended in a native frame.

* In general: the continuation of the frame, if any, returns, `luaD::poscall`
  finishes the frame, and the run of the rest of the frame chain reaches the
  base frame in a machine `mf` with no error recorded.  Then `lua_resume`
  returns `LUA_OK` with `*nresults` the number of values above the base
  function slot, and the stack is the one of `mf`.
* The body is a C function suspended at depth 1 with the continuation `kf`,
  which returns `n` values in a machine `mr`.
* The body is a Lua closure at depth 1, suspended in the native frame of the
  yield at depth 2, without continuation: `luaD::poscall` finishes that frame
  with the `nargs` arguments, the interrupted instruction is finished, and the
  dispatcher runs the body up to its return, `luaD::poscall(L, ci, n)` on the
  frame of the body in a machine `mr`.

In the last two cases (frame of the body right above the base function slot
and called for all results, no hook, no error recorded, the `n` values above
the function slot in `mr`), `lua_resume` returns `LUA_OK` with
`*nresults = n`; the base frame is current and the `n` returned values are the
top `n` slots of the stack, in order. -/
theorem coroutine_round_trip (E : LuaEnv) (K : LuaConf) (fuel : Nat) (L : Nat)
    (frm : Option Nat) :
    (∀ (m : Machine) (nargs : Int) (f : Nat) (my : Machine) (k ctx : Int) (kont : Option Nat),
      (m.th L).status = LUA_OK → (m.th L).ci = 0 →
      (m.th L).top - (((m.th L).cis 0).func + 1) ≠ nargs →
      ((m.th L).val ((m.th L).top - nargs - 1) = .lcf f ∨
        (m.th L).val ((m.th L).top - nargs - 1) = .ccl f) →
      LUA_MINSTACK < (m.th L).stack_last - (m.th L).top →
      (m.th L).hookmask &&& LUA_MASKCALL = 0 →
      E.getCcalls ((lua_resumeSetCcalls E m L frm).th L) < K.LUAI_MAXCCALLS →
      E.getCcalls ((luaD.rawrunprotectedEntry (lua_resumeEntry E m L frm) L).th L)
        < K.LUAI_MAXCCALLS →
      E.cfunction f
          (precallCFrame K (luaD.rawrunprotectedEntry (lua_resumeEntry E m L frm) L) L
            ((m.th L).top - nargs - 1) LUA_MULTRET) L
        = lua_yieldk E K my L k ctx kont →
      E.yieldable (my.th L) = true →
      ((my.th L).cis (my.th L).ci).isLua K = false →
      (my.th L).errorJmp = some m.njmp →
      ∃ ma, lua_resume E K (fuel + 1) m L frm nargs = .ret (LUA_YIELD, some k) ma ∧
        (ma.th L).status = LUA_YIELD ∧
        (ma.th L).top = (my.th L).top ∧
        (∀ q, (ma.th L).val q = (my.th L).val q) ∧
        (ma.th L).ci = (my.th L).ci ∧
        ((ma.th L).cis (my.th L).ci).k = kont ∧
        ((ma.th L).cis (my.th L).ci).nyield = k) ∧
    (∀ (m : Machine) (nargs : Int) (p : Proto) (my : Machine) (k ctx : Int)
      (kont : Option Nat),
      (m.th L).status = LUA_OK → (m.th L).ci = 0 →
      (m.th L).top - (((m.th L).cis 0).func + 1) ≠ nargs →
      (m.th L).val ((m.th L).top - nargs - 1) = .lcl p →
      p.maxstacksize < (m.th L).stack_last - (m.th L).top →
      E.getCcalls ((lua_resumeSetCcalls E m L frm).th L) < K.LUAI_MAXCCALLS →
      E.getCcalls ((luaD.rawrunprotectedEntry (lua_resumeEntry E m L frm) L).th L)
        < K.LUAI_MAXCCALLS →
      E.luaV_execute
          (ccallFresh K
            (precallLuaFrame (luaD.rawrunprotectedEntry (lua_resumeEntry E m L frm) L) L
              ((m.th L).top - nargs - 1) LUA_MULTRET p) L 1) L 1
        = (lua_yieldk E K my L k ctx kont).bind (fun _ m1 => .ret () m1) →
      E.yieldable (my.th L) = true →
      ((my.th L).cis (my.th L).ci).isLua K = false →
      (my.th L).errorJmp = some m.njmp →
      ∃ ma, lua_resume E K (fuel + 1) m L frm nargs = .ret (LUA_YIELD, some k) ma ∧
        (ma.th L).status = LUA_YIELD ∧
        (ma.th L).top = (my.th L).top ∧
        (∀ q, (ma.th L).val q = (my.th L).val q) ∧
        (ma.th L).ci = (my.th L).ci ∧
        ((ma.th L).cis (my.th L).ci).k = kont ∧
        ((ma.th L).cis (my.th L).ci).nyield = k) ∧
    (∀ (mb : Machine) (nargs : Int) (n1 : Int) (mk mp : Machine) (d : Nat) (mf : Machine),
      (mb.th L).status = LUA_YIELD →
      ((mb.th L).cis (mb.th L).ci).isLua K = false →
      E.getCcalls ((lua_resumeSetCcalls E mb L frm).th L) < K.LUAI_MAXCCALLS →
      ((∃ kf, ((mb.th L).cis (mb.th L).ci).k = some kf ∧
          E.kfunction kf
            ((luaD.rawrunprotectedEntry (lua_resumeEntry E mb L frm) L).setTh L
              { (luaD.rawrunprotectedEntry (lua_resumeEntry E mb L frm) L).th L with
                status := LUA_OK })
            L LUA_YIELD ((mb.th L).cis (mb.th L).ci).ctx = .ret n1 mk) ∨
        (((mb.th L).cis (mb.th L).ci).k = none ∧ n1 = nargs ∧
          mk = (luaD.rawrunprotectedEntry (lua_resumeEntry E mb L frm) L).setTh L
            { (luaD.rawrunprotectedEntry (lua_resumeEntry E mb L frm) L).th L with
              status := LUA_OK })) →
      luaD.poscall E K mk L (mb.th L).ci n1 = .ret () mp →
      ChainRun E K L d mp mf → d ≤ fuel →
      (mf.ljs mb.njmp).status = LUA_OK →
      ∃ mz, lua_resume E K fuel mb L frm nargs
          = .ret (LUA_OK, some ((mf.th L).top - (((mf.th L).cis 0).func + 1))) mz ∧
        (mz.th L).ci = 0 ∧ (mz.th L).status = (mf.th L).status ∧
        (mz.th L).top = (mf.th L).top ∧
        ∀ q, (mz.th L).val q = (mf.th L).val q) ∧
    (∀ (mb : Machine) (nargs : Int) (kf : Nat) (n : Int) (mr : Machine),
      (mb.th L).status = LUA_YIELD → (mb.th L).ci = 1 →
      ((mb.th L).cis 1).isLua K = false →
      ((mb.th L).cis 1).k = some kf →
      E.getCcalls ((lua_resumeSetCcalls E mb L frm).th L) < K.LUAI_MAXCCALLS →
      E.kfunction kf
        ((luaD.rawrunprotectedEntry (lua_resumeEntry E mb L frm) L).setTh L
          { (luaD.rawrunprotectedEntry (lua_resumeEntry E mb L frm) L).th L with
            status := LUA_OK })
        L LUA_YIELD ((mb.th L).cis 1).ctx = .ret n mr →
      0 ≤ n → (mr.th L).hookmask = 0 → K.hastocloseCfunc LUA_MULTRET = false →
      ((mr.th L).cis 1).nresults = LUA_MULTRET →
      ((mr.th L).cis 1).func = ((mr.th L).cis 0).func + 1 →
      ((mr.th L).cis 1).func ≤ (mr.th L).top - n →
      (mr.ljs mb.njmp).status = LUA_OK →
      ∃ mz, lua_resume E K fuel mb L frm nargs = .ret (LUA_OK, some n) mz ∧
        (mz.th L).ci = 0 ∧
        (mz.th L).top = ((mr.th L).cis 1).func + n ∧
        ∀ i : Int, 0 ≤ i → i < n →
          (mz.th L).val ((mz.th L).top - n + i) = (mr.th L).val ((mr.th L).top - n + i)) ∧
    (∀ (mb : Machine) (nargs : Int) (mp m1 mr : Machine) (n : Int),
      (mb.th L).status = LUA_YIELD → (mb.th L).ci = 2 →
      ((mb.th L).cis 2).isLua K = false →
      ((mb.th L).cis 2).k = none →
      E.getCcalls ((lua_resumeSetCcalls E mb L frm).th L) < K.LUAI_MAXCCALLS →
      luaD.poscall E K
        ((luaD.rawrunprotectedEntry (lua_resumeEntry E mb L frm) L).setTh L
          { (luaD.rawrunprotectedEntry (lua_resumeEntry E mb L frm) L).th L with
            status := LUA_OK })
        L 2 nargs = .ret () mp →
      ((mp.th L).cis 1).isLua K = true →
      E.luaV_finishOp mp L = .ret () m1 →
      E.luaV_execute m1 L 1 = luaD.poscall E K mr L 1 n →
      0 ≤ n → (mr.th L).hookmask = 0 → K.hastocloseCfunc LUA_MULTRET = false →
      ((mr.th L).cis 1).nresults = LUA_MULTRET →
      ((mr.th L).cis 1).func = ((mr.th L).cis 0).func + 1 →
      ((mr.th L).cis 1).func ≤ (mr.th L).top - n →
      (mr.ljs mb.njmp).status = LUA_OK →
      ∃ mz, lua_resume E K (fuel + 1) mb L frm nargs = .ret (LUA_OK, some n) mz ∧
        (mz.th L).ci = 0 ∧
        (mz.th L).top = ((mr.th L).cis 1).func + n ∧
        ∀ i : Int, 0 ≤ i → i < n →
          (mz.th L).val ((mz.th L).top - n + i) = (mr.th L).val ((mr.th L).top - n + i)) := by
  refine ⟨?_, ?_, ?_, ?_, ?_⟩
  · intro m nargs f my k ctx kont hs hci hfn hv hroom hmask hcc hcc2 hbody hy hC hj
    obtain ⟨e1, e2, e3, e4, e5, e6, e7, e8⟩ := lua_resume_entry_fields E m L frm
    refine lua_resume_of_yield E K (fuel + 1) L frm m nargs my k ctx kont hs hci hfn hcc ?_
      hy hC hj
    intro mt hmt
    refine resume_start_C_thrown E K fuel nargs _ L f mt (by rw [e1]; exact hs) hcc2 ?_
      (by rw [e4, e6]; exact hroom) (by rw [e8]; exact hmask) ?_
    · simpa only [lua_State.val, e4, e5, e7] using hv
    · rw [e4, hbody, hmt]
  · intro m nargs p my k ctx kont hs hci hfn hv hroom hcc hcc2 hbody hy hC hj
    obtain ⟨e1, e2, e3, e4, e5, e6, e7, e8⟩ := lua_resume_entry_fields E m L frm
    refine lua_resume_of_yield E K (fuel + 1) L frm m nargs my k ctx kont hs hci hfn hcc ?_
      hy hC hj
    intro mt hmt
    refine resume_start_Lua_thrown E K fuel nargs _ L p mt (by rw [e1]; exact hs) hcc2 ?_
      (by rw [e4, e6]; exact hroom) ?_
    · simpa only [lua_State.val, e4, e5, e7] using hv
    · rw [e4, e2, hci, hbody, hmt]
      rfl
  · intro mb nargs n1 mk mp d mf hs hC hcc hk hpos hrun hd hst
    exact lua_resume_of_chain E K fuel L frm mb nargs n1 mk mp d mf hs hC hcc hk hpos hrun hd hst
  · intro mb nargs kf n mr hs hci hC hk hcc hcont hn hmask htbc hnres hfunc hle hst
    obtain ⟨mq, p1, p2, -, -, p5, -⟩ := luaD.poscall_nohook E K mr L 1 n hn hmask
      (by rw [hnres]; exact htbc) hle
    obtain ⟨mz, z1, z2, -, z4, z5⟩ := lua_resume_of_chain E K fuel L frm mb nargs n mr mq 0 mq
      hs (by rw [hci]; exact hC) hcc
      (Or.inl ⟨kf, by rw [hci]; exact hk, by rw [hci]; exact hcont⟩)
      (by rw [hci]; exact p1) (ChainRun.base mq p5) (Nat.zero_le _) (by rw [p2]; exact hst)
    obtain ⟨r1, -, -, r4, r5⟩ := lua_resume_of_return E K L mr mq mz n _ hn hmask htbc hnres
      hfunc hle p1 rfl z4 z5
    rw [r1] at z1
    exact ⟨mz, z1, z2, r4, r5⟩
  · intro mb nargs mp m1 mr n hs hci hC hk hcc hpos2 hlua hfin hexec hn hmask htbc hnres hfunc
      hle hst
    obtain ⟨mq, p1, p2, -, -, p5, -⟩ := luaD.poscall_nohook E K mr L 1 n hn hmask
      (by rw [hnres]; exact htbc) hle
    have hpci : (mp.th L).ci = 1 := luaD.poscall_ret_ci E K _ L 2 nargs mp hpos2
    have hrun : ChainRun E K L 1 mp mq :=
      ChainRun.interpreted 0 mp m1 mq mq (by rw [hpci]; decide) (by rw [hpci]; exact hlua) hfin
        (by rw [hpci, hexec, p1]) (ChainRun.base mq p5)
    obtain ⟨mz, z1, z2, -, z4, z5⟩ := lua_resume_of_chain E K (fuel + 1) L frm mb nargs nargs _
      mp 1 mq hs (by rw [hci]; exact hC) hcc
      (Or.inr ⟨by rw [hci]; exact hk, rfl, rfl⟩)
      (by rw [hci]; exact hpos2) hrun (by omega) (by rw [p2]; exact hst)
    obtain ⟨r1, -, -, r4, r5⟩ := lua_resume_of_return E K L mr mq mz n _ hn hmask htbc hnres
      hfunc hle p1 rfl z4 z5
    rw [r1] at z1
    exact ⟨mz, z1, z2, r4, r5⟩

/-- The dispatcher of `envLua` is `coLuaBody`. -/
theorem envLua_luaV_execute (m : Machine) (L : Nat) (ci : Nat) :
    envLua.luaV_execute m L ci = coLuaBody m L ci := rfl

/-- The C function 0 of `envYield` is `yield`. -/
theorem envYield_cfunction_zero (m : Machine) (L : Nat) :
    envYield.cfunction 0 m L
      = lua_yieldk env0 stdConf m L
          ((m.th L).top - (((m.th L).cis (m.th L).ci).func + 1)) 0 none := rfl

/-- The C function 0 of `envCo` pushes 1 and 2 and yields them. -/
theorem envCo_cfunction_zero (m : Machine) (L : Nat) :
    envCo.cfunction 0 m L
      = lua_yieldk env0 stdConf (pushValue (.integer 2) (pushValue (.integer 1) m L) L) L 2 0
          (some 0) := rfl

/-- The body of the coroutine of `machineCoLua`, entered by the first
`lua_resume`, runs up to the call `lua_yieldk(L, 2, 0, NULL)` that `yield`
makes in `machineCoLuaYield`. -/
theorem coLuaBody_yields :
    envLua.luaV_execute
        (ccallFresh stdConf
          (precallLuaFrame
            (luaD.rawrunprotectedEntry (lua_resumeEntry envLua machineCoLua 1 none) 1) 1
            ((machineCoLua.th 1).top - 0 - 1) LUA_MULTRET protoCo) 1 1) 1 1
      = (lua_yieldk envLua stdConf machineCoLuaYield 1 2 0 none).bind
          (fun _ m1 => .ret () m1) := by
  have hf0 : (machineCoLua.th 1).top - 0 - 1 = 1001 := by decide!
  have hyield := Outcome.thrown_of_isThrown
    (lua_yieldk envLua stdConf machineCoLuaYield 1 2 0 none) machine0 (by decide!)
  have hcf : envYield.cfunction 0 (precallCFrame stdConf machineCoLuaCall 1 1002 0) 1
      = .thrown ((lua_yieldk envLua stdConf machineCoLuaYield 1 2 0 none).machineD
          machine0) := by
    rw [envYield_cfunction_zero]
    change lua_yieldk env0 stdConf machineCoLuaYield 1
      ((machineCoLuaYield.th 1).top
        - (((machineCoLuaYield.th 1).cis (machineCoLuaYield.th 1).ci).func + 1)) 0 none = _
    rw [show (machineCoLuaYield.th 1).top
        - (((machineCoLuaYield.th 1).cis (machineCoLuaYield.th 1).ci).func + 1) = 2
      from by decide!]
    rw [lua_yieldk_env env0 envLua stdConf machineCoLuaYield 1 2 0 none 0 (by decide!)
      (by decide!) (by decide!) (by decide!)]
    exact hyield
  rw [hf0, hyield, envLua_luaV_execute]
  change coLuaBody machineCoLuaBody 1 1 = _
  rw [coLuaBody_start machineCoLuaBody 1 1 (by decide!),
    show ((machineCoLuaBody.th 1).cis 1).func + 1 = 1002 from by decide!]
  change (luaD.precall envYield stdConf (0 + 1) machineCoLuaCall 1 1002 0).bind _ = _
  rw [luaD.precall_C_thrown envYield stdConf 0 machineCoLuaCall 1 1002 0 0 _
    (Or.inl (by decide!)) (by decide!) (by decide!) hcf]
  rfl

/-- The body of the coroutine of `machineCoLua`, entered again by the second
`lua_resume`, runs up to its return, `luaD::poscall(L, ci, 1)` in
`machineCoLuaReturn`. -/
theorem coLuaBody_returns :
    envLua.luaV_execute machineCoLuaResumed 1 1
      = luaD.poscall envLua stdConf machineCoLuaReturn 1 1 1 := by
  rw [envLua_luaV_execute, coLuaBody_resumed machineCoLuaResumed 1 1 (by decide!)]
  exact luaD.poscall_env envYield envLua stdConf machineCoLuaReturn 1 1 1 (by decide!)
    (by decide!)

/-- The body of the coroutine of `machineCo`, called by the first `lua_resume`,
is the call `lua_yieldk(L, 2, 0, continuation 0)` made in `machineCoYield`. -/
theorem coBody_yields :
    envCo.cfunction 0
        (precallCFrame stdConf
          (luaD.rawrunprotectedEntry (lua_resumeEntry envCo machineCo 1 none) 1) 1
          ((machineCo.th 1).top - 0 - 1) LUA_MULTRET) 1
      = lua_yieldk envCo stdConf machineCoYield 1 2 0 (some 0) := by
  have hf0 : (machineCo.th 1).top - 0 - 1 = 1001 := by decide!
  rw [hf0, envCo_cfunction_zero]
  change lua_yieldk env0 stdConf machineCoYield 1 2 0 (some 0) = _
  exact lua_yieldk_env env0 envCo stdConf machineCoYield 1 2 0 (some 0) 0 (by decide!)
    (by decide!) (by decide!) (by decide!)

/-- Witness for C13: the body `yield(1, 2); return 3`, as a Lua closure that
calls the C function `yield`, and as a C function with a continuation.  The
first `lua_resume` returns `LUA_YIELD` with 2 results, the values 1 and 2 on top
of the stack; the second `lua_resume`, on the machine left by the first, returns
`LUA_OK` with 1 result, the value 3 on top of the stack. -/
theorem coroutine_round_trip_witness :
    (∃ ma mz, lua_resume envLua stdConf 1 machineCoLua 1 none 0 = .ret (LUA_YIELD, some 2) ma ∧
      (ma.th 1).val ((ma.th 1).top - 2) = .integer 1 ∧
      (ma.th 1).val ((ma.th 1).top - 1) = .integer 2 ∧
      lua_resume envLua stdConf 1 ma 1 none 0 = .ret (LUA_OK, some 1) mz ∧
      (mz.th 1).val ((mz.th 1).top - 1) = .integer 3) ∧
    (∃ ma mz, lua_resume envCo stdConf 1 machineCo 1 none 0 = .ret (LUA_YIELD, some 2) ma ∧
      (ma.th 1).val ((ma.th 1).top - 2) = .integer 1 ∧
      (ma.th 1).val ((ma.th 1).top - 1) = .integer 2 ∧
      lua_resume envCo stdConf 1 ma 1 none 0 = .ret (LUA_OK, some 1) mz ∧
      (mz.th 1).val ((mz.th 1).top - 1) = .integer 3) := by
  constructor
  · obtain ⟨ma, h1, -, h3, h4, -⟩ := (coroutine_round_trip envLua stdConf 0 1 none).2.1
      machineCoLua 0 protoCo machineCoLuaYield 2 0 none (by decide!) (by decide!) (by decide!)
      (by decide!) (by decide!) (by decide!) (by decide!) coLuaBody_yields (by decide!)
      (by decide!) (by decide!)
    have hma : machineCoLuaSusp = ma :=
      (Outcome.ret.inj ((Outcome.ret_of_value
        (lua_resume envLua stdConf (0 + 1) machineCoLua 1 none 0) (LUA_YIELD, some 2) machine0
        (by decide!)).symm.trans h1)).2
    subst hma
    obtain ⟨mz, g1, -, g3, g4⟩ := (coroutine_round_trip envLua stdConf 0 1 none).2.2.2.2
      machineCoLuaSusp 0 machineCoLuaResumed machineCoLuaResumed machineCoLuaReturn 1
      (by decide!) (by decide!) (by decide!) (by decide!) (by decide!)
      (Outcome.ret_of_value _ () machine0 (by decide!)) (by decide!) rfl coLuaBody_returns
      (by decide) (by decide!) (by decide) (by decide!) (by decide!) (by decide!) (by decide!)
    refine ⟨_, mz, h1, ?_, ?_, g1, ?_⟩
    · rw [h4, h3]
      decide!
    · rw [h4, h3]
      decide!
    · have := g4 0 (by decide) (by decide)
      rw [add_zero] at this
      rw [this]
      decide!
  · obtain ⟨ma, h1, -, h3, h4, -⟩ := (coroutine_round_trip envCo stdConf 0 1 none).1
      machineCo 0 0 machineCoYield 2 0 (some 0) (by decide!) (by decide!) (by decide!)
      (Or.inl (by decide!)) (by decide!) (by decide!) (by decide!) (by decide!) coBody_yields
      (by decide!) (by decide!) (by decide!)
    have hma : machineCoSusp = ma :=
      (Outcome.ret.inj ((Outcome.ret_of_value
        (lua_resume envCo stdConf (0 + 1) machineCo 1 none 0) (LUA_YIELD, some 2) machine0
        (by decide!)).symm.trans h1)).2
    subst hma
    obtain ⟨mz, g1, -, g3, g4⟩ := (coroutine_round_trip envCo stdConf 1 1 none).2.2.2.1
      machineCoSusp 0 0 1 machineCoReturn
      (by decide!) (by decide!) (by decide!) (by decide!) (by decide!) rfl
      (by decide) (by decide!) (by decide) (by decide!) (by decide!) (by decide!) (by decide!)
    refine ⟨_, mz, h1, ?_, ?_, g1, ?_⟩
    · rw [h4, h3]
      decide!
    · rw [h4, h3]
      decide!
    · have := g4 0 (by decide) (by decide)
      rw [add_zero] at this
      rw [this]
      decide!

/-! ## Dead threads (C15, C16) -/

/-- `seterrorobj` leaves the status and the frames of the thread alone. -/
theorem luaD.seterrorobj_frames (m : Machine) (L : Nat) (errcode oldtop : Int) :
    ((luaD.seterrorobj m L errcode oldtop).th L).status = (m.th L).status ∧
    ((luaD.seterrorobj m L errcode oldtop).th L).ci = (m.th L).ci ∧
    ((luaD.seterrorobj m L errcode oldtop).th L).cis = (m.th L).cis := by
  unfold luaD.seterrorobj
  simp only
  split_ifs <;>
    simp [luaS.newliteral, luaS.newlstr, lua_State.setval, Machine.th, Machine.setTh]

/-- When the thread is being started, `resume` just calls its body: the value
below the arguments. -/
theorem resume_start (E : LuaEnv) (K : LuaConf) (fuel : Nat) (n : Int) (m : Machine) (L : Nat)
    (hs : (m.th L).status = LUA_OK) :
    resume E K fuel n m L = ccall E K fuel m L ((m.th L).top - n - 1) LUA_MULTRET 0 := by
  unfold resume
  simp only [if_pos hs]

/-- C15 (amended): dead threads and `lua_resume`.

* A thread that died with an error (status neither `LUA_OK` nor `LUA_YIELD`):
  for every argument count, `lua_resume` returns `LUA_ERRRUN`, stores nothing in
  `*nresults` and runs nothing (the machine is the one left by `resume_error`);
  the status, the current frame and the frames are unchanged, so the thread is
  still dead and every later `lua_resume` is rejected in the same way.
* A thread whose body returned (status `LUA_OK` at the base frame): when no
  value lies below the `nargs` arguments (`top - (func + 1) = nargs`),
  `lua_resume` is rejected in that same way; otherwise it is not: the thread
  goes through the run of a thread being started, in which `resume` calls the
  value below the arguments as the body. -/
theorem dead_thread_resume (E : LuaEnv) (K : LuaConf) (fuel : Nat) (m : Machine) (L : Nat)
    (frm : Option Nat) (nargs : Int) :
    ((m.th L).status ≠ LUA_OK → (m.th L).status ≠ LUA_YIELD →
      lua_resume E K fuel m L frm nargs
        = .ret (LUA_ERRRUN, none) (resume_error m L "cannot resume dead coroutine" nargs).2 ∧
      ((resume_error m L "cannot resume dead coroutine" nargs).2.th L).status
        = (m.th L).status ∧
      ((resume_error m L "cannot resume dead coroutine" nargs).2.th L).ci = (m.th L).ci ∧
      ((resume_error m L "cannot resume dead coroutine" nargs).2.th L).cis = (m.th L).cis) ∧
    ((m.th L).status = LUA_OK → (m.th L).ci = 0 →
      ((m.th L).top - (((m.th L).cis 0).func + 1) = nargs →
        lua_resume E K fuel m L frm nargs
          = .ret (LUA_ERRRUN, none) (resume_error m L "cannot resume dead coroutine" nargs).2 ∧
        ((resume_error m L "cannot resume dead coroutine" nargs).2.th L).status
          = (m.th L).status ∧
        ((resume_error m L "cannot resume dead coroutine" nargs).2.th L).ci = (m.th L).ci ∧
        ((resume_error m L "cannot resume dead coroutine" nargs).2.th L).cis
          = (m.th L).cis) ∧
      ((m.th L).top - (((m.th L).cis 0).func + 1) ≠ nargs →
        lua_resume E K fuel m L frm nargs = lua_resumeRun E K fuel m L frm nargs ∧
        ∀ me, (me.th L).status = LUA_OK →
          resume E K fuel nargs me L
            = ccall E K fuel me L ((me.th L).top - nargs - 1) LUA_MULTRET 0)) := by
  obtain ⟨-, r2, r3, r4, -⟩ := resume_error_fields m L "cannot resume dead coroutine" nargs
  refine ⟨?_, ?_⟩
  · intro h1 h2
    refine ⟨?_, r2, r3, r4⟩
    unfold lua_resume
    simp only [if_neg h1, if_pos h2]
    rfl
  · intro hs hci
    refine ⟨?_, ?_⟩
    · intro h3
      refine ⟨?_, r2, r3, r4⟩
      unfold lua_resume
      have h2 : ¬ (0 : Nat) ≠ 0 := by simp
      simp only [if_pos hs, hci, if_neg h2, if_pos h3]
      rfl
    · intro h3
      exact ⟨lua_resume_started E K fuel m L frm nargs hs hci h3,
        fun me hme => resume_start E K fuel nargs me L hme⟩

/-- Witness for C15: a thread with an error status is rejected for 0 and for 3
arguments and keeps its status. -/
theorem dead_thread_resume_witness :
    lua_resume env0 stdConf 1 (machine0.setTh 1 { thread0 with status := LUA_ERRRUN }) 1 none 3
      = .ret (LUA_ERRRUN, none)
          (resume_error (machine0.setTh 1 { thread0 with status := LUA_ERRRUN }) 1
            "cannot resume dead coroutine" 3).2 ∧
    ((resume_error (machine0.setTh 1 { thread0 with status := LUA_ERRRUN }) 1
        "cannot resume dead coroutine" 3).2.th 1).status = LUA_ERRRUN := by
  obtain ⟨h1, h2, -⟩ := (dead_thread_resume env0 stdConf 1
    (machine0.setTh 1 { thread0 with status := LUA_ERRRUN }) 1 none 3).1
    (by decide) (by decide)
  exact ⟨h1, h2⟩

/-- Counterexample to C15 as stated: the body of the coroutine of `machineCo`
returns one value, the C function 1; the first `lua_resume` returns `LUA_OK`
with that result on the stack.  A later `lua_resume` with no argument is not
rejected: it runs the C function 1 and returns `LUA_OK` with its two
results. -/
theorem dead_thread_resume_counterexample :
    (lua_resume envReuse stdConf 1 machineCo 1 none 0).value? = some (LUA_OK, some 1) ∧
    (lua_resume envReuse stdConf 1
      ((lua_resume envReuse stdConf 1 machineCo 1 none 0).machineD machine0) 1 none 0).value?
      = some (LUA_OK, some 2) := by
  constructor <;> decide!

/-- C16 (amended): a `lua_resume` that gets through its checks, during which the
thread raises an error with status `s` (an error status below 256, as every
error code is) that no suspended protected call inside that thread recovers;
`mt` is the machine in which the exception leaves `resume`.  Then `lua_resume`
returns `s`; the thread's status field becomes `s` (dead); the error object is
at `L->top - 1`, one slot above the top of the stack at the raise (the value
that was on top at the raise, or the fixed message for `LUA_ERRMEM` and
`LUA_ERRERR`); the frame that was running at the raise is still `L->ci` and its
`top` is `L->top`; and the reported `*nresults` is `L->top - (L->ci->func + 1)`
for that frame, that is, the error object together with every value that frame
had on its stack: one more than `top - (func + 1)` at the raise. -/
theorem lua_resume_unrecovered_error (E : LuaEnv) (K : LuaConf) (fuel : Nat) (m : Machine)
    (L : Nat) (frm : Option Nat) (nargs : Int) (mt : Machine)
    (hpass : ((m.th L).status = LUA_OK ∧ (m.th L).ci = 0 ∧
        (m.th L).top - (((m.th L).cis 0).func + 1) ≠ nargs) ∨ (m.th L).status = LUA_YIELD)
    (hcc : E.getCcalls ((lua_resumeSetCcalls E m L frm).th L) < K.LUAI_MAXCCALLS)
    (hthrow : resume E K fuel nargs (luaD.rawrunprotectedEntry (lua_resumeEntry E m L frm) L) L
      = .thrown mt)
    (hs : errorstatus (mt.ljs m.njmp).status = true)
    (hbyte : (mt.ljs m.njmp).status < 256)
    (hnp : findpcall K ((luaD.rawrunprotectedExit (lua_resumeEntry E m L frm) L mt).th L)
      = none) :
    ∃ mz, lua_resume E K fuel m L frm nargs
        = .ret ((mt.ljs m.njmp).status,
                some ((mt.th L).top - (((mt.th L).cis (mt.th L).ci).func + 1) + 1)) mz ∧
      (mz.th L).status = (mt.ljs m.njmp).status ∧
      (mz.th L).top = (mt.th L).top + 1 ∧
      (mz.th L).ci = (mt.th L).ci ∧
      ((mz.th L).cis (mz.th L).ci).func = ((mt.th L).cis (mt.th L).ci).func ∧
      ((mz.th L).cis (mz.th L).ci).top = (mz.th L).top ∧
      (mz.th L).top - (((mz.th L).cis (mz.th L).ci).func + 1)
        = (mt.th L).top - (((mt.th L).cis (mt.th L).ci).func + 1) + 1 ∧
      ((mt.ljs m.njmp).status = LUA_ERRMEM →
        (mz.th L).val ((mz.th L).top - 1) = .str mt.g.memerrmsg) ∧
      ((mt.ljs m.njmp).status = LUA_ERRERR →
        (mz.th L).val ((mz.th L).top - 1)
          = .str { addr := mt.g.nstrings, contents := "error in error handling" }) ∧
      ((mt.ljs m.njmp).status ≠ LUA_ERRMEM → (mt.ljs m.njmp).status ≠ LUA_ERRERR →
        (mz.th L).val ((mz.th L).top - 1) = (mt.th L).val ((mt.th L).top - 1)) := by
  have hs1 : (mt.ljs m.njmp).status > 1 := by
    simpa [errorstatus, LUA_YIELD] using hs
  have hlr : lua_resume E K fuel m L frm nargs = lua_resumeRun E K fuel m L frm nargs := by
    rcases hpass with ⟨h1, h2, h3⟩ | h1
    · exact lua_resume_started E K fuel m L frm nargs h1 h2 h3
    · exact lua_resume_suspended E K fuel m L frm nargs h1
  have hrun := lua_resumeRun_thrown E K fuel m L frm nargs mt hcc hthrow (by omega)
    (Or.inr hnp)
  rw [hlr, hrun]
  generalize hsd : (mt.ljs m.njmp).status = s at *
  have hth : ((luaD.rawrunprotectedExit (lua_resumeEntry E m L frm) L mt).th L)
      = { mt.th L with
          errorJmp := (mt.ljs (lua_resumeEntry E m L frm).njmp).previous
          nCcalls := ((lua_resumeEntry E m L frm).th L).nCcalls } := by
    simp [luaD.rawrunprotectedExit, Machine.th, Machine.setTh]
  have hg : (luaD.rawrunprotectedExit (lua_resumeEntry E m L frm) L mt).g = mt.g := by
    simp [luaD.rawrunprotectedExit, Machine.setTh]
  generalize luaD.rawrunprotectedExit (lua_resumeEntry E m L frm) L mt = mx at hth hg ⊢
  have x1 : (mx.th L).top = (mt.th L).top := by rw [hth]
  have x2 : (mx.th L).ci = (mt.th L).ci := by rw [hth]
  have x3 : (mx.th L).cis = (mt.th L).cis := by rw [hth]
  have x4 : ∀ q, (mx.th L).val q = (mt.th L).val q := by
    intro q
    rw [hth]
    rfl
  have hmod : s % 256 = s := Int.emod_eq_of_lt (by omega) hbyte
  have hne : ¬ s = LUA_YIELD := by
    intro h
    rw [h] at hs1
    exact absurd hs1 (by decide)
  have hfin : lua_resumeFinish mx L s
      = ((s, some (((luaD.seterrorobj (mx.setTh L { mx.th L with status := s % 256 }) L s
              ((mx.setTh L { mx.th L with status := s % 256 }).th L).top).th L).top
            - ((((luaD.seterrorobj
              (mx.setTh L { mx.th L with status := s % 256 }) L s
              ((mx.setTh L { mx.th L with status := s % 256 }).th L).top).th L).cis
              ((luaD.seterrorobj
              (mx.setTh L { mx.th L with status := s % 256 }) L s
              ((mx.setTh L { mx.th L with status := s % 256 }).th L).top).th L).ci).func + 1))),
         (luaD.seterrorobj (mx.setTh L { mx.th L with status := s % 256 }) L s
            ((mx.setTh L { mx.th L with status := s % 256 }).th L).top).setTh L
           (((luaD.seterrorobj (mx.setTh L { mx.th L with status := s % 256 }) L s
              ((mx.setTh L { mx.th L with status := s % 256 }).th L).top).th L).setci
             ((luaD.seterrorobj (mx.setTh L { mx.th L with status := s % 256 }) L s
              ((mx.setTh L { mx.th L with status := s % 256 }).th L).top).th L).ci
             fun c => { c with top := ((luaD.seterrorobj
               (mx.setTh L { mx.th L with status := s % 256 }) L s
               ((mx.setTh L { mx.th L with status := s % 256 }).th L).top).th L).top })) := by
    unfold lua_resumeFinish
    simp only [if_pos hs, if_neg hne]
    congr 3
    simp only [Machine.th_setTh_same, lua_State.setci, Function.update_same]
  rw [hfin]
  have z1 : ((mx.setTh L { mx.th L with status := s % 256 }).th L).top = (mt.th L).top := by
    simp [x1]
  have z2 : ((mx.setTh L { mx.th L with status := s % 256 }).th L).ci = (mt.th L).ci := by
    simp [x2]
  have z3 : ((mx.setTh L { mx.th L with status := s % 256 }).th L).cis = (mt.th L).cis := by
    simp [x3]
  have z4 : ∀ q, ((mx.setTh L { mx.th L with status := s % 256 }).th L).val q
      = (mt.th L).val q := by
    intro q
    rw [← x4 q, Machine.th_setTh_same]
    rfl
  have z5 : ((mx.setTh L { mx.th L with status := s % 256 }).th L).status = s := by
    simp [hmod]
  have z6 : (mx.setTh L { mx.th L with status := s % 256 }).g = mt.g := by
    simp [Machine.setTh, hg]
  generalize mx.setTh L { mx.th L with status := s % 256 } = m41 at z1 z2 z3 z4 z5 z6 ⊢
  obtain ⟨e1, -, -, e4, e5, -, e7⟩ := luaD.seterrorobj_fields m41 L s (m41.th L).top
  obtain ⟨f1, f2, f3⟩ := luaD.seterrorobj_frames m41 L s (m41.th L).top
  generalize luaD.seterrorobj m41 L s (m41.th L).top = me at e1 e4 e5 e7 f1 f2 f3 ⊢
  rw [z6] at e4 e5
  rw [z4] at e7
  rw [z1] at e1 e4 e5 e7
  rw [z5] at f1
  rw [z2] at f2
  rw [z3] at f3
  have hnr : (me.th L).top - (((me.th L).cis (me.th L).ci).func + 1)
      = (mt.th L).top - (((mt.th L).cis (mt.th L).ci).func + 1) + 1 := by
    rw [e1, f2, f3]
    omega
  rw [hnr]
  refine ⟨_, rfl, ?_⟩
  simp only [Machine.th_setTh_same]
  have hv : ∀ (s0 : lua_State) (i : Nat) (g : CallInfo → CallInfo) (q : Int),
      (s0.setci i g).val q = s0.val q := fun _ _ _ _ => rfl
  have htop : ((me.th L).setci (me.th L).ci fun c => { c with top := (me.th L).top }).top
      = (mt.th L).top + 1 := e1
  refine ⟨f1, e1, f2, ?_, ?_, ?_, ?_, ?_, ?_⟩
  · simp only [lua_State.setci, Function.update_same, f2, f3]
  · simp only [lua_State.setci, Function.update_same]
  · simp only [lua_State.setci, Function.update_same]
    exact hnr
  · intro h
    rw [hv, htop, show (mt.th L).top + 1 - 1 = (mt.th L).top by omega]
    exact (e4 h).1
  · intro h
    rw [hv, htop, show (mt.th L).top + 1 - 1 = (mt.th L).top by omega]
    exact e5 h
  · intro h1 h2
    rw [hv, htop, show (mt.th L).top + 1 - 1 = (mt.th L).top by omega]
    exact e7 h1 h2 (by intro h; rw [h] at hs1; exact absurd hs1 (by decide))

/-- Witness for C16: the body of the coroutine pushes the error object 99 and
raises a runtime error: `lua_resume` returns `LUA_ERRRUN`, the thread is dead
with that status, the error object is on top, and `*nresults` is 2. -/
theorem lua_resume_unrecovered_error_witness :
    ∃ mz, lua_resume envErr stdConf 1 machineCo 1 none 0 = .ret (LUA_ERRRUN, some 2) mz ∧
      (mz.th 1).status = LUA_ERRRUN ∧
      (mz.th 1).val ((mz.th 1).top - 1) = .integer 99 := by
  have hthrow : resume envErr stdConf 1 0
      (luaD.rawrunprotectedEntry (lua_resumeEntry envErr machineCo 1 none) 1) 1
      = .thrown machineErrRaise := by
    rfl
  obtain ⟨mz, h1, h2, -, -, -, -, -, -, -, h10⟩ := lua_resume_unrecovered_error envErr stdConf 1
    machineCo 1 none 0 machineErrRaise (Or.inl ⟨rfl, rfl, by decide⟩) (by decide) hthrow
    (by decide!) (by decide!) (by decide!)
  have hs : (machineErrRaise.ljs machineCo.njmp).status = LUA_ERRRUN := by decide!
  have hn : (machineErrRaise.th 1).top
      - (((machineErrRaise.th 1).cis (machineErrRaise.th 1).ci).func + 1) + 1 = 2 := by
    decide!
  rw [hs, hn] at h1
  rw [hs] at h2
  refine ⟨mz, h1, h2, ?_⟩
  rw [h10 (by rw [hs]; decide) (by rw [hs]; decide)]
  decide!

/-- Counterexample to C16 as stated: the body of the coroutine pushes an error
object and raises a runtime error that nothing recovers: `lua_resume` returns
`LUA_ERRRUN` and reports `*nresults = 2`, not 1. -/
theorem lua_resume_unrecovered_error_counterexample :
    (lua_resume envErr stdConf 1 machineCo 1 none 0).value? = some (LUA_ERRRUN, some 2) := by
  decide!

/-! ## Yields inside hooks (C18) -/

/-- A reallocation that returns leaves the count of C calls and the marks of
the frames as they were. -/
theorem luaD.reallocstack_ret_keeps (E : LuaEnv) (K : LuaConf) (m : Machine) (L : Nat)
    (newsize r v : Int) (m' : Machine) (h : luaD.reallocstack E K m L newsize r = .ret v m') :
    (m'.th L).nCcalls = (m.th L).nCcalls ∧
    ∀ i, ((m'.th L).cis i).callstatus = ((m.th L).cis i).callstatus := by
  have hs : ((luaD.reallocstackEntry m L).th L).stack = (m.th L).stack := by
    simp [luaD.reallocstackEntry, Machine.th, Machine.setTh, relstack]
  unfold luaD.reallocstack at h
  simp only [hs] at h
  cases ha : E.realloc (luaD.reallocstackEntry m L) L (m.th L).stack
          ((m.th L).stacksize + K.EXTRA_STACK) (newsize + K.EXTRA_STACK) with
  | none =>
    simp only [ha] at h
    by_cases hr : r ≠ 0
    · rw [if_pos hr] at h
      exact absurd h (luaD.lthrow_ne_ret _ _ _ _ _ _)
    · rw [if_neg hr] at h
      injection h with _ h3
      subst h3
      refine ⟨?_, ?_⟩
      · simp [luaD.reallocstackEntry, Machine.th, Machine.setTh, relstack, correctstack]
      · intro i
        simp only [luaD.reallocstackEntry, Machine.th, Machine.setTh, relstack, correctstack,
          Function.update_same]
        split_ifs <;> rfl
  | some p =>
    simp only [ha] at h
    injection h with _ h3
    subst h3
    refine ⟨?_, ?_⟩
    · simp [luaD.reallocstackEntry, Machine.th, Machine.setTh, relstack, correctstack]
    · intro i
      simp only [luaD.reallocstackEntry, Machine.th, Machine.setTh, relstack, correctstack,
        Function.update_same]
      split_ifs <;> rfl

/-- A call of `growstack` that returns leaves the count of C calls and the
marks of the frames as they were. -/
theorem luaD.growstack_ret_keeps (E : LuaEnv) (K : LuaConf) (m : Machine) (L : Nat)
    (n r v : Int) (m' : Machine) (h : luaD.growstack E K m L n r = .ret v m') :
    (m'.th L).nCcalls = (m.th L).nCcalls ∧
    ∀ i, ((m'.th L).cis i).callstatus = ((m.th L).cis i).callstatus := by
  have hover : luaD.growstackOverflow E K m L r = .ret v m' →
      (m'.th L).nCcalls = (m.th L).nCcalls ∧
      ∀ i, ((m'.th L).cis i).callstatus = ((m.th L).cis i).callstatus := by
    intro h
    unfold luaD.growstackOverflow at h
    obtain ⟨v2, m2, h2, h3⟩ := Outcome.bind_eq_ret _ _ _ _ h
    by_cases hr : r ≠ 0
    · rw [if_pos hr] at h3
      exact absurd h3 (luaG_runerror_ne_ret _ _ _ _ _ _)
    · rw [if_neg hr] at h3
      injection h3 with _ h4
      rw [← h4]
      exact luaD.reallocstack_ret_keeps E K m L _ r v2 m2 h2
  unfold luaD.growstack at h
  simp only at h
  by_cases h1 : (m.th L).stacksize > K.LUAI_MAXSTACK
  · rw [if_pos h1] at h
    by_cases hr : r ≠ 0
    · rw [if_pos hr] at h
      exact absurd h (luaD.lthrow_ne_ret _ _ _ _ _ _)
    · rw [if_neg hr] at h
      injection h with _ h5
      rw [h5]
      exact ⟨rfl, fun _ => rfl⟩
  · rw [if_neg h1] at h
    by_cases h2 : n < K.LUAI_MAXSTACK
    · rw [if_pos h2] at h
      by_cases h3 : luaD.growstackNewsize K (m.th L) n ≤ K.LUAI_MAXSTACK
      · rw [if_pos h3] at h
        exact luaD.reallocstack_ret_keeps E K m L _ r v m' h
      · rw [if_neg h3] at h
        exact hover h
    · rw [if_neg h2] at h
      exact hover h

/-- A stack check that returns leaves the current frame, the count of C calls
and the marks of the frames as they were. -/
theorem luaD.checkstack_ret_keeps (E : LuaEnv) (K : LuaConf) (m : Machine) (L : Nat)
    (n : Int) (m' : Machine) (h : luaD.checkstack E K m L n = .ret () m') :
    (m'.th L).ci = (m.th L).ci ∧
    (m'.th L).nCcalls = (m.th L).nCcalls ∧
    ∀ i, ((m'.th L).cis i).callstatus = ((m.th L).cis i).callstatus := by
  unfold luaD.checkstack at h
  by_cases hc : (m.th L).stack_last - (m.th L).top ≤ n
  · rw [if_pos hc] at h
    obtain ⟨v, m1, h1, h2⟩ := Outcome.bind_eq_ret _ _ _ _ h
    injection h2 with _ h3
    subst h3
    obtain ⟨k1, k2⟩ := luaD.growstack_ret_keeps E K m L n 1 v m1 h1
    exact ⟨luaD.growstack_ret_ci E K m L n 1 v m1 h1, k1, k2⟩
  · rw [if_neg hc] at h
    injection h with _ h3
    subst h3
    exact ⟨rfl, rfl, fun _ => rfl⟩

/-- On a yieldable thread whose current frame is an interpreted frame,
`lua_yieldk` marks the thread as suspended, saves the count and returns 0. -/
theorem lua_yieldk_interpreted (E : LuaEnv) (K : LuaConf) (m : Machine) (L : Nat)
    (nresults ctx : Int) (k : Option Nat)
    (hy : E.yieldable (m.th L) = true)
    (hLua : ((m.th L).cis (m.th L).ci).isLua K = true) :
    lua_yieldk E K m L nresults ctx k
      = .ret 0 (m.setTh L (({ m.th L with status := LUA_YIELD } : lua_State).setci (m.th L).ci
          fun c => { c with nyield := nresults })) := by
  have hL : CallInfo.isLua K ((({ m.th L with status := LUA_YIELD } : lua_State).setci
      (m.th L).ci fun c => { c with nyield := nresults }).cis (m.th L).ci) = true := by
    simpa [lua_State.setci, CallInfo.isLua] using hLua
  unfold lua_yieldk
  simp only [hy, hL]
  simp

/-- How `luaD::hook` runs the callback when there is a hook, hooks are allowed
and the stack check returns: the callback runs on a thread with the same
current frame and the same count of C calls, whose current frame has received
the hook marks; what `luaD::hook` does after the callback has returned changes
neither the status of the thread nor the saved yield count of that frame. -/
theorem luaD.hook_run (E : LuaEnv) (K : LuaConf) (m : Machine) (L : Nat)
    (event line ft nt : Int) (hk : Nat) (m3 : Machine)
    (hhook : (m.th L).hook = some hk) (hallow : (m.th L).allowhook ≠ 0)
    (hchk : luaD.checkstack E K (hookEntry K m L ft nt) L LUA_MINSTACK = .ret () m3) :
    ∃ (mh : Machine) (ar : lua_Debug) (post : Machine → Machine),
      luaD.hook E K m L event line ft nt
        = (E.hookf hk mh L ar).bind (fun _ m6 => .ret () (post m6)) ∧
      (mh.th L).nCcalls = (m.th L).nCcalls ∧
      (mh.th L).ci = (m.th L).ci ∧
      ((mh.th L).cis (m.th L).ci).callstatus
        = ((m.th L).cis (m.th L).ci).callstatus
          ||| (if nt ≠ 0 then K.CIST_HOOKED ||| K.CIST_TRAN else K.CIST_HOOKED) ∧
      (∀ m6, ((post m6).th L).status = (m6.th L).status ∧
        (((post m6).th L).cis (m.th L).ci).nyield = ((m6.th L).cis (m.th L).ci).nyield) := by
  obtain ⟨k1, k2, k3⟩ := luaD.checkstack_ret_keeps E K _ L _ m3 hchk
  have e1 : ((hookEntry K m L ft nt).th L).ci = (m.th L).ci := by
    unfold hookEntry
    simp only [Machine.th_setTh_same]
    split_ifs <;> rfl
  have e2 : ((hookEntry K m L ft nt).th L).nCcalls = (m.th L).nCcalls := by
    unfold hookEntry
    simp only [Machine.th_setTh_same]
    split_ifs <;> rfl
  have e3 : (((hookEntry K m L ft nt).th L).cis (m.th L).ci).callstatus
      = ((m.th L).cis (m.th L).ci).callstatus := by
    unfold hookEntry
    simp only [Machine.th_setTh_same]
    split_ifs <;> simp [lua_State.setci]
  rw [e1] at k1
  rw [e2] at k2
  have k3' := k3 (m.th L).ci
  rw [e3] at k3'
  have hchk1 := hchk
  unfold hookEntry at hchk1
  simp only at hchk1
  unfold luaD.hook
  simp only [hhook, if_pos hallow, hchk1, Outcome.bind]
  refine ⟨_, _, _, rfl, ?_, ?_, ?_, ?_⟩
  · simp only [Machine.th_setTh_same, lua_State.setci]
    split_ifs <;> exact k2
  · simp only [Machine.th_setTh_same, lua_State.setci]
    split_ifs <;> exact k1
  · simp only [Machine.th_setTh_same, lua_State.setci, Function.update_same]
    split_ifs <;> simp [k3']
  · intro m6
    simp [lua_State.setci]

/-- C18 (amended): a yield attempted from inside a hook callback.  There is a
hook, hooks are allowed, the stack check of `luaD::hook` returns, and the
callback calls `lua_yieldk(L, nresults, ctx, k)`; `yieldable` depends only on
the count in `nCcalls`, and the hook marks are not the native mark.
`luaD::hook` hands the thread to the callback with the same count of C calls,
so a hook callback is not a non-yieldable region of its own:

* if the thread is not yieldable, the attempt fails with the yield error: the
  call of `luaD::hook` ends in the raise of the runtime error "attempt to yield
  across a C-call boundary" or "attempt to yield from outside a coroutine";
* if the thread is yieldable and the current frame is an interpreted frame,
  `lua_yieldk` returns 0 to the callback and `luaD::hook` returns normally with
  the thread marked as suspended (status `LUA_YIELD`) and `nresults` saved in
  the frame: no error is raised;
* if the thread is yieldable and the current frame is native, the call of
  `luaD::hook` ends in the raise of `LUA_YIELD`, with the status of the thread
  set to `LUA_YIELD`. -/
theorem yield_inside_hook (E : LuaEnv) (K : LuaConf) (m : Machine) (L : Nat)
    (event line ft nt : Int) (hk : Nat) (m3 : Machine) (nresults ctx : Int) (k : Option Nat)
    (hyd : ∀ s s1 : lua_State, s1.nCcalls = s.nCcalls → E.yieldable s1 = E.yieldable s)
    (hK1 : K.CIST_HOOKED &&& K.CIST_C = 0) (hK2 : K.CIST_TRAN &&& K.CIST_C = 0)
    (hhook : (m.th L).hook = some hk) (hallow : (m.th L).allowhook ≠ 0)
    (hchk : luaD.checkstack E K (hookEntry K m L ft nt) L LUA_MINSTACK = .ret () m3)
    (hcb : ∀ mh ar, E.hookf hk mh L ar
      = (lua_yieldk E K mh L nresults ctx k).bind fun _ m1 => .ret () m1) :
    (E.yieldable (m.th L) = false →
      ∃ mh msg, luaD.hook E K m L event line ft nt = luaG_runerror E mh L msg ∧
        (msg = "attempt to yield across a C-call boundary" ∨
         msg = "attempt to yield from outside a coroutine") ∧
        (mh.th L).nCcalls = (m.th L).nCcalls) ∧
    (E.yieldable (m.th L) = true → ((m.th L).cis (m.th L).ci).isLua K = true →
      ∃ m1, luaD.hook E K m L event line ft nt = .ret () m1 ∧
        (m1.th L).status = LUA_YIELD ∧
        ((m1.th L).cis (m.th L).ci).nyield = nresults) ∧
    (E.yieldable (m.th L) = true → ((m.th L).cis (m.th L).ci).isLua K = false →
      ∃ my, luaD.hook E K m L event line ft nt = luaD.lthrow E my L LUA_YIELD ∧
        (my.th L).status = LUA_YIELD) := by
  obtain ⟨mh, ar, post, hrun, n1, c1, cs1, hpost⟩ :=
    luaD.hook_run E K m L event line ft nt hk m3 hhook hallow hchk
  have hy : E.yieldable (mh.th L) = E.yieldable (m.th L) := hyd _ _ n1
  have hmask : (if nt ≠ 0 then K.CIST_HOOKED ||| K.CIST_TRAN else K.CIST_HOOKED) &&& K.CIST_C
      = 0 := by
    split_ifs
    · rw [Nat.and_distrib_right, hK1, hK2]
      rfl
    · exact hK1
  have hlua : ((mh.th L).cis (mh.th L).ci).isLua K = ((m.th L).cis (m.th L).ci).isLua K := by
    unfold CallInfo.isLua
    rw [c1, cs1, Nat.and_distrib_right, hmask, Nat.or_zero]
  rw [hrun, hcb mh ar]
  refine ⟨?_, ?_, ?_⟩
  · intro hny
    refine ⟨mh, (if L ≠ mh.g.mainthread then "attempt to yield across a C-call boundary"
      else "attempt to yield from outside a coroutine"), ?_, ?_, n1⟩
    · rw [lua_yieldk_error_eq E K mh L nresults ctx k (by rw [hy]; exact hny),
        luaG_runerror_bind, luaG_runerror_bind]
    · by_cases hL : L ≠ mh.g.mainthread
      · exact Or.inl (if_pos hL)
      · exact Or.inr (if_neg hL)
  · intro hyes hL
    rw [lua_yieldk_interpreted E K mh L nresults ctx k (by rw [hy]; exact hyes)
      (by rw [hlua]; exact hL)]
    simp only [Outcome.bind]
    refine ⟨_, rfl, ?_, ?_⟩
    · rw [(hpost _).1]
      simp [lua_State.setci]
    · rw [(hpost _).2]
      simp [lua_State.setci, c1]
  · intro hyes hC
    obtain ⟨my, y1, y2, -⟩ := yield_native_spec E K mh L nresults ctx k
      (by rw [hy]; exact hyes) (by rw [hlua]; exact hC)
    exact ⟨my, by rw [y1, luaD.lthrow_bind, luaD.lthrow_bind], y2⟩

/-- Witness for C18: a line hook that tries to yield on a yieldable coroutine
running an interpreted frame: `luaD::hook` returns normally and the thread is
marked as suspended. -/
theorem yield_inside_hook_witness :
    ∃ m1, luaD.hook envHookYield stdConf machineHook 1 2 5 0 0 = .ret () m1 ∧
      (m1.th 1).status = LUA_YIELD ∧ ((m1.th 1).cis 1).nyield = 0 := by
  have hyd : ∀ s s1 : lua_State, s1.nCcalls = s.nCcalls →
      envHookYield.yieldable s1 = envHookYield.yieldable s := by
    intro s s1 h
    simp [envHookYield, env0, h]
  exact (yield_inside_hook envHookYield stdConf machineHook 1 2 5 0 0 0
    (hookEntry stdConf machineHook 1 0 0) 0 0 none hyd (by decide) (by decide) rfl (by decide)
    rfl (fun _ _ => rfl)).2.1 (by decide) (by decide)

/-- Counterexample to C18 as stated: on a yieldable coroutine running an
interpreted frame, a line hook whose callback calls `lua_yieldk(L, 0, 0, NULL)`:
the call of `luaD::hook` returns normally, no error is raised, and the thread
is left with status `LUA_YIELD`. -/
theorem yield_inside_hook_counterexample :
    (luaD.hook envHookYield stdConf machineHook 1 2 5 0 0).value? = some () ∧
    (((luaD.hook envHookYield stdConf machineHook 1 2 5 0 0).machineD machine0).th 1).status
      = LUA_YIELD ∧
    (luaD.hook envHookYield stdConf machineHook 1 2 5 0 0).isThrown = false := by
  refine ⟨?_, ?_, ?_⟩ <;> decide!

/-! ## Relocation of the stack (C21) -/

/-- C21: relocation round trip.  For every thread state `s` and every new base
address `p`: after `relstack`, the replacement of the stack base by `p` and
`correctstack`, `L->top`, the to-be-closed marker, the level of every open
upvalue, and the `top` and `func` of every frame of the chain (the frames from
the base frame up to the current one) are at the same offset from the stack
base as before; the slots and the current frame are untouched; and
`restorestack(L, savestack(L, q)) = q` for every stack pointer `q`.  This is
what `luaD::reallocstack` does: when the allocator returns the block `p`, it
returns 1 with the base at `p`, all those offsets kept, and every slot below
the old size (with its extra slots) holding the value it held before. -/
theorem relocation_round_trip (K : LuaConf) (s : lua_State) (p : Int) :
    (correctstack K { relstack s with stack := p }).top - p = s.top - s.stack ∧
    (correctstack K { relstack s with stack := p }).tbclist - p = s.tbclist - s.stack ∧
    (correctstack K { relstack s with stack := p }).openupval.map (fun u => u - p)
      = s.openupval.map (fun u => u - s.stack) ∧
    (∀ i, i ≤ s.ci →
      ((correctstack K { relstack s with stack := p }).cis i).top - p
        = (s.cis i).top - s.stack ∧
      ((correctstack K { relstack s with stack := p }).cis i).func - p
        = (s.cis i).func - s.stack) ∧
    (correctstack K { relstack s with stack := p }).slots = s.slots ∧
    (correctstack K { relstack s with stack := p }).ci = s.ci ∧
    (∀ q, luaD.restorestack s (luaD.savestack s q) = q) ∧
    (∀ (E : LuaEnv) (m : Machine) (L : Nat) (newsize r : Int),
      E.realloc (luaD.reallocstackEntry m L) L (m.th L).stack
          ((m.th L).stacksize + K.EXTRA_STACK) (newsize + K.EXTRA_STACK) = some p →
      ∃ m', luaD.reallocstack E K m L newsize r = .ret 1 m' ∧
        (m'.th L).stack = p ∧
        (m'.th L).top - p = (m.th L).top - (m.th L).stack ∧
        (m'.th L).tbclist - p = (m.th L).tbclist - (m.th L).stack ∧
        (m'.th L).openupval.map (fun u => u - p)
          = (m.th L).openupval.map (fun u => u - (m.th L).stack) ∧
        (∀ i, i ≤ (m.th L).ci →
          ((m'.th L).cis i).top - p = ((m.th L).cis i).top - (m.th L).stack ∧
          ((m'.th L).cis i).func - p = ((m.th L).cis i).func - (m.th L).stack) ∧
        (∀ i : Int, i < (m.th L).stacksize + K.EXTRA_STACK →
          (m'.th L).slots i = (m.th L).slots i)) := by
  have hmap : ∀ (l : List Int) (a b : Int),
      (List.map (fun u => u - b) (List.map (fun n => b + n) (List.map (fun pt => pt - a) l)))
        = List.map (fun u => u - a) l := by
    intro l a b
    rw [List.map_map, List.map_map]
    apply List.map_congr_left
    intro x _
    simp
  have hfr : ∀ i, i ≤ s.ci →
      ((correctstack K { relstack s with stack := p }).cis i).top - p
        = (s.cis i).top - s.stack ∧
      ((correctstack K { relstack s with stack := p }).cis i).func - p
        = (s.cis i).func - s.stack := by
    intro i hi
    simp [correctstack, relstack, luaD.savestack, luaD.restorestack, hi]
  refine ⟨?_, ?_, ?_, hfr, ?_, ?_, ?_, ?_⟩
  · simp [correctstack, relstack, luaD.savestack, luaD.restorestack]
  · simp [correctstack, relstack, luaD.savestack, luaD.restorestack]
  · simp only [correctstack, relstack]
    exact hmap s.openupval s.stack p
  · rfl
  · rfl
  · intro q
    simp [luaD.savestack, luaD.restorestack]
  · intro E m L newsize r h
    have hs : ((luaD.reallocstackEntry m L).th L).stack = (m.th L).stack := by
      simp [luaD.reallocstackEntry, Machine.th, Machine.setTh, relstack]
    unfold luaD.reallocstack
    simp only [hs, h]
    refine ⟨_, rfl, ?_, ?_, ?_, ?_, ?_, ?_⟩
    · simp [luaD.reallocstackEntry, Machine.th, Machine.setTh, relstack, correctstack]
    · simp [luaD.reallocstackEntry, Machine.th, Machine.setTh, relstack, correctstack,
        luaD.savestack, luaD.restorestack]
    · simp [luaD.reallocstackEntry, Machine.th, Machine.setTh, relstack, correctstack,
        luaD.savestack, luaD.restorestack]
    · simp only [luaD.reallocstackEntry, Machine.th, Machine.setTh, relstack, correctstack,
        Function.update_same]
      exact hmap (m.threads L).openupval (m.threads L).stack p
    · intro i hi
      simp only [Machine.th] at hi
      simp [luaD.reallocstackEntry, Machine.th, Machine.setTh, relstack, correctstack,
        luaD.savestack, luaD.restorestack, hi]
    · intro i hi
      simp only [luaD.reallocstackEntry, Machine.th, Machine.setTh, relstack, correctstack,
        luaD.savestack, luaD.restorestack, lua_State.stacksize, Function.update_same] at hi ⊢
      have : ¬ ((m.threads L).stack_last - (m.threads L).stack + K.EXTRA_STACK ≤ i ∧
          i < newsize + K.EXTRA_STACK) := by
        intro h
        omega
      simp [this]

/-- Witness for C21: the thread `threadCall` (base at 1000, current frame at
depth 1 with function slot 1001 and frame top 1025, `top` at 1005) relocated to
the base 5000: `top` is at 5005 and the frame has its function slot at 5001 and
its top at 5025. -/
theorem relocation_round_trip_witness :
    (correctstack stdConf { relstack threadCall with stack := 5000 }).top = 5005 ∧
    ((correctstack stdConf { relstack threadCall with stack := 5000 }).cis 1).func = 5001 ∧
    ((correctstack stdConf { relstack threadCall with stack := 5000 }).cis 1).top = 5025 ∧
    ((correctstack stdConf { relstack threadCall with stack := 5000 }).cis 0).func = 5000 := by
  obtain ⟨h1, -, -, h4, -⟩ := relocation_round_trip stdConf threadCall 5000
  have a1 := (h4 1 (by decide)).1
  have a2 := (h4 1 (by decide)).2
  have a0 := (h4 0 (by decide)).2
  have t1 : threadCall.top - threadCall.stack = 5 := by decide
  have t2 : (threadCall.cis 1).top - threadCall.stack = 25 := by decide
  have t3 : (threadCall.cis 1).func - threadCall.stack = 1 := by decide
  have t4 : (threadCall.cis 0).func - threadCall.stack = 0 := by decide
  rw [t1] at h1
  rw [t2] at a1
  rw [t3] at a2
  rw [t4] at a0
  refine ⟨by omega, by omega, by omega, by omega⟩

/-! ## Shrinking never raises (C24) -/

/-- When the allocator refuses, a reallocation that does not raise returns 0
and leaves the stack and every frame as they were. -/
theorem luaD.reallocstack_fail_same (E : LuaEnv) (K : LuaConf) (m : Machine) (L : Nat)
    (newsize : Int)
    (h : E.realloc (luaD.reallocstackEntry m L) L (m.th L).stack
          ((m.th L).stacksize + K.EXTRA_STACK) (newsize + K.EXTRA_STACK) = none) :
    ∃ m', luaD.reallocstack E K m L newsize 0 = .ret 0 m' ∧
      (m'.th L).stack = (m.th L).stack ∧
      (m'.th L).stacksize = (m.th L).stacksize ∧
      (m'.th L).stack_last = (m.th L).stack_last ∧
      (m'.th L).top = (m.th L).top ∧
      (m'.th L).tbclist = (m.th L).tbclist ∧
      (m'.th L).slots = (m.th L).slots ∧
      (m'.th L).ci = (m.th L).ci ∧
      (∀ i, ((m'.th L).cis i).top = ((m.th L).cis i).top ∧
        ((m'.th L).cis i).func = ((m.th L).cis i).func) := by
  have hs : ((luaD.reallocstackEntry m L).th L).stack = (m.th L).stack := by
    simp [luaD.reallocstackEntry, Machine.th, Machine.setTh, relstack]
  unfold luaD.reallocstack
  simp only [hs, h]
  refine ⟨_, rfl, ?_, ?_, ?_, ?_, ?_, ?_, ?_, ?_⟩
  · simp [luaD.reallocstackEntry, Machine.th, Machine.setTh, relstack, correctstack]
  · simp [luaD.reallocstackEntry, Machine.th, Machine.setTh, relstack, correctstack,
      lua_State.stacksize]
  · simp [luaD.reallocstackEntry, Machine.th, Machine.setTh, relstack, correctstack]
  · simp [luaD.reallocstackEntry, Machine.th, Machine.setTh, relstack, correctstack,
      luaD.savestack, luaD.restorestack]
  · simp [luaD.reallocstackEntry, Machine.th, Machine.setTh, relstack, correctstack,
      luaD.savestack, luaD.restorestack]
  · simp [luaD.reallocstackEntry, Machine.th, Machine.setTh, relstack, correctstack]
  · simp [luaD.reallocstackEntry, Machine.th, Machine.setTh, relstack, correctstack]
  · intro i
    simp only [luaD.reallocstackEntry, Machine.th, Machine.setTh, relstack, correctstack,
      luaD.savestack, luaD.restorestack, Function.update_same]
    split_ifs <;> simp

/-- C24: for every thread state and every allocator outcome, `luaD::shrinkstack`
raises no error: it returns.  Its only call of `luaD::reallocstack` is made with
`raiseerror = 0`, and such a call always returns; when the allocator refuses,
`reallocstack` returns 0 and the stack base, size, `stack_last`, `L->top`, the
slots and the `top` and `func` of every frame are exactly as before the call,
and so they are after `shrinkstack`. -/
theorem shrinkstack_raises_no_error (E : LuaEnv) (K : LuaConf) (m : Machine) (L : Nat) :
    (∃ m', luaD.shrinkstack E K m L = .ret () m') ∧
    (luaD.shrinkstack E K m L
      = (if stackinuse (m.th L) ≤ K.LUAI_MAXSTACK ∧ (m.th L).stacksize >
            (if stackinuse (m.th L) > Int.tdiv K.LUAI_MAXSTACK 3 then K.LUAI_MAXSTACK
             else stackinuse (m.th L) * 3)
         then (luaD.reallocstack E K m L
                (if stackinuse (m.th L) > Int.tdiv K.LUAI_MAXSTACK 2 then K.LUAI_MAXSTACK
                 else stackinuse (m.th L) * 2) 0).bind fun _ m1 => .ret () m1
         else .ret () m).bind fun _ m1 => .ret () (luaE_shrinkCI m1 L)) ∧
    (∀ newsize, ∃ v m', luaD.reallocstack E K m L newsize 0 = .ret v m') ∧
    (∀ newsize,
      E.realloc (luaD.reallocstackEntry m L) L (m.th L).stack
          ((m.th L).stacksize + K.EXTRA_STACK) (newsize + K.EXTRA_STACK) = none →
      ∃ m', luaD.reallocstack E K m L newsize 0 = .ret 0 m' ∧
        (m'.th L).stack = (m.th L).stack ∧
        (m'.th L).stacksize = (m.th L).stacksize ∧
        (m'.th L).stack_last = (m.th L).stack_last ∧
        (m'.th L).top = (m.th L).top ∧
        (∀ i, ((m'.th L).cis i).top = ((m.th L).cis i).top ∧
          ((m'.th L).cis i).func = ((m.th L).cis i).func)) ∧
    ((∀ newsize,
      E.realloc (luaD.reallocstackEntry m L) L (m.th L).stack
          ((m.th L).stacksize + K.EXTRA_STACK) (newsize + K.EXTRA_STACK) = none) →
      ∃ m', luaD.shrinkstack E K m L = .ret () m' ∧
        (m'.th L).stack = (m.th L).stack ∧
        (m'.th L).stacksize = (m.th L).stacksize ∧
        (m'.th L).stack_last = (m.th L).stack_last ∧
        (m'.th L).top = (m.th L).top ∧
        (∀ i, ((m'.th L).cis i).top = ((m.th L).cis i).top ∧
          ((m'.th L).cis i).func = ((m.th L).cis i).func)) := by
  refine ⟨?_, rfl, ?_, ?_, ?_⟩
  · obtain ⟨m', h, -⟩ := luaD.shrinkstack_ret E K m L
    exact ⟨m', h⟩
  · intro newsize
    obtain ⟨v, m', h, -⟩ := luaD.reallocstack_noraise E K m L newsize
    exact ⟨v, m', h⟩
  · intro newsize h
    obtain ⟨m', h1, h2, h3, h4, h5, -, -, -, h9⟩ :=
      luaD.reallocstack_fail_same E K m L newsize h
    exact ⟨m', h1, h2, h3, h4, h5, h9⟩
  · intro hfail
    unfold luaD.shrinkstack
    simp only
    by_cases h : stackinuse (m.th L) ≤ K.LUAI_MAXSTACK ∧ (m.th L).stacksize >
        (if stackinuse (m.th L) > Int.tdiv K.LUAI_MAXSTACK 3 then K.LUAI_MAXSTACK
          else stackinuse (m.th L) * 3)
    · rw [if_pos h]
      obtain ⟨m', h1, h2, h3, h4, h5, -, -, -, h9⟩ :=
        luaD.reallocstack_fail_same E K m L _ (hfail
          (if stackinuse (m.th L) > Int.tdiv K.LUAI_MAXSTACK 2 then K.LUAI_MAXSTACK
            else stackinuse (m.th L) * 2))
      rw [h1]
      exact ⟨_, rfl, h2, h3, h4, h5, h9⟩
    · rw [if_neg h]
      exact ⟨_, rfl, rfl, rfl, rfl, rfl, fun _ => ⟨rfl, rfl⟩⟩

/-- Witness for C24: a stack of 400 slots of which 22 are in use, with an
allocator that always refuses: `shrinkstack` returns and the stack keeps its
400 slots and its `top`. -/
theorem shrinkstack_raises_no_error_witness :
    ∃ m', luaD.shrinkstack envNoMem stdConf machineBig 0 = .ret () m' ∧
      (m'.th 0).stacksize = 400 ∧ (m'.th 0).top = 1001 := by
  obtain ⟨m', h1, -, h3, -, h5, -⟩ :=
    (shrinkstack_raises_no_error envNoMem stdConf machineBig 0).2.2.2.2 (fun _ => rfl)
  exact ⟨m', h1, h3, h5⟩

/-! ## The shrink policy (C22, C23) -/

/-- The loop of `stackinuse` computes the maximum of `lim` and the tops of the
frames of depth below `n`. -/
theorem stackinuseLim_spec (s : lua_State) (n : Nat) :
    ∀ lim : Int,
      lim ≤ stackinuseLim s n lim ∧
      (∀ i, i < n → (s.cis i).top ≤ stackinuseLim s n lim) ∧
      (stackinuseLim s n lim = lim ∨ ∃ i, i < n ∧ stackinuseLim s n lim = (s.cis i).top) := by
  induction n with
  | zero =>
    intro lim
    exact ⟨le_refl _, fun i hi => absurd hi (by omega), Or.inl rfl⟩
  | succ n ih =>
    intro lim
    simp only [stackinuseLim]
    obtain ⟨h1, h2, h3⟩ := ih (if lim < (s.cis n).top then (s.cis n).top else lim)
    refine ⟨?_, ?_, ?_⟩
    · split_ifs at h1 ⊢ with h <;> omega
    · intro i hi
      by_cases hin : i = n
      · subst hin
        split_ifs at h1 ⊢ with h <;> omega
      · exact h2 i (by omega)
    · rcases h3 with h3 | ⟨i, hi, h3⟩
      · by_cases h : lim < (s.cis n).top
        · rw [if_pos h] at h3 ⊢
          exact Or.inr ⟨n, by omega, h3⟩
        · rw [if_neg h] at h3 ⊢
          exact Or.inl h3
      · exact Or.inr ⟨i, by omega, h3⟩

/-- The thresholds of `shrinkstack`, written with integer division in the
code, are the minima of the products and the limit. -/
theorem shrink_thresholds (inuse MAX : Int) (hM : 0 ≤ MAX) :
    (if inuse > Int.tdiv MAX 3 then MAX else inuse * 3) = min (3 * inuse) MAX ∧
    (if inuse > Int.tdiv MAX 2 then MAX else inuse * 2) = min (2 * inuse) MAX := by
  rw [Int.tdiv_eq_ediv hM (by decide), Int.tdiv_eq_ediv hM (by decide)]
  constructor <;> split_ifs <;> omega

/-- C22 (amended): the shrink policy, with `inUse = stackinuse(L)`, that is, one
more than the offset from the stack base of the maximum `lim` of `L->top` and
the tops of the frames of the chain, floored at `LUA_MINSTACK` (and
`LUAI_MAXSTACK >= 0`).

* When `inUse <= LUAI_MAXSTACK` and the current size is greater than
  `min(3*inUse, LUAI_MAXSTACK)`, `luaD::shrinkstack` calls
  `luaD::reallocstack(L, min(2*inUse, LUAI_MAXSTACK), 0)`, and when the allocator
  gives a block the stack has that size afterwards.
* Otherwise `shrinkstack` leaves the thread as it is.
* For a stack of regular size (at most `LUAI_MAXSTACK`) the condition is
  exactly `size > 3*inUse`; a stack larger than `LUAI_MAXSTACK` (left by a stack
  overflow) is shrunk whenever `inUse <= LUAI_MAXSTACK`. -/
theorem shrinkstack_policy (E : LuaEnv) (K : LuaConf) (m : Machine) (L : Nat)
    (hM : 0 ≤ K.LUAI_MAXSTACK) :
    (∃ lim, stackinuse (m.th L) = max LUA_MINSTACK (lim - (m.th L).stack + 1) ∧
      (m.th L).top ≤ lim ∧
      (∀ i, i ≤ (m.th L).ci → ((m.th L).cis i).top ≤ lim) ∧
      (lim = (m.th L).top ∨ ∃ i, i ≤ (m.th L).ci ∧ lim = ((m.th L).cis i).top)) ∧
    (stackinuse (m.th L) ≤ K.LUAI_MAXSTACK →
      (m.th L).stacksize > min (3 * stackinuse (m.th L)) K.LUAI_MAXSTACK →
      luaD.shrinkstack E K m L
        = (luaD.reallocstack E K m L (min (2 * stackinuse (m.th L)) K.LUAI_MAXSTACK) 0).bind
            (fun _ m1 => .ret () m1) ∧
      ∀ p, E.realloc (luaD.reallocstackEntry m L) L (m.th L).stack
          ((m.th L).stacksize + K.EXTRA_STACK)
          (min (2 * stackinuse (m.th L)) K.LUAI_MAXSTACK + K.EXTRA_STACK) = some p →
        ∃ m', luaD.shrinkstack E K m L = .ret () m' ∧
          (m'.th L).stacksize = min (2 * stackinuse (m.th L)) K.LUAI_MAXSTACK) ∧
    (¬ (stackinuse (m.th L) ≤ K.LUAI_MAXSTACK ∧
        (m.th L).stacksize > min (3 * stackinuse (m.th L)) K.LUAI_MAXSTACK) →
      luaD.shrinkstack E K m L = .ret () m) ∧
    ((m.th L).stacksize ≤ K.LUAI_MAXSTACK →
      ((stackinuse (m.th L) ≤ K.LUAI_MAXSTACK ∧
        (m.th L).stacksize > min (3 * stackinuse (m.th L)) K.LUAI_MAXSTACK)
        ↔ (m.th L).stacksize > 3 * stackinuse (m.th L))) ∧
    ((m.th L).stacksize > K.LUAI_MAXSTACK →
      ((stackinuse (m.th L) ≤ K.LUAI_MAXSTACK ∧
        (m.th L).stacksize > min (3 * stackinuse (m.th L)) K.LUAI_MAXSTACK)
        ↔ stackinuse (m.th L) ≤ K.LUAI_MAXSTACK)) := by
  obtain ⟨t3, t2⟩ := shrink_thresholds (stackinuse (m.th L)) K.LUAI_MAXSTACK hM
  have h20 := stackinuse_ge (m.th L)
  simp only [LUA_MINSTACK] at h20
  refine ⟨?_, ?_, ?_, ?_, ?_⟩
  · obtain ⟨h1, h2, h3⟩ := stackinuseLim_spec (m.th L) ((m.th L).ci + 1) (m.th L).top
    refine ⟨stackinuseLim (m.th L) ((m.th L).ci + 1) (m.th L).top, ?_, h1, ?_, ?_⟩
    · unfold stackinuse
      simp only
      split_ifs with h
      · rw [max_eq_left (le_of_lt h)]
      · rw [max_eq_right (by omega)]
    · intro i hi
      exact h2 i (by omega)
    · rcases h3 with h3 | ⟨i, hi, h3⟩
      · exact Or.inl h3
      · exact Or.inr ⟨i, by omega, h3⟩
  · intro hle hsz
    have hc : stackinuse (m.th L) ≤ K.LUAI_MAXSTACK ∧ (m.th L).stacksize >
        (if stackinuse (m.th L) > Int.tdiv K.LUAI_MAXSTACK 3 then K.LUAI_MAXSTACK
          else stackinuse (m.th L) * 3) := by
      rw [t3]
      exact ⟨hle, hsz⟩
    have heq : luaD.shrinkstack E K m L
        = (luaD.reallocstack E K m L (min (2 * stackinuse (m.th L)) K.LUAI_MAXSTACK) 0).bind
            (fun _ m1 => .ret () m1) := by
      unfold luaD.shrinkstack
      simp only [if_pos hc, t2, luaE_shrinkCI]
      cases luaD.reallocstack E K m L (min (2 * stackinuse (m.th L)) K.LUAI_MAXSTACK) 0 <;> rfl
    refine ⟨heq, ?_⟩
    intro p hp
    obtain ⟨m', h1, -, -, -, h5, -⟩ := luaD.reallocstack_some E K m L _ 0 p hp
    exact ⟨m', by rw [heq, h1]; rfl, h5⟩
  · intro hn
    have hc : ¬ (stackinuse (m.th L) ≤ K.LUAI_MAXSTACK ∧ (m.th L).stacksize >
        (if stackinuse (m.th L) > Int.tdiv K.LUAI_MAXSTACK 3 then K.LUAI_MAXSTACK
          else stackinuse (m.th L) * 3)) := by
      rw [t3]
      exact hn
    unfold luaD.shrinkstack
    simp only [if_neg hc, luaE_shrinkCI]
    rfl
  · intro hsz
    constructor
    · intro h
      have := h.2
      omega
    · intro h
      constructor <;> omega
  · intro hsz
    constructor
    · intro h
      exact h.1
    · intro h
      exact ⟨h, by omega⟩

/-- Witness for C22: a stack of 400 slots of which 22 are in use is
reallocated to 44 slots. -/
theorem shrinkstack_policy_witness :
    stackinuse (machineBig.th 0) = 22 ∧
    ∃ m', luaD.shrinkstack env0 stdConf machineBig 0 = .ret () m' ∧
      (m'.th 0).stacksize = 44 := by
  have hu : stackinuse (machineBig.th 0) = 22 := by decide
  obtain ⟨-, h⟩ := (shrinkstack_policy env0 stdConf machineBig 0 (by decide)).2.1
    (by rw [hu]; decide) (by rw [hu]; decide)
  obtain ⟨m', h1, h2⟩ := h 5000 rfl
  rw [hu] at h2
  exact ⟨hu, m', h1, by rw [h2]; decide⟩

/-- Counterexample to C22 as stated: a stack of 1000200 slots (left by a stack
overflow) of which 400000 are in use.  The size is not greater than `3*inUse`
(1200000), yet `shrinkstack` does not leave it unchanged: it reallocates the
stack to 800000 slots. -/
theorem shrinkstack_policy_counterexample :
    (machineUnwound.th 0).stacksize = 1000200 ∧
    stackinuse (machineUnwound.th 0) = 400000 ∧
    ¬ ((machineUnwound.th 0).stacksize > 3 * stackinuse (machineUnwound.th 0)) ∧
    (((luaD.shrinkstack env0 stdConf machineUnwound 0).machineD machine0).th 0).stacksize
      = 800000 := by
  refine ⟨by decide, by decide, by decide, by decide!⟩

/-- The loop of `stackinuse` depends only on offsets from the stack base. -/
theorem stackinuseLim_reloc (s s1 : lua_State) (n : Nat)
    (h : ∀ i, i < n → (s1.cis i).top - s1.stack = (s.cis i).top - s.stack) :
    ∀ lim lim1 : Int, lim1 - s1.stack = lim - s.stack →
      stackinuseLim s1 n lim1 - s1.stack = stackinuseLim s n lim - s.stack := by
  induction n with
  | zero =>
    intro lim lim1 hl
    simpa [stackinuseLim] using hl
  | succ n ih =>
    intro lim lim1 hl
    simp only [stackinuseLim]
    apply ih (fun i hi => h i (by omega))
    have hn := h n (by omega)
    split_ifs <;> omega

/-- `stackinuse` depends only on offsets from the stack base. -/
theorem stackinuse_reloc (s s1 : lua_State) (hci : s1.ci = s.ci)
    (htop : s1.top - s1.stack = s.top - s.stack)
    (h : ∀ i, i ≤ s.ci → (s1.cis i).top - s1.stack = (s.cis i).top - s.stack) :
    stackinuse s1 = stackinuse s := by
  have := stackinuseLim_reloc s s1 (s.ci + 1) (fun i hi => h i (by omega)) s.top s1.top htop
  unfold stackinuse
  simp only [hci]
  rw [this]

/-- A successful reallocation keeps the current frame and the offsets of `top`
and of the tops of the frames of the chain. -/
theorem luaD.reallocstack_some_offsets (E : LuaEnv) (K : LuaConf) (m : Machine) (L : Nat)
    (newsize r p : Int)
    (h : E.realloc (luaD.reallocstackEntry m L) L (m.th L).stack
          ((m.th L).stacksize + K.EXTRA_STACK) (newsize + K.EXTRA_STACK) = some p) :
    ∃ m', luaD.reallocstack E K m L newsize r = .ret 1 m' ∧
      (m'.th L).stacksize = newsize ∧
      (m'.th L).ci = (m.th L).ci ∧
      (m'.th L).top - (m'.th L).stack = (m.th L).top - (m.th L).stack ∧
      (∀ i, i ≤ (m.th L).ci →
        ((m'.th L).cis i).top - (m'.th L).stack = ((m.th L).cis i).top - (m.th L).stack) := by
  have hs : ((luaD.reallocstackEntry m L).th L).stack = (m.th L).stack := by
    simp [luaD.reallocstackEntry, Machine.th, Machine.setTh, relstack]
  unfold luaD.reallocstack
  simp only [hs, h]
  refine ⟨_, rfl, ?_, ?_, ?_, ?_⟩
  · simp [luaD.reallocstackEntry, Machine.th, Machine.setTh, relstack, correctstack,
      lua_State.stacksize]
  · simp [luaD.reallocstackEntry, Machine.th, Machine.setTh, relstack, correctstack]
  · simp [luaD.reallocstackEntry, Machine.th, Machine.setTh, relstack, correctstack,
      luaD.savestack, luaD.restorestack]
  · intro i hi
    simp only [Machine.th] at hi
    simp [luaD.reallocstackEntry, Machine.th, Machine.setTh, relstack, correctstack,
      luaD.savestack, luaD.restorestack, hi]

/-- C23: shrink is idempotent.  For every thread state, when the allocator
gives a block to the first call: `luaD::shrinkstack` returns, and a second
`shrinkstack` right after it (frames and `top` unchanged in between) returns
the very same machine: a stack that has just been shrunk, or that needed no
shrinking, is not changed by shrinking again, so the size after two calls is
the size after one. -/
theorem shrinkstack_idempotent (E : LuaEnv) (K : LuaConf) (m : Machine) (L : Nat)
    (halloc : ∀ newsize,
      E.realloc (luaD.reallocstackEntry m L) L (m.th L).stack
          ((m.th L).stacksize + K.EXTRA_STACK) (newsize + K.EXTRA_STACK) ≠ none) :
    ∃ m1, luaD.shrinkstack E K m L = .ret () m1 ∧
      luaD.shrinkstack E K m1 L = .ret () m1 ∧
      ∀ m2, luaD.shrinkstack E K m1 L = .ret () m2 →
        (m2.th L).stacksize = (m1.th L).stacksize := by
  have hnos : ∀ m0 : Machine,
      ¬ (stackinuse (m0.th L) ≤ K.LUAI_MAXSTACK ∧ (m0.th L).stacksize >
        (if stackinuse (m0.th L) > Int.tdiv K.LUAI_MAXSTACK 3 then K.LUAI_MAXSTACK
          else stackinuse (m0.th L) * 3)) →
      luaD.shrinkstack E K m0 L = .ret () m0 := by
    intro m0 hc
    unfold luaD.shrinkstack
    simp only [if_neg hc, luaE_shrinkCI]
    rfl
  have hfin : ∀ m1 : Machine, luaD.shrinkstack E K m L = .ret () m1 →
      luaD.shrinkstack E K m1 L = .ret () m1 →
      ∃ m1, luaD.shrinkstack E K m L = .ret () m1 ∧
        luaD.shrinkstack E K m1 L = .ret () m1 ∧
        ∀ m2, luaD.shrinkstack E K m1 L = .ret () m2 →
          (m2.th L).stacksize = (m1.th L).stacksize := by
    intro m1 h1 h2
    refine ⟨m1, h1, h2, ?_⟩
    intro m2 h3
    rw [h2] at h3
    injection h3 with _ h4
    rw [← h4]
  by_cases hc : stackinuse (m.th L) ≤ K.LUAI_MAXSTACK ∧ (m.th L).stacksize >
      (if stackinuse (m.th L) > Int.tdiv K.LUAI_MAXSTACK 3 then K.LUAI_MAXSTACK
        else stackinuse (m.th L) * 3)
  · cases hp : E.realloc (luaD.reallocstackEntry m L) L (m.th L).stack
        ((m.th L).stacksize + K.EXTRA_STACK)
        ((if stackinuse (m.th L) > Int.tdiv K.LUAI_MAXSTACK 2 then K.LUAI_MAXSTACK
          else stackinuse (m.th L) * 2) + K.EXTRA_STACK) with
    | none => exact absurd hp (halloc _)
    | some p =>
      obtain ⟨m1, r1, r2, r3, r4, r5⟩ := luaD.reallocstack_some_offsets E K m L _ 0 p hp
      have hu : stackinuse (m1.th L) = stackinuse (m.th L) :=
        stackinuse_reloc (m.th L) (m1.th L) r3 r4 r5
      have h1 : luaD.shrinkstack E K m L = .ret () m1 := by
        unfold luaD.shrinkstack
        simp only [if_pos hc, r1, Outcome.bind, luaE_shrinkCI]
      apply hfin m1 h1
      apply hnos
      rw [hu, r2]
      have h20 := stackinuse_ge (m.th L)
      simp only [LUA_MINSTACK] at h20
      have hM : (0 : Int) ≤ K.LUAI_MAXSTACK := by
        have := hc.1
        omega
      obtain ⟨t3, t2⟩ := shrink_thresholds (stackinuse (m.th L)) K.LUAI_MAXSTACK hM
      rw [t3, t2]
      intro h
      have := h.2
      omega
  · exact hfin m (hnos m hc) (hnos m hc)

/-- Witness for C23: the stack of 400 slots of which 22 are in use: the first
`shrinkstack` leaves 44 slots, and a second one returns the same machine. -/
theorem shrinkstack_idempotent_witness :
    ∃ m1, luaD.shrinkstack env0 stdConf machineBig 0 = .ret () m1 ∧
      luaD.shrinkstack env0 stdConf m1 0 = .ret () m1 := by
  obtain ⟨m1, h1, h2, -⟩ := shrinkstack_idempotent env0 stdConf machineBig 0
    (fun _ => by simp [env0])
  exact ⟨m1, h1, h2⟩

/-! ## The recovery chain (C25) -/

/-- C25: the recovery chain of `luaD::rawrunprotected` is LIFO.  For every
protected function `f`:

* `f` runs in a machine in which the thread's current recovery point is a new
  record (every older record is untouched) whose `previous` is the recovery
  point that was current at entry and whose status is `LUA_OK`;
* whenever `f` completes or raises, `rawrunprotected` returns, with `L->nCcalls`
  at the value it had at entry and `L->errorJmp` the `previous` of that record;
* so, `f` leaving the `previous` field of the record as it found it (no code
  writes it but `rawrunprotected` itself), `L->errorJmp` is again the recovery
  point that was current at entry, and the record is dropped. -/
theorem rawrunprotected_recovery_chain (m : Machine) (L : Nat)
    (f : Machine → Nat → Outcome Unit) :
    ((luaD.rawrunprotectedEntry m L).th L).errorJmp = some m.njmp ∧
    ((luaD.rawrunprotectedEntry m L).ljs m.njmp).previous = (m.th L).errorJmp ∧
    ((luaD.rawrunprotectedEntry m L).ljs m.njmp).status = LUA_OK ∧
    (∀ j, j ≠ m.njmp → (luaD.rawrunprotectedEntry m L).ljs j = m.ljs j) ∧
    (luaD.rawrunprotectedEntry m L).njmp = m.njmp + 1 ∧
    (∀ m2, (f (luaD.rawrunprotectedEntry m L) L = .ret () m2 ∨
            f (luaD.rawrunprotectedEntry m L) L = .thrown m2) →
      ∃ v m', luaD.rawrunprotected m L f = .ret v m' ∧
        (m'.th L).nCcalls = (m.th L).nCcalls ∧
        (m'.th L).errorJmp = (m2.ljs m.njmp).previous ∧
        m'.njmp = m.njmp ∧
        ((m2.ljs m.njmp).previous = (m.th L).errorJmp →
          (m'.th L).errorJmp = (m.th L).errorJmp)) ∧
    (∀ v m', luaD.rawrunprotected m L f = .ret v m' →
      (m'.th L).nCcalls = (m.th L).nCcalls ∧ m'.njmp = m.njmp ∧
      ∃ m2, (f (luaD.rawrunprotectedEntry m L) L = .ret () m2 ∨
             f (luaD.rawrunprotectedEntry m L) L = .thrown m2) ∧
        (m'.th L).errorJmp = (m2.ljs m.njmp).previous) := by
  have hret : ∀ m2, f (luaD.rawrunprotectedEntry m L) L = .ret () m2 →
      ∃ v m', luaD.rawrunprotected m L f = .ret v m' ∧
        (m'.th L).nCcalls = (m.th L).nCcalls ∧
        (m'.th L).errorJmp = (m2.ljs m.njmp).previous ∧ m'.njmp = m.njmp := by
    intro m2 h
    refine ⟨_, _, luaD.rawrunprotected_ret m L f m2 h, ?_, ?_, ?_⟩ <;>
      simp [luaD.rawrunprotectedExit, Machine.th, Machine.setTh]
  have hthr : ∀ m2, f (luaD.rawrunprotectedEntry m L) L = .thrown m2 →
      ∃ v m', luaD.rawrunprotected m L f = .ret v m' ∧
        (m'.th L).nCcalls = (m.th L).nCcalls ∧
        (m'.th L).errorJmp = (m2.ljs m.njmp).previous ∧ m'.njmp = m.njmp := by
    intro m2 h
    obtain ⟨m', h1, h2, h3, h4, -⟩ := luaD.rawrunprotected_thrown m L f m2 h
    exact ⟨_, m', h1, h3, h4, h2⟩
  refine ⟨?_, ?_, ?_, ?_, ?_, ?_, ?_⟩
  · simp [luaD.rawrunprotectedEntry, Machine.th, Machine.setTh]
  · simp [luaD.rawrunprotectedEntry, Machine.th, Machine.setTh]
  · simp [luaD.rawrunprotectedEntry, Machine.th, Machine.setTh]
  · intro j hj
    simp [luaD.rawrunprotectedEntry, Machine.setTh, Function.update_noteq hj]
  · simp [luaD.rawrunprotectedEntry, Machine.setTh]
  · intro m2 h
    rcases h with h | h
    · obtain ⟨v, m', a1, a2, a3, a4⟩ := hret m2 h
      exact ⟨v, m', a1, a2, a3, a4, fun hp => by rw [a3, hp]⟩
    · obtain ⟨v, m', a1, a2, a3, a4⟩ := hthr m2 h
      exact ⟨v, m', a1, a2, a3, a4, fun hp => by rw [a3, hp]⟩
  · intro v m' h
    cases hf : f (luaD.rawrunprotectedEntry m L) L with
    | ret u m2 =>
      obtain ⟨v1, m1, a1, a2, a3, a4⟩ := hret m2 hf
      rw [a1] at h
      injection h with _ h2
      subst h2
      exact ⟨a2, a4, m2, Or.inl rfl, a3⟩
    | thrown m2 =>
      obtain ⟨v1, m1, a1, a2, a3, a4⟩ := hthr m2 hf
      rw [a1] at h
      injection h with _ h2
      subst h2
      exact ⟨a2, a4, m2, Or.inr rfl, a3⟩
    | aborted m2 =>
      unfold luaD.rawrunprotected at h
      simp [hf] at h
    | diverged =>
      unfold luaD.rawrunprotected at h
      simp [hf] at h

/-- Witness for C25: on a thread whose current recovery point is the record 0,
a function that raises and a function that makes a nested protected call: in
both cases `rawrunprotected` returns with the record 0 current again. -/
theorem rawrunprotected_recovery_chain_witness :
    (∃ v m', luaD.rawrunprotected machineH 0 (raiser LUA_ERRRUN) = .ret v m' ∧
      (m'.th 0).errorJmp = some 0 ∧ (m'.th 0).nCcalls = 0 ∧ m'.njmp = 1) ∧
    (∃ v m', luaD.rawrunprotected machineH 0 (nestedCall (raiser LUA_ERRMEM) pushStatus)
        = .ret v m' ∧
      (m'.th 0).errorJmp = some 0 ∧ m'.njmp = 1) := by
  obtain ⟨v, m', h1, h2, -, h4, h5⟩ :=
    (rawrunprotected_recovery_chain machineH 0 (raiser LUA_ERRRUN)).2.2.2.2.2.1
      ((raiser LUA_ERRRUN (luaD.rawrunprotectedEntry machineH 0) 0).machineD machine0)
      (Or.inr rfl)
  obtain ⟨v2, m2, g1, -, -, g4, g5⟩ :=
    (rawrunprotected_recovery_chain machineH 0
      (nestedCall (raiser LUA_ERRMEM) pushStatus)).2.2.2.2.2.1
      ((nestedCall (raiser LUA_ERRMEM) pushStatus
        (luaD.rawrunprotectedEntry machineH 0) 0).machineD machine0)
      (Or.inl rfl)
  exact ⟨⟨v, m', h1, h5 rfl, h2, h4⟩, ⟨v2, m2, g1, g5 rfl, g4⟩⟩

/-! ## What `pcall` restores (C26) -/

/-- A reallocation that returns leaves the hook flag as it was. -/
theorem luaD.reallocstack_ret_allowhook (E : LuaEnv) (K : LuaConf) (m : Machine) (L : Nat)
    (newsize r v : Int) (m' : Machine) (h : luaD.reallocstack E K m L newsize r = .ret v m') :
    (m'.th L).allowhook = (m.th L).allowhook := by
  have hs : ((luaD.reallocstackEntry m L).th L).stack = (m.th L).stack := by
    simp [luaD.reallocstackEntry, Machine.th, Machine.setTh, relstack]
  unfold luaD.reallocstack at h
  simp only [hs] at h
  cases ha : E.realloc (luaD.reallocstackEntry m L) L (m.th L).stack
          ((m.th L).stacksize + K.EXTRA_STACK) (newsize + K.EXTRA_STACK) with
  | none =>
    simp only [ha] at h
    by_cases hr : r ≠ 0
    · rw [if_pos hr] at h
      exact absurd h (luaD.lthrow_ne_ret _ _ _ _ _ _)
    · rw [if_neg hr] at h
      injection h with _ h3
      subst h3
      simp [luaD.reallocstackEntry, Machine.th, Machine.setTh, relstack, correctstack]
  | some p =>
    simp only [ha] at h
    injection h with _ h3
    subst h3
    simp [luaD.reallocstackEntry, Machine.th, Machine.setTh, relstack, correctstack]

/-- `shrinkstack` leaves the hook flag as it was. -/
theorem luaD.shrinkstack_allowhook (E : LuaEnv) (K : LuaConf) (m : Machine) (L : Nat)
    (m' : Machine) (h : luaD.shrinkstack E K m L = .ret () m') :
    (m'.th L).allowhook = (m.th L).allowhook := by
  unfold luaD.shrinkstack at h
  simp only at h
  obtain ⟨u, m1, h1, h2⟩ := Outcome.bind_eq_ret _ _ _ _ h
  simp only [luaE_shrinkCI] at h2
  injection h2 with _ h3
  subst h3
  by_cases hc : stackinuse (m.th L) ≤ K.LUAI_MAXSTACK ∧ (m.th L).stacksize >
      (if stackinuse (m.th L) > Int.tdiv K.LUAI_MAXSTACK 3 then K.LUAI_MAXSTACK
        else stackinuse (m.th L) * 3)
  · rw [if_pos hc] at h1
    obtain ⟨v, m2, h4, h5⟩ := Outcome.bind_eq_ret _ _ _ _ h1
    injection h5 with _ h6
    subst h6
    exact luaD.reallocstack_ret_allowhook E K m L _ 0 v _ h4
  · rw [if_neg hc] at h1
    injection h1 with _ h6
    subst h6
    rfl

/-- `seterrorobj` leaves the hook flag as it was. -/
theorem luaD.seterrorobj_allowhook (m : Machine) (L : Nat) (errcode oldtop : Int) :
    ((luaD.seterrorobj m L errcode oldtop).th L).allowhook = (m.th L).allowhook := by
  unfold luaD.seterrorobj
  simp only
  split_ifs <;>
    simp [luaS.newliteral, luaS.newlstr, lua_State.setval, Machine.th, Machine.setTh]

/-- When the closing primitive leaves the current frame and the hook flag as it
found them whenever it completes, the loop of `closeprotected` returns with the
frame and the flag captured before the first attempt. -/
theorem closeprotectedLoop_keeps (E : LuaEnv) (L : Nat) (old_ci : Nat) (old_allowhooks : Int)
    (level : Int)
    (hF : ∀ m0 lvl st v m1, E.luaF_close m0 L lvl st 0 = .ret v m1 →
      (m1.th L).ci = (m0.th L).ci ∧ (m1.th L).allowhook = (m0.th L).allowhook)
    (fuel : Nat) :
    ∀ (m : Machine) (status s1 : Int) (m4 : Machine),
      (m.th L).ci = old_ci → (m.th L).allowhook = old_allowhooks →
      closeprotectedLoop E old_ci old_allowhooks L level fuel m status = .ret s1 m4 →
      (m4.th L).ci = old_ci ∧ (m4.th L).allowhook = old_allowhooks := by
  induction fuel with
  | zero =>
    intro m status s1 m4 _ _ h
    simp [closeprotectedLoop] at h
  | succ fuel ih =>
    intro m status s1 m4 hci hah h
    unfold closeprotectedLoop at h
    simp only at h
    obtain ⟨st, m1, h1, h2⟩ := Outcome.bind_eq_ret _ _ _ _ h
    by_cases hst : st = LUA_OK
    · rw [if_pos hst] at h2
      injection h2 with _ h3
      subst h3
      cases hf : closepaux E (luaD.restorestack (m.th L) level) status
          (luaD.rawrunprotectedEntry m L) L with
      | ret u m2 =>
        have hr := luaD.rawrunprotected_ret m L _ m2 hf
        rw [hr] at h1
        injection h1 with _ h4
        subst h4
        unfold closepaux at hf
        obtain ⟨v, m3, h5, h6⟩ := Outcome.bind_eq_ret _ _ _ _ hf
        injection h6 with _ h7
        subst h7
        obtain ⟨k1, k2⟩ := hF _ _ _ _ _ h5
        refine ⟨?_, ?_⟩
        · have : ((luaD.rawrunprotectedExit m L m3).th L).ci = (m3.th L).ci := by
            simp [luaD.rawrunprotectedExit, Machine.th, Machine.setTh]
          rw [this, k1, ← hci]
          simp [luaD.rawrunprotectedEntry, Machine.th, Machine.setTh]
        · have : ((luaD.rawrunprotectedExit m L m3).th L).allowhook = (m3.th L).allowhook := by
            simp [luaD.rawrunprotectedExit, Machine.th, Machine.setTh]
          rw [this, k2, ← hah]
          simp [luaD.rawrunprotectedEntry, Machine.th, Machine.setTh]
      | thrown m2 =>
        obtain ⟨m', hr, -⟩ := luaD.rawrunprotected_thrown m L _ m2 hf
        rw [hr] at h1
        injection h1 with h4 _
        rw [hst] at h4
        split_ifs at h4 with h0
        · exact absurd h4 (by decide)
        · exact absurd h4 h0
      | aborted m2 =>
        unfold luaD.rawrunprotected at h1
        simp [hf] at h1
      | diverged =>
        unfold luaD.rawrunprotected at h1
        simp [hf] at h1
    · rw [if_neg hst] at h2
      exact ih _ _ _ _ (by simp) (by simp) h2

/-- C26: what `luaD::pcall(L, f, u, old_top, ef)` restores.

* During `f`, `L->errfunc` is `ef`.
* When `f` completes with no status recorded, `pcall` returns `LUA_OK` and
  `L->errfunc` has its value at entry.
* When `f` raises, its protected run reports a status other than `LUA_OK`.
* When the protected run of `f` reports a status `s` other than `LUA_OK` and the
  closing of the pending variables returns (the closing primitive leaving the
  current frame and the hook flag as it found them whenever it completes):
  `pcall` returns with `L->ci` the frame that was current at entry,
  `L->allowhook` at its entry value, `L->top` at the slot of offset `old_top`
  plus one, and `L->errfunc` at its entry value. -/
theorem pcall_restores_frame (E : LuaEnv) (K : LuaConf) (fuel : Nat) (m : Machine) (L : Nat)
    (f : Machine → Nat → Outcome Unit) (old_top ef : Int) :
    ((luaD.rawrunprotectedEntry (m.setTh L { m.th L with errfunc := ef }) L).th L).errfunc
      = ef ∧
    (∀ mf,
      f (luaD.rawrunprotectedEntry (m.setTh L { m.th L with errfunc := ef }) L) L
          = .ret () mf →
      (mf.ljs m.njmp).status = LUA_OK →
      ∃ m', luaD.pcall E K fuel m L f old_top ef = .ret LUA_OK m' ∧
        (m'.th L).errfunc = (m.th L).errfunc) ∧
    (∀ mf,
      f (luaD.rawrunprotectedEntry (m.setTh L { m.th L with errfunc := ef }) L) L
          = .thrown mf →
      ∃ s mr, luaD.rawrunprotected (m.setTh L { m.th L with errfunc := ef }) L f = .ret s mr ∧
        s ≠ LUA_OK) ∧
    (∀ s mr s1 m4,
      luaD.rawrunprotected (m.setTh L { m.th L with errfunc := ef }) L f = .ret s mr →
      s ≠ LUA_OK →
      (∀ m0 lvl st v m1, E.luaF_close m0 L lvl st 0 = .ret v m1 →
        (m1.th L).ci = (m0.th L).ci ∧ (m1.th L).allowhook = (m0.th L).allowhook) →
      luaD.closeprotected E fuel
          (mr.setTh L { mr.th L with ci := (m.th L).ci, allowhook := (m.th L).allowhook })
          L old_top s = .ret s1 m4 →
      ∃ m', luaD.pcall E K fuel m L f old_top ef = .ret s1 m' ∧
        (m'.th L).ci = (m.th L).ci ∧
        (m'.th L).allowhook = (m.th L).allowhook ∧
        (m'.th L).top = (m'.th L).stack + old_top + 1 ∧
        (m'.th L).errfunc = (m.th L).errfunc) := by
  refine ⟨?_, ?_, ?_, ?_⟩
  · simp [luaD.rawrunprotectedEntry, Machine.th, Machine.setTh]
  · intro mf hf hs
    have h1 := luaD.rawrunprotected_ret (m.setTh L { m.th L with errfunc := ef }) L f mf hf
    have hs' : (mf.ljs (m.setTh L { m.th L with errfunc := ef }).njmp).status = LUA_OK := hs
    rw [hs'] at h1
    have hno : ¬ (LUA_OK ≠ LUA_OK) := fun h => h rfl
    have hpc : luaD.pcall E K fuel m L f old_top ef
        = .ret LUA_OK
            ((luaD.rawrunprotectedExit (m.setTh L { m.th L with errfunc := ef }) L mf).setTh L
              { (luaD.rawrunprotectedExit (m.setTh L { m.th L with errfunc := ef }) L mf).th L
                with errfunc := (m.th L).errfunc }) := by
      unfold luaD.pcall
      simp only [h1, Outcome.bind, if_neg hno]
    exact ⟨_, hpc, by simp⟩
  · intro mf hf
    obtain ⟨m', h1, -⟩ := luaD.rawrunprotected_thrown (m.setTh L { m.th L with errfunc := ef })
      L f mf hf
    refine ⟨_, m', h1, ?_⟩
    split_ifs with h0
    · decide
    · exact h0
  · intro s mr s1 m4 hraw hs hF hclose
    have hk := closeprotectedLoop_keeps E L (m.th L).ci (m.th L).allowhook old_top hF fuel
      (mr.setTh L { mr.th L with ci := (m.th L).ci, allowhook := (m.th L).allowhook })
      s s1 m4 (by simp) (by simp)
      (by
        have := hclose
        unfold luaD.closeprotected at this
        simpa using this)
    obtain ⟨m6, h6, h6top, -, -, -, -, h6ci, -⟩ := luaD.shrinkstack_ret E K
      (luaD.seterrorobj m4 L s1 (luaD.restorestack (m4.th L) old_top)) L
    have h6ah := luaD.shrinkstack_allowhook E K _ L m6 h6
    obtain ⟨c1, c2, -⟩ :=
      luaD.seterrorobj_fields m4 L s1 (luaD.restorestack (m4.th L) old_top)
    obtain ⟨-, f2, -⟩ := luaD.seterrorobj_frames m4 L s1 (luaD.restorestack (m4.th L) old_top)
    have f4 := luaD.seterrorobj_allowhook m4 L s1 (luaD.restorestack (m4.th L) old_top)
    have hpc : luaD.pcall E K fuel m L f old_top ef
        = .ret s1 (m6.setTh L { m6.th L with errfunc := (m.th L).errfunc }) := by
      unfold luaD.pcall
      simp only [hraw, Outcome.bind, if_pos hs, hclose, h6]
    refine ⟨_, hpc, ?_, ?_, ?_, ?_⟩
    · simp only [Machine.th_setTh_same]
      rw [h6ci, f2, hk.1]
    · simp only [Machine.th_setTh_same]
      rw [h6ah, f4, hk.2]
    · simp only [Machine.th_setTh_same]
      rw [c1, c2] at h6top
      simp only [luaD.restorestack] at h6top
      omega
    · simp

/-- Witness for C26: on a fresh thread, a function that raises `LUA_ERRRUN`:
`pcall` returns `LUA_ERRRUN` with the base frame current, hooks allowed, `top`
one above the slot of offset 1, and `errfunc` as at entry. -/
theorem pcall_restores_frame_witness :
    ∃ m', luaD.pcall env0 stdConf 1 machine0 0 (raiser LUA_ERRRUN) 1 7 = .ret LUA_ERRRUN m' ∧
      (m'.th 0).ci = 0 ∧ (m'.th 0).allowhook = 1 ∧
      (m'.th 0).top = (m'.th 0).stack + 1 + 1 ∧ (m'.th 0).errfunc = 0 := by
  exact (pcall_restores_frame env0 stdConf 1 machine0 0 (raiser LUA_ERRRUN) 1 7).2.2.2
    LUA_ERRRUN _ LUA_ERRRUN _ rfl (by decide)
    (fun m0 lvl st v m1 h => by
      simp only [env0] at h
      injection h with _ h2
      subst h2
      exact ⟨rfl, rfl⟩)
    rfl

/-! ## The set of status codes (C27) -/

/-- The value returned by `rawrunprotected` is the status recorded in its
recovery point, or -1 when the function raised and that status is 0. -/
theorem luaD.rawrunprotected_value (m : Machine) (L : Nat) (f : Machine → Nat → Outcome Unit)
    (v : Int) (m' : Machine) (h : luaD.rawrunprotected m L f = .ret v m') :
    ∃ m2, (f (luaD.rawrunprotectedEntry m L) L = .ret () m2 ∧ v = (m2.ljs m.njmp).status) ∨
      (f (luaD.rawrunprotectedEntry m L) L = .thrown m2 ∧
        v = if (m2.ljs m.njmp).status = 0 then -1 else (m2.ljs m.njmp).status) := by
  cases hf : f (luaD.rawrunprotectedEntry m L) L with
  | ret u m2 =>
    rw [luaD.rawrunprotected_ret m L f m2 hf] at h
    injection h with h1 _
    exact ⟨m2, Or.inl ⟨rfl, h1.symm⟩⟩
  | thrown m2 =>
    obtain ⟨m1, h1, -⟩ := luaD.rawrunprotected_thrown m L f m2 hf
    rw [h1] at h
    injection h with h2 _
    exact ⟨m2, Or.inr ⟨rfl, h2.symm⟩⟩
  | aborted m2 =>
    unfold luaD.rawrunprotected at h
    simp [hf] at h
  | diverged =>
    unfold luaD.rawrunprotected at h
    simp [hf] at h

/-- Sequencing keeps the codes closed. -/
theorem Outcome.codesClosed_bind {α β : Type} (o : Outcome α) (k : α → Machine → Outcome β)
    (ho : o.codesClosed) (hk : ∀ v m, m.codesClosed → (k v m).codesClosed) :
    (o.bind k).codesClosed := by
  cases o with
  | ret v m => exact hk v m ho
  | thrown m => exact ho
  | aborted m => trivial
  | diverged => trivial

/-- Sequencing after code that returns a status keeps the codes closed. -/
theorem Outcome.codesClosed_bind_status {β : Type} (o : Outcome Int)
    (k : Int → Machine → Outcome β) (ho : o.statusClosed)
    (hk : ∀ v m, m.codesClosed → -1 ≤ v → v ≤ 5 → (k v m).codesClosed) :
    (o.bind k).codesClosed := by
  cases o with
  | ret v m => exact hk v m ho.1 ho.2.1 ho.2.2
  | thrown m => exact ho
  | aborted m => trivial
  | diverged => trivial

/-- Sequencing into code that returns a status. -/
theorem Outcome.statusClosed_bind {α : Type} (o : Outcome α) (k : α → Machine → Outcome Int)
    (ho : o.codesClosed) (hk : ∀ v m, m.codesClosed → (k v m).statusClosed) :
    (o.bind k).statusClosed := by
  cases o with
  | ret v m => exact hk v m ho
  | thrown m => exact ho
  | aborted m => trivial
  | diverged => trivial

/-- Sequencing of code that returns a status into code that returns a status. -/
theorem Outcome.statusClosed_bind_status (o : Outcome Int) (k : Int → Machine → Outcome Int)
    (ho : o.statusClosed)
    (hk : ∀ v m, m.codesClosed → -1 ≤ v → v ≤ 5 → (k v m).statusClosed) :
    (o.bind k).statusClosed := by
  cases o with
  | ret v m => exact hk v m ho.1 ho.2.1 ho.2.2
  | thrown m => exact ho
  | aborted m => trivial
  | diverged => trivial

/-- A conditional keeps the codes closed when both branches do. -/
theorem Outcome.codesClosed_ite {α : Type} (c : Prop) [Decidable c] (a b : Outcome α)
    (ha : c → a.codesClosed) (hb : ¬ c → b.codesClosed) :
    (if c then a else b).codesClosed := by
  split_ifs with h
  · exact ha h
  · exact hb h

/-- A conditional returns a closed status when both branches do. -/
theorem Outcome.statusClosed_ite (c : Prop) [Decidable c] (a b : Outcome Int)
    (ha : c → a.statusClosed) (hb : ¬ c → b.statusClosed) :
    (if c then a else b).statusClosed := by
  split_ifs with h
  · exact ha h
  · exact hb h

/-- Storing a status among -1 and the six codes keeps the codes closed. -/
theorem Machine.codesClosed_update (m : Machine) (j : Nat) (r : lua_longjmp)
    (hm : m.codesClosed) (h1 : -1 ≤ r.status) (h2 : r.status ≤ 5) (g : global_State)
    (t : Nat → lua_State) (n : Nat) :
    Machine.codesClosed { g := g, threads := t, ljs := Function.update m.ljs j r, njmp := n } := by
  intro i
  by_cases hi : i = j
  · subst hi
    simp only [Function.update_same]
    exact ⟨h1, h2⟩
  · simp only [Function.update_noteq hi]
    exact hm i

/-- Raising one of the codes keeps the codes closed. -/
theorem luaD.lthrow_codesClosed {α : Type} (E : LuaEnv) (hE : E.codesClosed) (m : Machine)
    (L : Nat) (c : Int) (hm : m.codesClosed) (h1 : -1 ≤ c) (h2 : c ≤ 5) :
    (luaD.lthrow E m L c : Outcome α).codesClosed := by
  unfold luaD.lthrow
  cases hj : (m.th L).errorJmp with
  | some j =>
    exact Machine.codesClosed_update m j _ hm h1 h2 _ _ _
  | none =>
    simp only
    refine Outcome.codesClosed_bind_status _ _ (hE.luaE_resetthread m L c hm h1 h2) ?_
    intro c1 m1 hm1 hc1 hc2
    cases hj1 : (m1.th m1.g.mainthread).errorJmp with
    | some j =>
      simp only
      exact Machine.codesClosed_update _ j _ hm1 hc1 hc2 _ _ _
    | none =>
      simp only
      cases hp : m1.g.panic with
      | none => trivial
      | some pf =>
        simp only
        have h := hE.panicf pf m1 L hm1
        cases hpf : E.panicf pf m1 L with
        | ret v m2 => trivial
        | thrown m2 =>
          rw [hpf] at h
          exact h
        | aborted m2 => trivial
        | diverged => trivial

/-- A runtime error keeps the codes closed. -/
theorem luaG_runerror_codesClosed {α : Type} (E : LuaEnv) (hE : E.codesClosed) (m : Machine)
    (L : Nat) (msg : String) (hm : m.codesClosed) :
    (luaG_runerror E m L msg : Outcome α).codesClosed := by
  unfold luaG_runerror
  exact luaD.lthrow_codesClosed E hE _ L LUA_ERRRUN hm (by decide) (by decide)

/-- `reallocstack` keeps the codes closed. -/
theorem luaD.reallocstack_codesClosed (E : LuaEnv) (hE : E.codesClosed) (K : LuaConf)
    (m : Machine) (L : Nat) (newsize raiseerror : Int) (hm : m.codesClosed) :
    (luaD.reallocstack E K m L newsize raiseerror).codesClosed := by
  unfold luaD.reallocstack
  simp only
  cases E.realloc (luaD.reallocstackEntry m L) L ((luaD.reallocstackEntry m L).th L).stack
      ((m.th L).stacksize + K.EXTRA_STACK) (newsize + K.EXTRA_STACK) with
  | none =>
    simp only
    split_ifs
    · exact luaD.lthrow_codesClosed E hE _ L LUA_ERRMEM hm (by decide) (by decide)
    · exact hm
  | some p => exact hm

/-- The overflow path of `growstack` keeps the codes closed. -/
theorem luaD.growstackOverflow_codesClosed (E : LuaEnv) (hE : E.codesClosed) (K : LuaConf)
    (m : Machine) (L : Nat) (raiseerror : Int) (hm : m.codesClosed) :
    (luaD.growstackOverflow E K m L raiseerror).codesClosed := by
  unfold luaD.growstackOverflow
  refine Outcome.codesClosed_bind _ _ (luaD.reallocstack_codesClosed E hE K m L _ _ hm) ?_
  intro v m1 hm1
  split_ifs
  · exact luaG_runerror_codesClosed E hE m1 L _ hm1
  · exact hm1

/-- `growstack` keeps the codes closed. -/
theorem luaD.growstack_codesClosed (E : LuaEnv) (hE : E.codesClosed) (K : LuaConf)
    (m : Machine) (L : Nat) (n raiseerror : Int) (hm : m.codesClosed) :
    (luaD.growstack E K m L n raiseerror).codesClosed := by
  unfold luaD.growstack
  simp only
  split_ifs
  · exact luaD.lthrow_codesClosed E hE _ L LUA_ERRERR hm (by decide) (by decide)
  · exact hm
  · exact luaD.reallocstack_codesClosed E hE K m L _ _ hm
  · exact luaD.growstackOverflow_codesClosed E hE K m L _ hm
  · exact luaD.growstackOverflow_codesClosed E hE K m L _ hm

/-- `checkstack` keeps the codes closed. -/
theorem luaD.checkstack_codesClosed (E : LuaEnv) (hE : E.codesClosed) (K : LuaConf)
    (m : Machine) (L : Nat) (n : Int) (hm : m.codesClosed) :
    (luaD.checkstack E K m L n).codesClosed := by
  unfold luaD.checkstack
  split_ifs
  · exact Outcome.codesClosed_bind _ _ (luaD.growstack_codesClosed E hE K m L _ _ hm)
      (fun _ _ h => h)
  · exact hm

/-- `checkstackp` keeps the codes closed. -/
theorem luaD.checkstackp_codesClosed (E : LuaEnv) (hE : E.codesClosed) (K : LuaConf)
    (m : Machine) (L : Nat) (n p : Int) (hm : m.codesClosed) :
    (luaD.checkstackp E K m L n p).codesClosed := by
  unfold luaD.checkstackp
  split_ifs
  · exact Outcome.codesClosed_bind _ _ (luaD.growstack_codesClosed E hE K m L _ _ hm)
      (fun _ _ h => h)
  · exact hm

/-- `checkstackGCp` keeps the codes closed. -/
theorem luaD.checkstackGCp_codesClosed (E : LuaEnv) (hE : E.codesClosed) (K : LuaConf)
    (m : Machine) (L : Nat) (n p : Int) (hm : m.codesClosed) :
    (luaD.checkstackGCp E K m L n p).codesClosed := by
  unfold luaD.checkstackGCp
  split_ifs
  · refine Outcome.codesClosed_bind _ _ (hE.luaC_checkGC m L hm) ?_
    intro _ m1 hm1
    exact Outcome.codesClosed_bind _ _ (luaD.growstack_codesClosed E hE K m1 L _ _ hm1)
      (fun _ _ h => h)
  · exact hm

/-- `shrinkstack` keeps the codes closed. -/
theorem luaD.shrinkstack_codesClosed (E : LuaEnv) (hE : E.codesClosed) (K : LuaConf)
    (m : Machine) (L : Nat) (hm : m.codesClosed) :
    (luaD.shrinkstack E K m L).codesClosed := by
  unfold luaD.shrinkstack
  simp only
  refine Outcome.codesClosed_bind _ _ ?_ (fun _ _ h => h)
  refine Outcome.codesClosed_ite _ _ _ (fun _ => ?_) (fun _ => hm)
  exact Outcome.codesClosed_bind _ _ (luaD.reallocstack_codesClosed E hE K m L _ _ hm)
    (fun _ _ h => h)

/-- `seterrorobj` keeps the codes closed. -/
theorem luaD.seterrorobj_codesClosed (m : Machine) (L : Nat) (errcode oldtop : Int)
    (hm : m.codesClosed) : (luaD.seterrorobj m L errcode oldtop).codesClosed := by
  intro j
  rw [(luaD.seterrorobj_ljs m L errcode oldtop).1]
  exact hm j

/-- `luaD::hook` keeps the codes closed. -/
theorem luaD.hook_codesClosed (E : LuaEnv) (hE : E.codesClosed) (K : LuaConf)
    (m : Machine) (L : Nat) (event line ftransfer ntransfer : Int) (hm : m.codesClosed) :
    (luaD.hook E K m L event line ftransfer ntransfer).codesClosed := by
  unfold luaD.hook
  cases (m.th L).hook with
  | none => exact hm
  | some hk =>
    simp only
    refine Outcome.codesClosed_ite _ _ _ (fun _ => ?_) (fun _ => hm)
    refine Outcome.codesClosed_bind _ _ (luaD.checkstack_codesClosed E hE K _ L _ hm) ?_
    intro _ m3 hm3
    refine Outcome.codesClosed_bind _ _ (hE.hookf hk _ L _ hm3) ?_
    intro _ m6 hm6
    exact hm6

/-- `rethook` keeps the codes closed. -/
theorem rethook_codesClosed (E : LuaEnv) (hE : E.codesClosed) (K : LuaConf)
    (m : Machine) (L : Nat) (ci : Nat) (nres : Int) (hm : m.codesClosed) :
    (rethook E K m L ci nres).codesClosed := by
  unfold rethook
  simp only
  refine Outcome.codesClosed_bind _ _ ?_ ?_
  · refine Outcome.codesClosed_ite _ _ _ (fun _ => ?_) (fun _ => hm)
    refine Outcome.codesClosed_bind _ _ (luaD.hook_codesClosed E hE K _ L _ _ _ _ hm) ?_
    intro _ m2 hm2
    exact hm2
  · intro _ m3 hm3
    exact Outcome.codesClosed_ite _ _ _ (fun _ => hm3) (fun _ => hm3)

/-- `moveresults` keeps the codes closed. -/
theorem moveresults_codesClosed (E : LuaEnv) (hE : E.codesClosed) (K : LuaConf)
    (m : Machine) (L : Nat) (res nres wanted : Int) (hm : m.codesClosed) :
    (moveresults E K m L res nres wanted).codesClosed := by
  unfold moveresults
  simp only
  refine Outcome.codesClosed_ite _ _ _ (fun _ => hm) (fun _ => ?_)
  refine Outcome.codesClosed_ite _ _ _ (fun _ => hm) (fun _ => ?_)
  refine Outcome.codesClosed_bind _ _ ?_ (fun _ _ h => h)
  refine Outcome.codesClosed_ite _ _ _ (fun _ => hm) (fun _ => ?_)
  refine Outcome.codesClosed_ite _ _ _ (fun _ => ?_) (fun _ => hm)
  refine Outcome.codesClosed_bind _ _ (hE.luaF_close _ L _ _ _ hm) ?_
  intro res1 m2 hm2
  refine Outcome.codesClosed_bind _ _ ?_ (fun _ _ h => h)
  refine Outcome.codesClosed_ite _ _ _ (fun _ => ?_) (fun _ => hm2)
  exact Outcome.codesClosed_bind _ _ (rethook_codesClosed E hE K _ L _ _ hm2)
    (fun _ _ h => h)

/-- `poscall` keeps the codes closed. -/
theorem luaD.poscall_codesClosed (E : LuaEnv) (hE : E.codesClosed) (K : LuaConf)
    (m : Machine) (L : Nat) (ci : Nat) (nres : Int) (hm : m.codesClosed) :
    (luaD.poscall E K m L ci nres).codesClosed := by
  unfold luaD.poscall
  simp only
  refine Outcome.codesClosed_bind _ _ ?_ ?_
  · exact Outcome.codesClosed_ite _ _ _ (fun _ => rethook_codesClosed E hE K m L ci nres hm)
      (fun _ => hm)
  · intro _ m1 hm1
    refine Outcome.codesClosed_bind _ _ (moveresults_codesClosed E hE K m1 L _ _ _ hm1) ?_
    intro _ m2 hm2
    exact hm2

/-- `precallC` keeps the codes closed. -/
theorem precallC_codesClosed (E : LuaEnv) (hE : E.codesClosed) (K : LuaConf)
    (m : Machine) (L : Nat) (func nresults : Int) (f : Nat) (hm : m.codesClosed) :
    (precallC E K m L func nresults f).codesClosed := by
  unfold precallC
  refine Outcome.codesClosed_bind _ _ (luaD.checkstackGCp_codesClosed E hE K m L _ _ hm) ?_
  intro func1 m1 hm1
  simp only
  refine Outcome.codesClosed_bind _ _ ?_ ?_
  · refine Outcome.codesClosed_ite _ _ _ (fun _ => ?_) (fun _ => hm1)
    exact luaD.hook_codesClosed E hE K _ L _ _ _ _ hm1
  · intro _ m3 hm3
    refine Outcome.codesClosed_bind _ _ (hE.cfunction f m3 L hm3) ?_
    intro n m4 hm4
    refine Outcome.codesClosed_bind _ _ (luaD.poscall_codesClosed E hE K m4 L _ n hm4) ?_
    intro _ m5 hm5
    exact hm5

/-- `tryfuncTM` keeps the codes closed. -/
theorem tryfuncTM_codesClosed (E : LuaEnv) (hE : E.codesClosed) (K : LuaConf)
    (m : Machine) (L : Nat) (func : Int) (hm : m.codesClosed) :
    (tryfuncTM E K m L func).codesClosed := by
  unfold tryfuncTM
  refine Outcome.codesClosed_bind _ _ (luaD.checkstackGCp_codesClosed E hE K m L _ _ hm) ?_
  intro func1 m1 hm1
  simp only
  refine Outcome.codesClosed_ite _ _ _ (fun _ => ?_) (fun _ => hm1)
  unfold luaG_callerror
  exact luaG_runerror_codesClosed E hE m1 L _ hm1

/-- `precall` keeps the codes closed. -/
theorem luaD.precall_codesClosed (E : LuaEnv) (hE : E.codesClosed) (K : LuaConf) (L : Nat)
    (nresults : Int) (fuel : Nat) :
    ∀ (m : Machine) (func : Int), m.codesClosed →
      (luaD.precall E K fuel m L func nresults).codesClosed := by
  induction fuel with
  | zero =>
    intro m func _
    trivial
  | succ fuel ih =>
    intro m func hm
    have hO : ((tryfuncTM E K m L func).bind
        (fun func m1 => luaD.precall E K fuel m1 L func nresults)).codesClosed :=
      Outcome.codesClosed_bind _ _ (tryfuncTM_codesClosed E hE K m L func hm)
        (fun func1 m1 hm1 => ih m1 func1 hm1)
    have hC : ∀ f, ((precallC E K m L func nresults f).bind
        (fun _ m1 => (Outcome.ret none m1 : Outcome (Option Nat)))).codesClosed :=
      fun f => Outcome.codesClosed_bind _ _ (precallC_codesClosed E hE K m L func nresults f hm)
        (fun _ _ h => h)
    cases hv : (m.th L).val func with
    | ccl f => simp only [luaD.precall, hv]; exact hC f
    | lcf f => simp only [luaD.precall, hv]; exact hC f
    | lcl p =>
      simp only [luaD.precall, hv]
      refine Outcome.codesClosed_bind _ _
        (luaD.checkstackGCp_codesClosed E hE K m L _ _ hm) ?_
      intro func1 m1 hm1
      exact hm1
    | nil => simp only [luaD.precall, hv]; exact hO
    | boolean b => simp only [luaD.precall, hv]; exact hO
    | integer n => simp only [luaD.precall, hv]; exact hO
    | str ts => simp only [luaD.precall, hv]; exact hO
    | obj tag ref => simp only [luaD.precall, hv]; exact hO

/-- `ccall` keeps the codes closed. -/
theorem ccall_codesClosed (E : LuaEnv) (hE : E.codesClosed) (K : LuaConf) (fuel : Nat)
    (m : Machine) (L : Nat) (func nResults : Int) (inc : Nat) (hm : m.codesClosed) :
    (ccall E K fuel m L func nResults inc).codesClosed := by
  unfold ccall
  simp only
  refine Outcome.codesClosed_bind _ _ ?_ ?_
  · refine Outcome.codesClosed_ite _ _ _ (fun _ => ?_) (fun _ => hm)
    refine Outcome.codesClosed_bind _ _ (luaD.checkstackp_codesClosed E hE K _ L _ _ hm) ?_
    intro func1 m2 hm2
    exact Outcome.codesClosed_bind _ _ (hE.luaE_checkcstack m2 L hm2) (fun _ _ h => h)
  · intro func1 m4 hm4
    refine Outcome.codesClosed_bind _ _ (luaD.precall_codesClosed E hE K L _ fuel m4 func1 hm4) ?_
    intro r m5 hm5
    refine Outcome.codesClosed_bind _ _ ?_ (fun _ _ h => h)
    cases r with
    | none => exact hm5
    | some ci => exact hE.luaV_execute _ L ci hm5

/-- `finishpcallk` keeps the codes closed. -/
theorem finishpcallk_codesClosed (E : LuaEnv) (hE : E.codesClosed) (K : LuaConf)
    (m : Machine) (L : Nat) (ci : Nat) (hm : m.codesClosed) :
    (finishpcallk E K m L ci).codesClosed := by
  unfold finishpcallk
  simp only
  refine Outcome.codesClosed_bind _ _ ?_ (fun _ _ h => h)
  refine Outcome.codesClosed_ite _ _ _ (fun _ => hm) (fun _ => ?_)
  refine Outcome.codesClosed_bind _ _ (hE.luaF_close _ L _ _ _ hm) ?_
  intro func m2 hm2
  refine Outcome.codesClosed_bind _ _
    (luaD.shrinkstack_codesClosed E hE K _ L (luaD.seterrorobj_codesClosed m2 L _ _ hm2)) ?_
  intro _ m4 hm4
  exact hm4

/-- `finishCcall` keeps the codes closed. -/
theorem finishCcall_codesClosed (E : LuaEnv) (hE : E.codesClosed) (K : LuaConf)
    (m : Machine) (L : Nat) (ci : Nat) (hm : m.codesClosed) :
    (finishCcall E K m L ci).codesClosed := by
  unfold finishCcall
  simp only
  refine Outcome.codesClosed_bind _ _ ?_
    (fun n m3 hm3 => luaD.poscall_codesClosed E hE K m3 L ci n hm3)
  refine Outcome.codesClosed_ite _ _ _ (fun _ => hm) (fun _ => ?_)
  refine Outcome.codesClosed_bind _ _ ?_ ?_
  · exact Outcome.codesClosed_ite _ _ _ (fun _ => finishpcallk_codesClosed E hE K m L ci hm)
      (fun _ => hm)
  · intro status m1 hm1
    have h2 := hE.adjustresults m1 L LUA_MULTRET hm1
    cases hk : ((E.adjustresults m1 L LUA_MULTRET).th L).cis ci |>.k with
    | none => simp only [hk]; trivial
    | some kf => simp only [hk]; exact hE.kfunction kf _ L _ _ h2

/-- `unroll` keeps the codes closed. -/
theorem unroll_codesClosed (E : LuaEnv) (hE : E.codesClosed) (K : LuaConf) (L : Nat)
    (fuel : Nat) : ∀ m : Machine, m.codesClosed → (unroll E K fuel m L).codesClosed := by
  induction fuel with
  | zero =>
    intro m hm
    unfold unroll
    exact Outcome.codesClosed_ite _ _ _ (fun _ => hm) (fun _ => trivial)
  | succ fuel ih =>
    intro m hm
    unfold unroll
    simp only
    refine Outcome.codesClosed_ite _ _ _ (fun _ => hm) (fun _ => ?_)
    refine Outcome.codesClosed_bind _ _ ?_ (fun _ m2 hm2 => ih m2 hm2)
    refine Outcome.codesClosed_ite _ _ _
      (fun _ => finishCcall_codesClosed E hE K m L _ hm) (fun _ => ?_)
    exact Outcome.codesClosed_bind _ _ (hE.luaV_finishOp m L hm)
      (fun _ m1 hm1 => hE.luaV_execute m1 L _ hm1)

/-- `resume` keeps the codes closed. -/
theorem resume_codesClosed (E : LuaEnv) (hE : E.codesClosed) (K : LuaConf) (fuel : Nat)
    (n : Int) (m : Machine) (L : Nat) (hm : m.codesClosed) :
    (resume E K fuel n m L).codesClosed := by
  unfold resume
  simp only
  refine Outcome.codesClosed_ite _ _ _ (fun _ => ccall_codesClosed E hE K fuel m L _ _ _ hm)
    (fun _ => ?_)
  refine Outcome.codesClosed_bind _ _ ?_ (fun _ m3 hm3 => unroll_codesClosed E hE K L fuel m3 hm3)
  refine Outcome.codesClosed_ite _ _ _ (fun _ => hE.luaV_execute _ L _ hm) (fun _ => ?_)
  refine Outcome.codesClosed_bind _ _ ?_
    (fun n1 m2 hm2 => luaD.poscall_codesClosed E hE K m2 L _ n1 hm2)
  cases hk : ((m.setTh L { m.th L with status := LUA_OK }).th L).cis (m.th L).ci |>.k with
  | none => simp only [hk]; exact hm
  | some kf => simp only [hk]; exact hE.kfunction kf _ L _ _ hm

/-- A protected call of a function that keeps the codes closed returns -1 or
one of the six codes, and keeps the codes closed. -/
theorem luaD.rawrunprotected_statusClosed (m : Machine) (L : Nat)
    (f : Machine → Nat → Outcome Unit) (hm : m.codesClosed)
    (hf : ∀ m0, m0.codesClosed → (f m0 L).codesClosed) :
    (luaD.rawrunprotected m L f).statusClosed := by
  have he : (luaD.rawrunprotectedEntry m L).codesClosed :=
    Machine.codesClosed_update m m.njmp _ hm (show (-1 : Int) ≤ 0 by decide)
      (show (0 : Int) ≤ 5 by decide) _ _ _
  have h := hf _ he
  unfold luaD.rawrunprotected
  cases hr : f (luaD.rawrunprotectedEntry m L) L with
  | ret u m2 =>
    rw [hr] at h
    exact ⟨h, h m.njmp⟩
  | thrown m2 =>
    rw [hr] at h
    simp only
    by_cases h0 : (m2.ljs m.njmp).status = 0
    · simp only [if_pos h0, Function.update_same]
      refine ⟨?_, by decide, by decide⟩
      exact Machine.codesClosed_update m2 m.njmp _ h (show (-1 : Int) ≤ -1 by decide)
        (show (-1 : Int) ≤ 5 by decide) _ _ _
    · simp only [if_neg h0]
      exact ⟨h, h m.njmp⟩
  | aborted m2 => trivial
  | diverged => trivial

/-- The loop of `closeprotected` returns -1 or one of the six codes. -/
theorem closeprotectedLoop_statusClosed (E : LuaEnv) (hE : E.codesClosed) (L : Nat)
    (old_ci : Nat) (old_allowhooks : Int) (level : Int) (fuel : Nat) :
    ∀ (m : Machine) (status : Int), m.codesClosed → -1 ≤ status → status ≤ 5 →
      (closeprotectedLoop E old_ci old_allowhooks L level fuel m status).statusClosed := by
  induction fuel with
  | zero =>
    intro m status _ _ _
    trivial
  | succ fuel ih =>
    intro m status hm h1 h2
    unfold closeprotectedLoop
    simp only
    refine Outcome.statusClosed_bind_status _ _
      (luaD.rawrunprotected_statusClosed m L _ hm ?_) ?_
    · intro m0 hm0
      unfold closepaux
      exact Outcome.codesClosed_bind _ _ (hE.luaF_close m0 L _ _ _ hm0) (fun _ _ h => h)
    · intro st m1 hm1 hs1 hs2
      refine Outcome.statusClosed_ite _ _ _ (fun _ => ⟨hm1, h1, h2⟩) (fun _ => ?_)
      exact ih _ st hm1 hs1 hs2

/-- `pcall` of a function that keeps the codes closed returns -1 or one of the
six codes. -/
theorem luaD.pcall_statusClosed (E : LuaEnv) (hE : E.codesClosed) (K : LuaConf) (fuel : Nat)
    (m : Machine) (L : Nat) (f : Machine → Nat → Outcome Unit) (old_top ef : Int)
    (hm : m.codesClosed) (hf : ∀ m0, m0.codesClosed → (f m0 L).codesClosed) :
    (luaD.pcall E K fuel m L f old_top ef).statusClosed := by
  unfold luaD.pcall
  simp only
  refine Outcome.statusClosed_bind_status _ _
    (luaD.rawrunprotected_statusClosed _ L f hm hf) ?_
  intro status m2 hm2 h1 h2
  refine Outcome.statusClosed_bind_status _ _ ?_ (fun s m7 hm7 hs1 hs2 => ⟨hm7, hs1, hs2⟩)
  refine Outcome.statusClosed_ite _ _ _ (fun _ => ?_) (fun _ => ⟨hm2, h1, h2⟩)
  unfold luaD.closeprotected
  refine Outcome.statusClosed_bind_status _ _
    (closeprotectedLoop_statusClosed E hE L _ _ old_top fuel _ status hm2 h1 h2) ?_
  intro s m4 hm4 hs1 hs2
  refine Outcome.statusClosed_bind _ _
    (luaD.shrinkstack_codesClosed E hE K _ L (luaD.seterrorobj_codesClosed m4 L _ _ hm4)) ?_
  intro _ m6 hm6
  exact ⟨hm6, hs1, hs2⟩

/-- `precover` returns -1 or one of the six codes. -/
theorem precover_statusClosed (E : LuaEnv) (hE : E.codesClosed) (K : LuaConf) (ufuel : Nat)
    (L : Nat) (fuel : Nat) :
    ∀ (m : Machine) (status : Int), m.codesClosed → -1 ≤ status → status ≤ 5 →
      (precover E K ufuel L fuel m status).statusClosed := by
  induction fuel with
  | zero =>
    intro m status hm h1 h2
    unfold precover
    exact Outcome.statusClosed_ite _ _ _ (fun _ => trivial) (fun _ => ⟨hm, h1, h2⟩)
  | succ fuel ih =>
    intro m status hm h1 h2
    unfold precover
    refine Outcome.statusClosed_ite _ _ _ (fun _ => ?_) (fun _ => ⟨hm, h1, h2⟩)
    cases hp : findpcall K (m.th L) with
    | none => exact ⟨hm, h1, h2⟩
    | some ci =>
      simp only
      refine Outcome.statusClosed_bind_status _ _
        (luaD.rawrunprotected_statusClosed _ L _ hm
          (fun m0 hm0 => unroll_codesClosed E hE K L ufuel m0 hm0)) ?_
      intro st m2 hm2 hs1 hs2
      exact ih m2 st hm2 hs1 hs2

/-- The status that `lua_resume` returns is -1 or one of the six codes. -/
theorem lua_resume_statusClosed (E : LuaEnv) (hE : E.codesClosed) (K : LuaConf) (fuel : Nat)
    (m : Machine) (L : Nat) (frm : Option Nat) (nargs : Int) (hm : m.codesClosed)
    (s : Int) (n : Option Int) (m' : Machine)
    (h : lua_resume E K fuel m L frm nargs = .ret (s, n) m') : -1 ≤ s ∧ s ≤ 5 := by
  have herr : ∀ msg (m0 : Machine),
      Outcome.ret ((resume_error m0 L msg nargs).1, (none : Option Int))
        (resume_error m0 L msg nargs).2 = Outcome.ret (s, n) m' → -1 ≤ s ∧ s ≤ 5 := by
    intro msg m0 h
    injection h with h1 _
    injection h1 with h2 _
    rw [← h2]
    have : (resume_error m0 L msg nargs).1 = 2 := rfl
    rw [this]
    decide
  have hrun : lua_resumeRun E K fuel m L frm nargs = .ret (s, n) m' → -1 ≤ s ∧ s ≤ 5 := by
    intro h
    unfold lua_resumeRun at h
    simp only at h
    split_ifs at h
    · exact herr _ _ h
    · obtain ⟨st, m3, h1, h2⟩ := Outcome.bind_eq_ret _ _ _ _ h
      obtain ⟨st2, m4, h3, h4⟩ := Outcome.bind_eq_ret _ _ _ _ h2
      have hP := luaD.rawrunprotected_statusClosed (lua_resumeEntry E m L frm) L
        (resume E K fuel nargs) hm (fun m0 hm0 => resume_codesClosed E hE K fuel nargs m0 L hm0)
      rw [h1] at hP
      have hP2 := precover_statusClosed E hE K fuel L fuel m3 st hP.1 hP.2.1 hP.2.2
      rw [h3] at hP2
      injection h4 with h5 _
      have h6 : (lua_resumeFinish m4 L st2).1.1 = s := by rw [h5]
      have h7 : (lua_resumeFinish m4 L st2).1.1 = st2 := rfl
      rw [← h6, h7]
      exact hP2.2
  unfold lua_resume at h
  simp only at h
  split_ifs at h
  · exact herr _ _ h
  · exact herr _ _ h
  · exact hrun h
  · exact herr _ _ h
  · exact hrun h

/-- The collaborators of `env0` keep the codes closed. -/
theorem env0_codesClosed : env0.codesClosed where
  luaC_checkGC := fun _ _ hm => hm
  luaF_close := fun _ _ _ _ _ hm => hm
  luaE_resetthread := fun _ _ _ hm h1 h2 => ⟨hm, h1, h2⟩
  cfunction := fun _ _ _ hm => hm
  hookf := fun _ _ _ _ hm => hm
  panicf := fun _ _ _ hm => hm
  luaV_execute := fun _ _ _ hm => hm
  luaV_finishOp := fun _ _ hm => hm
  luaE_checkcstack := fun _ _ hm => hm
  kfunction := fun _ _ _ _ _ hm => hm
  adjustresults := fun m L nres hm => by
    show Machine.codesClosed (if _ then _ else _)
    split_ifs
    · exact hm
    · exact hm

/-- The collaborators of `envForeign` keep the codes closed: the exception of
its C functions stores nothing. -/
theorem envForeign_codesClosed : envForeign.codesClosed :=
  { env0_codesClosed with cfunction := fun _ _ _ hm => hm }

/-- The recovery points of the fresh machine hold the status 0. -/
theorem machine0_codesClosed : machine0.codesClosed := by
  intro j
  show (-1 : Int) ≤ 0 ∧ (0 : Int) ≤ 5
  decide

/-- C27 (amended): the values returned by `luaD::rawrunprotected`,
`luaD::pcall` and `lua_resume`.

* The value returned by `rawrunprotected` is the status recorded in its
  recovery point when `f` returns; when `f` raises, it is the recorded status if
  that is not 0, and -1 if it is 0.  So after `luaD::lthrow(L, c)` it is `c` for
  `c` other than `LUA_OK` and -1 for `LUA_OK`, and after any other exception,
  which records nothing, it is -1.
* `luaD::lthrow` with one of the six codes (or -1) stores only such a status.
* Hence, as long as the recovery points hold only -1 or one of the six codes
  `LUA_OK` (0) to `LUA_ERRERR` (5), as they do at the start, and the protected
  function and the collaborators keep it so (they raise through `lthrow` with
  such a code, or by a foreign exception), the value returned by
  `rawrunprotected`, and hence by `pcall` and by `lua_resume`, is one of the six
  codes or -1. -/
theorem status_codes_closed (E : LuaEnv) (K : LuaConf) (fuel : Nat) (L : Nat) :
    (∀ (m : Machine) (f : Machine → Nat → Outcome Unit) (v : Int) (m' : Machine),
      luaD.rawrunprotected m L f = .ret v m' →
      ∃ m2, (f (luaD.rawrunprotectedEntry m L) L = .ret () m2 ∧ v = (m2.ljs m.njmp).status) ∨
        (f (luaD.rawrunprotectedEntry m L) L = .thrown m2 ∧
          v = if (m2.ljs m.njmp).status = 0 then -1 else (m2.ljs m.njmp).status)) ∧
    (∀ (m : Machine) (f : Machine → Nat → Outcome Unit) (m2 : Machine) (c : Int),
      (m2.th L).errorJmp = some m.njmp →
      f (luaD.rawrunprotectedEntry m L) L = luaD.lthrow E m2 L c →
      ∃ m', luaD.rawrunprotected m L f = .ret (if c = LUA_OK then -1 else c) m') ∧
    (∀ (m : Machine) (f : Machine → Nat → Outcome Unit) (m2 : Machine),
      f (luaD.rawrunprotectedEntry m L) L = .thrown m2 →
      (m2.ljs m.njmp).status = 0 →
      ∃ m', luaD.rawrunprotected m L f = .ret (-1) m') ∧
    (E.codesClosed → ∀ (m : Machine) (T : Nat) (c : Int),
      m.codesClosed → -1 ≤ c → c ≤ 5 → (luaD.lthrow E m T c : Outcome Unit).codesClosed) ∧
    (∀ (m : Machine) (f : Machine → Nat → Outcome Unit),
      m.codesClosed → (∀ m0, m0.codesClosed → (f m0 L).codesClosed) →
      ∀ v m', luaD.rawrunprotected m L f = .ret v m' → -1 ≤ v ∧ v ≤ 5) ∧
    (E.codesClosed → ∀ (m : Machine) (f : Machine → Nat → Outcome Unit) (old_top ef : Int),
      m.codesClosed → (∀ m0, m0.codesClosed → (f m0 L).codesClosed) →
      ∀ s m', luaD.pcall E K fuel m L f old_top ef = .ret s m' → -1 ≤ s ∧ s ≤ 5) ∧
    (E.codesClosed → ∀ (m : Machine) (frm : Option Nat) (nargs : Int),
      m.codesClosed →
      ∀ s n m', lua_resume E K fuel m L frm nargs = .ret (s, n) m' → -1 ≤ s ∧ s ≤ 5) := by
  refine ⟨?_, ?_, ?_, ?_, ?_, ?_, ?_⟩
  · intro m f v m' h
    exact luaD.rawrunprotected_value m L f v m' h
  · intro m f m2 c hj hf
    rw [luaD.lthrow_handler E m2 L c m.njmp hj] at hf
    obtain ⟨m', h1, -⟩ := luaD.rawrunprotected_thrown m L f _ hf
    simp only [Function.update_same] at h1
    exact ⟨m', h1⟩
  · intro m f m2 hf h0
    obtain ⟨m', h1, -⟩ := luaD.rawrunprotected_thrown m L f _ hf
    rw [if_pos h0] at h1
    exact ⟨m', h1⟩
  · intro hE m T c hm h1 h2
    exact luaD.lthrow_codesClosed E hE m T c hm h1 h2
  · intro m f hm hf v m' h
    have hP := luaD.rawrunprotected_statusClosed m L f hm hf
    rw [h] at hP
    exact hP.2
  · intro hE m f old_top ef hm hf s m' h
    have hP := luaD.pcall_statusClosed E hE K fuel m L f old_top ef hm hf
    rw [h] at hP
    exact hP.2
  · intro hE m frm nargs hm s n m' h
    exact lua_resume_statusClosed E hE K fuel m L frm nargs hm s n m' h

/-- Witness for C27: a function that raises `LUA_ERRMEM` makes `rawrunprotected`
return `LUA_ERRMEM`; a function out of which a foreign exception propagates
makes it return -1; `pcall` of the function that raises `LUA_ERRMEM` and
`lua_resume` of a coroutine whose body lets a foreign exception out return a
status among -1 and the six codes. -/
theorem status_codes_closed_witness :
    (∃ m', luaD.rawrunprotected machine0 0 (raiser LUA_ERRMEM) = .ret LUA_ERRMEM m') ∧
    (∃ m', luaD.rawrunprotected machine0 0 foreignRaiser = .ret (-1) m') ∧
    (∃ s m', luaD.pcall env0 stdConf 1 machine0 0 (raiser LUA_ERRMEM) 1 0 = .ret s m' ∧
      -1 ≤ s ∧ s ≤ 5) ∧
    (∃ s n m', lua_resume envForeign stdConf 1 machineCo 1 none 0 = .ret (s, n) m' ∧
      -1 ≤ s ∧ s ≤ 5) := by
  obtain ⟨m1, h1⟩ := (status_codes_closed env0 stdConf 0 0).2.1 machine0 (raiser LUA_ERRMEM)
    (luaD.rawrunprotectedEntry machine0 0) LUA_ERRMEM rfl rfl
  obtain ⟨m2, h2⟩ := (status_codes_closed env0 stdConf 0 0).2.2.1 machine0 foreignRaiser
    (luaD.rawrunprotectedEntry machine0 0) rfl rfl
  have hraise : ∀ m0 : Machine, m0.codesClosed → (raiser LUA_ERRMEM m0 0).codesClosed :=
    fun m0 hm0 => (status_codes_closed env0 stdConf 0 0).2.2.2.1 env0_codesClosed m0 0
      LUA_ERRMEM hm0 (by decide) (by decide)
  have h3 := (status_codes_closed env0 stdConf 1 0).2.2.2.2.2.1 env0_codesClosed machine0
    (raiser LUA_ERRMEM) 1 0 machine0_codesClosed hraise LUA_ERRMEM
    ((luaD.pcall env0 stdConf 1 machine0 0 (raiser LUA_ERRMEM) 1 0).machineD machine0) rfl
  have h4 := (status_codes_closed envForeign stdConf 1 1).2.2.2.2.2.2 envForeign_codesClosed
    machineCo none 0 machine0_codesClosed (-1) (some 0)
    ((lua_resume envForeign stdConf 1 machineCo 1 none 0).machineD machine0) rfl
  exact ⟨⟨m1, h1⟩, ⟨m2, h2⟩, ⟨_, _, rfl, h3⟩, ⟨_, _, _, rfl, h4⟩⟩

/-- Counterexample to C27 as stated: an exception that is not raised through
`luaD::lthrow` is caught by the recovery point with the status still 0, and
`rawrunprotected` returns -1, which is none of the six codes; so do `pcall` for
such a function and `lua_resume` for a coroutine whose body lets such an
exception out. -/
theorem status_codes_closed_counterexample :
    (luaD.rawrunprotected machine0 0 foreignRaiser).value? = some (-1) ∧
    (luaD.pcall env0 stdConf 1 machine0 0 foreignRaiser 1 0).value? = some (-1) ∧
    (lua_resume envForeign stdConf 1 machineCo 1 none 0).value? = some (-1, some 0) ∧
    ¬ ((0 : Int) ≤ -1) := by
  refine ⟨by decide!, by decide!, by decide!, by decide⟩

/-! ## Errors in a thread without recovery point (C28) -/

/-- The throw of `luaD::lthrow` in a thread without recovery point, when the
main thread has the recovery point `j`: the code given by the reset of the
thread is stored in `j` and the error object is pushed on the main thread. -/
theorem luaD.lthrow_to_main (E : LuaEnv) (m : Machine) (L : Nat) (c : Int)
    (hno : (m.th L).errorJmp = none) (c1 : Int) (m1 : Machine) (j : Nat)
    (hr : E.luaE_resetthread m L c = .ret c1 m1)
    (hj : (m1.th m1.g.mainthread).errorJmp = some j) :
    ∃ mt, (luaD.lthrow E m L c : Outcome Unit) = .thrown mt ∧
      (mt.ljs j).status = c1 ∧
      (∀ i, i ≠ j → mt.ljs i = m1.ljs i) ∧
      (mt.th m1.g.mainthread).top = (m1.th m1.g.mainthread).top + 1 ∧
      (mt.th m1.g.mainthread).val (m1.th m1.g.mainthread).top
        = (m1.th L).val ((m1.th L).top - 1) ∧
      (∀ T, T ≠ m1.g.mainthread → mt.th T = m1.th T) := by
  unfold luaD.lthrow
  simp only [hno, hr, Outcome.bind, hj]
  refine ⟨_, rfl, ?_, ?_, ?_, ?_, ?_⟩
  · simp
  · intro i hi
    simp [Function.update_noteq hi, Machine.setTh]
  · simp [Machine.setTh, Machine.th, lua_State.setval]
  · simp [Machine.setTh, Machine.th, lua_State.setval, lua_State.val]
  · intro T hT
    simp [Machine.setTh, Machine.th, Function.update_noteq hT]

/-- What `rawrunprotected` returns when the protected function throws, with the
recovery points it leaves. -/
theorem luaD.rawrunprotected_thrown_ljs (m : Machine) (L : Nat)
    (f : Machine → Nat → Outcome Unit) (m2 : Machine)
    (h : f (luaD.rawrunprotectedEntry m L) L = .thrown m2) :
    ∃ m', luaD.rawrunprotected m L f
      = .ret (if (m2.ljs m.njmp).status = 0 then -1 else (m2.ljs m.njmp).status) m' ∧
      ∀ i, i ≠ m.njmp → m'.ljs i = m2.ljs i := by
  unfold luaD.rawrunprotected
  simp only [h]
  by_cases h0 : (m2.ljs m.njmp).status = 0
  · simp only [if_pos h0, Function.update_same]
    refine ⟨_, rfl, ?_⟩
    intro i hi
    simp [luaD.rawrunprotectedExit, Machine.setTh, Function.update_noteq hi]
  · simp only [if_neg h0]
    refine ⟨_, rfl, ?_⟩
    intro i _
    simp [luaD.rawrunprotectedExit, Machine.setTh]

/-- C28 (amended): for every thread `L` that has no recovery point and raises
code `c` via `luaD::lthrow`: `lthrow` never returns to its caller.  The thread is
first reset by `luaE_resetthread`, which gives the code `c1` to propagate.

* If the main thread (`g->mainthread`) then has a recovery point, the exception
  is thrown with `c1` stored in that recovery point and the error object (the
  value on top of the stack of `L`) copied to the stack top of the main thread;
  no other recovery point and no other thread is touched, whichever thread
  passed control to `L`.
* If the main thread has no recovery point, the error is not dropped: with no
  panic function the process aborts; with one, the panic function is invoked,
  and if it returns the process aborts.
* The exception is caught by the protected call inside which `lthrow` was
  called (the innermost one running, on whatever thread `T`).  When the recovery
  point of that call is the one of the main thread, the call returns `c1` (-1
  for `c1 = LUA_OK`); when it is another recovery point, in which no status has
  been stored, the call returns -1 and the code `c1` stays in the recovery point
  of the main thread. -/
theorem lthrow_without_handler (E : LuaEnv) (m : Machine) (L : Nat) (c : Int)
    (hno : (m.th L).errorJmp = none) :
    (∀ (r : Unit) m', luaD.lthrow E m L c ≠ .ret r m') ∧
    (∀ c1 m1 j, E.luaE_resetthread m L c = .ret c1 m1 →
      (m1.th m1.g.mainthread).errorJmp = some j →
      ∃ mt, (luaD.lthrow E m L c : Outcome Unit) = .thrown mt ∧
        (mt.ljs j).status = c1 ∧
        (∀ i, i ≠ j → mt.ljs i = m1.ljs i) ∧
        (mt.th m1.g.mainthread).top = (m1.th m1.g.mainthread).top + 1 ∧
        (mt.th m1.g.mainthread).val (m1.th m1.g.mainthread).top
          = (m1.th L).val ((m1.th L).top - 1) ∧
        (∀ T, T ≠ m1.g.mainthread → mt.th T = m1.th T)) ∧
    (∀ c1 m1, E.luaE_resetthread m L c = .ret c1 m1 →
      (m1.th m1.g.mainthread).errorJmp = none → m1.g.panic = none →
      (luaD.lthrow E m L c : Outcome Unit) = .aborted m1) ∧
    (∀ c1 m1 pf, E.luaE_resetthread m L c = .ret c1 m1 →
      (m1.th m1.g.mainthread).errorJmp = none → m1.g.panic = some pf →
      (∀ r m2, E.panicf pf m1 L = .ret r m2 →
        (luaD.lthrow E m L c : Outcome Unit) = .aborted m2) ∧
      (∀ m2, E.panicf pf m1 L = .thrown m2 →
        (luaD.lthrow E m L c : Outcome Unit) = .thrown m2) ∧
      (∀ m2, E.panicf pf m1 L = .aborted m2 →
        (luaD.lthrow E m L c : Outcome Unit) = .aborted m2)) ∧
    (∀ (m0 : Machine) (T : Nat) (f : Machine → Nat → Outcome Unit) c1 m1 j,
      f (luaD.rawrunprotectedEntry m0 T) T = luaD.lthrow E m L c →
      E.luaE_resetthread m L c = .ret c1 m1 →
      (m1.th m1.g.mainthread).errorJmp = some j →
      (j = m0.njmp →
        ∃ m', luaD.rawrunprotected m0 T f = .ret (if c1 = LUA_OK then -1 else c1) m') ∧
      (j ≠ m0.njmp → (m1.ljs m0.njmp).status = LUA_OK →
        ∃ m', luaD.rawrunprotected m0 T f = .ret (-1) m' ∧ (m'.ljs j).status = c1)) := by
  refine ⟨fun r m' => luaD.lthrow_ne_ret E m L c r m', ?_, ?_, ?_, ?_⟩
  · intro c1 m1 j hr hj
    exact luaD.lthrow_to_main E m L c hno c1 m1 j hr hj
  · intro c1 m1 hr hj hp
    unfold luaD.lthrow
    simp only [hno, hr, Outcome.bind, hj, hp]
  · intro c1 m1 pf hr hj hp
    refine ⟨?_, ?_, ?_⟩
    · intro r m2 h
      unfold luaD.lthrow
      simp only [hno, hr, Outcome.bind, hj, hp, h]
    · intro m2 h
      unfold luaD.lthrow
      simp only [hno, hr, Outcome.bind, hj, hp, h]
    · intro m2 h
      unfold luaD.lthrow
      simp only [hno, hr, Outcome.bind, hj, hp, h]
  · intro m0 T f c1 m1 j hf hr hj
    obtain ⟨mt, h1, h2, h3, -⟩ := luaD.lthrow_to_main E m L c hno c1 m1 j hr hj
    rw [h1] at hf
    obtain ⟨m', h4, h5⟩ := luaD.rawrunprotected_thrown_ljs m0 T f mt hf
    constructor
    · intro hjn
      refine ⟨m', ?_⟩
      rw [h4, ← hjn, h2]
      rfl
    · intro hjn h0
      refine ⟨m', ?_, ?_⟩
      · have h0' : (m1.ljs m0.njmp).status = 0 := h0
        rw [h4, h3 m0.njmp (Ne.symm hjn), if_pos h0']
      · rw [h5 j hjn, h2]

/-- Witness for C28: thread 2 of `machineThree` raises `LUA_ERRRUN`: the
exception is thrown with the code stored in the recovery point 0 of the main
thread, and the error object 99 is copied to the stack of the main thread.  And
when the main thread passes control to thread 2 under a protected call of its
own, that call returns `LUA_ERRRUN`. -/
theorem lthrow_without_handler_witness :
    (∃ mt, (luaD.lthrow env0 machineThree 2 LUA_ERRRUN : Outcome Unit) = .thrown mt ∧
      (mt.ljs 0).status = LUA_ERRRUN ∧ (mt.th 0).top = 1002 ∧
      (mt.th 0).val 1001 = TValue.integer 99) ∧
    (∃ m', luaD.rawrunprotected machineRaising 0 (raiserOn 2 LUA_ERRRUN)
      = .ret LUA_ERRRUN m') := by
  obtain ⟨mt, h1, h2, -, h4, h5, -⟩ := (lthrow_without_handler env0 machineThree 2 LUA_ERRRUN
    rfl).2.1 LUA_ERRRUN machineThree 0 rfl rfl
  have e0 : machineThree.g.mainthread = 0 := rfl
  have e1 : (machineThree.th 0).top = 1001 := by decide
  have e2 : (machineThree.th 2).val ((machineThree.th 2).top - 1) = TValue.integer 99 := by
    decide
  rw [e0, e1] at h4 h5
  rw [e2] at h5
  refine ⟨⟨mt, h1, h2, h4, h5⟩, ?_⟩
  exact ((lthrow_without_handler env0 (luaD.rawrunprotectedEntry machineRaising 0) 2 LUA_ERRRUN
    rfl).2.2.2.2 machineRaising 0 (raiserOn 2 LUA_ERRRUN) LUA_ERRRUN
    (luaD.rawrunprotectedEntry machineRaising 0) 0 rfl rfl rfl).1 rfl

/-- Counterexample to C28 as stated: the coroutine 1, which has a recovery point
of its own, has passed control to thread 2, which raises without a recovery
point.  In `machineThree` the error goes to the recovery point and the stack of
the main thread, and the recovery point and the stack of thread 1 are left
alone; in `machineOrphan`, where the main thread has no recovery point, the
process aborts although thread 1 has a handler.  Run from the start: the main
thread runs the coroutine 1 under a protected call; that call returns -1, not
`LUA_ERRRUN`; the code of the main thread after it is executed (it pushes the -1
above the error object 99); and the protected call of the main thread, whose
function has returned, reports `LUA_ERRRUN`. -/
theorem lthrow_without_handler_counterexample :
    (((luaD.lthrow env0 machineThree 2 LUA_ERRRUN : Outcome Unit).machineD machine0).ljs
      0).status = LUA_ERRRUN ∧
    (((luaD.lthrow env0 machineThree 2 LUA_ERRRUN : Outcome Unit).machineD machine0).ljs
      1).status = LUA_OK ∧
    (((luaD.lthrow env0 machineThree 2 LUA_ERRRUN : Outcome Unit).machineD machine0).th
      1).top = (machineThree.th 1).top ∧
    (((luaD.lthrow env0 machineThree 2 LUA_ERRRUN : Outcome Unit).machineD machine0).th
      0).top = (machineThree.th 0).top + 1 ∧
    (machineOrphan.th 1).errorJmp = some 0 ∧
    (luaD.lthrow env0 machineOrphan 2 LUA_ERRRUN : Outcome Unit).isAborted = true ∧
    (luaD.rawrunprotected (luaD.rawrunprotectedEntry machineRaising 0) 1
      (raiserOn 2 LUA_ERRRUN)).value? = some (-1) ∧
    (luaD.rawrunprotected machineRaising 0 (resumerOf 1 2 LUA_ERRRUN)).value?
      = some LUA_ERRRUN ∧
    (((luaD.rawrunprotected machineRaising 0 (resumerOf 1 2 LUA_ERRRUN)).machineD
      machine0).th 0).val 1001 = TValue.integer 99 ∧
    (((luaD.rawrunprotected machineRaising 0 (resumerOf 1 2 LUA_ERRRUN)).machineD
      machine0).th 0).val 1002 = TValue.integer (-1) := by
  refine ⟨by decide!, by decide!, by decide!, by decide!, by decide!, by decide!, by decide!,
    by decide!, by decide!, by decide!⟩

/-! ## The retries of `closeprotected` (C29, C30) -/

/-- The loop of `closeprotected` follows the attempts: with one unit of fuel per
attempt it returns the latest status in the machine left by the last protected
call, and with fewer it has not finished. -/
theorem closeprotectedLoop_attempts (E : LuaEnv) (L : Nat) (level : Int) (old_ci : Nat)
    (old_allowhooks : Int) (m : Machine) (s : Int) (ss : List Int) (mfin : Machine)
    (h : CloseAttempts E L level old_ci old_allowhooks m s ss mfin) :
    (∀ fuel, ss.length + 1 ≤ fuel →
      closeprotectedLoop E old_ci old_allowhooks L level fuel m s
        = .ret (ss.getLastD s) mfin) ∧
    (∀ fuel, fuel ≤ ss.length →
      closeprotectedLoop E old_ci old_allowhooks L level fuel m s = .diverged) := by
  induction h with
  | done m s lv mc hc hs =>
    refine ⟨?_, ?_⟩
    · intro fuel hfuel
      obtain ⟨f, rfl⟩ : ∃ f, fuel = f + 1 := ⟨fuel - 1, by simp at hfuel; omega⟩
      unfold closeprotectedLoop
      have hp : closepaux E (luaD.restorestack (m.th L) level) s
          (luaD.rawrunprotectedEntry m L) L = .ret () mc := by
        unfold closepaux
        rw [hc]
        rfl
      have h1 := luaD.rawrunprotected_ret m L
        (closepaux E (luaD.restorestack (m.th L) level) s) mc hp
      rw [hs] at h1
      simp only [h1, Outcome.bind, if_true, List.getLastD]
    · intro fuel hfuel
      have : fuel = 0 := by simpa using hfuel
      subst this
      rfl
  | retry m s mt s1 rest mfin hc hs hne _ ih =>
    have hp : closepaux E (luaD.restorestack (m.th L) level) s
        (luaD.rawrunprotectedEntry m L) L = .thrown mt := by
      unfold closepaux
      rw [hc]
      rfl
    have h1 := luaD.rawrunprotected_thrown_ne m L
      (closepaux E (luaD.restorestack (m.th L) level) s) mt hp (by rw [hs]; exact hne)
    rw [hs] at h1
    refine ⟨?_, ?_⟩
    · intro fuel hfuel
      obtain ⟨f, rfl⟩ : ∃ f, fuel = f + 1 := ⟨fuel - 1, by simp at hfuel; omega⟩
      unfold closeprotectedLoop
      simp only [h1, Outcome.bind, if_neg hne]
      rw [ih.1 f (by simp at hfuel; omega)]
      cases rest <;> rfl
    · intro fuel hfuel
      cases fuel with
      | zero => rfl
      | succ f =>
        unfold closeprotectedLoop
        simp only [h1, Outcome.bind, if_neg hne]
        exact ih.2 f (by simp at hfuel; omega)

/-- C29: for every level, every initial status `s_0` and every `k >= 0`: if the
closing primitive `luaF::close`, run under a protected call of its own at the
slot restored from the saved `level` offset, given the latest status, and with
`L->ci` and `L->allowhook` reset before each retry to the values they had before
the first attempt, raises on the first `k` attempts with the statuses
`s_1..s_k` and completes on attempt `k+1`, then `luaD::closeprotected` returns
`s_k` (the original `s_0` when `k = 0`) in the machine left by the last protected
call; it makes exactly `k+1` attempts: `k+1` iterations of its loop (or more
allowed) give this result, and after `k` or fewer it has not finished. -/
theorem closeprotected_attempts (E : LuaEnv) (m : Machine) (L : Nat) (level s0 : Int)
    (ss : List Int) (mfin : Machine)
    (h : CloseAttempts E L level (m.th L).ci (m.th L).allowhook m s0 ss mfin) :
    luaD.closeprotected E (ss.length + 1) m L level s0 = .ret (ss.getLastD s0) mfin ∧
    (∀ fuel, ss.length + 1 ≤ fuel →
      luaD.closeprotected E fuel m L level s0 = .ret (ss.getLastD s0) mfin) ∧
    (∀ fuel, fuel ≤ ss.length → luaD.closeprotected E fuel m L level s0 = .diverged) := by
  have h1 := closeprotectedLoop_attempts E L level _ _ m s0 ss mfin h
  exact ⟨h1.1 _ (le_refl _), h1.1, h1.2⟩

/-- Witness for C29: with the closing primitive of `envCloseErr`, which raises
`LUA_ERRMEM` when given `LUA_ERRRUN` and completes otherwise, closing with the
initial status `LUA_ERRRUN` takes two attempts and returns `LUA_ERRMEM`. -/
theorem closeprotected_attempts_witness :
    ∃ mfin : Machine,
      luaD.closeprotected envCloseErr 2 machine0 0 1 LUA_ERRRUN = .ret LUA_ERRMEM mfin ∧
      luaD.closeprotected envCloseErr 1 machine0 0 1 LUA_ERRRUN = .diverged := by
  have hA : CloseAttempts envCloseErr 0 1 (machine0.th 0).ci (machine0.th 0).allowhook machine0
      LUA_ERRRUN [LUA_ERRMEM] _ :=
    CloseAttempts.retry machine0 LUA_ERRRUN _ LUA_ERRMEM [] _ rfl rfl (by decide)
      (CloseAttempts.done _ LUA_ERRMEM _ _ rfl rfl)
  have h := closeprotected_attempts envCloseErr machine0 0 1 LUA_ERRRUN [LUA_ERRMEM] _ hA
  exact ⟨_, h.1, h.2.2 1 (le_refl _)⟩

/-- With a closing primitive that raises whenever the thread has a recovery
point, the loop of `closeprotected` does not finish, whatever the number of
iterations allowed. -/
theorem closeprotectedLoop_always (E : LuaEnv) (L : Nat) (level : Int) (old_ci : Nat)
    (old_allowhooks : Int)
    (hraise : ∀ m0 lvl st, (m0.th L).errorJmp ≠ none →
      ∃ mt, E.luaF_close m0 L lvl st 0 = .thrown mt)
    (fuel : Nat) :
    ∀ (m : Machine) (s : Int),
      closeprotectedLoop E old_ci old_allowhooks L level fuel m s = .diverged := by
  induction fuel with
  | zero => intro m s; rfl
  | succ fuel ih =>
    intro m s
    obtain ⟨mt, hc⟩ := hraise (luaD.rawrunprotectedEntry m L)
      (luaD.restorestack (m.th L) level) s
      (by rw [Machine.th_rawrunprotectedEntry]; simp)
    have hp : closepaux E (luaD.restorestack (m.th L) level) s
        (luaD.rawrunprotectedEntry m L) L = .thrown mt := by
      unfold closepaux
      rw [hc]
      rfl
    obtain ⟨m1, h1, -⟩ := luaD.rawrunprotected_thrown m L
      (closepaux E (luaD.restorestack (m.th L) level) s) mt hp
    unfold closeprotectedLoop
    have hne : (if (mt.ljs m.njmp).status = 0 then (-1 : Int) else (mt.ljs m.njmp).status)
        ≠ LUA_OK := by
      unfold LUA_OK
      split_ifs with h0
      · decide
      · exact h0
    simp only [h1, Outcome.bind, if_neg hne]
    exact ih _ _

/-- The closing primitive of `envCloseCountdown` with `N` failures left: the
loop of `closeprotected` has not finished after `N` iterations and returns
after `N + 1`. -/
theorem closeprotectedLoop_countdown (L : Nat) (level : Int) (old_ci : Nat)
    (old_allowhooks : Int) (N : Nat) :
    ∀ (m : Machine) (s : Int), (m.th L).val (m.th L).stack = TValue.integer N →
      (∀ fuel, fuel ≤ N →
        closeprotectedLoop envCloseCountdown old_ci old_allowhooks L level fuel m s
          = .diverged) ∧
      ∃ r mf, closeprotectedLoop envCloseCountdown old_ci old_allowhooks L level (N + 1) m s
          = .ret r mf := by
  induction N with
  | zero =>
    intro m s hv
    refine ⟨?_, ?_⟩
    · intro fuel hfuel
      have : fuel = 0 := by omega
      subst this
      rfl
    · have hv1 : ((luaD.rawrunprotectedEntry m L).th L).val
          ((luaD.rawrunprotectedEntry m L).th L).stack = TValue.integer 0 := by
        simpa [luaD.rawrunprotectedEntry, Machine.th, Machine.setTh, lua_State.val] using hv
      have hp : closepaux envCloseCountdown (luaD.restorestack (m.th L) level) s
          (luaD.rawrunprotectedEntry m L) L = .ret () (luaD.rawrunprotectedEntry m L) := by
        unfold closepaux envCloseCountdown
        simp only [hv1]
        rfl
      have h1 := luaD.rawrunprotected_ret m L _ _ hp
      have hs : ((luaD.rawrunprotectedEntry m L).ljs m.njmp).status = LUA_OK := by
        simp [luaD.rawrunprotectedEntry]
      rw [hs] at h1
      unfold closeprotectedLoop
      simp only [h1, Outcome.bind, if_true]
      exact ⟨_, _, rfl⟩
  | succ N ih =>
    intro m s hv
    have hv1 : ((luaD.rawrunprotectedEntry m L).th L).val
        ((luaD.rawrunprotectedEntry m L).th L).stack = TValue.integer ((N : Int) + 1) := by
      simpa [luaD.rawrunprotectedEntry, Machine.th, Machine.setTh, lua_State.val] using hv
    have hpos : (0 : Int) < (N : Int) + 1 := by omega
    have hp : closepaux envCloseCountdown (luaD.restorestack (m.th L) level) s
        (luaD.rawrunprotectedEntry m L) L
        = ((luaD.lthrow env0
            ((luaD.rawrunprotectedEntry m L).setTh L
              (((luaD.rawrunprotectedEntry m L).th L).setval
                ((luaD.rawrunprotectedEntry m L).th L).stack (.integer ((N : Int) + 1 - 1))))
            L LUA_ERRRUN : Outcome Int)).bind fun (_ : Int) m1 => .ret () m1 := by
      unfold closepaux envCloseCountdown
      simp only [hv1, if_pos hpos]
    rw [luaD.lthrow_handler env0 _ L LUA_ERRRUN m.njmp
      (by simp [luaD.rawrunprotectedEntry, Machine.th, Machine.setTh, lua_State.setval])] at hp
    simp only [Outcome.bind] at hp
    have key : ∀ mt : Machine,
        closepaux envCloseCountdown (luaD.restorestack (m.th L) level) s
          (luaD.rawrunprotectedEntry m L) L = .thrown mt →
        (mt.ljs m.njmp).status = LUA_ERRRUN →
        (mt.th L).val (mt.th L).stack = TValue.integer N →
        (∀ fuel, fuel ≤ N + 1 →
          closeprotectedLoop envCloseCountdown old_ci old_allowhooks L level fuel m s
            = .diverged) ∧
        ∃ r mf, closeprotectedLoop envCloseCountdown old_ci old_allowhooks L level (N + 1 + 1)
            m s = .ret r mf := by
      intro mt hpt hs hval
      have hne : LUA_ERRRUN ≠ LUA_OK := by decide
      have h1 := luaD.rawrunprotected_thrown_ne m L _ mt hpt (by rw [hs]; decide)
      rw [hs] at h1
      have hnext := ih
        ((luaD.rawrunprotectedExit m L mt).setTh L
          { (luaD.rawrunprotectedExit m L mt).th L with
            ci := old_ci, allowhook := old_allowhooks }) LUA_ERRRUN
        (by simpa [luaD.rawrunprotectedExit, Machine.th, Machine.setTh, lua_State.val]
              using hval)
      refine ⟨?_, ?_⟩
      · intro fuel hfuel
        cases fuel with
        | zero => rfl
        | succ f =>
          unfold closeprotectedLoop
          simp only [h1, Outcome.bind, if_neg hne]
          exact hnext.1 f (by omega)
      · unfold closeprotectedLoop
        simp only [h1, Outcome.bind, if_neg hne]
        exact hnext.2
    refine key _ hp ?_ ?_
    · simp
    · simp [luaD.rawrunprotectedEntry, Machine.th, Machine.setTh, lua_State.val,
        lua_State.setval]

/-- C30: the retry loop of `luaD::closeprotected` has no iteration cap.  With a
closing primitive that raises on every attempt (whenever it runs under a
recovery point, as it does inside `closeprotected`), `closeprotected` never
returns: whatever the number of iterations allowed, the loop has not finished.
And for every `N` there is a closing primitive, the one of `envCloseCountdown`
started with `N` failures left, that raises on its first `N` attempts, for which
`closeprotected` makes more than `N` attempts: after `N` iterations or fewer it
has not finished, and after `N + 1` it returns. -/
theorem closeprotected_no_iteration_cap (E : LuaEnv) (L : Nat)
    (hraise : ∀ m0 lvl st, (m0.th L).errorJmp ≠ none →
      ∃ mt, E.luaF_close m0 L lvl st 0 = .thrown mt) :
    (∀ fuel m level s, luaD.closeprotected E fuel m L level s = .diverged) ∧
    (∀ fuel m level s r m', luaD.closeprotected E fuel m L level s ≠ .ret r m') ∧
    (∀ (N : Nat) level s,
      (∀ fuel, fuel ≤ N →
        luaD.closeprotected envCloseCountdown fuel (machineCountdown N) 0 level s
          = .diverged) ∧
      ∃ r mf, luaD.closeprotected envCloseCountdown (N + 1) (machineCountdown N) 0 level s
          = .ret r mf) := by
  have hd : ∀ fuel m level s, luaD.closeprotected E fuel m L level s = .diverged := by
    intro fuel m level s
    unfold luaD.closeprotected
    exact closeprotectedLoop_always E L level _ _ hraise fuel m s
  refine ⟨hd, ?_, ?_⟩
  · intro fuel m level s r m' h
    rw [hd] at h
    exact Outcome.noConfusion h
  · intro N level s
    unfold luaD.closeprotected
    exact closeprotectedLoop_countdown 0 level _ _ N (machineCountdown N) s
      (by simp [machineCountdown, Machine.th, Machine.setTh, lua_State.val, lua_State.setval,
            thread0])

/-- Witness for C30: the closing primitive of `envCloseAlways` raises
`LUA_ERRRUN` on every attempt, and `closeprotected` has not finished after a
thousand iterations. -/
theorem closeprotected_no_iteration_cap_witness :
    luaD.closeprotected envCloseAlways 1000 machine0 0 1 LUA_ERRRUN = .diverged := by
  refine (closeprotected_no_iteration_cap envCloseAlways 0 ?_).1 1000 machine0 1 LUA_ERRRUN
  intro m0 lvl st hj
  obtain ⟨j, hj1⟩ := Option.ne_none_iff_exists'.mp hj
  exact ⟨_, luaD.lthrow_handler env0 m0 0 LUA_ERRRUN j hj1⟩

/-! ## Recovery at a suspended protected call (C31) -/

/-- Clearing the bits of a mask leaves none of them set. -/
theorem clearbits_and_mask (x mask : Nat) : clearbits x mask &&& mask = 0 := by
  apply Nat.eq_of_testBit_eq
  intro i
  simp only [clearbits, Nat.testBit_and, Nat.testBit_xor, Nat.zero_testBit]
  cases x.testBit i <;> cases mask.testBit i <;> rfl

/-- The search of `findpcall` from depth `d` returns the innermost marked frame
at depth at most `d`, and nothing exactly when no such frame is marked. -/
theorem findpcallFrom_spec (K : LuaConf) (s : lua_State) (d : Nat) :
    (∀ ci, findpcallFrom K s d = some ci →
      ci ≤ d ∧ (s.cis ci).callstatus &&& K.CIST_YPCALL ≠ 0 ∧
      ∀ j, ci < j → j ≤ d → (s.cis j).callstatus &&& K.CIST_YPCALL = 0) ∧
    (findpcallFrom K s d = none ↔
      ∀ j, j ≤ d → (s.cis j).callstatus &&& K.CIST_YPCALL = 0) := by
  induction d with
  | zero =>
    simp only [findpcallFrom]
    by_cases h : (s.cis 0).callstatus &&& K.CIST_YPCALL ≠ 0
    · rw [if_pos h]
      refine ⟨?_, ?_⟩
      · intro ci hci
        injection hci with hci
        subst hci
        exact ⟨le_refl _, h, fun j h1 h2 => absurd h1 (by omega)⟩
      · constructor
        · intro h1
          exact absurd h1 (by simp)
        · intro h1
          exact absurd (h1 0 (le_refl _)) h
    · rw [if_neg h]
      refine ⟨fun ci hci => absurd hci (by simp), ?_⟩
      constructor
      · intro _ j hj
        have : j = 0 := by omega
        subst this
        exact not_not.mp h
      · intro _
        rfl
  | succ d ih =>
    simp only [findpcallFrom]
    by_cases h : (s.cis (d + 1)).callstatus &&& K.CIST_YPCALL ≠ 0
    · rw [if_pos h]
      refine ⟨?_, ?_⟩
      · intro ci hci
        injection hci with hci
        subst hci
        exact ⟨le_refl _, h, fun j h1 h2 => absurd h1 (by omega)⟩
      · constructor
        · intro h1
          exact absurd h1 (by simp)
        · intro h1
          exact absurd (h1 (d + 1) (le_refl _)) h
    · rw [if_neg h]
      refine ⟨?_, ?_⟩
      · intro ci hci
        obtain ⟨h1, h2, h3⟩ := ih.1 ci hci
        refine ⟨by omega, h2, ?_⟩
        intro j hj1 hj2
        by_cases hj : j = d + 1
        · subst hj
          exact not_not.mp h
        · exact h3 j hj1 (by omega)
      · rw [ih.2]
        constructor
        · intro h1 j hj
          by_cases hj' : j = d + 1
          · subst hj'
            exact not_not.mp h
          · exact h1 j (by omega)
        · intro h1 j hj
          exact h1 j (by omega)

/-- The two exits of `finishpcallk`: what it is when the saved status is
`LUA_OK`, and what it is when the saved status is an error. -/
theorem finishpcallk_eq (E : LuaEnv) (K : LuaConf) (m : Machine) (L : Nat) (ci : Nat) :
    (E.getcistrecst ((m.th L).cis ci) = LUA_OK →
      finishpcallk E K m L ci = .ret LUA_YIELD (finishpcallkExit K m L ci)) ∧
    (E.getcistrecst ((m.th L).cis ci) ≠ LUA_OK →
      finishpcallk E K m L ci
        = (E.luaF_close (m.setTh L { m.th L with allowhook := E.getoah ((m.th L).cis ci) }) L
            ((m.th L).stack + ((m.th L).cis ci).funcidx)
            (E.getcistrecst ((m.th L).cis ci)) 1).bind fun func m2 =>
          (luaD.shrinkstack E K
            (luaD.seterrorobj m2 L (E.getcistrecst ((m.th L).cis ci)) func) L).bind fun _ m4 =>
            .ret (E.getcistrecst ((m.th L).cis ci))
              (finishpcallkExit K
                (m4.setTh L ((m4.th L).setci ci fun c => E.setcistrecst c LUA_OK)) L ci)) := by
  constructor
  · intro h
    unfold finishpcallk finishpcallkExit
    simp only [h, if_true, Outcome.bind]
  · intro h
    unfold finishpcallk finishpcallkExit
    simp only [if_neg h, luaD.restorestack]
    cases E.luaF_close (m.setTh L { m.th L with allowhook := E.getoah ((m.th L).cis ci) }) L
        ((m.th L).stack + ((m.th L).cis ci).funcidx)
        (E.getcistrecst ((m.th L).cis ci)) 1 with
    | ret func m2 =>
      simp only [Outcome.bind]
      cases luaD.shrinkstack E K
          (luaD.seterrorobj m2 L (E.getcistrecst ((m.th L).cis ci)) func) L with
      | ret u m4 => rfl
      | thrown m4 => rfl
      | aborted m4 => rfl
      | diverged => rfl
    | thrown m2 => rfl
    | aborted m2 => rfl
    | diverged => rfl

/-- C31: recovery at suspended protected calls, for a resumed thread `L`
interrupted by an error with status `s`.

* `findpcall` selects the innermost frame marked `CIST_YPCALL` (no frame
  between it and the current frame is marked), and finds none exactly when no
  frame of the chain is marked; so enclosing boundaries are found only by later
  searches, which start from the frame then current.
* `precover` makes the selected frame the current frame, stores `s` in it with
  `setcistrecst` (the other frames are untouched) and runs `unroll` in protected
  mode on that machine.
* `finishpcallk` reads the status with `getcistrecst` from the frame.  When it
  is `LUA_OK` it returns `LUA_YIELD`.  When it is an error `st`, it restores
  `allowhook` from the frame and calls the closing primitive with exactly `st`
  at the slot of the saved function offset, the frame still unmodified; if the
  primitive raises (or yields by raising), `finishpcallk` ends there with the
  frame as the primitive left it, so that a re-run reads the saved status again;
  if it completes, the error object for `st` is written, the stack is shrunk,
  and only then the saved status is set to `LUA_OK`, and `st` is returned.
* Whenever it returns, `CIST_YPCALL` is cleared in the frame and `L->errfunc` is
  the `old_errfunc` of the frame.
* When the macros store and read the status faithfully, `finishpcallk` on the
  machine prepared by `precover` takes the error branch with status `s`. -/
theorem precover_finishpcallk_status (E : LuaEnv) (K : LuaConf) (ufuel fuel : Nat)
    (m : Machine) (L : Nat) :
    (∀ ci, findpcall K (m.th L) = some ci →
      ci ≤ (m.th L).ci ∧ ((m.th L).cis ci).callstatus &&& K.CIST_YPCALL ≠ 0 ∧
      ∀ j, ci < j → j ≤ (m.th L).ci → ((m.th L).cis j).callstatus &&& K.CIST_YPCALL = 0) ∧
    (findpcall K (m.th L) = none ↔
      ∀ j, j ≤ (m.th L).ci → ((m.th L).cis j).callstatus &&& K.CIST_YPCALL = 0) ∧
    (∀ s ci, errorstatus s = true → findpcall K (m.th L) = some ci →
      precover E K ufuel L (fuel + 1) m s
        = (luaD.rawrunprotected (precoverEntry E m L ci s) L (unroll E K ufuel)).bind
            (fun st m2 => precover E K ufuel L fuel m2 st) ∧
      ((precoverEntry E m L ci s).th L).ci = ci ∧
      ((precoverEntry E m L ci s).th L).cis ci = E.setcistrecst ((m.th L).cis ci) s ∧
      (∀ j, j ≠ ci → ((precoverEntry E m L ci s).th L).cis j = (m.th L).cis j) ∧
      (E.getcistrecst (E.setcistrecst ((m.th L).cis ci) s) = s →
        E.getcistrecst (((precoverEntry E m L ci s).th L).cis ci) = s ∧
        finishpcallk E K (precoverEntry E m L ci s) L ci
          = (E.luaF_close
              ((precoverEntry E m L ci s).setTh L
                { (precoverEntry E m L ci s).th L with
                  allowhook := E.getoah (((precoverEntry E m L ci s).th L).cis ci) }) L
              (((precoverEntry E m L ci s).th L).stack
                + (((precoverEntry E m L ci s).th L).cis ci).funcidx) s 1).bind
            fun func m2 =>
              (luaD.shrinkstack E K (luaD.seterrorobj m2 L s func) L).bind fun _ m4 =>
                .ret s (finishpcallkExit K
                  (m4.setTh L ((m4.th L).setci ci fun c => E.setcistrecst c LUA_OK)) L ci))) ∧
    (∀ ci, E.getcistrecst ((m.th L).cis ci) = LUA_OK →
      finishpcallk E K m L ci = .ret LUA_YIELD (finishpcallkExit K m L ci)) ∧
    (∀ ci st, E.getcistrecst ((m.th L).cis ci) = st → st ≠ LUA_OK →
      ((m.setTh L { m.th L with allowhook := E.getoah ((m.th L).cis ci) }).th L).cis ci
        = (m.th L).cis ci ∧
      ((m.setTh L { m.th L with allowhook := E.getoah ((m.th L).cis ci) }).th L).allowhook
        = E.getoah ((m.th L).cis ci) ∧
      (∀ mt, E.luaF_close (m.setTh L { m.th L with allowhook := E.getoah ((m.th L).cis ci) }) L
            (luaD.restorestack (m.th L) ((m.th L).cis ci).funcidx) st 1 = .thrown mt →
        finishpcallk E K m L ci = .thrown mt) ∧
      (∀ func m2,
        E.luaF_close (m.setTh L { m.th L with allowhook := E.getoah ((m.th L).cis ci) }) L
            (luaD.restorestack (m.th L) ((m.th L).cis ci).funcidx) st 1 = .ret func m2 →
        ∃ m4, luaD.shrinkstack E K (luaD.seterrorobj m2 L st func) L = .ret () m4 ∧
          finishpcallk E K m L ci
            = .ret st (finishpcallkExit K
                (m4.setTh L ((m4.th L).setci ci fun c => E.setcistrecst c LUA_OK)) L ci))) ∧
    (∀ (m5 : Machine) ci,
      ((finishpcallkExit K m5 L ci).th L).errfunc
        = (((finishpcallkExit K m5 L ci).th L).cis ci).old_errfunc ∧
      (((finishpcallkExit K m5 L ci).th L).cis ci).callstatus &&& K.CIST_YPCALL = 0 ∧
      (((finishpcallkExit K m5 L ci).th L).cis ci).old_errfunc
        = ((m5.th L).cis ci).old_errfunc) := by
  obtain ⟨hf1, hf2⟩ := findpcallFrom_spec K (m.th L) (m.th L).ci
  refine ⟨hf1, hf2, ?_, ?_, ?_, ?_⟩
  · intro s ci herr hfind
    refine ⟨?_, ?_, ?_, ?_, ?_⟩
    · conv_lhs => rw [precover]
      simp only [herr, if_true, hfind]
      rfl
    · simp [precoverEntry, lua_State.setci]
    · simp [precoverEntry, lua_State.setci]
    · intro j hj
      simp [precoverEntry, lua_State.setci, Function.update_noteq hj]
    · intro hrt
      have hc : ((precoverEntry E m L ci s).th L).cis ci = E.setcistrecst ((m.th L).cis ci) s := by
        simp [precoverEntry, lua_State.setci]
      have hg : E.getcistrecst (((precoverEntry E m L ci s).th L).cis ci) = s := by
        rw [hc, hrt]
      refine ⟨hg, ?_⟩
      have hne : E.getcistrecst (((precoverEntry E m L ci s).th L).cis ci) ≠ LUA_OK := by
        rw [hg]
        simp only [errorstatus, LUA_YIELD, decide_eq_true_eq] at herr
        simp only [LUA_OK]
        omega
      have := (finishpcallk_eq E K (precoverEntry E m L ci s) L ci).2 hne
      rw [hg] at this
      exact this
  · intro ci h
    exact (finishpcallk_eq E K m L ci).1 h
  · intro ci st hst hne
    have hne' : E.getcistrecst ((m.th L).cis ci) ≠ LUA_OK := by rw [hst]; exact hne
    have heq := (finishpcallk_eq E K m L ci).2 hne'
    rw [hst] at heq
    refine ⟨by simp, by simp, ?_, ?_⟩
    · intro mt hc
      rw [heq]
      simp only [luaD.restorestack] at hc
      rw [hc]
      rfl
    · intro func m2 hc
      obtain ⟨m4, h4, -⟩ := luaD.shrinkstack_ret E K (luaD.seterrorobj m2 L st func) L
      refine ⟨m4, h4, ?_⟩
      rw [heq]
      simp only [luaD.restorestack] at hc
      rw [hc]
      simp only [Outcome.bind, h4]
  · intro m5 ci
    refine ⟨?_, ?_, ?_⟩
    · simp [finishpcallkExit, lua_State.setci]
    · simp only [finishpcallkExit, lua_State.setci, Machine.th_setTh_same, Function.update_same]
      exact clearbits_and_mask _ _
    · simp [finishpcallkExit, lua_State.setci]

/-- Witness for C31: thread 0 of `machinePcall` is interrupted by `LUA_ERRRUN`
at depth 2; the suspended protected call at depth 1 is selected, made current
and given the status; `finishpcallk` then reads `LUA_ERRRUN` from it and
returns it, with `CIST_YPCALL` cleared, the saved status back at `LUA_OK`,
`errfunc` restored to 7 and `allowhook` to 1. -/
theorem precover_finishpcallk_status_witness :
    findpcall stdConf (machinePcall.th 0) = some 1 ∧
    ((precoverEntry env0 machinePcall 0 1 LUA_ERRRUN).th 0).ci = 1 ∧
    env0.getcistrecst (((precoverEntry env0 machinePcall 0 1 LUA_ERRRUN).th 0).cis 1)
      = LUA_ERRRUN ∧
    ∃ mf, finishpcallk env0 stdConf (precoverEntry env0 machinePcall 0 1 LUA_ERRRUN) 0 1
        = .ret LUA_ERRRUN mf ∧
      (mf.th 0).errfunc = 7 ∧ (mf.th 0).allowhook = 1 ∧
      ((mf.th 0).cis 1).callstatus = 3 ∧
      (mf.th 0).val 1001 = TValue.integer 99 ∧ (mf.th 0).top = 1002 := by
  obtain ⟨-, h2, -, -, h5⟩ := (precover_finishpcallk_status env0 stdConf 1 1 machinePcall
    0).2.2.1 LUA_ERRRUN 1 (by decide) (by decide)
  obtain ⟨h6, h7⟩ := h5 (by decide)
  refine ⟨by decide, h2, h6, _, h7, ?_, ?_, ?_, ?_, ?_⟩ <;> decide!

/-! ## The frame of a Lua closure (C32) -/

/-- The stack check of a call keeps the offset of `top` when the collector
keeps it, and changes nothing when there is room. -/
theorem luaD.checkstackGCp_ret_top (E : LuaEnv) (K : LuaConf) (m : Machine) (L : Nat)
    (n p p1 : Int) (m1 : Machine) (h : luaD.checkstackGCp E K m L n p = .ret p1 m1) :
    n ≤ (m1.th L).stack_last - (m1.th L).top ∧
    ((m.th L).stack_last - (m.th L).top > n → m1 = m ∧ p1 = p) ∧
    ((∀ mg, E.luaC_checkGC m L = .ret () mg →
        (mg.th L).top - (mg.th L).stack = (m.th L).top - (m.th L).stack) →
      (m1.th L).top - (m1.th L).stack = (m.th L).top - (m.th L).stack) := by
  unfold luaD.checkstackGCp at h
  by_cases hc : (m.th L).stack_last - (m.th L).top ≤ n
  · rw [if_pos hc] at h
    obtain ⟨u, mg, hg, h2⟩ := Outcome.bind_eq_ret _ _ _ _ h
    obtain ⟨v, m2, hgr, h3⟩ := Outcome.bind_eq_ret _ _ _ _ h2
    injection h3 with h4 h5
    subst h5
    obtain ⟨g1, g2⟩ := luaD.growstack_ret_nonzero E K mg L n 1 v m2 hgr
      (luaD.growstack_raise_ret E K mg L n 1 v m2 (by decide) hgr)
    refine ⟨g1, fun hgt => absurd hc (by omega), ?_⟩
    intro hgc
    rw [g2]
    cases u
    exact hgc mg hg
  · rw [if_neg hc] at h
    injection h with h1 h2
    subst h1 h2
    exact ⟨by omega, fun _ => ⟨rfl, rfl⟩, fun _ => rfl⟩

/-- C32: the frame of a Lua closure.  For every Lua closure at `func` with `P`
fixed parameters and frame size `F`, called with `narg = L->top - func - 1`
arguments and wanted-result count `w`, when the stack check returns (it may
move the stack: `func1` is the function slot, at the same offset, and `m1` the
machine after it; they are `func` and the machine before when there is room):
`luaD::precall` returns the new frame, one above the caller, which is current,
with `func` the function slot, `top = func + 1 + F`, `nresults = w`,
`callstatus = 0` and saved pc at the start of the code; the only slots written
are the missing parameters; and, `top` having kept its offset through the stack
check (as it does when the collector keeps it), the parameter slots
`func + 1 + narg .. func + P` are nil, the arguments `func + 1 .. func + narg` and
the function slot hold what they held, and `L->top = func + 1 + max(narg, P)`. -/
theorem precall_lua_frame (E : LuaEnv) (K : LuaConf) (fuel : Nat) (m : Machine) (L : Nat)
    (func w : Int) (p : Proto) (func1 : Int) (m1 : Machine)
    (hv : (m.th L).val func = .lcl p)
    (hchk : luaD.checkstackGCp E K m L p.maxstacksize func = .ret func1 m1) :
    ∃ m2, luaD.precall E K (fuel + 1) m L func w = .ret (some ((m1.th L).ci + 1)) m2 ∧
      (m2.th L).ci = (m1.th L).ci + 1 ∧
      (m2.th L).stack = (m1.th L).stack ∧
      func1 - (m1.th L).stack = func - (m.th L).stack ∧
      ((m.th L).stack_last - (m.th L).top > p.maxstacksize → m1 = m ∧ func1 = func) ∧
      ((m2.th L).cis ((m1.th L).ci + 1)).func = func1 ∧
      ((m2.th L).cis ((m1.th L).ci + 1)).top = func1 + 1 + p.maxstacksize ∧
      ((m2.th L).cis ((m1.th L).ci + 1)).nresults = w ∧
      ((m2.th L).cis ((m1.th L).ci + 1)).callstatus = 0 ∧
      ((m2.th L).cis ((m1.th L).ci + 1)).savedpc = p.code ∧
      (∀ q, ¬ ((m1.th L).top ≤ q ∧
            q < (m1.th L).top + (p.numparams - ((m.th L).top - func - 1)).toNat) →
        (m2.th L).val q = (m1.th L).val q) ∧
      (((∀ mg, E.luaC_checkGC m L = .ret () mg →
          (mg.th L).top - (mg.th L).stack = (m.th L).top - (m.th L).stack) →
        (m1.th L).top - func1 = (m.th L).top - func)) ∧
      ((m1.th L).top - func1 = (m.th L).top - func →
        (m2.th L).top = func1 + 1 + max ((m.th L).top - func - 1) p.numparams ∧
        (∀ q, func1 + 1 + ((m.th L).top - func - 1) ≤ q → q ≤ func1 + p.numparams →
          (m2.th L).val q = TValue.nil) ∧
        (∀ q, func1 ≤ q → q ≤ func1 + ((m.th L).top - func - 1) →
          (m2.th L).val q = (m1.th L).val q)) := by
  obtain ⟨hoff, -⟩ := luaD.checkstackGCp_ret E K m L _ func func1 m1 hchk
  obtain ⟨-, hroom, htopk⟩ := luaD.checkstackGCp_ret_top E K m L _ func func1 m1 hchk
  simp only [luaD.precall, hv, hchk, Outcome.bind, prepCallInfo, next_ci]
  refine ⟨_, rfl, ?_⟩
  simp only [Machine.th_setTh_same]
  have b1 : ∀ (s : lua_State) (i : Nat) (g : CallInfo → CallInfo), (s.setci i g).top = s.top :=
    fun _ _ _ => rfl
  have b2 : ∀ (s : lua_State) (i : Nat) (g : CallInfo → CallInfo) (q : Int),
      (s.setci i g).val q = s.val q := fun _ _ _ _ => rfl
  have b3 : ∀ (s : lua_State) (i : Nat) (g : CallInfo → CallInfo),
      (s.setci i g).cis i = g (s.cis i) := by
    intro s i g
    simp [lua_State.setci]
  generalize hk : (p.numparams - ((m.th L).top - func - 1)).toNat = k
  obtain ⟨f1, f2, f3, f4, f5⟩ := fillNil_spec (m1.th L).top k 0
    ((({ m1.th L with ci := (m1.th L).ci + 1 } : lua_State).setci ((m1.th L).ci + 1) fun c =>
        { c with func := func1, nresults := w, callstatus := 0,
                 top := func1 + 1 + p.maxstacksize }).setci ((m1.th L).ci + 1) fun c =>
      { c with savedpc := p.code })
  simp only [b1] at f1 f2 f3 f4 f5 ⊢
  have hval : ∀ (s : lua_State) (t : Int) (q : Int),
      ({ s with top := t } : lua_State).val q = s.val q := fun _ _ _ => rfl
  refine ⟨f3, f1, hoff, hroom, ?_, ?_, ?_, ?_, ?_, ?_, ?_, ?_⟩
  · simp only [f4, b3]
  · simp only [f4, b3]
  · simp only [f4, b3]
  · simp only [f4, b3]
  · simp only [f4, b3]
  · intro q hq
    rw [hval, f5]
    have : ¬ ((m1.th L).top + 0 ≤ q ∧ q < (m1.th L).top + 0 + (k : Int)) := by
      intro h
      apply hq
      constructor <;> omega
    rw [if_neg this]
    rfl
  · intro hgc
    have := htopk hgc
    omega
  · intro htop
    refine ⟨?_, ?_, ?_⟩
    · show (m1.th L).top + (k : Int) = _
      have : (k : Int) = max (p.numparams - ((m.th L).top - func - 1)) 0 := by
        rw [← hk]
        exact Int.toNat_eq_max _
      omega
    · intro q hq1 hq2
      rw [hval, f5]
      have hk' : (k : Int) = max (p.numparams - ((m.th L).top - func - 1)) 0 := by
        rw [← hk]
        exact Int.toNat_eq_max _
      have : (m1.th L).top + 0 ≤ q ∧ q < (m1.th L).top + 0 + (k : Int) := by
        constructor <;> omega
      rw [if_pos this]
    · intro q hq1 hq2
      rw [hval, f5]
      have : ¬ ((m1.th L).top + 0 ≤ q ∧ q < (m1.th L).top + 0 + (k : Int)) := by
        intro h
        have := h.1
        omega
      rw [if_neg this]
      rfl

/-- Witness for C32: on a fresh thread the closure in slot 1001, with two fixed
parameters and frame size 5, is called with no argument and one wanted result:
the frame at depth 1 has `func = 1001`, `top = 1007`, `nresults = 1`,
`callstatus = 0`; the slots 1002 and 1003 are nil and `L->top = 1004`. -/
theorem precall_lua_frame_witness :
    ∃ m2, luaD.precall env0 stdConf 1
        (machinePre (.lcl { numparams := 2, maxstacksize := 5, is_vararg := false, code := 100 }))
        0 1001 1 = .ret (some 1) m2 ∧
      ((m2.th 0).cis 1).func = 1001 ∧ ((m2.th 0).cis 1).top = 1007 ∧
      ((m2.th 0).cis 1).nresults = 1 ∧ ((m2.th 0).cis 1).callstatus = 0 ∧
      ((m2.th 0).cis 1).savedpc = 100 ∧
      (m2.th 0).top = 1004 ∧ (m2.th 0).val 1002 = TValue.nil ∧
      (m2.th 0).val 1003 = TValue.nil := by
  obtain ⟨m2, h1, -, -, -, -, h5, h6, h7, h8, h9, -, -, h11⟩ := precall_lua_frame env0 stdConf 0
    (machinePre (.lcl { numparams := 2, maxstacksize := 5, is_vararg := false, code := 100 }))
    0 1001 1 { numparams := 2, maxstacksize := 5, is_vararg := false, code := 100 } 1001
    (machinePre (.lcl { numparams := 2, maxstacksize := 5, is_vararg := false, code := 100 }))
    rfl rfl
  obtain ⟨t1, t2, -⟩ := h11 rfl
  exact ⟨m2, h1, h5, h6, h7, h8, h9, t1, t2 1002 (by decide) (by decide),
    t2 1003 (by decide) (by decide)⟩

/-! ## The frame chain is LIFO (C33) -/

/-- When `tryfuncTM` returns, the current frame is the one left by the stack
check, which is the original one when the collector keeps it. -/
theorem tryfuncTM_ret_ci (E : LuaEnv) (K : LuaConf) (m : Machine) (L : Nat) (func func1 : Int)
    (m2 : Machine) (h : tryfuncTM E K m L func = .ret func1 m2)
    (hgc : ∀ mg, E.luaC_checkGC m L = .ret () mg → (mg.th L).ci = (m.th L).ci) :
    (m2.th L).ci = (m.th L).ci := by
  unfold tryfuncTM at h
  obtain ⟨f1, m1, h1, h2⟩ := Outcome.bind_eq_ret _ _ _ _ h
  obtain ⟨-, hci⟩ := luaD.checkstackGCp_ret E K m L 1 func f1 m1 h1
  simp only at h2
  by_cases htm : E.luaT_gettmbyobj m1 L ((m1.th L).val f1) = TValue.nil
  · rw [if_pos htm] at h2
    exact absurd h2 (luaG_runerror_ne_ret _ _ _ _ _ _)
  · rw [if_neg htm] at h2
    injection h2 with _ h3
    subst h3
    obtain ⟨-, -, o3, -, -⟩ := openSpace_spec ((m1.th L).top - f1).toNat (m1.th L).top (m1.th L)
    simp only [Machine.th_setTh_same, lua_State.setval]
    rw [o3]
    exact hci hgc

/-- When `precallC` returns, the frame it pushed has been popped. -/
theorem precallC_ret_ci (E : LuaEnv) (K : LuaConf) (m : Machine) (L : Nat) (func nresults : Int)
    (f : Nat) (n : Int) (m' : Machine) (h : precallC E K m L func nresults f = .ret n m')
    (hgc : ∀ mg, E.luaC_checkGC m L = .ret () mg → (mg.th L).ci = (m.th L).ci) :
    (m'.th L).ci = (m.th L).ci := by
  obtain ⟨func1, m1, m3, m4, h1, -, h3⟩ := precallC_ret E K m L func nresults f n m' h
  obtain ⟨-, hci⟩ := luaD.checkstackGCp_ret E K m L _ func func1 m1 h1
  rw [luaD.poscall_ret_ci E K m4 L _ n m' h3, ← hci hgc]
  simp

/-- When `precall` returns `NULL`, the current frame is the one before the call. -/
theorem luaD.precall_none_ci (E : LuaEnv) (K : LuaConf) (L : Nat) (nresults : Int)
    (hgc : ∀ m0 mg, E.luaC_checkGC m0 L = .ret () mg → (mg.th L).ci = (m0.th L).ci)
    (fuel : Nat) :
    ∀ (m : Machine) (func : Int) (m' : Machine),
      luaD.precall E K fuel m L func nresults = .ret none m' → (m'.th L).ci = (m.th L).ci := by
  induction fuel with
  | zero =>
    intro m func m' h
    simp [luaD.precall] at h
  | succ fuel ih =>
    intro m func m' h
    have hC : ∀ f, (precallC E K m L func nresults f).bind (fun _ m1 => Outcome.ret none m1)
        = .ret (none : Option Nat) m' → (m'.th L).ci = (m.th L).ci := by
      intro f h
      obtain ⟨n, m1, h1, h2⟩ := Outcome.bind_eq_ret _ _ _ _ h
      injection h2 with _ h3
      subst h3
      exact precallC_ret_ci E K m L func nresults f n m1 h1 (hgc m)
    have hT : (tryfuncTM E K m L func).bind
          (fun func m1 => luaD.precall E K fuel m1 L func nresults) = .ret none m' →
        (m'.th L).ci = (m.th L).ci := by
      intro h
      obtain ⟨f1, m1, h1, h2⟩ := Outcome.bind_eq_ret _ _ _ _ h
      rw [ih m1 f1 m' h2]
      exact tryfuncTM_ret_ci E K m L func f1 m1 h1 (hgc m)
    cases hv : (m.th L).val func with
    | ccl f => simp only [luaD.precall, hv] at h; exact hC f h
    | lcf f => simp only [luaD.precall, hv] at h; exact hC f h
    | lcl p =>
      simp only [luaD.precall, hv] at h
      obtain ⟨f1, m1, -, h2⟩ := Outcome.bind_eq_ret _ _ _ _ h
      simp at h2
    | nil => simp only [luaD.precall, hv] at h; exact hT h
    | boolean b => simp only [luaD.precall, hv] at h; exact hT h
    | integer n => simp only [luaD.precall, hv] at h; exact hT h
    | str ts => simp only [luaD.precall, hv] at h; exact hT h
    | obj tag ref => simp only [luaD.precall, hv] at h; exact hT h

/-- C33: frames form a strict LIFO chain (the frame `ci->previous` of a frame
at depth `ci` is the frame at depth `ci - 1`; the collector is taken not to
change the current frame of the thread).

* Whenever `luaD::poscall(L, ci, nres)` returns, `L->ci` is `ci->previous`; and
  it does return when no hook is active, the wanted count carries no
  to-be-closed mark and the results lie above the function slot.
* Whenever `precallC` returns, the frame pushed for the call (one above the
  frame current after the stack check) has been popped: `L->ci` is the frame
  that was current before the call.
* Whenever `luaD::precall` returns `NULL`, `L->ci` is the same frame as before
  the call, through any number of `__call` substitutions. -/
theorem frames_lifo (E : LuaEnv) (K : LuaConf) (L : Nat)
    (hgc : ∀ m0 mg, E.luaC_checkGC m0 L = .ret () mg → (mg.th L).ci = (m0.th L).ci) :
    (∀ m ci nres m', luaD.poscall E K m L ci nres = .ret () m' → (m'.th L).ci = ci - 1) ∧
    (∀ m ci nres, 0 ≤ nres → (m.th L).hookmask = 0 →
      K.hastocloseCfunc ((m.th L).cis ci).nresults = false →
      ((m.th L).cis ci).func ≤ (m.th L).top - nres →
      ∃ m', luaD.poscall E K m L ci nres = .ret () m' ∧ (m'.th L).ci = ci - 1) ∧
    (∀ m func nresults f n m', precallC E K m L func nresults f = .ret n m' →
      (m'.th L).ci = (m.th L).ci ∧
      ∃ func1 m1 m3 m4,
        luaD.checkstackGCp E K m L LUA_MINSTACK func = .ret func1 m1 ∧
        ((prepCallInfo m1 L func1 nresults K.CIST_C ((m1.th L).top + LUA_MINSTACK)).2.th L).ci
          = (m.th L).ci + 1 ∧
        E.cfunction f m3 L = .ret n m4 ∧
        luaD.poscall E K m4 L ((m.th L).ci + 1) n = .ret () m') ∧
    (∀ fuel m func nresults m', luaD.precall E K fuel m L func nresults = .ret none m' →
      (m'.th L).ci = (m.th L).ci) := by
  refine ⟨?_, ?_, ?_, ?_⟩
  · intro m ci nres m' h
    exact luaD.poscall_ret_ci E K m L ci nres m' h
  · intro m ci nres h0 hm ht hf
    obtain ⟨mp, h1, -, -, -, h5, -⟩ := luaD.poscall_nohook E K m L ci nres h0 hm ht hf
    exact ⟨mp, h1, h5⟩
  · intro m func nresults f n m' h
    refine ⟨precallC_ret_ci E K m L func nresults f n m' h (hgc m), ?_⟩
    obtain ⟨func1, m1, m3, m4, h1, h2, h3⟩ := precallC_ret E K m L func nresults f n m' h
    obtain ⟨-, hci⟩ := luaD.checkstackGCp_ret E K m L _ func func1 m1 h1
    have hci' := hci (hgc m)
    refine ⟨func1, m1, m3, m4, h1, ?_, h2, ?_⟩
    · simp [prepCallInfo, next_ci, lua_State.setci, hci']
    · rw [← hci']
      exact h3
  · intro fuel m func nresults m' h
    exact luaD.precall_none_ci E K L nresults hgc fuel m func m' h

/-- Witness for C33: on a fresh thread (base frame current), calling the light
C function in slot 1001 returns `NULL` with the base frame current again. -/
theorem frames_lifo_witness :
    ∃ m', luaD.precall env0 stdConf 1 (machinePre (.lcf 0)) 0 1001 0 = .ret none m' ∧
      (m'.th 0).ci = 0 := by
  have h := (frames_lifo env0 stdConf 0 (fun m0 mg h => by
    simp only [env0] at h
    injection h with _ h2
    rw [h2])).2.2.2 1 (machinePre (.lcf 0)) 1001 0
    ((luaD.precall env0 stdConf 1 (machinePre (.lcf 0)) 0 1001 0).machineD machine0) rfl
  exact ⟨_, rfl, h⟩

/-! ## Frames stay below the stack limit (C34) -/

/-- The copy loop keeps the stack limit. -/
theorem copyResults_stack_last (res first : Int) (k : Nat) :
    ∀ (i0 : Int) (s : lua_State), (copyResults res first k i0 s).stack_last = s.stack_last := by
  induction k with
  | zero => intro i0 s; rfl
  | succ k ih =>
    intro i0 s
    simp only [copyResults]
    rw [ih]
    rfl

/-- The copy loop keeps the frames. -/
theorem copyResults_cis (res first : Int) (k : Nat) :
    ∀ (i0 : Int) (s : lua_State), (copyResults res first k i0 s).cis = s.cis := by
  induction k with
  | zero => intro i0 s; rfl
  | succ k ih =>
    intro i0 s
    simp only [copyResults]
    rw [ih]
    rfl

/-- The padding loop keeps the stack limit. -/
theorem fillNil_stack_last (res : Int) (k : Nat) :
    ∀ (i0 : Int) (s : lua_State), (fillNil res k i0 s).stack_last = s.stack_last := by
  induction k with
  | zero => intro i0 s; rfl
  | succ k ih =>
    intro i0 s
    simp only [fillNil]
    rw [ih]
    rfl

/-- C34: the three checks `lua_assert(ci->top.p <= L->stack_last.p)` cannot
fail.  In each case the stack check has returned (growth, if needed, has
succeeded), leaving the machine `m1` with the function slot at `func1`.

* `luaD::precall` for a Lua closure whose function slot lies below `L->top`:
  the frame returned has `top = func + 1 + framesize <= stack_last`.
* `precallC`: the frame pushed has `top = L->top + LUA_MINSTACK <= stack_last`
  when the function is about to be called.
* `luaD::pretailcall` for a Lua closure, the function slot of the frame lying
  below `L->top` (as it does when the called value lies below `L->top` and not
  below the function slot of its frame): the frame has
  `top = ci->func - delta + 1 + framesize <= stack_last`. -/
theorem frame_top_below_limit (E : LuaEnv) (K : LuaConf) (L : Nat) :
    (∀ (fuel : Nat) (m : Machine) (func w : Int) (p : Proto) (func1 : Int) (m1 : Machine),
      (m.th L).val func = .lcl p →
      luaD.checkstackGCp E K m L p.maxstacksize func = .ret func1 m1 →
      func1 < (m1.th L).top →
      ∃ m2, luaD.precall E K (fuel + 1) m L func w = .ret (some ((m1.th L).ci + 1)) m2 ∧
        ((m2.th L).cis ((m1.th L).ci + 1)).top = func1 + 1 + p.maxstacksize ∧
        ((m2.th L).cis ((m1.th L).ci + 1)).top ≤ (m2.th L).stack_last) ∧
    (∀ (m : Machine) (func nresults : Int) (f : Nat) (func1 : Int) (m1 : Machine),
      luaD.checkstackGCp E K m L LUA_MINSTACK func = .ret func1 m1 →
      ∃ mF, mF = (prepCallInfo m1 L func1 nresults K.CIST_C ((m1.th L).top + LUA_MINSTACK)).2 ∧
        precallC E K m L func nresults f
          = ((if (mF.th L).hookmask &&& LUA_MASKCALL ≠ 0 then
                luaD.hook E K mF L LUA_HOOKCALL (-1) 1 (((mF.th L).top - func1) - 1)
              else .ret () mF).bind fun _ m3 =>
              (E.cfunction f m3 L).bind fun n m4 =>
                (luaD.poscall E K m4 L ((m1.th L).ci + 1) n).bind fun _ m5 => .ret n m5) ∧
        (mF.th L).ci = (m1.th L).ci + 1 ∧
        ((mF.th L).cis ((m1.th L).ci + 1)).top = (m1.th L).top + LUA_MINSTACK ∧
        ((mF.th L).cis ((m1.th L).ci + 1)).top ≤ (mF.th L).stack_last) ∧
    (∀ (fuel : Nat) (m : Machine) (ci : Nat) (func narg1 delta : Int) (p : Proto)
        (func1 : Int) (m1 : Machine),
      (m.th L).val func = .lcl p →
      luaD.checkstackGCp E K m L (p.maxstacksize - delta) func = .ret func1 m1 →
      ((m1.th L).cis ci).func < (m1.th L).top →
      ∃ m2, luaD.pretailcall E K (fuel + 1) m L ci func narg1 delta = .ret (-1) m2 ∧
        ((m2.th L).cis ci).top = ((m1.th L).cis ci).func - delta + 1 + p.maxstacksize ∧
        ((m2.th L).cis ci).top ≤ (m2.th L).stack_last) ∧
    (∀ (m1 : Machine) (ci : Nat) (func1 : Int),
      ((m1.th L).cis ci).func ≤ func1 → func1 < (m1.th L).top →
      ((m1.th L).cis ci).func < (m1.th L).top) := by
  refine ⟨?_, ?_, ?_, ?_⟩
  · intro fuel m func w p func1 m1 hv hchk hlt
    obtain ⟨hroom, -, -⟩ := luaD.checkstackGCp_ret_top E K m L _ func func1 m1 hchk
    simp only [luaD.precall, hv, hchk, Outcome.bind, prepCallInfo, next_ci]
    refine ⟨_, rfl, ?_⟩
    simp only [Machine.th_setTh_same]
    obtain ⟨-, -, -, f4, -⟩ := fillNil_spec (m1.th L).top
      (p.numparams - ((m.th L).top - func - 1)).toNat 0
      ((({ m1.th L with ci := (m1.th L).ci + 1 } : lua_State).setci ((m1.th L).ci + 1) fun c =>
          { c with func := func1, nresults := w, callstatus := 0,
                   top := func1 + 1 + p.maxstacksize }).setci ((m1.th L).ci + 1) fun c =>
        { c with savedpc := p.code })
    have f6 := fillNil_stack_last (m1.th L).top
      (p.numparams - ((m.th L).top - func - 1)).toNat 0
      ((({ m1.th L with ci := (m1.th L).ci + 1 } : lua_State).setci ((m1.th L).ci + 1) fun c =>
          { c with func := func1, nresults := w, callstatus := 0,
                   top := func1 + 1 + p.maxstacksize }).setci ((m1.th L).ci + 1) fun c =>
        { c with savedpc := p.code })
    have b1 : ∀ (s : lua_State) (i : Nat) (g : CallInfo → CallInfo), (s.setci i g).top = s.top :=
      fun _ _ _ => rfl
    have b3 : ∀ (s : lua_State) (i : Nat) (g : CallInfo → CallInfo),
        (s.setci i g).cis i = g (s.cis i) := by
      intro s i g
      simp [lua_State.setci]
    have b4 : ∀ (s : lua_State) (i : Nat) (g : CallInfo → CallInfo),
        (s.setci i g).stack_last = s.stack_last := fun _ _ _ => rfl
    simp only [b1] at f4 f6 ⊢
    simp only [f4, f6, b3, b4]
    refine ⟨by trivial, ?_⟩
    omega
  · intro m func nresults f func1 m1 hchk
    obtain ⟨hroom, -, -⟩ := luaD.checkstackGCp_ret_top E K m L _ func func1 m1 hchk
    refine ⟨_, rfl, ?_, ?_, ?_, ?_⟩
    · simp only [precallC, hchk, Outcome.bind, prepCallInfo, next_ci]
    · simp [prepCallInfo, next_ci, lua_State.setci]
    · simp [prepCallInfo, next_ci, lua_State.setci]
    · simp only [prepCallInfo, next_ci, lua_State.setci, Machine.th_setTh_same,
        Function.update_same]
      exact le_of_le_of_eq (by omega) rfl
  · intro fuel m ci func narg1 delta p func1 m1 hv hchk hlt
    obtain ⟨hroom, -, -⟩ := luaD.checkstackGCp_ret_top E K m L _ func func1 m1 hchk
    simp only [luaD.pretailcall, hv, hchk, Outcome.bind]
    refine ⟨_, rfl, ?_⟩
    simp only [Machine.th_setTh_same]
    have a1 : (((m1.th L).setci ci fun c => { c with func := c.func - delta }).cis ci).func
        = ((m1.th L).cis ci).func - delta := by simp [lua_State.setci]
    have a5 : ((m1.th L).setci ci fun c => { c with func := c.func - delta }).stack_last
        = (m1.th L).stack_last := rfl
    generalize ((m1.th L).setci ci fun c => { c with func := c.func - delta }) = s1 at a1 a5 ⊢
    have c4 := copyResults_cis (s1.cis ci).func func1 narg1.toNat 0 s1
    have c6 := copyResults_stack_last (s1.cis ci).func func1 narg1.toNat 0 s1
    generalize copyResults (s1.cis ci).func func1 narg1.toNat 0 s1 = s2 at c4 c6 ⊢
    obtain ⟨-, -, -, f4, -⟩ := fillNil_spec (s2.cis ci).func
      (p.numparams + 1 - narg1).toNat narg1 s2
    have f6 := fillNil_stack_last (s2.cis ci).func (p.numparams + 1 - narg1).toNat narg1 s2
    generalize fillNil (s2.cis ci).func (p.numparams + 1 - narg1).toNat narg1 s2 = s3 at f4 f6 ⊢
    have hfunc : (s2.cis ci).func = ((m1.th L).cis ci).func - delta := by rw [c4, a1]
    simp only [lua_State.setci, Function.update_same, hfunc, f6, c6, a5]
    refine ⟨by trivial, ?_⟩
    omega
  · intro m1 ci func1 h1 h2
    omega

/-- Witness for C34: on a fresh thread (stack limit 1040) the closure in slot
1001 with frame size 5 gets a frame with `top = 1007`, below the limit. -/
theorem frame_top_below_limit_witness :
    ∃ m2, luaD.precall env0 stdConf 1
        (machinePre (.lcl { numparams := 2, maxstacksize := 5, is_vararg := false, code := 100 }))
        0 1001 1 = .ret (some 1) m2 ∧
      ((m2.th 0).cis 1).top = 1007 ∧ ((m2.th 0).cis 1).top ≤ (m2.th 0).stack_last := by
  obtain ⟨m2, h1, h2, h3⟩ := (frame_top_below_limit env0 stdConf 0).1 0
    (machinePre (.lcl { numparams := 2, maxstacksize := 5, is_vararg := false, code := 100 }))
    1001 1 { numparams := 2, maxstacksize := 5, is_vararg := false, code := 100 } 1001
    (machinePre (.lcl { numparams := 2, maxstacksize := 5, is_vararg := false, code := 100 }))
    rfl rfl (by decide)
  exact ⟨m2, h1, h2, h3⟩

/-! ## Resizing keeps the stack limits (C35) -/

/-- The two returns of `reallocstack`: after a success the stack has the new
size and `top` and the frames of the chain keep their offsets; after a failure
nothing has changed. -/
theorem luaD.reallocstack_ret_limits (E : LuaEnv) (K : LuaConf) (m : Machine) (L : Nat)
    (newsize r v : Int) (m' : Machine) (h : luaD.reallocstack E K m L newsize r = .ret v m') :
    (m'.th L).ci = (m.th L).ci ∧
    (v ≠ 0 →
      (m'.th L).stack_last - (m'.th L).stack = newsize ∧
      (m'.th L).top - (m'.th L).stack = (m.th L).top - (m.th L).stack ∧
      (∀ i, i ≤ (m.th L).ci →
        ((m'.th L).cis i).top - (m'.th L).stack = ((m.th L).cis i).top - (m.th L).stack)) ∧
    (v = 0 →
      (m'.th L).stack_last = (m.th L).stack_last ∧
      (m'.th L).stack = (m.th L).stack ∧
      (m'.th L).top = (m.th L).top ∧
      (∀ i, ((m'.th L).cis i).top = ((m.th L).cis i).top)) := by
  cases ha : E.realloc (luaD.reallocstackEntry m L) L (m.th L).stack
          ((m.th L).stacksize + K.EXTRA_STACK) (newsize + K.EXTRA_STACK) with
  | none =>
    by_cases hr : r ≠ 0
    · obtain ⟨m1, h1, -⟩ := luaD.reallocstack_none E K m L newsize r ha
      rw [h1, if_pos hr] at h
      exact absurd h (luaD.lthrow_ne_ret _ _ _ _ _ _)
    · have hr0 : r = 0 := not_not.mp hr
      subst hr0
      obtain ⟨m1, h1, f1, -, f3, f4, -, -, f7, f8⟩ := luaD.reallocstack_fail_same E K m L newsize ha
      rw [h1] at h
      injection h with h2 h3
      subst h3
      refine ⟨f7, fun hv => absurd h2.symm hv, fun _ => ⟨f3, f1, f4, fun i => (f8 i).1⟩⟩
  | some p =>
    obtain ⟨m1, h1, s1, s2, s3, s4⟩ := luaD.reallocstack_some_offsets E K m L newsize r p ha
    rw [h1] at h
    injection h with h2 h3
    subst h3
    refine ⟨s2, fun _ => ⟨s1, s3, s4⟩, fun hv => ?_⟩
    rw [← h2] at hv
    exact absurd hv (by decide)

/-- C35: the stack invariant is preserved by resizing.  For every thread state
with a stack of non-negative size in which `L->top <= stack_last` and
`frame.top <= stack_last` for every frame of the chain:

* `luaD::shrinkstack` returns, whether or not it reallocates and whether or not
  the allocator gives a block, and the same inequalities hold afterwards;
* after every successful `luaD::growstack` (one that returns non-zero) the same
  inequalities hold;
* the number of slots in use that `shrinkstack` computes is greater than the
  offset of `L->top` and of the top of every frame of the chain, and the new size
  that `shrinkstack` chooses (when the number in use is at most
  `LUAI_MAXSTACK`, as it is whenever it reallocates) is never smaller than that
  number. -/
theorem resize_keeps_limits (E : LuaEnv) (K : LuaConf) (m : Machine) (L : Nat)
    (hsz : (m.th L).stack ≤ (m.th L).stack_last)
    (htop : (m.th L).top ≤ (m.th L).stack_last)
    (hfr : ∀ i, i ≤ (m.th L).ci → ((m.th L).cis i).top ≤ (m.th L).stack_last) :
    (∃ m', luaD.shrinkstack E K m L = .ret () m' ∧
      (m'.th L).ci = (m.th L).ci ∧
      (m'.th L).top ≤ (m'.th L).stack_last ∧
      (∀ i, i ≤ (m'.th L).ci → ((m'.th L).cis i).top ≤ (m'.th L).stack_last)) ∧
    (∀ n r v m', luaD.growstack E K m L n r = .ret v m' → v ≠ 0 →
      (m'.th L).ci = (m.th L).ci ∧
      (m'.th L).top ≤ (m'.th L).stack_last ∧
      (∀ i, i ≤ (m'.th L).ci → ((m'.th L).cis i).top ≤ (m'.th L).stack_last)) ∧
    ((m.th L).top - (m.th L).stack < stackinuse (m.th L) ∧
      (∀ i, i ≤ (m.th L).ci → ((m.th L).cis i).top - (m.th L).stack < stackinuse (m.th L)) ∧
      (stackinuse (m.th L) ≤ K.LUAI_MAXSTACK →
        stackinuse (m.th L)
          ≤ (if stackinuse (m.th L) > Int.tdiv K.LUAI_MAXSTACK 2 then K.LUAI_MAXSTACK
             else stackinuse (m.th L) * 2))) := by
  have h20 := stackinuse_ge (m.th L)
  simp only [LUA_MINSTACK] at h20
  obtain ⟨l1, l2, -⟩ := stackinuseLim_spec (m.th L) ((m.th L).ci + 1) (m.th L).top
  have hu1 : (m.th L).top - (m.th L).stack < stackinuse (m.th L) := by
    unfold stackinuse
    simp only
    split_ifs <;> omega
  have hu2 : ∀ i, i ≤ (m.th L).ci →
      ((m.th L).cis i).top - (m.th L).stack < stackinuse (m.th L) := by
    intro i hi
    have := l2 i (by omega)
    unfold stackinuse
    simp only
    split_ifs <;> omega
  have hn : stackinuse (m.th L) ≤ K.LUAI_MAXSTACK →
      stackinuse (m.th L)
        ≤ (if stackinuse (m.th L) > Int.tdiv K.LUAI_MAXSTACK 2 then K.LUAI_MAXSTACK
           else stackinuse (m.th L) * 2) := by
    intro hle
    split_ifs <;> omega
  refine ⟨?_, ?_, hu1, hu2, hn⟩
  · unfold luaD.shrinkstack
    simp only [luaE_shrinkCI]
    by_cases hc : stackinuse (m.th L) ≤ K.LUAI_MAXSTACK ∧ (m.th L).stacksize >
        (if stackinuse (m.th L) > Int.tdiv K.LUAI_MAXSTACK 3 then K.LUAI_MAXSTACK
          else stackinuse (m.th L) * 3)
    · rw [if_pos hc]
      obtain ⟨v, m1, h1, -⟩ := luaD.reallocstack_noraise E K m L
        (if stackinuse (m.th L) > Int.tdiv K.LUAI_MAXSTACK 2 then K.LUAI_MAXSTACK
          else stackinuse (m.th L) * 2)
      obtain ⟨r1, r2, r3⟩ := luaD.reallocstack_ret_limits E K m L _ 0 v m1 h1
      rw [h1]
      refine ⟨m1, rfl, r1, ?_, ?_⟩
      · by_cases hv : v = 0
        · obtain ⟨a1, a2, a3, a4⟩ := r3 hv
          rw [a1, a3]
          exact htop
        · obtain ⟨a1, a2, a3⟩ := r2 hv
          have := hn hc.1
          omega
      · intro i hi
        rw [r1] at hi
        by_cases hv : v = 0
        · obtain ⟨a1, a2, a3, a4⟩ := r3 hv
          rw [a1, a4]
          exact hfr i hi
        · obtain ⟨a1, a2, a3⟩ := r2 hv
          have := hn hc.1
          have := a3 i hi
          have := hu2 i hi
          omega
    · rw [if_neg hc]
      exact ⟨m, rfl, rfl, htop, hfr⟩
  · intro n r v m' h hv
    have hsize : (0 : Int) ≤ (m.th L).stacksize := by
      unfold lua_State.stacksize
      omega
    unfold luaD.growstack at h
    simp only at h
    by_cases h1 : (m.th L).stacksize > K.LUAI_MAXSTACK
    · rw [if_pos h1] at h
      by_cases hr : r ≠ 0
      · rw [if_pos hr] at h
        exact absurd h (luaD.lthrow_ne_ret _ _ _ _ _ _)
      · rw [if_neg hr] at h
        injection h with h5 _
        exact absurd h5.symm hv
    · rw [if_neg h1] at h
      by_cases h2 : n < K.LUAI_MAXSTACK
      · rw [if_pos h2] at h
        by_cases h3 : luaD.growstackNewsize K (m.th L) n ≤ K.LUAI_MAXSTACK
        · rw [if_pos h3] at h
          obtain ⟨r1, r2, -⟩ := luaD.reallocstack_ret_limits E K m L _ r v m' h
          obtain ⟨a1, a2, a3⟩ := r2 hv
          have hge : (m.th L).stacksize ≤ luaD.growstackNewsize K (m.th L) n := by
            unfold luaD.growstackNewsize
            simp only
            split_ifs <;> omega
          unfold lua_State.stacksize at hge
          refine ⟨r1, by omega, ?_⟩
          intro i hi
          rw [r1] at hi
          have := a3 i hi
          have := hfr i hi
          omega
        · rw [if_neg h3] at h
          exact absurd (luaD.growstackOverflow_ret E K m L r v m' h) hv
      · rw [if_neg h2] at h
        exact absurd (luaD.growstackOverflow_ret E K m L r v m' h) hv

/-- Witness for C35: the stack of 400 slots of which 22 are in use is shrunk to
44 slots, and `top` and the base frame stay below the new limit. -/
theorem resize_keeps_limits_witness :
    ∃ m', luaD.shrinkstack env0 stdConf machineBig 0 = .ret () m' ∧
      (m'.th 0).top ≤ (m'.th 0).stack_last ∧
      ((m'.th 0).cis 0).top ≤ (m'.th 0).stack_last := by
  obtain ⟨m', h1, h2, h3, h4⟩ := (resize_keeps_limits env0 stdConf machineBig 0 (by decide)
    (by decide) (fun i hi => by
      have : i = 0 := by
        have h0 : (machineBig.th 0).ci = 0 := rfl
        omega
      subst this
      decide)).1
  exact ⟨m', h1, h3, h4 0 (by rw [h2]; decide)⟩

/-! ## The frame effect of a hook call (C36) -/

/-- Setting a mask sets each part of it. -/
theorem lor_land_parts (x a b : Nat) :
    (x ||| a) &&& a = a ∧ (x ||| (a ||| b)) &&& a = a ∧ (x ||| (a ||| b)) &&& b = b := by
  refine ⟨?_, ?_, ?_⟩ <;>
  · apply Nat.eq_of_testBit_eq
    intro i
    simp only [Nat.testBit_and, Nat.testBit_or]
    cases x.testBit i <;> cases a.testBit i <;> cases b.testBit i <;> rfl

/-- Clearing a mask clears each part of it, and keeps the bits outside it. -/
theorem clearbits_parts (x a b : Nat) :
    clearbits x (a ||| b) &&& a = 0 ∧ clearbits x (a ||| b) &&& b = 0 ∧
    (a &&& b = 0 → clearbits x a &&& b = x &&& b) := by
  refine ⟨?_, ?_, ?_⟩
  · apply Nat.eq_of_testBit_eq
    intro i
    simp only [clearbits, Nat.testBit_and, Nat.testBit_xor, Nat.testBit_or, Nat.zero_testBit]
    cases x.testBit i <;> cases a.testBit i <;> cases b.testBit i <;> rfl
  · apply Nat.eq_of_testBit_eq
    intro i
    simp only [clearbits, Nat.testBit_and, Nat.testBit_xor, Nat.testBit_or, Nat.zero_testBit]
    cases x.testBit i <;> cases a.testBit i <;> cases b.testBit i <;> rfl
  · intro h
    apply Nat.eq_of_testBit_eq
    intro i
    have hi : (a &&& b).testBit i = false := by rw [h]; exact Nat.zero_testBit i
    simp only [Nat.testBit_and] at hi
    simp only [clearbits, Nat.testBit_and, Nat.testBit_xor]
    cases hx : x.testBit i <;> cases ha : a.testBit i <;> cases hb : b.testBit i <;>
      simp [ha, hb] at hi ⊢

/-- Setting a mask keeps the bits outside it. -/
theorem lor_land_disjoint (x a b : Nat) (h : a &&& b = 0) : (x ||| a) &&& b = x &&& b := by
  apply Nat.eq_of_testBit_eq
  intro i
  have hi : (a &&& b).testBit i = false := by rw [h]; exact Nat.zero_testBit i
  simp only [Nat.testBit_and] at hi
  simp only [Nat.testBit_and, Nat.testBit_or]
  cases hx : x.testBit i <;> cases ha : a.testBit i <;> cases hb : b.testBit i <;>
    simp [ha, hb] at hi ⊢

/-- The hook call in stages: when there is a hook, hooks are allowed and the
stack check returns, `luaD::hook` is the call of the hook function in the
machine `hookCall`, followed by the restoration `hookExit`. -/
theorem luaD.hook_stages (E : LuaEnv) (K : LuaConf) (m : Machine) (L : Nat)
    (event line ft nt : Int) (hk : Nat) (m3 : Machine)
    (hhook : (m.th L).hook = some hk) (hallow : (m.th L).allowhook ≠ 0)
    (hchk : luaD.checkstack E K (hookEntry K m L ft nt) L LUA_MINSTACK = .ret () m3) :
    luaD.hook E K m L event line ft nt
      = (E.hookf hk (hookCall m3 L (m.th L).ci (hookMask K nt)) L
          { event := event, currentline := line, i_ci := (m.th L).ci }).bind
        (fun _ m6 => .ret () (hookExit m m6 L (hookMask K nt))) := by
  have hchk1 := hchk
  unfold hookEntry at hchk1
  simp only at hchk1
  unfold luaD.hook
  simp only [hhook, if_pos hallow, hchk1, Outcome.bind]
  rfl

/-- C36: the frame effect of `luaD::hook`, for every thread state and hook
event, with `ci` the frame current at entry and `mask` being `CIST_HOOKED`, plus
`CIST_TRAN` when `ntransfer != 0`.

* When no hook is installed or `L->allowhook` is 0, `luaD::hook` returns at once
  and the state is unchanged: the hook function is not involved (so a hook is
  never invoked from inside a hook, where `allowhook` is 0).
* When a hook is installed, hooks are allowed and the stack check returns, the
  hook function is called once; during the call `L->allowhook` is 0 and the call
  status of the frame is its value at entry with the mask set: it carries
  `CIST_HOOKED`, and `CIST_TRAN` when `ntransfer != 0`.
* After the hook function returns normally, `luaD::hook` returns with
  `L->allowhook = 1`, `L->top` and the top of the frame at the same offsets from
  the stack base as before the call, and the mask cleared in the call status of
  the frame: `CIST_HOOKED` is clear, `CIST_TRAN` is clear when `ntransfer != 0`,
  and when `ntransfer = 0` (the two marks being distinct bits) `luaD::hook` neither
  sets nor clears `CIST_TRAN`: during the call the frame carries it exactly if it
  did at entry, and afterwards exactly if the hook function left it set; so a
  frame that does not carry `CIST_TRAN` at entry (the mark is set nowhere else)
  does not carry it afterwards. -/
theorem hook_frame_effect (E : LuaEnv) (K : LuaConf) (m : Machine) (L : Nat)
    (event line ft nt : Int) :
    (((m.th L).hook = none ∨ (m.th L).allowhook = 0) →
      luaD.hook E K m L event line ft nt = .ret () m) ∧
    (∀ hk m3, (m.th L).hook = some hk → (m.th L).allowhook ≠ 0 →
      luaD.checkstack E K (hookEntry K m L ft nt) L LUA_MINSTACK = .ret () m3 →
      luaD.hook E K m L event line ft nt
        = (E.hookf hk (hookCall m3 L (m.th L).ci (hookMask K nt)) L
            { event := event, currentline := line, i_ci := (m.th L).ci }).bind
          (fun _ m6 => .ret () (hookExit m m6 L (hookMask K nt))) ∧
      ((hookCall m3 L (m.th L).ci (hookMask K nt)).th L).allowhook = 0 ∧
      ((hookCall m3 L (m.th L).ci (hookMask K nt)).th L).ci = (m.th L).ci ∧
      (((hookCall m3 L (m.th L).ci (hookMask K nt)).th L).cis (m.th L).ci).callstatus
        = ((m.th L).cis (m.th L).ci).callstatus ||| hookMask K nt ∧
      (((hookCall m3 L (m.th L).ci (hookMask K nt)).th L).cis (m.th L).ci).callstatus
        &&& K.CIST_HOOKED = K.CIST_HOOKED ∧
      (nt ≠ 0 →
        (((hookCall m3 L (m.th L).ci (hookMask K nt)).th L).cis (m.th L).ci).callstatus
          &&& K.CIST_TRAN = K.CIST_TRAN) ∧
      (nt = 0 → K.CIST_HOOKED &&& K.CIST_TRAN = 0 →
        (((hookCall m3 L (m.th L).ci (hookMask K nt)).th L).cis (m.th L).ci).callstatus
          &&& K.CIST_TRAN = ((m.th L).cis (m.th L).ci).callstatus &&& K.CIST_TRAN) ∧
      (∀ u m6, E.hookf hk (hookCall m3 L (m.th L).ci (hookMask K nt)) L
            { event := event, currentline := line, i_ci := (m.th L).ci } = .ret u m6 →
        luaD.hook E K m L event line ft nt = .ret () (hookExit m m6 L (hookMask K nt)))) ∧
    (∀ m6,
      ((hookExit m m6 L (hookMask K nt)).th L).allowhook = 1 ∧
      ((hookExit m m6 L (hookMask K nt)).th L).top - ((hookExit m m6 L (hookMask K nt)).th L).stack
        = (m.th L).top - (m.th L).stack ∧
      (((hookExit m m6 L (hookMask K nt)).th L).cis (m.th L).ci).top
          - ((hookExit m m6 L (hookMask K nt)).th L).stack
        = ((m.th L).cis (m.th L).ci).top - (m.th L).stack ∧
      (((hookExit m m6 L (hookMask K nt)).th L).cis (m.th L).ci).callstatus
        = clearbits (((m6.th L).cis (m.th L).ci).callstatus) (hookMask K nt) ∧
      (((hookExit m m6 L (hookMask K nt)).th L).cis (m.th L).ci).callstatus
        &&& K.CIST_HOOKED = 0 ∧
      (nt ≠ 0 →
        (((hookExit m m6 L (hookMask K nt)).th L).cis (m.th L).ci).callstatus
          &&& K.CIST_TRAN = 0) ∧
      (nt = 0 → K.CIST_HOOKED &&& K.CIST_TRAN = 0 →
        (((hookExit m m6 L (hookMask K nt)).th L).cis (m.th L).ci).callstatus &&& K.CIST_TRAN
          = ((m6.th L).cis (m.th L).ci).callstatus &&& K.CIST_TRAN)) := by
  refine ⟨?_, ?_, ?_⟩
  · intro h
    unfold luaD.hook
    rcases h with h | h
    · simp only [h]
    · cases hh : (m.th L).hook with
      | none => rfl
      | some hk => simp only [h, ne_eq, not_true_eq_false, if_false]
  · intro hk m3 hhook hallow hchk
    obtain ⟨k1, -, k3⟩ := luaD.checkstack_ret_keeps E K _ L _ m3 hchk
    have e3 : (((hookEntry K m L ft nt).th L).cis (m.th L).ci).callstatus
        = ((m.th L).cis (m.th L).ci).callstatus := by
      unfold hookEntry
      simp only [Machine.th_setTh_same]
      split_ifs <;> simp [lua_State.setci]
    have k3' := k3 (m.th L).ci
    rw [e3] at k3'
    have hst := luaD.hook_stages E K m L event line ft nt hk m3 hhook hallow hchk
    have hcs : (((hookCall m3 L (m.th L).ci (hookMask K nt)).th L).cis (m.th L).ci).callstatus
        = ((m.th L).cis (m.th L).ci).callstatus ||| hookMask K nt := by
      simp only [hookCall, Machine.th_setTh_same, lua_State.setci, Function.update_same]
      split_ifs <;> simp [k3']
    refine ⟨hst, ?_, ?_, hcs, ?_, ?_, ?_, ?_⟩
    · simp only [hookCall, Machine.th_setTh_same, lua_State.setci]
    · have e1 : ((hookEntry K m L ft nt).th L).ci = (m.th L).ci := by
        unfold hookEntry
        simp only [Machine.th_setTh_same]
        split_ifs <;> rfl
      simp only [hookCall, Machine.th_setTh_same, lua_State.setci]
      split_ifs <;> simp [k1, e1]
    · rw [hcs]
      unfold hookMask
      split_ifs
      · exact (lor_land_parts _ _ _).2.1
      · exact (lor_land_parts _ _ K.CIST_TRAN).1
    · intro hnt
      rw [hcs]
      unfold hookMask
      rw [if_pos hnt]
      exact (lor_land_parts _ _ _).2.2
    · intro hnt hd
      rw [hcs]
      unfold hookMask
      rw [if_neg (not_not.mpr hnt)]
      exact lor_land_disjoint _ _ _ hd
    · intro u m6 hf
      rw [hst, hf]
      rfl
  · intro m6
    have hcs : (((hookExit m m6 L (hookMask K nt)).th L).cis (m.th L).ci).callstatus
        = clearbits (((m6.th L).cis (m.th L).ci).callstatus) (hookMask K nt) := by
      simp [hookExit, lua_State.setci]
    refine ⟨?_, ?_, ?_, hcs, ?_, ?_, ?_⟩
    · simp [hookExit, lua_State.setci]
    · simp [hookExit, lua_State.setci, luaD.savestack, luaD.restorestack]
    · simp [hookExit, lua_State.setci, luaD.savestack, luaD.restorestack]
    · rw [hcs]
      unfold hookMask
      split_ifs
      · exact (clearbits_parts _ _ _).1
      · exact clearbits_and_mask _ _
    · intro hnt
      rw [hcs]
      unfold hookMask
      rw [if_pos hnt]
      exact (clearbits_parts _ _ _).2.1
    · intro hnt hd
      rw [hcs]
      unfold hookMask
      rw [if_neg (not_not.mpr hnt)]
      exact (clearbits_parts _ _ _).2.2 hd

/-- Witness for C36: thread 0 of `machineHooked`, in an interpreted frame at
depth 1 with `top` at 1007 and the frame top at 1009, calls a line hook that
returns at once: `luaD::hook` returns with `allowhook = 1`, `top` still at 1007,
the frame top at 1009 and no mark left in the call status of the frame. -/
theorem hook_frame_effect_witness :
    ∃ m', luaD.hook env0 stdConf machineHooked 0 LUA_HOOKLINE 3 0 0 = .ret () m' ∧
      (m'.th 0).allowhook = 1 ∧ (m'.th 0).top = 1007 ∧ ((m'.th 0).cis 1).top = 1009 ∧
      ((m'.th 0).cis 1).callstatus = 0 := by
  obtain ⟨-, -, -, -, -, -, -, h7⟩ := (hook_frame_effect env0 stdConf machineHooked 0 LUA_HOOKLINE
    3 0 0).2.1 0 (hookEntry stdConf machineHooked 0 0 0) rfl (by decide) rfl
  refine ⟨_, h7 () _ rfl, ?_, ?_, ?_, ?_⟩ <;> decide!

/-! ## Reading from a buffered stream (C37) -/

/-- The refill at the head of the loop body of `Zio::read`: either the stream
is at its end, or the loop goes on with a stream that has a byte in its buffer
and the same unread bytes. -/
theorem Zio.refill_spec (z : Zio) (hwf : z.wf) :
    (∀ ze, z.refill = (none, ze) → z.unread = [] ∧ ze.wf ∧ ze.n = 0) ∧
    (∀ z1 ze, z.refill = (some z1, ze) → z1.wf ∧ 0 < z1.n ∧ z1.unread = z.unread) := by
  unfold Zio.wf at hwf
  unfold Zio.refill
  by_cases hz : z.n = 0
  · simp only [hz, if_true]
    have hu : z.unread = streamBytes z.chunks := by
      simp [Zio.unread, hz]
    cases hc : z.chunks with
    | nil =>
      simp only [Zio.fill, Zio.callReader, hc, if_true]
      refine ⟨?_, ?_⟩
      · intro ze h
        injection h with _ h2
        subst h2
        exact ⟨by rw [hu, hc]; rfl, hwf, hz⟩
      · intro z1 ze h
        simp at h
    | cons c rest =>
      cases c with
      | none =>
        simp only [Zio.fill, Zio.callReader, hc, if_true]
        refine ⟨?_, ?_⟩
        · intro ze h
          injection h with _ h2
          subst h2
          exact ⟨by rw [hu, hc]; rfl, hwf, hz⟩
        · intro z1 ze h
          simp at h
      | some buff =>
        cases buff with
        | nil =>
          simp only [Zio.fill, Zio.callReader, hc, List.length_nil, if_true]
          refine ⟨?_, ?_⟩
          · intro ze h
            injection h with _ h2
            subst h2
            exact ⟨by rw [hu, hc]; rfl, hwf, hz⟩
          · intro z1 ze h
            simp at h
        | cons b bs =>
          have hne : ¬ (((((b :: bs).getD 0 0 % 256 : Nat) : Int)) = EOZ) := by
            unfold EOZ
            omega
          simp only [Zio.fill, Zio.callReader, hc, List.length_cons, Nat.add_one_ne_zero,
            if_false, hne]
          refine ⟨?_, ?_⟩
          · intro ze h
            simp at h
          · intro z1 ze h
            injection h with h1 _
            injection h1 with h1
            subst h1
            refine ⟨?_, ?_, ?_⟩
            · simp [Zio.wf]
            · simp
            · rw [hu, hc]
              simp [Zio.unread, streamBytes]
  · simp only [if_neg hz]
    refine ⟨?_, ?_⟩
    · intro ze h
      simp at h
    · intro z1 ze h
      injection h with h1 _
      injection h1 with h1
      subst h1
      exact ⟨hwf, by omega, rfl⟩

/-- The loop of `Zio::read`, given enough turns: it returns the number of
missing bytes, has written the next unread bytes, and leaves the stream behind
the bytes it copied. -/
theorem Zio.readLoop_spec (fuel : Nat) :
    ∀ (z : Zio) (b : List Nat) (n : Nat), z.wf → n ≤ fuel →
      ∃ z', Zio.readLoop fuel z b n
          = some (n - z.unread.length, b ++ z.unread.take n, z') ∧
        z'.wf ∧
        (n ≤ z.unread.length → z'.unread = z.unread.drop n) ∧
        (z.unread.length < n → z'.n = 0) := by
  induction fuel with
  | zero =>
    intro z b n hwf hn
    have : n = 0 := by omega
    subst this
    exact ⟨z, by simp [Zio.readLoop], hwf, fun _ => by simp, fun h => by omega⟩
  | succ fuel ih =>
    intro z b n hwf hn
    cases n with
    | zero => exact ⟨z, by simp [Zio.readLoop], hwf, fun _ => by simp, fun h => by omega⟩
    | succ n =>
      obtain ⟨he, hs⟩ := Zio.refill_spec z hwf
      unfold Zio.readLoop
      cases hr : z.refill with
      | mk o ze =>
        cases o with
        | none =>
          obtain ⟨hu, hw, hn0⟩ := he ze hr
          refine ⟨ze, ?_, hw, ?_, fun _ => hn0⟩
          · simp [hu]
          · intro h
            rw [hu] at h
            simp at h
        | some z1 =>
          obtain ⟨hw1, hpos, hu1⟩ := hs z1 ze hr
          simp only
          unfold Zio.wf at hw1
          generalize hm : (if n + 1 ≤ z1.n then n + 1 else z1.n) = m
          have hm1 : 1 ≤ m := by
            rw [← hm]
            split_ifs <;> omega
          have hm2 : m ≤ z1.n := by
            rw [← hm]
            split_ifs <;> omega
          have hm3 : m ≤ n + 1 := by
            rw [← hm]
            split_ifs <;> omega
          have hwf2 : ({ z1 with n := z1.n - m, pos := z1.pos + m } : Zio).wf := by
            simp only [Zio.wf]
            omega
          have hsplit : z.unread = (z1.buf.drop z1.pos).take m
              ++ ({ z1 with n := z1.n - m, pos := z1.pos + m } : Zio).unread := by
            rw [← hu1]
            simp only [Zio.unread]
            rw [← List.append_assoc]
            congr 1
            have e1 : List.drop (z1.pos + m) z1.buf = List.drop m (List.drop z1.pos z1.buf) := by
              rw [List.drop_drop, Nat.add_comm]
            rw [e1]
            have e2 : List.take (z1.n - m) (List.drop m (List.drop z1.pos z1.buf))
                = List.drop m (List.take z1.n (List.drop z1.pos z1.buf)) := by
              rw [List.drop_take]
            rw [e2]
            have e3 : List.take m (List.drop z1.pos z1.buf)
                = List.take m (List.take z1.n (List.drop z1.pos z1.buf)) := by
              rw [List.take_take]
              congr 1
              omega
            rw [e3, List.take_append_drop]
          have hlen : ((z1.buf.drop z1.pos).take m).length = m := by
            simp only [List.length_take, List.length_drop]
            omega
          obtain ⟨z', h1, h2, h3, h4⟩ := ih { z1 with n := z1.n - m, pos := z1.pos + m }
            (b ++ (z1.buf.drop z1.pos).take m) (n + 1 - m) hwf2 (by omega)
          generalize ({ z1 with n := z1.n - m, pos := z1.pos + m } : Zio) = z2 at h1 h3 h4 hsplit
          generalize hT : (z1.buf.drop z1.pos).take m = tm at h1 hsplit hlen
          refine ⟨z', ?_, h2, ?_, ?_⟩
          · rw [h1, hsplit]
            have e4 : (tm ++ z2.unread).take (n + 1) = tm ++ z2.unread.take (n + 1 - m) := by
              rw [List.take_append_eq_append_take, hlen]
              congr 1
              exact List.take_of_length_le (by omega)
            rw [e4, List.length_append, hlen, List.append_assoc]
            congr 2
            omega
          · intro hle
            rw [hsplit, List.length_append, hlen] at hle
            rw [h3 (by omega), hsplit]
            rw [List.drop_append_eq_append_drop, hlen]
            have : List.drop (n + 1) tm = [] := List.drop_of_length_le (by omega)
            rw [this, List.nil_append]
          · intro hlt
            rw [hsplit, List.length_append, hlen] at hlt
            exact h4 (by omega)

/-- C37: for every stream whose count agrees with its buffer and every `n`:
`Zio::read(b, n)` returns, and it returns the number of missing bytes, that is, 0
when the stream still held at least `n` unread bytes and `n` minus the number of
unread bytes otherwise; the bytes written to `b` are exactly the next unread
bytes of the stream, in order and across chunk boundaries (the first `n` of
them, or all of them when fewer are left); and the stream position advances by
exactly the number of bytes copied: when nothing is missing, the unread bytes
afterwards are the old ones without the first `n`, and otherwise the buffer is
used up (the stream is at its end). -/
theorem zio_read_spec (z : Zio) (n : Nat) (hwf : z.wf) :
    ∃ z', z.read n = some (n - z.unread.length, z.unread.take n, z') ∧
      (n ≤ z.unread.length → n - z.unread.length = 0) ∧
      (z.unread.take n).length = n - (n - z.unread.length) ∧
      z'.wf ∧
      (n ≤ z.unread.length → z'.unread = z.unread.drop n) ∧
      (z.unread.length < n → z'.n = 0) := by
  obtain ⟨z', h1, h2, h3, h4⟩ := Zio.readLoop_spec n z [] n hwf (le_refl _)
  refine ⟨z', ?_, fun h => by omega, ?_, h2, h3, h4⟩
  · unfold Zio.read
    rw [h1]
    simp
  · simp only [List.length_take]
    omega

/-- Witness for C37: from a stream of the chunks `1 2 3` and `4 5`, reading 4
bytes returns 0 and writes `1 2 3 4`, leaving `5` unread; reading 7 bytes
returns 2 (missing) and writes `1 2 3 4 5`. -/
theorem zio_read_spec_witness :
    (∃ z', zioTwo.read 4 = some (0, [1, 2, 3, 4], z') ∧ z'.unread = [5]) ∧
    (∃ z', zioTwo.read 7 = some (2, [1, 2, 3, 4, 5], z')) := by
  obtain ⟨z1, h1, -, -, -, h5, -⟩ := zio_read_spec zioTwo 4 rfl
  obtain ⟨z2, h2, -⟩ := zio_read_spec zioTwo 7 rfl
  exact ⟨⟨z1, h1, by rw [h5 (by decide)]; rfl⟩, ⟨z2, h2⟩⟩

/-! ## The header of a precompiled chunk (C38) -/

/-- With a writer that succeeds, `dumpBlock` appends to the output exactly the
`size` bytes at `b`, and the status stays 0. -/
theorem DumpState.dumpBlock_ok (C : DumpConf) (hw : ∀ blk, C.writer blk = 0) (D : DumpState)
    (b : Nat → Nat) (size : Nat) (hD : D.status = 0) :
    (DumpState.dumpBlock C D b size).status = 0 ∧
    (DumpState.dumpBlock C D b size).out = D.out ++ (List.range size).map b := by
  unfold DumpState.dumpBlock
  by_cases hs : size > 0
  · rw [if_pos ⟨hD, hs⟩]
    exact ⟨hw _, rfl⟩
  · have : size = 0 := by omega
    subst this
    simp [hD]

/-- C38, as the code has it: the header that `luaU::dump` passes to the writer
(the writer succeeding).  `dumpLiteral` passes `sizeof(const char*) - 1` bytes
from the address of the literal, whatever the length of the literal; `dumpVar`,
and so `dumpInteger` and `dumpNumber`, pass one byte, the first byte of the
object in memory.  So the header is: `sizeof(const char*) - 1` bytes from the
address of `LUA_SIGNATURE`, the version byte, the format byte,
`sizeof(const char*) - 1` bytes from the address of `LUAC_DATA`, the three size
bytes, the first byte of `LUAC_INT` and the first byte of `LUAC_NUM`:
`2 * (sizeof(const char*) - 1) + 7` bytes in all, and not the header of the
format whenever that has another length. -/
theorem dumpHeader_bytes (C : DumpConf) (hw : ∀ blk, C.writer blk = 0) :
    (DumpState.dumpHeader C dumpStart).out
      = (List.range (C.sizeofPtr - 1)).map (literalMemory LUA_SIGNATURE C.behindSignature)
        ++ [(LUAC_VERSION % 256).toNat, (LUAC_FORMAT % 256).toNat]
        ++ (List.range (C.sizeofPtr - 1)).map (literalMemory LUAC_DATA C.behindData)
        ++ [C.sizeofInstruction % 256, C.sizeofInteger % 256, C.sizeofNumber % 256]
        ++ [(C.integerBytes LUAC_INT).getD 0 0] ++ [C.luacNumBytes.getD 0 0] ∧
    (DumpState.dumpHeader C dumpStart).out.length = 2 * (C.sizeofPtr - 1) + 7 ∧
    (∀ (D : DumpState) (x : Int), D.status = 0 →
      (DumpState.dumpInteger C D x).out = D.out ++ [(C.integerBytes x).getD 0 0]) ∧
    (∀ (D : DumpState) (x : List Nat), D.status = 0 →
      (DumpState.dumpNumber C D x).out = D.out ++ [x.getD 0 0]) ∧
    (∀ (D : DumpState) (chars : List Nat) (behind : Nat → Nat), D.status = 0 →
      (DumpState.dumpLiteral C D (literalMemory chars behind)).out
        = D.out ++ (List.range (C.sizeofPtr - 1)).map (literalMemory chars behind)) ∧
    ((headerOfFormat C).length ≠ 2 * (C.sizeofPtr - 1) + 7 →
      (DumpState.dumpHeader C dumpStart).out ≠ headerOfFormat C) := by
  have hvar : ∀ (D : DumpState) (bytes : List Nat), D.status = 0 →
      (DumpState.dumpVar C D (objectMemory bytes)).status = 0 ∧
      (DumpState.dumpVar C D (objectMemory bytes)).out = D.out ++ [bytes.getD 0 0] := by
    intro D bytes hD
    obtain ⟨h1, h2⟩ := DumpState.dumpBlock_ok C hw D (objectMemory bytes) 1 hD
    exact ⟨h1, by rw [DumpState.dumpVar, h2]; rfl⟩
  have hbyte : ∀ (D : DumpState) (y : Int), D.status = 0 →
      (DumpState.dumpByte C D y).status = 0 ∧
      (DumpState.dumpByte C D y).out = D.out ++ [(y % 256).toNat] := by
    intro D y hD
    obtain ⟨h1, h2⟩ := hvar D [(y % 256).toNat] hD
    exact ⟨h1, by rw [DumpState.dumpByte, h2]; rfl⟩
  have hlit : ∀ (D : DumpState) (s : Nat → Nat), D.status = 0 →
      (DumpState.dumpLiteral C D s).status = 0 ∧
      (DumpState.dumpLiteral C D s).out = D.out ++ (List.range (C.sizeofPtr - 1)).map s := by
    intro D s hD
    exact DumpState.dumpBlock_ok C hw D s _ hD
  have hnat : ∀ n : Nat, (((n : Int) % 256).toNat) = n % 256 := by
    intro n
    omega
  have hout : (DumpState.dumpHeader C dumpStart).out
      = (List.range (C.sizeofPtr - 1)).map (literalMemory LUA_SIGNATURE C.behindSignature)
        ++ [(LUAC_VERSION % 256).toNat, (LUAC_FORMAT % 256).toNat]
        ++ (List.range (C.sizeofPtr - 1)).map (literalMemory LUAC_DATA C.behindData)
        ++ [C.sizeofInstruction % 256, C.sizeofInteger % 256, C.sizeofNumber % 256]
        ++ [(C.integerBytes LUAC_INT).getD 0 0] ++ [C.luacNumBytes.getD 0 0] := by
    unfold DumpState.dumpHeader
    simp only
    obtain ⟨s1, o1⟩ := hlit dumpStart (literalMemory LUA_SIGNATURE C.behindSignature) rfl
    obtain ⟨s2, o2⟩ := hbyte _ LUAC_VERSION s1
    obtain ⟨s3, o3⟩ := hbyte _ LUAC_FORMAT s2
    obtain ⟨s4, o4⟩ := hlit _ (literalMemory LUAC_DATA C.behindData) s3
    obtain ⟨s5, o5⟩ := hbyte _ C.sizeofInstruction s4
    obtain ⟨s6, o6⟩ := hbyte _ C.sizeofInteger s5
    obtain ⟨s7, o7⟩ := hbyte _ C.sizeofNumber s6
    obtain ⟨s8, o8⟩ := hvar _ (C.integerBytes LUAC_INT) s7
    obtain ⟨-, o9⟩ := hvar _ C.luacNumBytes s8
    rw [DumpState.dumpNumber, DumpState.dumpInteger, o9, o8, o7, o6, o5, o4, o3, o2, o1,
      hnat, hnat, hnat]
    simp [dumpStart]
  refine ⟨hout, ?_, ?_, ?_, ?_, ?_⟩
  · rw [hout]
    simp
    omega
  · intro D x hD
    exact (hvar D _ hD).2
  · intro D x hD
    exact (hvar D _ hD).2
  · intro D chars behind hD
    exact (hlit D _ hD).2
  · intro hlen heq
    apply hlen
    rw [← heq, hout]
    simp
    omega

/-- Witness for C38: on the 64-bit platform the header passed to the writer has
21 bytes: 7 bytes from the address of the signature, 2 bytes, 7 bytes from
the address of `LUAC_DATA`, 3 size bytes, and one byte each of `LUAC_INT` and
`LUAC_NUM`. -/
theorem dumpHeader_bytes_witness :
    (DumpState.dumpHeader dumpConf64 dumpStart).out.length = 21 ∧
    (DumpState.dumpInteger dumpConf64 dumpStart LUAC_INT).out = [0x78] :=
  ⟨(dumpHeader_bytes dumpConf64 (fun _ => rfl)).2.1,
   (dumpHeader_bytes dumpConf64 (fun _ => rfl)).2.2.1 dumpStart LUAC_INT rfl⟩

/-- The divergence for C38 on the 64-bit platform: the format has a header of 31
bytes; the code passes 21 bytes to the writer: the signature is followed by its
terminating zero and two bytes from behind the literal, `LUAC_DATA` by its
terminating zero, and of the 8 bytes of `LUAC_INT` (`78 56 00 ..`) and of
`LUAC_NUM` (`00 .. 28 77 40`) only the first is written. -/
theorem dumpHeader_bytes_counterexample :
    (DumpState.dumpHeader dumpConf64 dumpStart).out
      = [0x1b, 76, 117, 97, 0, 0xAA, 0xAB, 84, 0, 0x19, 0x93, 13, 10, 0x1a, 10, 0,
         4, 8, 8, 0x78, 0] ∧
    headerOfFormat dumpConf64
      = [0x1b, 76, 117, 97, 84, 0, 0x19, 0x93, 13, 10, 0x1a, 10, 4, 8, 8,
         0x78, 0x56, 0, 0, 0, 0, 0, 0, 0, 0, 0, 0, 0, 0x28, 0x77, 0x40] ∧
    (DumpState.dumpHeader dumpConf64 dumpStart).out ≠ headerOfFormat dumpConf64 ∧
    (DumpState.dumpHeader dumpConf64 dumpStart).status = 0 := by
  refine ⟨by decide!, by decide!, by decide!, by decide!⟩

/-! ## The end of a compressed block (C39) -/

/-- A sequence ends normally only if both parts do. -/
theorem ZResult.bind_eq_ok {α β : Type} (r : ZResult α) (k : α → ZResult β) (b : β)
    (h : r.bind k = .ok b) : ∃ a, r = .ok a ∧ k a = .ok b := by
  cases r with
  | ok a => exact ⟨a, rfl, h⟩
  | err reason => simp [ZResult.bind] at h
  | undefined => simp [ZResult.bind] at h
  | diverged => simp [ZResult.bind] at h

/-- The loop over the symbols of a compressed block never ends normally: it has
no exit but the errors. -/
theorem zparseHuffmanBlock_never_ok (fuel : Nat) :
    ∀ (a : ZBuffer) (zout : Int) (r : ZBuffer), zparseHuffmanBlock fuel a zout ≠ .ok r := by
  induction fuel with
  | zero =>
    intro a zout r h
    simp [zparseHuffmanBlock] at h
  | succ fuel ih =>
    intro a zout r h
    unfold zparseHuffmanBlock at h
    obtain ⟨e, -, h2⟩ := ZResult.bind_eq_ok _ _ _ h
    exact ih _ _ _ h2

/-- C39, as the code has it.  In a compressed block (type 1 or 2), when the
end-of-block symbol 256 is decoded and no implicit padding bit was consumed,
`a.zout` is set and the loop over the symbols goes on: the next symbol is
decoded from the same block.  The loop has no normal exit, so the processing of
a compressed block never returns, a run of the blocks that starts with a block
of type other than 0 never returns, and
`Zlib::Context::decode_malloc_guesssize_headerflag` returns only for streams
whose first block is a stored block: for no stream that starts with a compressed
block does it return without throwing. -/
theorem huffman_block_never_returns (C : ZContext) (fuel : Nat) :
    (∀ (a : ZBuffer) (zout : Int),
      (a.zhuffman_decode a.z_length).1 = 256 →
      ¬ ((a.zhuffman_decode a.z_length).2.hit_zeof_once ≠ 0 ∧
          (a.zhuffman_decode a.z_length).2.num_bits < 16) →
      zblockTurn a zout = .ok ({ (a.zhuffman_decode a.z_length).2 with zout := zout }, zout) ∧
      zparseHuffmanBlock (fuel + 1) a zout
        = zparseHuffmanBlock fuel { (a.zhuffman_decode a.z_length).2 with zout := zout } zout) ∧
    (∀ (a : ZBuffer) (zout : Int) (r : ZBuffer), zparseHuffmanBlock fuel a zout ≠ .ok r) ∧
    (∀ (bfuel : Nat) (a : ZBuffer) (r : ZBuffer),
      ((a.read_bits_t 1 0).2.read_bits_t 2 0).1 ≠ 0 → zblocks fuel bfuel a ≠ .ok r) ∧
    (∀ (out : List Nat) (out_len : Nat), C.decode fuel = .ok (out, out_len) →
      ∃ a, C.headed = .ok a ∧ ((a.read_bits_t 1 0).2.read_bits_t 2 0).1 = 0) := by
  have hblocks : ∀ (bfuel : Nat) (a : ZBuffer) (r : ZBuffer),
      ((a.read_bits_t 1 0).2.read_bits_t 2 0).1 ≠ 0 → zblocks fuel bfuel a ≠ .ok r := by
    intro bfuel a r ht h
    cases bfuel with
    | zero => simp [zblocks] at h
    | succ bfuel =>
      unfold zblocks at h
      simp only [if_neg ht] at h
      obtain ⟨a1, h1, -⟩ := ZResult.bind_eq_ok _ _ _ h
      split_ifs at h1
      · obtain ⟨a2, -, h3⟩ := ZResult.bind_eq_ok _ _ _ h1
        exact zparseHuffmanBlock_never_ok fuel _ _ _ h3
      · obtain ⟨a2, -, h3⟩ := ZResult.bind_eq_ok _ _ _ h1
        exact zparseHuffmanBlock_never_ok fuel _ _ _ h3
  refine ⟨?_, zparseHuffmanBlock_never_ok fuel, hblocks, ?_⟩
  · intro a zout h256 hpad
    have hturn : zblockTurn a zout
        = .ok ({ (a.zhuffman_decode a.z_length).2 with zout := zout }, zout) := by
      unfold zblockTurn
      simp only [h256]
      rw [if_neg (by decide)]
      simp only [if_true, if_neg hpad]
    refine ⟨hturn, ?_⟩
    conv_lhs => unfold zparseHuffmanBlock
    rw [hturn]
    rfl
  · intro out out_len h
    unfold ZContext.decode at h
    split_ifs at h with hm
    obtain ⟨a, h1, h2⟩ := ZResult.bind_eq_ok _ _ _ h
    obtain ⟨a1, h3, -⟩ := ZResult.bind_eq_ok _ _ _ h2
    refine ⟨a, h1, ?_⟩
    by_contra ht
    exact hblocks fuel a a1 ht h3

/-- Witness for C39: in the state `zbufferAtEnd` the symbol 256 is decoded, no
padding bit has been consumed, and the loop goes on decoding with the state
left by the decoding of 256. -/
theorem huffman_block_never_returns_witness :
    (zbufferAtEnd.zhuffman_decode zbufferAtEnd.z_length).1 = 256 ∧
    (zbufferAtEnd.zhuffman_decode zbufferAtEnd.z_length).2.hit_zeof_once = 0 ∧
    zparseHuffmanBlock (7 + 1) zbufferAtEnd 1
      = zparseHuffmanBlock 7
          { (zbufferAtEnd.zhuffman_decode zbufferAtEnd.z_length).2 with zout := 1 } 1 :=
  ⟨by decide!, by decide!,
   ((huffman_block_never_returns (zcontextOf [] 16 1) 7).1 zbufferAtEnd 1 (by decide!)
     (by decide!)).2⟩

/-- The divergence for C39: the zlib stream of the text `a` with one final
block in the fixed code (`78 9C 4B 04 00 00 62 00 62`) is valid, its block ends
with the symbol 256 with no padding bit consumed, and the decoder, given a first
output buffer of 64 bytes, does not return its one byte: it goes on decoding the
checksum as symbols of the block (a literal and a run of 36 bytes, which fit in
the buffer) and throws "unexpected end".  With a first buffer of 16 bytes the run
does not fit, and the growth of the buffer goes through the pointer `context`,
in which nothing was stored.  The same text in a stored block is returned. -/
theorem huffman_block_never_returns_counterexample :
    (zcontextOf zstreamFixed 64 1).decode 50 = .err "unexpected end" ∧
    (zcontextOf zstreamFixed 16 1).decode 50 = .undefined ∧
    (zcontextOf zstreamStored 16 1).decode 50 = .ok ([97], 1) := by
  refine ⟨by decide!, by decide!, by decide!⟩

/-! ## Blocks handed out by the image decoder (C40) -/

/-- The walk through the list reuses the first freed node whose size is at most
the requested size. -/
theorem reuseFreed_spec (size : Nat) :
    ∀ (l : List Allocation) (p : Nat) (l' : List Allocation),
      reuseFreed size l = some (p, l') →
      ∃ b0, b0 ∈ l ∧ b0.addr = p ∧ b0.freed = true ∧ b0.size ≤ size ∧
        ({ b0 with freed := false } : Allocation) ∈ l' ∧ l'.length = l.length := by
  intro l
  induction l with
  | nil =>
    intro p l' h
    simp [reuseFreed] at h
  | cons node rest ih =>
    intro p l' h
    unfold reuseFreed at h
    by_cases hc : node.freed = true ∧ node.size ≤ size
    · rw [if_pos hc] at h
      injection h with h
      injection h with h1 h2
      subst h1 h2
      exact ⟨node, List.mem_cons_self _ _, rfl, hc.1, hc.2, List.mem_cons_self _ _, rfl⟩
    · rw [if_neg hc] at h
      cases hr : reuseFreed size rest with
      | none => rw [hr] at h; simp at h
      | some r =>
        rw [hr] at h
        simp only [Option.map_some'] at h
        injection h with h
        injection h with h1 h2
        subst h1 h2
        obtain ⟨b0, m1, m2, m3, m4, m5, m6⟩ := ih r.1 r.2 hr
        exact ⟨b0, List.mem_cons_of_mem _ m1, m2, m3, m4, List.mem_cons_of_mem _ m5, by simp [m6]⟩

/-- C40, as the code has it: when `DecodeContext::allocate(size)` returns a
block, the block is in the list and marked not free, and either it is a new
block whose recorded size is `size`, or it is a previously freed block that is
reused, and then its recorded size is at most `size`: a freed block is reused
exactly when its recorded size does not exceed the requested size, so a reused
block is too small whenever the two sizes differ. -/
theorem allocate_block (allocator : Nat → Nat → Option RawBlock) (sizeofAllocation : Nat)
    (s : DecodeContext) (size : Nat) (p : Nat) (s' : DecodeContext)
    (h : DecodeContext.allocate allocator sizeofAllocation s size = (some p, s')) :
    ∃ b, b ∈ s'.blocks ∧ b.addr = p ∧ b.freed = false ∧
      ((reuseFreed size s.blocks = none ∧ b.size = size ∧ s'.blocks = b :: s.blocks) ∨
       (∃ b0, b0 ∈ s.blocks ∧ b0.addr = p ∧ b0.freed = true ∧ b0.size ≤ size ∧
          b.size = b0.size ∧ (b0.size ≠ size → b.size < size))) := by
  unfold DecodeContext.allocate at h
  by_cases hi : s.allocate_index ≥ MAX_ALLOCATIONS
  · rw [if_pos hi] at h
    simp at h
  · rw [if_neg hi] at h
    cases hr : reuseFreed size s.blocks with
    | some r =>
      rw [hr] at h
      simp only at h
      injection h with h1 h2
      injection h1 with h1
      subst h1 h2
      obtain ⟨b0, m1, m2, m3, m4, m5, -⟩ := reuseFreed_spec size s.blocks r.1 r.2 hr
      exact ⟨{ b0 with freed := false }, m5, m2, rfl,
        Or.inr ⟨b0, m1, m2, m3, m4, rfl, fun hne => by
          show b0.size < size
          omega⟩⟩
    | none =>
      rw [hr] at h
      simp only at h
      cases ha : allocator s.allocate_index (size + sizeofAllocation) with
      | none => rw [ha] at h; simp at h
      | some outs =>
        rw [ha] at h
        simp only at h
        injection h with h1 h2
        injection h1 with h1
        subst h1 h2
        exact ⟨_, List.mem_cons_self _ _, rfl, rfl, Or.inl ⟨rfl, rfl, rfl⟩⟩

/-- Witness for C40: the first allocation of a new decoder, for 8 bytes, gives
a new block with recorded size 8, marked not free. -/
theorem allocate_block_witness :
    ∃ b, b ∈ (DecodeContext.allocate allocatorMagic 24 DecodeContext.empty 8).2.blocks ∧
      b.addr = 1000 ∧ b.freed = false := by
  obtain ⟨b, h1, h2, h3, -⟩ := allocate_block allocatorMagic 24 DecodeContext.empty 8 1000
    (DecodeContext.allocate allocatorMagic 24 DecodeContext.empty 8).2 rfl
  exact ⟨b, h1, h2, h3⟩

/-- The divergence for C40: in a new decoder, `allocate(8)` gives the block at
1000; `free` of that block succeeds (the raw memory holds the magic value);
then `allocate(100)` returns the same block, whose recorded size is 8, less than
the 100 bytes requested, and no block of 100 bytes is obtained. -/
theorem allocate_block_counterexample :
    (DecodeContext.allocate allocatorMagic 24 DecodeContext.empty 8).1 = some 1000 ∧
    (DecodeContext.allocate allocatorMagic 24 DecodeContext.empty 8).2.free 1000
      = .ok { allocate_index := 1,
              blocks := [{ addr := 1000, magic := 292202, freed := true, size := 8 }] } ∧
    DecodeContext.allocate allocatorMagic 24
        { allocate_index := 1,
          blocks := [{ addr := 1000, magic := 292202, freed := true, size := 8 }] } 100
      = (some 1000,
         { allocate_index := 1,
           blocks := [{ addr := 1000, magic := 292202, freed := false, size := 8 }] }) ∧
    ¬ ((100 : Nat) ≤ 8) := by
  refine ⟨by decide, rfl, by decide, by decide⟩
